import Mathlib

/-!
# chrome-ec: the STM32F I2C engine (`chip/stm32/i2c-stm32f.c`)

A shallow embedding of the dual-role I2C driver.  The C code talks to memory
mapped registers, DMA helpers, GPIO pins, the system clock and a host command
collaborator.  All of these are external to the file, so the embedding is a
state-passing program over

* `St`     : the file-scope statics of the driver plus the log of every
             interaction with the outside world (`trace`) and the clock;
* `Env`    : an oracle giving the value the outside world returns for every
             input (a volatile register read, a pin level, a wake-up mask ...),
             as a function of the interaction history so far;
* `M α`    : `St → Option (α × St)`; `none` is a failed `ASSERT`, an access
             outside an array, or an exhausted loop budget (`fuel`).

Console output (`CPRINTF`, `ccprintf`, `dump_i2c_reg`) has no effect on the
driver and is left out.

The same state and oracle carry the part of the charging task
(`common/pmu_tps65090_charger.c`) that is embedded: the moving average of the
state of charge and the state machine `calc_next_state`, whose calls into other
modules are inputs of the outside world.
-/

namespace ChromeEC

/-! ## Constants of headers that are not part of the sources at hand -/

/-- Constants the driver takes from headers outside the translated sources
(`ec_commands.h`, `common.h`, `task.h`, `gpio.h`, `board.h`, `dma.h`,
`clock.h`, `i2c.h`).  They are parameters of the embedding. -/
structure Consts where
  EC_CMD_VERSION0 : Nat
  EC_PROTO2_MAX_PARAM_SIZE : Nat
  EC_PROTO2_MAX_REQUEST_SIZE : Nat
  EC_RES_SUCCESS : Nat
  EC_RES_INVALID_CHECKSUM : Nat
  EC_SUCCESS : Nat
  EC_ERROR_TIMEOUT : Nat
  EC_ERROR_INVAL : Nat
  EC_ERROR_BUSY : Nat
  TASK_EVENT_WAKE : Nat
  DMA_TRANSFER_TIMEOUT_US : Nat
  GPIO_ODR_HIGH : Nat
  CPU_CLOCK : Nat
  I2C_PORT_HOST : Nat
  I2C_PORT_SLAVE : Nat
  I2C_XFER_SINGLE : Nat

/-- What the driver itself relies on about the error codes: success is zero
(`if (rv)` tests for failure), the codes used are distinct and non-zero, and
the time-out code fits the low byte (`(rv & 0xff) == EC_ERROR_TIMEOUT`). -/
def Consts.ErrorCodesOk (K : Consts) : Prop :=
  K.EC_SUCCESS = 0 ∧ 0 < K.EC_ERROR_TIMEOUT ∧ K.EC_ERROR_TIMEOUT < 256 ∧
  0 < K.EC_ERROR_INVAL ∧ K.EC_ERROR_INVAL < 256 ∧
  0 < K.EC_ERROR_BUSY ∧ K.EC_ERROR_BUSY < 256 ∧
  K.EC_ERROR_TIMEOUT ≠ K.EC_ERROR_INVAL ∧ K.EC_ERROR_TIMEOUT ≠ K.EC_ERROR_BUSY ∧
  K.EC_ERROR_INVAL ≠ K.EC_ERROR_BUSY

instance (K : Consts) : Decidable K.ErrorCodesOk := by
  unfold Consts.ErrorCodesOk; infer_instance

/-- Modelled from the spec: `timer.h` is not among the sources; the clock
counts microseconds (the waits are given in µs and ms), so `MSEC` is 1000. -/
def MSEC : Nat := 1000

/-- Modelled from the spec: `timer.h` is not among the sources; the clock
counts microseconds, so `SECOND` is 1000000. -/
def SECOND : Nat := 1000000

def SMBUS_MAX_BLOCK : Nat := 32
def I2C_ADDRESS : Nat := 0x3c
def I2C_FREQ : Nat := 100000
def I2C_PERIOD_US : Nat := SECOND / I2C_FREQ
def I2C_CCR (K : Consts) : Nat := K.CPU_CLOCK / (2 * I2C_FREQ)
def I2C_TX_TIMEOUT_SLAVE : Nat := 100 * MSEC
def I2C_TX_TIMEOUT_MASTER : Nat := 10 * MSEC
def I2C_BITBANG_DELAY_US : Nat := 5

/-- `STM32_I2C1_PORT`: index 0 of `i2c_clock_bit`, `dma_tx_option`. -/
def I2C1 : Nat := 0
/-- `STM32_I2C2_PORT`: index 1 of `i2c_clock_bit`, `dma_tx_option`. -/
def I2C2 : Nat := 1

def SLOW_STOP_SENT_US : Nat := I2C_PERIOD_US * 8
def TIMEOUT_STOP_SENT_US : Nat := I2C_PERIOD_US * 200
def STOP_SENT_RETRY_US : Nat := 150

def SR1_SB : Nat := 1 <<< 0
def SR1_ADDR : Nat := 1 <<< 1
def SR1_BTF : Nat := 1 <<< 2
def SR1_RxNE : Nat := 1 <<< 6
def SR1_TxE : Nat := 1 <<< 7
def CR2_DMAEN : Nat := 1 <<< 11
def CR2_LAST : Nat := 1 <<< 12

/-- The codes of `enum wait_t`, in declaration order. -/
def WAIT_NONE : Nat := 0
def WAIT_MASTER_START : Nat := 1
def WAIT_ADDR_READY : Nat := 2
def WAIT_XMIT_TXE : Nat := 3
def WAIT_XMIT_FINAL_TXE : Nat := 4
def WAIT_XMIT_BTF : Nat := 5
def WAIT_XMIT_STOP : Nat := 6
def WAIT_RX_NE : Nat := 7
def WAIT_RX_NE_FINAL : Nat := 8
def WAIT_RX_NE_STOP : Nat := 9
def WAIT_RX_NE_STOP_SIZE2 : Nat := 10

/-! ## The outside world -/

/-- Memory mapped registers the driver touches; the I2C ones are per port. -/
inductive Reg where
  | CR1 (port : Nat)
  | CR2 (port : Nat)
  | SR1 (port : Nat)
  | SR2 (port : Nat)
  | DR (port : Nat)
  | OAR1 (port : Nat)
  | CCR (port : Nat)
  | RCC_APB1ENR
  deriving DecidableEq

/-- The four bus pins (`enum gpio_signal`). -/
inductive Gpio where
  | I2C1_SDA
  | I2C1_SCL
  | I2C2_SDA
  | I2C2_SCL
  deriving DecidableEq

/-- The DMA channels of `dma.h` used by the driver. -/
inductive DmaChan where
  | I2C1_TX
  | I2C1_RX
  | I2C2_TX
  | I2C2_RX
  deriving DecidableEq

/-- A `uint8_t *`: into `host_buffer`, or into some other object (given by the
bytes of that object), at an offset. -/
inductive Ptr where
  | host (off : Nat)
  | other (mem : List Nat) (off : Nat)
  deriving DecidableEq

/-- The value of the `send_response` function pointer. -/
inductive SendResponseFn where
  | unset
  | i2c_send_response
  deriving DecidableEq

/-- The fields of `struct host_cmd_handler_args` the driver uses. -/
structure host_cmd_handler_args where
  send_response : SendResponseFn := .unset
  command : Nat := 0
  version : Nat := 0
  params : Ptr := .host 0
  params_size : Nat := 0
  response : Ptr := .host 0
  response_max : Nat := 0
  response_size : Nat := 0
  result : Nat := 0
  deriving DecidableEq

/-- The functions of other modules that the charging task calls
(`extpower.h`, `chipset.h`, `pmu_tpschrome.h`, `smart_battery.h`); the names
ending in `_value` stand for what a callee stores through its pointer
argument. -/
inductive Callee where
  | extpower_is_present
  | chipset_in_state
  | chipset_force_shutdown
  | pmu_is_charger_alarm
  | pmu_low_current_charging
  | battery_temperature
  | battery_temperature_value
  | battery_status
  | battery_status_value
  | battery_state_of_charge
  | battery_state_of_charge_value
  deriving DecidableEq

/-- Every interaction of the driver with the outside world, in program
order.  Reads carry the value that was returned. -/
inductive Event where
  | reg_read (r : Reg) (v : Nat)
  | reg_write (r : Reg) (v : Nat)
  | gpio_set_flags (sig : Gpio) (flags : Nat)
  | gpio_set_level (sig : Gpio) (v : Nat)
  | gpio_get_level (sig : Gpio) (v : Nat)
  | udelay (us : Nat)
  | usleep (us : Nat)
  | get_time (t : Nat)
  | uninit_read (v : Nat)
  | dma_get_channel (c : DmaChan)
  | dma_prepare_tx (port : Nat) (len : Int) (buf : Option (List Nat))
  | dma_start_rx (port : Nat) (len : Int) (toHost : Bool)
  | dma_rx_data (bytes : List Nat)
  | dma_go (c : DmaChan)
  | dma_wait (c : DmaChan)
  | dma_clear_isr (c : DmaChan)
  | dma_enable_tc_interrupt (c : DmaChan)
  | dma_disable_tc_interrupt (c : DmaChan)
  | dma_disable (c : DmaChan)
  | in_interrupt_context (v : Nat)
  | task_wait_event (timeout : Nat) (v : Nat)
  | i2c_claim (port : Nat) (rv : Nat)
  | i2c_release (port : Nat)
  | i2c_lock (port : Nat) (lock : Nat)
  | board_i2c_post_init (port : Nat)
  | host_command_received (args : host_cmd_handler_args)
  | call (f : Callee) (arg : Int) (ret : Nat)
  deriving DecidableEq

/-- The inputs the outside world supplies. -/
inductive Input where
  | reg (r : Reg)
  | gpio (sig : Gpio)
  | tick
  | oversleep
  | uninit
  | in_interrupt_context
  | task_wait_event
  | dma_byte (i : Nat)
  | uninit_byte (i : Nat)
  | call (f : Callee) (arg : Int)
  deriving DecidableEq

/-- The outside world: the value of every input, given the history. -/
abbrev Env := List Event → Input → Nat

/-- The statics of `i2c-stm32f.c`, the claim token of `i2c_arbitration.h`, the
clock, and the interaction log; then the statics of `pmu_tps65090_charger.c`:
the window `rsoc[4]` (of `uint8_t`) and `index` of `rsoc_moving_average`, and
`last_notify_time` of `notify_battery_low`. -/
structure St where
  trace : List Event := []
  now : Nat := 0
  claimed : Nat → Bool := fun _ => false
  i2c_sr1 : Nat → Nat := fun _ => 0
  host_buffer : List Nat := []
  host_cmd_args : host_cmd_handler_args := {}
  i2c_old_response : Nat := 0
  rx_pending : Nat := 0
  rsoc : List Int := [0, 0, 0, 0]
  index : Int := -1
  last_notify_time : Nat := 0

/-- Programs of the driver: state passing, with `none` for an abort. -/
def M (α : Type) : Type := St → Option (α × St)

/-- Run a program from a state. -/
def M.run {α : Type} (m : M α) (s : St) : Option (α × St) := m s

/-- Sequencing of programs. -/
@[noinline] def M.bind {α β : Type} (m : M α) (k : α → M β) : M β :=
  fun s => (m s).bind fun p => k p.1 p.2

/-- The program that returns a value and leaves the state alone. -/
@[noinline] def M.pure {α : Type} (a : α) : M α := fun s => some (a, s)

instance : Monad M where
  pure := M.pure
  bind := M.bind

/-- The whole driver state (`get`). -/
def getSt : M St := fun s => some (s, s)

/-- An update of the driver state (`modify`). -/
def modifySt (f : St → St) : M Unit := fun s => some ((), f s)

/-- The collaborator `host_command_received` of `host_command.h`: any program
over the driver state. -/
abbrev HostCommand := M Unit

/-! ## Primitive operations -/

/-- Append one interaction to the log. -/
def emit (e : Event) : M Unit :=
  fun s => some ((), { s with trace := s.trace ++ [e] })

/-- Abort: a failed `ASSERT`, an access outside an array, no loop budget. -/
def abort {α : Type} : M α := fun _ => none

/-- `ASSERT(c)`. -/
def ASSERT (c : Prop) [Decidable c] : M Unit :=
  fun s => if c then some ((), s) else none

/-- Width of a register in bits: the I2C registers are `REG16`, the RCC
enable register is `REG32`. -/
def Reg.modulus : Reg → Nat
  | .RCC_APB1ENR => 2 ^ 32
  | _ => 2 ^ 16

/-- A volatile read of a register. -/
def reg_read (env : Env) (r : Reg) : M Nat :=
  fun s =>
    let v := env s.trace (.reg r) % r.modulus
    some (v, { s with trace := s.trace ++ [.reg_read r v] })

/-- A write of a register (truncated to its width). -/
def reg_write (r : Reg) (v : Nat) : M Unit := emit (.reg_write r (v % r.modulus))

/-- The C expression `v & ~m` on a register value `v`. -/
def andNot (v m : Nat) : Nat := v - (v &&& m)

/-- `get_time().val`: the clock after the time elapsed since it was last
looked at. -/
def get_time (env : Env) : M Nat :=
  fun s =>
    let t := s.now + env s.trace .tick
    some (t, { s with now := t, trace := s.trace ++ [.get_time t] })

/-- `usleep(us)`: at least `us` microseconds pass. -/
def usleep (env : Env) (us : Nat) : M Unit :=
  fun s =>
    some ((), { s with now := s.now + us + env s.trace .oversleep,
                       trace := s.trace ++ [.usleep us] })

/-- `udelay(us)`: at least `us` microseconds pass. -/
def udelay (env : Env) (us : Nat) : M Unit :=
  fun s =>
    some ((), { s with now := s.now + us + env s.trace .oversleep,
                       trace := s.trace ++ [.udelay us] })

def gpio_set_flags (sig : Gpio) (flags : Nat) : M Unit := emit (.gpio_set_flags sig flags)

def gpio_set_level (sig : Gpio) (v : Nat) : M Unit := emit (.gpio_set_level sig v)

def gpio_get_level (env : Env) (sig : Gpio) : M Nat :=
  fun s =>
    let v := env s.trace (.gpio sig)
    some (v, { s with trace := s.trace ++ [.gpio_get_level sig v] })

def in_interrupt_context (env : Env) : M Nat :=
  fun s =>
    let v := env s.trace .in_interrupt_context
    some (v, { s with trace := s.trace ++ [.in_interrupt_context v] })

def task_wait_event (env : Env) (timeout : Nat) : M Nat :=
  fun s =>
    let v := env s.trace .task_wait_event
    some (v, { s with trace := s.trace ++ [.task_wait_event timeout v] })

/-- Modelled from the spec: `i2c_claim` of `i2c_arbitration.h` is not among the
sources.  The claim token is a boolean per port; claiming is non-blocking and
fails with "busy" when the token is already held. -/
def i2c_claim (K : Consts) (port : Nat) : M Nat :=
  fun s =>
    if s.claimed port then
      some (K.EC_ERROR_BUSY, { s with trace := s.trace ++ [.i2c_claim port K.EC_ERROR_BUSY] })
    else
      some (K.EC_SUCCESS,
        { s with claimed := fun p => if p = port then true else s.claimed p,
                 trace := s.trace ++ [.i2c_claim port K.EC_SUCCESS] })

/-- Modelled from the spec: `i2c_release` of `i2c_arbitration.h` is not among
the sources.  Releasing frees the token; a double release is a no-op. -/
def i2c_release (port : Nat) : M Unit :=
  fun s =>
    some ((), { s with claimed := fun p => if p = port then false else s.claimed p,
                       trace := s.trace ++ [.i2c_release port] })

def DMAC_SLAVE_TX (K : Consts) : DmaChan :=
  if K.I2C_PORT_SLAVE ≠ 0 then .I2C2_TX else .I2C1_TX

def DMAC_SLAVE_RX (K : Consts) : DmaChan :=
  if K.I2C_PORT_SLAVE ≠ 0 then .I2C2_RX else .I2C1_RX

def DMAC_HOST_TX (K : Consts) : DmaChan :=
  if K.I2C_PORT_HOST ≠ 0 then .I2C2_TX else .I2C1_TX

def DMAC_HOST_RX (K : Consts) : DmaChan :=
  if K.I2C_PORT_HOST ≠ 0 then .I2C2_RX else .I2C1_RX

/-! ## Small register helpers -/

def disable_i2c_interrupt (env : Env) (port : Nat) : M Unit := do
  let v ← reg_read env (.CR2 port)
  reg_write (.CR2 port) (andNot v (3 <<< 8))

def enable_i2c_interrupt (env : Env) (port : Nat) : M Unit := do
  let v ← reg_read env (.CR2 port)
  reg_write (.CR2 port) (v ||| (3 <<< 8))

def enable_ack (env : Env) (port : Nat) : M Unit := do
  let v ← reg_read env (.CR1 port)
  reg_write (.CR1 port) (v ||| (1 <<< 10))

def disable_ack (env : Env) (port : Nat) : M Unit := do
  let v ← reg_read env (.CR1 port)
  reg_write (.CR1 port) (andNot v (1 <<< 10))

/-! ## Bus recovery -/

/-- The body `gpio_set_level(sig, 0); udelay; gpio_set_level(sig, 1); udelay`
that `unwedge_i2c_bus` repeats for a pseudo-stop (on SDA) and for a clock
pulse (on SCL). -/
def bitbang_low_high (env : Env) (sig : Gpio) : M Unit := do
  gpio_set_level sig 0
  udelay env I2C_BITBANG_DELAY_US
  gpio_set_level sig 1
  udelay env I2C_BITBANG_DELAY_US

/-- The condition `gpio_get_level(scl) && gpio_get_level(sda)`; SDA is read
only when SCL was high. -/
def both_lines_high (env : Env) (scl sda : Gpio) : M Bool := do
  let c ← gpio_get_level env scl
  if c ≠ 0 then
    let d ← gpio_get_level env sda
    return decide (d ≠ 0)
  else
    return false

/-- The loop `for (i = 0; i < 9; i++)` of clock pulses, by the number of
iterations left. -/
def clock_pulses (env : Env) (scl : Gpio) : Nat → M Unit
  | 0 => pure ()
  | n + 1 => do
    bitbang_low_high env scl
    clock_pulses env scl n

def unwedge_i2c_bus (K : Consts) (env : Env) (port : Nat) : M Unit := do
  ASSERT (port = I2C1 ∨ port = I2C2)
  let sda := if port = I2C1 then Gpio.I2C1_SDA else Gpio.I2C2_SDA
  let scl := if port = I2C1 then Gpio.I2C1_SCL else Gpio.I2C2_SCL
  gpio_set_flags scl K.GPIO_ODR_HIGH
  gpio_set_flags sda K.GPIO_ODR_HIGH
  let high ← both_lines_high env scl sda
  (if high then
      bitbang_low_high env sda
    else do
      bitbang_low_high env scl
      let high2 ← both_lines_high env scl sda
      (if high2 then bitbang_low_high env sda else pure ()))
  clock_pulses env scl 9
  let high3 ← both_lines_high env scl sda
  (if high3 then bitbang_low_high env sda else pure ())
  gpio_set_level scl 1
  gpio_set_level sda 1

/-- The table `i2c_clock_bit[] = {21, 22}`. -/
def i2c_clock_bit (port : Nat) : Nat := if port = 0 then 21 else 22

def i2c_init_port (K : Consts) (env : Env) (port : Nat) : M Unit := do
  ASSERT (port = I2C1 ∨ port = I2C2)
  ASSERT (port < 2)
  let en ← reg_read env .RCC_APB1ENR
  (if en &&& (1 <<< i2c_clock_bit port) = 0 then do
      let c ← i2c_claim K port
      (if c = K.EC_SUCCESS then do
          unwedge_i2c_bus K env port
          i2c_release port
        else pure ())
      let en2 ← reg_read env .RCC_APB1ENR
      reg_write .RCC_APB1ENR (en2 ||| (1 <<< i2c_clock_bit port))
    else pure ())
  reg_write (.CR1 port) 0x8000
  reg_write (.CR1 port) 0x0000
  reg_write (.CCR port) (I2C_CCR K)
  (if port = I2C2 then reg_write (.OAR1 port) I2C_ADDRESS else pure ())
  reg_write (.CR1 port) ((1 <<< 10) ||| (1 <<< 0))
  reg_write (.CR2 port) ((1 <<< 9) ||| (1 <<< 8) ||| 0x10)
  reg_write (.SR1 port) 0
  emit (.board_i2c_post_init port)

/-! ## Slave side: the host command protocol -/

/-- The bytes of the object a pointer points into, from the pointer on. -/
def Ptr.mem (s : St) : Ptr → List Nat
  | .host off => s.host_buffer.drop off
  | .other m off => m.drop off

/-- The pointer `p + 1`. -/
def Ptr.next : Ptr → Ptr
  | .host off => .host (off + 1)
  | .other m off => .other m (off + 1)

/-- The load `*p`; outside the object it aborts. -/
def load (p : Ptr) : M Nat :=
  fun s =>
    match p with
    | .host off => (s.host_buffer[off]?).map fun b => (b, s)
    | .other m off => (m[off]?).map fun b => (b, s)

/-- The store `host_buffer[off] = (uint8_t)v`; outside the array it aborts. -/
def store_host (off v : Nat) : M Unit :=
  fun s =>
    if off < s.host_buffer.length then
      some ((), { s with host_buffer := s.host_buffer.set off (v % 256) })
    else none

/-- An assignment to fields of the static `host_cmd_args`. -/
def set_args (f : host_cmd_handler_args → host_cmd_handler_args) : M Unit :=
  fun s => some ((), { s with host_cmd_args := f s.host_cmd_args })

def i2c_write_raw_slave (K : Consts) (env : Env) (port : Nat) (buf : Ptr) (len : Nat) :
    M Nat := do
  disable_i2c_interrupt env port
  enable_ack env port
  let chan := DMAC_SLAVE_TX K
  emit (.dma_get_channel chan)
  emit (.dma_prepare_tx port len (some (buf.mem (← getSt))))
  emit (.dma_go chan)
  let v ← reg_read env (.CR2 port)
  reg_write (.CR2 port) (v ||| (1 <<< 11))
  if (← in_interrupt_context env) ≠ 0 then
    emit (.dma_wait (DMAC_SLAVE_TX K))
    emit (.dma_clear_isr (DMAC_SLAVE_TX K))
  else
    emit (.dma_enable_tc_interrupt (DMAC_SLAVE_TX K))
    let rv ← task_wait_event env K.DMA_TRANSFER_TIMEOUT_US
    emit (.dma_disable_tc_interrupt (DMAC_SLAVE_TX K))
    if rv &&& K.TASK_EVENT_WAKE = 0 then
      i2c_init_port K env port
  emit (.dma_disable (DMAC_SLAVE_TX K))
  let v2 ← reg_read env (.CR2 port)
  reg_write (.CR2 port) (andNot v2 (1 <<< 11))
  enable_i2c_interrupt env port
  return len

/-- The loop `for (i = 0; i < size; i++, data++, out++)` of
`i2c_send_response`, by the number of iterations left; `out` is the offset of
the output pointer in `host_buffer`.  Returns the final `out` and `sum`. -/
def i2c_send_response_loop : Nat → Ptr → Nat → Nat → M (Nat × Nat)
  | 0, _, out, sum => pure (out, sum)
  | n + 1, data, out, sum => do
    if data ≠ .host out then
      store_host out (← load data)
    let b ← load data
    i2c_send_response_loop n data.next (out + 1) (sum + b)

/-- The part of `i2c_send_response` that stages the response in
`host_buffer`; returns `out - host_buffer`. -/
def i2c_send_response_stage (args : host_cmd_handler_args) : M Nat := do
  let data := args.response
  let size := args.response_size
  store_host 0 args.result
  let hdr ← (if (← getSt).i2c_old_response = 0 then do
      store_host 1 size
      pure (2, args.result + size)
    else pure (1, 0) : M (Nat × Nat))
  let (out, sum) ← i2c_send_response_loop size data hdr.1 hdr.2
  store_host out (sum &&& 0xff)
  return out + 1

def i2c_send_response (K : Consts) (env : Env) (args : host_cmd_handler_args) : M Unit := do
  let len ← i2c_send_response_stage args
  let _ ← i2c_write_raw_slave K env I2C2 (.host 0) len

/-- The loop `for (csum = i = 0; i < args->params_size + 3; i++)` of
`i2c_process_command`, by the number of iterations left.  Returns the final
`i` and `csum`. -/
def checksum_loop : Nat → Nat → Nat → M (Nat × Nat)
  | 0, i, csum => pure (i, csum)
  | n + 1, i, csum => do
    let b ← load (.host i)
    checksum_loop n (i + 1) (csum + b)

/-- Everything `i2c_process_command` does before it calls
`host_command_received(args)`; `char` is unsigned. -/
def i2c_process_command_decode (K : Consts) : M Unit := do
  let b0 ← load (.host 0)
  set_args fun a => { a with command := b0 }
  set_args fun a => { a with result := K.EC_RES_SUCCESS }
  let buff ← (if b0 ≥ K.EC_CMD_VERSION0 then do
      set_args fun a => { a with version := a.command - K.EC_CMD_VERSION0 }
      let b1 ← load (.host 1)
      set_args fun a => { a with command := b1 }
      let b2 ← load (.host 2)
      set_args fun a => { a with params_size := b2 }
      let (i, csum) ← checksum_loop (b2 + 3) 0 0
      let bi ← load (.host i)
      if csum % 256 ≠ bi then
        set_args fun a => { a with result := K.EC_RES_INVALID_CHECKSUM }
      modifySt fun s => { s with i2c_old_response := 0 }
      pure 3
    else do
      set_args fun a => { a with version := 0 }
      set_args fun a => { a with params_size := K.EC_PROTO2_MAX_PARAM_SIZE }
      modifySt fun s => { s with i2c_old_response := 1 }
      pure 1 : M Nat)
  set_args fun a => { a with send_response := .i2c_send_response }
  set_args fun a => { a with params := .host buff }
  set_args fun a => { a with response := .host 2 }
  set_args fun a => { a with response_max := K.EC_PROTO2_MAX_PARAM_SIZE }
  set_args fun a => { a with response_size := 0 }

/-- The function `i2c_process_command`: decode, then hand the static
`host_cmd_args` to the collaborator. -/
def i2c_process_command (K : Consts) (host_command_received : HostCommand) : M Unit := do
  i2c_process_command_decode K
  emit (.host_command_received (← getSt).host_cmd_args)
  host_command_received

/-- The first statements of `i2c_event_handler`: save and clear the status,
and test for master mode.  Returns whether the port is in master mode, in
which case the handler returns at once. -/
def i2c_event_handler_status (env : Env) (port : Nat) : M Bool := do
  let sr1 ← reg_read env (.SR1 port)
  modifySt fun s => { s with i2c_sr1 := fun p => if p = port then sr1 else s.i2c_sr1 p }
  reg_write (.SR1 port) 0
  let sr2 ← reg_read env (.SR2 port)
  return decide (sr2 &&& (1 <<< 0) ≠ 0)

/-- The statement `if (i2c_sr1[port] & (1 << 1)) ... else if (i2c_sr1[port] &
(1 << 4)) ...` of `i2c_event_handler`: the address match and the stop
detection.  `sizeof(host_buffer)` is `EC_PROTO2_MAX_REQUEST_SIZE`. -/
def i2c_event_handler_address_stop (K : Consts) (env : Env) (port : Nat) : M Unit := do
  if (← getSt).i2c_sr1 port &&& (1 <<< 1) ≠ 0 then do
    let d ← reg_read env (.SR2 port)
    (if d &&& (1 <<< 2) = 0 then do
        emit (.dma_start_rx port K.EC_PROTO2_MAX_REQUEST_SIZE true)
        let v ← reg_read env (.CR2 port)
        reg_write (.CR2 port) (v ||| (1 <<< 11))
        modifySt fun s => { s with rx_pending := 1 }
      else pure ())
    let _ ← reg_read env (.SR1 port)
    let _ ← reg_read env (.SR2 port)
    pure ()
  else if (← getSt).i2c_sr1 port &&& (1 <<< 4) ≠ 0 then do
    let d ← reg_read env (.SR2 port)
    (if d &&& (1 <<< 2) = 0 then do
        emit (.dma_disable (DMAC_SLAVE_RX K))
        emit (.dma_clear_isr (DMAC_SLAVE_RX K))
        let v ← reg_read env (.CR2 port)
        reg_write (.CR2 port) (andNot v (1 <<< 11))
      else pure ())
    let _ ← reg_read env (.SR1 port)
    let c ← reg_read env (.CR1 port)
    reg_write (.CR1 port) c
  else pure ()

/-- The statement `if (i2c_sr1[port] & (1 << 7)) ...` of `i2c_event_handler`:
the TxE event. -/
def i2c_event_handler_txe (K : Consts) (host_command_received : HostCommand) (port : Nat) :
    M Unit := do
  if (← getSt).i2c_sr1 port &&& (1 <<< 7) ≠ 0 then
    if port = I2C2 then
      if (← getSt).rx_pending ≠ 0 then do
        i2c_process_command K host_command_received
        modifySt fun s => { s with rx_pending := 0 }
      else
        reg_write (.DR port) 0xec
    else pure ()
  else pure ()

/-- The function `i2c_event_handler`. -/
def i2c_event_handler (K : Consts) (env : Env) (host_command_received : HostCommand)
    (port : Nat) : M Unit := do
  if (← i2c_event_handler_status env port) then
    return ()
  else do
    i2c_event_handler_address_stop K env port
    i2c_event_handler_txe K host_command_received port

/-- The argument block `i2c_process_command` hands over for a versioned packet
with bytes `b0`, `b1`, `n` in front and a checksum that is right (`ok`) or
wrong. -/
def versioned_args (K : Consts) (b0 b1 n : Nat) (ok : Bool) : host_cmd_handler_args :=
  { send_response := .i2c_send_response
    command := b1
    version := b0 - K.EC_CMD_VERSION0
    params := .host 3
    params_size := n
    response := .host 2
    response_max := K.EC_PROTO2_MAX_PARAM_SIZE
    response_size := 0
    result := if ok then K.EC_RES_SUCCESS else K.EC_RES_INVALID_CHECKSUM }

/-- The versioned response layout in the words of the spec:
`[result][resp_len][resp_0..resp_len-1][checksum]` with
`checksum = (result + resp_len + Σresp) mod 256`. -/
def spec_encode_response (r : Nat) (d : List Nat) : List Nat :=
  r :: d.length :: (d ++ [(r + d.length + d.sum) % 256])

/-- Reading a versioned response back in the words of the spec: byte 0 is the
result, byte 1 the length, then the payload, then a checksum byte that must
equal the sum of all preceding bytes modulo 256. -/
def spec_decode_response : List Nat → Option (Nat × List Nat)
  | r :: n :: rest =>
    if rest.length = n + 1 ∧ rest[n]? = some ((r + n + (rest.take n).sum) % 256) then
      some (r, rest.take n)
    else none
  | _ => none

/-- The legacy response as the driver stages it: the result, the payload, and
one trailing byte holding the sum of the payload bytes modulo 256. -/
def legacy_response (r : Nat) (d : List Nat) : List Nat :=
  r :: (d ++ [d.sum % 256])



/-- The outside world that answers every input with 1. -/
def allOnes : Env := fun _ _ => 1

/-- A legacy response to stage: result 3 and the two payload bytes found at
`host_buffer + 2`. -/
def exampleLegacyArgs : host_cmd_handler_args :=
  { response := .host 2, response_size := 2, result := 3 }

/-- The driver state after a legacy request was dispatched and the handler
wrote the payload `[1, 5]` at `host_buffer + 2`. -/
def exampleLegacyState : St :=
  { host_buffer := [0x11, 0, 1, 5, 0x89, 0, 0, 0], i2c_old_response := 1 }

/-! ## Master side -/

/-- The loop of `wait_status`, by the number of loop tests left; `r` is the
last value read from SR1 and `t1` the time at entry. -/
def wait_status_loop (K : Consts) (env : Env) (port mask wait t1 : Nat) : Nat → Nat → M Nat
  | 0, _ => abort
  | fuel + 1, r =>
    if (if mask ≠ 0 then (r &&& mask) ≠ mask else r ≠ 0) then do
      let t2 ← get_time env
      if t2 - t1 > I2C_TX_TIMEOUT_MASTER then
        return K.EC_ERROR_TIMEOUT ||| (wait <<< 8)
      else do
        (if t2 - t1 > 150 then usleep env 100 else pure ())
        let r2 ← reg_read env (.SR1 port)
        wait_status_loop K env port mask wait t1 fuel r2
    else
      return K.EC_SUCCESS

def wait_status (K : Consts) (env : Env) (fuel : Nat) (port mask wait : Nat) : M Nat := do
  let t1 ← get_time env
  let r ← reg_read env (.SR1 port)
  wait_status_loop K env port mask wait t1 fuel r

def read_clear_status (env : Env) (port : Nat) : M Nat := do
  let sr1 ← reg_read env (.SR1 port)
  let sr2 ← reg_read env (.SR2 port)
  return (sr2 <<< 16) ||| (sr1 &&& 0xffff)

def master_start (K : Consts) (env : Env) (fuel : Nat) (port slave_addr : Nat) : M Nat := do
  let v ← reg_read env (.CR1 port)
  reg_write (.CR1 port) (andNot v (1 <<< 9) ||| (1 <<< 8))
  let rv ← wait_status K env fuel port SR1_SB WAIT_MASTER_START
  if rv ≠ 0 then
    return rv
  else do
    reg_write (.DR port) slave_addr
    let rv2 ← wait_status K env fuel port SR1_ADDR WAIT_ADDR_READY
    if rv2 ≠ 0 then
      return rv2
    else do
      let _ ← read_clear_status env port
      return K.EC_SUCCESS

def master_stop (env : Env) (port : Nat) : M Unit := do
  let v ← reg_read env (.CR1 port)
  reg_write (.CR1 port) (v ||| (1 <<< 9))

/-- Modelled from the spec: `timestamp_expired(deadline, NULL)` of `timer.h`
is not among the sources; it reads the clock and tells whether the deadline
has been reached. -/
def timestamp_expired (env : Env) (deadline : Nat) : M Bool := do
  let t ← get_time env
  return decide (deadline ≤ t)

/-- The value of a `uint8_t` local that is read without having been
initialised: whatever the outside world left there. -/
def uninit_u8 (env : Env) : M Nat :=
  fun s =>
    let v := env s.trace .uninit % 256
    some (v, { s with trace := s.trace ++ [.uninit_read v] })

/-- The loop of `wait_until_stop_sent`, by the number of loop tests left.  When
the deadline has passed, CR1 is read once more for the message that is
printed. -/
def wait_until_stop_sent_loop (K : Consts) (env : Env) (port deadline slow_cutoff : Nat) :
    Nat → Nat → M Nat
  | 0, _ => abort
  | fuel + 1, is_slow => do
    let cr1 ← reg_read env (.CR1 port)
    if cr1 &&& (1 <<< 9) ≠ 0 then
      if (← timestamp_expired env deadline) then do
        let _ ← reg_read env (.CR1 port)
        return K.EC_ERROR_TIMEOUT
      else if is_slow ≠ 0 then do
        usleep env STOP_SENT_RETRY_US
        wait_until_stop_sent_loop K env port deadline slow_cutoff fuel is_slow
      else if (← timestamp_expired env slow_cutoff) then
        wait_until_stop_sent_loop K env port deadline slow_cutoff fuel 1
      else
        wait_until_stop_sent_loop K env port deadline slow_cutoff fuel is_slow
    else
      return K.EC_SUCCESS

/-- The function `wait_until_stop_sent`; its local `is_slow` is declared
without an initialiser, so the value it holds at entry is taken from the
outside world. -/
def wait_until_stop_sent (K : Consts) (env : Env) (fuel : Nat) (port : Nat) : M Nat := do
  let t ← get_time env
  let deadline := t + TIMEOUT_STOP_SENT_US
  let slow_cutoff := t + SLOW_STOP_SENT_US
  let is_slow ← uninit_u8 env
  wait_until_stop_sent_loop K env port deadline slow_cutoff fuel is_slow

/-- The loop `while (r & 2)` of `handle_i2c_error`, by the number of loop
tests left; leaving it either way leads to `cr_cleanup`. -/
def handle_i2c_error_loop (K : Consts) (env : Env) (port t1 : Nat) : Nat → Nat → M Unit
  | 0, _ => abort
  | fuel + 1, r =>
    if r &&& 2 ≠ 0 then do
      let t2 ← get_time env
      if t2 - t1 > I2C_TX_TIMEOUT_MASTER then
        i2c_init_port K env port
      else do
        master_stop env port
        usleep env 1000
        let r2 ← reg_read env (.SR2 port)
        handle_i2c_error_loop K env port t1 fuel r2
    else
      pure ()

/-- The function `handle_i2c_error`.  `CONFIG_I2C_DEBUG` is not defined, so
`dump_i2c_reg` is empty and touches no register. -/
def handle_i2c_error (K : Consts) (env : Env) (fuel : Nat) (port rv : Nat) : M Unit :=
  if rv = K.EC_ERROR_BUSY then
    pure ()
  else do
    let rv := if rv &&& 0xff = K.EC_ERROR_TIMEOUT then K.EC_ERROR_TIMEOUT else rv
    reg_write (.SR1 port) 0
    let _ ← reg_read env (.SR1 port)
    let r ← reg_read env (.SR2 port)
    let t1 ← get_time env
    let start_pending ← (if rv = K.EC_ERROR_TIMEOUT then do
        let cr1 ← reg_read env (.CR1 port)
        pure (decide (cr1 &&& (1 <<< 8) ≠ 0))
      else pure false : M Bool)
    (if start_pending then
        i2c_init_port K env port
      else do
        (if rv = K.EC_ERROR_TIMEOUT ∧ r &&& 2 = 0 then master_stop env port else pure ())
        handle_i2c_error_loop K env port t1 fuel r)
    reg_write (.CR1 port) ((1 <<< 10) ||| (1 <<< 0))

def i2c_master_transmit (K : Consts) (env : Env) (fuel : Nat) (port slave_addr : Nat)
    (data : Option (List Nat)) (size : Int) (stop : Nat) : M Nat := do
  disable_ack env port
  emit (.dma_prepare_tx port size data)
  emit (.dma_enable_tc_interrupt (DMAC_HOST_TX K))
  emit (.dma_get_channel (DMAC_HOST_TX K))
  emit (.dma_go (DMAC_HOST_TX K))
  let v ← reg_read env (.CR2 port)
  reg_write (.CR2 port) (v ||| CR2_DMAEN)
  let rv_start ← master_start K env fuel port slave_addr
  let rv ← (if rv_start = 0 then task_wait_event env K.DMA_TRANSFER_TIMEOUT_US
    else pure 0 : M Nat)
  emit (.dma_disable (DMAC_HOST_TX K))
  emit (.dma_disable_tc_interrupt (DMAC_HOST_TX K))
  let v2 ← reg_read env (.CR2 port)
  reg_write (.CR2 port) (andNot v2 CR2_DMAEN)
  if rv_start ≠ 0 then
    return rv_start
  else if rv &&& K.TASK_EVENT_WAKE = 0 then
    return K.EC_ERROR_TIMEOUT
  else do
    let rv2 ← wait_status K env fuel port SR1_BTF WAIT_XMIT_BTF
    if rv2 ≠ 0 then
      return rv2
    else if stop ≠ 0 then do
      master_stop env port
      wait_status K env fuel port 0 WAIT_XMIT_STOP
    else
      return K.EC_SUCCESS

/-- What the receive DMA channel has put into the buffer when it is disabled:
`size` bytes supplied by the outside world, in front of the rest of the
buffer; a buffer shorter than `size` is overrun. -/
def dma_rx_collect (env : Env) (size : Nat) (buf : List Nat) : M (List Nat) :=
  fun s =>
    if buf.length < size then none
    else
      let bytes := (List.range size).map fun i => env s.trace (.dma_byte i) % 256
      some (bytes ++ buf.drop size, { s with trace := s.trace ++ [.dma_rx_data bytes] })

/-- The function `i2c_master_receive`; returns `rv` and the contents of the
buffer `data` points to. -/
def i2c_master_receive (K : Consts) (env : Env) (fuel : Nat) (port slave_addr : Nat)
    (data : Option (List Nat)) (size : Int) : M (Nat × Option (List Nat)) :=
  match data with
  | none => return (K.EC_ERROR_INVAL, data)
  | some buf =>
    if size < 1 then
      return (K.EC_ERROR_INVAL, data)
    else if size > 1 then do
      enable_ack env port
      emit (.dma_start_rx port size false)
      emit (.dma_enable_tc_interrupt (DMAC_HOST_RX K))
      let v ← reg_read env (.CR2 port)
      reg_write (.CR2 port) (v ||| CR2_DMAEN)
      let v1 ← reg_read env (.CR2 port)
      reg_write (.CR2 port) (v1 ||| CR2_LAST)
      let rv_start ← master_start K env fuel port (slave_addr ||| 1)
      let rv ← (if rv_start = 0 then task_wait_event env K.DMA_TRANSFER_TIMEOUT_US
        else pure 0 : M Nat)
      emit (.dma_disable (DMAC_HOST_RX K))
      let buf2 ← dma_rx_collect env size.toNat buf
      emit (.dma_disable_tc_interrupt (DMAC_HOST_RX K))
      let v2 ← reg_read env (.CR2 port)
      reg_write (.CR2 port) (andNot v2 CR2_DMAEN)
      disable_ack env port
      if rv_start ≠ 0 then
        return (rv_start, some buf2)
      else if rv &&& K.TASK_EVENT_WAKE = 0 then
        return (K.EC_ERROR_TIMEOUT, some buf2)
      else do
        master_stop env port
        let r ← wait_until_stop_sent K env fuel port
        return (r, some buf2)
    else do
      disable_ack env port
      let rv ← master_start K env fuel port (slave_addr ||| 1)
      if rv ≠ 0 then
        return (rv, data)
      else do
        master_stop env port
        let rv2 ← wait_status K env fuel port SR1_RxNE WAIT_RX_NE_STOP_SIZE2
        if rv2 ≠ 0 then
          return (rv2, data)
        else do
          let b ← reg_read env (.DR port)
          if buf.length = 0 then
            abort
          else do
            let r ← wait_until_stop_sent K env fuel port
            return (r, some (buf.set 0 (b % 256)))

/-- The two phases of `i2c_xfer`: the write phase, and the read phase when
the write phase succeeded and bytes are asked for. -/
def i2c_xfer_phases (K : Consts) (env : Env) (fuel : Nat) (port slave_addr : Nat)
    (out : Option (List Nat)) (out_bytes : Int) (inb : Option (List Nat)) (in_bytes : Int) :
    M (Nat × Option (List Nat)) := do
  let rv ← i2c_master_transmit K env fuel port slave_addr out out_bytes
    (if in_bytes ≠ 0 then 0 else 1)
  if rv = 0 ∧ in_bytes ≠ 0 then
    i2c_master_receive K env fuel port slave_addr inb in_bytes
  else
    return (rv, inb)

/-- The function `i2c_xfer`; returns `rv` and the contents of the buffer `in`
points to. -/
def i2c_xfer (K : Consts) (env : Env) (fuel : Nat) (port slave_addr : Nat)
    (out : Option (List Nat)) (out_bytes : Int) (inb : Option (List Nat)) (in_bytes : Int)
    (flags : Nat) : M (Nat × Option (List Nat)) := do
  let _ := flags
  ASSERT (out.isSome ∨ out_bytes = 0)
  ASSERT (inb.isSome ∨ in_bytes = 0)
  if (← i2c_claim K port) ≠ 0 then
    return (K.EC_ERROR_BUSY, inb)
  else do
    disable_i2c_interrupt env port
    let (rv, inb2) ← i2c_xfer_phases K env fuel port slave_addr out out_bytes inb in_bytes
    handle_i2c_error K env fuel port rv
    enable_i2c_interrupt env port
    i2c_release port
    return (rv, inb2)

/-- The contents of an uninitialised local array of `n` bytes: whatever the
outside world left there. -/
def uninit_array (env : Env) (n : Nat) : M (List Nat) :=
  fun s => some ((List.range n).map (fun i => env s.trace (.uninit_byte i) % 256), s)

/-- The call `i2c_lock(port, lock)` of `i2c.h`, an interaction with the outside
world. -/
def i2c_lock (port lock : Nat) : M Unit := emit (.i2c_lock port lock)

/-- `memcpy(dst, src, n)`: the first `n` bytes of `dst` become those of `src`;
outside either object it aborts.  Returns the contents of `dst`. -/
def memcpy (dst src : List Nat) (n : Nat) : M (List Nat) :=
  fun s => if n ≤ dst.length ∧ n ≤ src.length then some (src.take n ++ dst.drop n, s) else none

/-- The function `i2c_read_string`; returns `rv` and the contents of the buffer
`data` points to.  `reg` and `block_length` are `uint8_t`. -/
def i2c_read_string (K : Consts) (env : Env) (fuel : Nat) (port slave_addr : Nat)
    (offset : Int) (data : List Nat) (len : Int) : M (Nat × List Nat) :=
  if len ≤ 0 ∨ len > SMBUS_MAX_BLOCK then
    return (K.EC_ERROR_INVAL, data)
  else do
    let buffer ← uninit_array env (SMBUS_MAX_BLOCK + 1)
    i2c_lock port 1
    let reg := (offset % 256).toNat
    let (rv, inb) ← i2c_xfer K env fuel port slave_addr (some [reg]) 1 (some buffer)
      (SMBUS_MAX_BLOCK + 1) K.I2C_XFER_SINGLE
    let data2 ← (if rv = K.EC_SUCCESS then
        match inb with
        | some (b0 :: rest) =>
          let block_length := min b0 (len - 1).toNat % 256
          if block_length + 1 < (b0 :: rest).length then
            memcpy data (((b0 :: rest).set (block_length + 1) 0).drop 1) (block_length + 1)
          else abort
        | _ => abort
      else pure data : M (List Nat))
    i2c_lock port 0
    return (rv, data2)

/-- A result of a bounded wait: success, or the time-out code with a stage
code in bits 8 and up (stage 0 for an untagged time-out). -/
def IsWaitOutcome (K : Consts) (rv : Nat) : Prop :=
  rv = K.EC_SUCCESS ∨ ∃ w : Nat, rv = K.EC_ERROR_TIMEOUT ||| (w <<< 8)

/-- The outside world in which nothing ever happens on the bus: every read
returns 0 and very much time passes between two looks at the clock. -/
def deadBus : Env := fun _ i =>
  match i with
  | .tick => 20000
  | _ => 0

/-! ## The pin sequence of bus recovery, in the words of the spec -/

/-- The clock pin of a port. -/
def scl_of (port : Nat) : Gpio := if port = I2C1 then .I2C1_SCL else .I2C2_SCL

/-- The data pin of a port. -/
def sda_of (port : Nat) : Gpio := if port = I2C1 then .I2C1_SDA else .I2C2_SDA

/-- A pseudo-stop: drive data low, hold 5 µs, release, hold 5 µs. -/
def pseudo_stop (sda : Gpio) : List Event :=
  [.gpio_set_level sda 0, .udelay 5, .gpio_set_level sda 1, .udelay 5]

/-- A clock pulse: drive the clock low, hold 5 µs, release, hold 5 µs. -/
def clock_pulse (scl : Gpio) : List Event :=
  [.gpio_set_level scl 0, .udelay 5, .gpio_set_level scl 1, .udelay 5]

/-- A number of clock pulses in a row. -/
def clock_pulse_train (scl : Gpio) : Nat → List Event
  | 0 => []
  | n + 1 => clock_pulse scl ++ clock_pulse_train scl n

/-! ## Total correctness of programs -/

/-- The program `m`, run from `s`, returns (it does not abort, and its loop
budget suffices), with a value and a final state that satisfy `Q`. -/
def Tot {α : Type} (m : M α) (s : St) (Q : α → St → Prop) : Prop :=
  ∃ a s', m.run s = some (a, s') ∧ Q a s'

/-- The state `s'` is reached from `s` by master-side work that holds no
more and no fewer claims: time has not gone back, the claim tokens and the
slave-side statics are the same, and the log has grown by interactions none of
which is an `i2c_release`. -/
def Quiet (s s' : St) : Prop :=
  s.now ≤ s'.now ∧ s'.claimed = s.claimed ∧ s'.i2c_sr1 = s.i2c_sr1 ∧
  s'.host_buffer = s.host_buffer ∧ s'.host_cmd_args = s.host_cmd_args ∧
  s'.i2c_old_response = s.i2c_old_response ∧ s'.rx_pending = s.rx_pending ∧
  ∃ tl, s'.trace = s.trace ++ tl ∧ ∀ p, Event.i2c_release p ∉ tl

/-- The program `m` returns from `s`, quietly, with a value and a final state
that satisfy `P`. -/
def TotQ {α : Type} (m : M α) (s : St) (P : α → St → Prop) : Prop :=
  Tot m s (fun a s' => Quiet s s' ∧ P a s')

/-- The clock moves between any two looks at it. -/
def Ticking (env : Env) : Prop := ∀ h, 1 ≤ env h .tick

/-- The program `m`, run from `s`, returns, and its value, its final state and
the interactions `tl` it has appended to the log satisfy `P`. -/
def TotL {α : Type} (m : M α) (s : St) (P : α → St → List Event → Prop) : Prop :=
  ∃ a s' tl, m.run s = some (a, s') ∧ s'.trace = s.trace ++ tl ∧ P a s' tl

/-! ## Reading the log -/

/-- The last level written to a pin in a log, if the log writes the pin. -/
def last_level_written (sig : Gpio) : List Event → Option Nat
  | [] => none
  | e :: rest =>
    match last_level_written sig rest with
    | some v => some v
    | none =>
      match e with
      | .gpio_set_level g v => if g = sig then some v else none
      | _ => none

/-- Every write of 0 to a pin in the log is followed, later in the log, by a
write of 1 to the same pin. -/
def EveryLowReleased (tl : List Event) : Prop :=
  ∀ sig pre post, tl = pre ++ .gpio_set_level sig 0 :: post → .gpio_set_level sig 1 ∈ post

/-- The interactions of bus recovery and of switching the peripheral clock on:
pin accesses, delays, the claim token and `RCC_APB1ENR`. -/
def Event.isRecovery : Event → Bool
  | .gpio_set_flags _ _ => true
  | .gpio_set_level _ _ => true
  | .gpio_get_level _ _ => true
  | .udelay _ => true
  | .i2c_claim _ _ => true
  | .i2c_release _ => true
  | .reg_read .RCC_APB1ENR _ => true
  | .reg_write .RCC_APB1ENR _ => true
  | _ => false

/-- An access to a pin: configuring it, driving it or reading it. -/
def Event.isGpio : Event → Bool
  | .gpio_set_flags _ _ => true
  | .gpio_set_level _ _ => true
  | .gpio_get_level _ _ => true
  | _ => false

/-- A log of bus recovery: only interactions of that kind, and every pin
driven low is released again. -/
def RecoveryLog (tl : List Event) : Prop :=
  EveryLowReleased tl ∧ ∀ e ∈ tl, e.isRecovery = true

/-- The value a log shows a register to hold: that of the last read or write of
the register, if there is one. -/
def last_value (r : Reg) : List Event → Option Nat
  | [] => none
  | e :: rest =>
    match last_value r rest with
    | some v => some v
    | none =>
      match e with
      | .reg_read r' v => if r' = r then some v else none
      | .reg_write r' v => if r' = r then some v else none
      | _ => none

/-- The register keeps its value: a read returns what was last read from it or
written to it. -/
def RegHolds (env : Env) (r : Reg) : Prop :=
  ∀ h v, last_value r h = some v → env h (.reg r) % r.modulus = v % r.modulus

/-- The outside world in which every register is plain memory that starts at
0, no pin or event ever answers, and very much time passes between two looks at
the clock. -/
def memoryBus : Env := fun h i =>
  match i with
  | .reg r => (last_value r h).getD 0
  | .tick => 20000
  | _ => 0

/-- The interactions with which `i2c_init_port` ends, whatever the state of
the clock: the reset and the configuration of the peripheral, then the board
hook. -/
def init_port_tail (K : Consts) (port : Nat) : List Event :=
  [.reg_write (.CR1 port) 0x8000, .reg_write (.CR1 port) 0x0000,
   .reg_write (.CCR port) (I2C_CCR K % 65536)] ++
  (if port = I2C2 then [.reg_write (.OAR1 port) I2C_ADDRESS] else []) ++
  [.reg_write (.CR1 port) ((1 <<< 10) ||| (1 <<< 0)),
   .reg_write (.CR2 port) ((1 <<< 9) ||| (1 <<< 8) ||| 0x10),
   .reg_write (.SR1 port) 0, .board_i2c_post_init port]

/-- A request for a STOP condition on a port: a write to its CR1 with bit 9
set. -/
def Event.isStopRequest (port : Nat) : Event → Bool
  | .reg_write (.CR1 p) v => decide (p = port) && decide (v &&& (1 <<< 9) ≠ 0)
  | _ => false

/-- The number of STOP requests on a port in a log. -/
def stop_requests (port : Nat) (tl : List Event) : Nat :=
  tl.countP (Event.isStopRequest port)

/-- The number of runs of `i2c_init_port(port)` a log shows: every run ends in
one call of `board_i2c_post_init(port)`, and nothing else in the driver calls
it. -/
def reinit_count (port : Nat) (tl : List Event) : Nat :=
  tl.count (.board_i2c_post_init port)

/-- The outside world in which a START request never goes through: CR1 always
reads with bit 8 set, every other register and pin reads 0, and very much time
passes between two looks at the clock. -/
def startStuck : Env := fun _ i =>
  match i with
  | .reg (.CR1 _) => 1 <<< 8
  | .tick => 20000
  | _ => 0

/-- An interaction that every turn of the forced-STOP loop of
`handle_i2c_error` makes: the sleep, or the read of SR2 of the port. -/
def Event.isRetry (port : Nat) : Event → Bool
  | .usleep _ => true
  | .reg_read (.SR2 p) _ => decide (p = port)
  | _ => false

/-- After a read of SR2 that shows the bus idle (BUSY, bit 1, clear), the log
holds only interactions that satisfy `good`. -/
def AfterIdleRead (port : Nat) (good : Event → Prop) (tl : List Event) : Prop :=
  ∀ pre r post, tl = pre ++ .reg_read (.SR2 port) r :: post → r &&& 2 = 0 →
    ∀ e ∈ post, good e

/-- The status the loop of `wait_status` waits for: every bit of a non-zero
`mask` set in `r`, or, for `mask` 0, the status `r` equal to 0. -/
def status_reached (mask r : Nat) : Prop :=
  if mask ≠ 0 then r &&& mask = mask else r = 0

instance (mask r : Nat) : Decidable (status_reached mask r) := by
  unfold status_reached; infer_instance

/-- The interactions of the status polls of the master path: reads of CR1, SR1
and SR2, writes of CR1 and of the data register, readings of the clock, sleeps,
and the read of an uninitialised local. -/
def Event.isPolling : Event → Bool
  | .reg_read (.CR1 _) _ => true
  | .reg_read (.SR1 _) _ => true
  | .reg_read (.SR2 _) _ => true
  | .reg_write (.CR1 _) _ => true
  | .reg_write (.DR _) _ => true
  | .get_time _ => true
  | .usleep _ => true
  | .uninit_read _ => true
  | _ => false

/-- A call of a DMA helper, the data a DMA transfer delivers, or the wait for
the transfer-complete event. -/
def Event.isDmaCall : Event → Bool
  | .dma_get_channel _ => true
  | .dma_prepare_tx _ _ _ => true
  | .dma_start_rx _ _ _ => true
  | .dma_rx_data _ => true
  | .dma_go _ => true
  | .dma_wait _ => true
  | .dma_clear_isr _ => true
  | .dma_enable_tc_interrupt _ => true
  | .dma_disable_tc_interrupt _ => true
  | .dma_disable _ => true
  | .task_wait_event _ _ => true
  | _ => false

/-- A read of the data register of a port. -/
def Event.isDataRead (port : Nat) : Event → Bool
  | .reg_read (.DR p) _ => decide (p = port)
  | _ => false

/-- The arming of a DMA receive (`dma_start_rx`). -/
def Event.isStartRx : Event → Bool
  | .dma_start_rx _ _ _ => true
  | _ => false

/-- The outside world of a transfer that goes through: SR1 always shows SB,
ADDR and BTF, every other register and pin reads 0, the wake-up event comes,
the clock moves by 1 µs between two looks at it, and a DMA receive delivers 3
at index 0 and `0x40 + i` at every other index `i`. -/
def goodBus : Env := fun _ i =>
  match i with
  | .reg (.SR1 _) => 7
  | .task_wait_event => 1 <<< 29
  | .tick => 1
  | .dma_byte 0 => 3
  | .dma_byte i => 0x40 + i
  | _ => 0

/-- The events by which the slave answers the host: the hand-over of a
decoded command to `host_command_received`, and a write of the data register. -/
def Event.isDispatchOrData : Event → Bool
  | .host_command_received _ => true
  | .reg_write (.DR _) _ => true
  | _ => false

/-- An outside world in which the host has just addressed the slave for a
write: SR1 reads ADDR (bit 1) only, every other register reads 0, so SR2 shows
slave mode and receive direction. -/
def addressMatchBus : Env := fun _ i =>
  match i with
  | .reg (.SR1 _) => 2
  | _ => 0

/-- An outside world in which the host reads from the slave: SR1 reads TxE
(bit 7) only, every other register reads 0. -/
def transmitEmptyBus : Env := fun _ i =>
  match i with
  | .reg (.SR1 _) => 0x80
  | _ => 0

/-- An outside world in which the stack slot of `is_slow` holds 1 when
`wait_until_stop_sent` is entered: CR1 reads with STOP (bit 9) set until the
first sleep and clear afterwards, the clock moves by 1 µs between two looks at
it, and every other input reads 0. -/
def staleStackBus : Env := fun h i =>
  match i with
  | .uninit => 1
  | .reg (.CR1 _) =>
    if h.any (fun e => match e with | .usleep _ => true | _ => false) then 0 else 1 <<< 9
  | .tick => 1
  | _ => 0

/-- The log of one evaluation of `gpio_get_level(scl) && gpio_get_level(sda)`:
SCL is read as `c`, and SDA is read, as `d`, only when `c` is non-zero. -/
def line_read (scl sda : Gpio) (c d : Nat) : List Event :=
  if c ≠ 0 then [.gpio_get_level scl c, .gpio_get_level sda d] else [.gpio_get_level scl c]

/-- A read of both lines, followed by a pseudo-stop when both were high. -/
def guarded_stop (scl sda : Gpio) (c d : Nat) : List Event :=
  line_read scl sda c d ++ (if c ≠ 0 ∧ d ≠ 0 then pseudo_stop sda else [])

/-- The log of `unwedge_i2c_bus` when the three evaluations of the line test
read `(c1, d1)`, `(c2, d2)` and `(c3, d3)`; the second one takes place only
when the first did not show both lines high. -/
def unwedge_log (K : Consts) (port : Nat) (c1 d1 c2 d2 c3 d3 : Nat) : List Event :=
  [.gpio_set_flags (scl_of port) K.GPIO_ODR_HIGH,
   .gpio_set_flags (sda_of port) K.GPIO_ODR_HIGH] ++
  guarded_stop (scl_of port) (sda_of port) c1 d1 ++
  (if c1 ≠ 0 ∧ d1 ≠ 0 then []
    else clock_pulse (scl_of port) ++ guarded_stop (scl_of port) (sda_of port) c2 d2) ++
  clock_pulse_train (scl_of port) 9 ++
  guarded_stop (scl_of port) (sda_of port) c3 d3 ++
  [.gpio_set_level (scl_of port) 1, .gpio_set_level (sda_of port) 1]

/-- Every write of 0 to `sda` in the log comes right after a read of `scl` and
a read of `sda` that both returned a non-zero level. -/
def LowOnlyAfterHighRead (scl sda : Gpio) (tl : List Event) : Prop :=
  ∀ pre post, tl = pre ++ .gpio_set_level sda 0 :: post →
    ∃ pre' c d, pre = pre' ++ [.gpio_get_level scl c, .gpio_get_level sda d] ∧ c ≠ 0 ∧ d ≠ 0

/-! ## The charging task (`common/pmu_tps65090_charger.c`) -/

/-- `ARRAY_SIZE(rsoc)` and `sizeof(rsoc)`: the window holds 4 bytes. -/
def ARRAY_SIZE_rsoc : Nat := 4

/-- The conversion of an `int` to `int8_t`. -/
def to_int8 (v : Int) : Int := (v + 128) % 256 - 128

/-- The store `rsoc[i] = (uint8_t)v`; outside the array it aborts. -/
def rsoc_store (i v : Int) : M Unit :=
  fun s =>
    if 0 ≤ i ∧ i.toNat < s.rsoc.length then
      some ((), { s with rsoc := s.rsoc.set i.toNat (v % 256) })
    else none

/-- The load `rsoc[i]`; outside the array it aborts. -/
def rsoc_load (i : Nat) : M Int :=
  fun s => (s.rsoc[i]?).map fun b => (b, s)

/-- The loop `for (i = 0; i < ARRAY_SIZE(rsoc); i++) rsoc[i] =
(uint8_t)state_of_charge`, by the number of iterations left. -/
def rsoc_fill (state_of_charge : Int) : Nat → Nat → M Unit
  | 0, _ => pure ()
  | n + 1, i => do
    rsoc_store i state_of_charge
    rsoc_fill state_of_charge n (i + 1)

/-- The loop `for (i = 0; i < ARRAY_SIZE(rsoc); i++) moving_average +=
(int)rsoc[i]`, by the number of iterations left. -/
def rsoc_sum : Nat → Nat → Int → M Int
  | 0, _, moving_average => pure moving_average
  | n + 1, i, moving_average => do
    let v ← rsoc_load i
    rsoc_sum n (i + 1) (moving_average + v)

/-- The function `rsoc_moving_average`.  `index++` is done in `int8_t`;
`index %= sizeof(rsoc)` and `moving_average /= ARRAY_SIZE(rsoc)` are done in
the 32-bit unsigned type of `sizeof`. -/
def rsoc_moving_average (state_of_charge : Int) : M Int := do
  let moving_average : Int := (ARRAY_SIZE_rsoc / 2 : Nat)
  if state_of_charge < 0 then do
    modifySt fun s => { s with index := -1 }
    return -1
  else do
    let index := (← getSt).index
    if index < 0 then do
      rsoc_fill state_of_charge ARRAY_SIZE_rsoc 0
      modifySt fun s => { s with index := 0 }
      return state_of_charge
    else do
      rsoc_store index state_of_charge
      modifySt fun s => { s with index := to_int8 (s.index + 1) }
      modifySt fun s => { s with index := to_int8 (s.index % 4294967296 % ARRAY_SIZE_rsoc) }
      let moving_average ← rsoc_sum ARRAY_SIZE_rsoc 0 moving_average
      return moving_average % 4294967296 / ARRAY_SIZE_rsoc

/-- A run of calls of `rsoc_moving_average`, one per reading, in order; returns
the values returned. -/
def rsoc_readings : List Int → M (List Int)
  | [] => pure []
  | x :: xs => do
    let r ← rsoc_moving_average x
    let rs ← rsoc_readings xs
    pure (r :: rs)

/-- The last four entries of a list. -/
def last_four (l : List Int) : List Int := l.drop (l.length - 4)

/-- The window of `rsoc_moving_average` holds the readings `a, b, c, d`, oldest
first: `index` is a slot of the array, the slot of the oldest reading, and the
slots read from there, wrapping around, are `a, b, c, d`. -/
def RsocWindow (s : St) (a b c d : Int) : Prop :=
  ∃ i : Nat, i < 4 ∧ s.index = i ∧ s.rsoc.rotate i = [a, b, c, d]

/-- A full host buffer (`EC_PROTO2_MAX_REQUEST_SIZE` = 256 bytes) that starts
with a versioned packet whose parameter-length byte is 253: one more than
`EC_PROTO2_MAX_PARAM_SIZE`. -/
def exampleOversizeRequest : St :=
  { host_buffer := 0x80 :: 0x02 :: 0xfd :: List.replicate 253 0 }

/-- Constants the charging task takes from headers outside the translated
sources: the values of `enum charging_state` (`pmu_tpschrome.h`), the alarm
bits of the smart battery (`smart_battery.h`) and the macro
`DECI_KELVIN_TO_CELSIUS` (`battery_pack.h`).  They are parameters of the
embedding. -/
structure ChargerConsts where
  ST_IDLE0 : Int
  ST_BAD_COND : Int
  ST_IDLE : Int
  ST_PRE_CHARGING : Int
  ST_CHARGING : Int
  ST_CHARGING_ERROR : Int
  ST_DISCHARGING : Int
  ALARM_OVER_TEMP : Nat
  ALARM_TERMINATE_DISCHARGE : Nat
  ALARM_OVER_CHARGED : Nat
  ALARM_TERMINATE_CHARGE : Nat
  DECI_KELVIN_TO_CELSIUS : Int → Int

/-- The enumerators of `enum charging_state` are distinct, as the labels of
the `switch` in `calc_next_state` must be. -/
def ChargerConsts.Distinct (C : ChargerConsts) : Prop :=
  [C.ST_IDLE0, C.ST_BAD_COND, C.ST_IDLE, C.ST_PRE_CHARGING, C.ST_CHARGING,
    C.ST_CHARGING_ERROR, C.ST_DISCHARGING].Nodup

instance (C : ChargerConsts) : Decidable C.Distinct := by
  unfold ChargerConsts.Distinct; infer_instance

/-- `ALARM_DISCHARGING`. -/
def ALARM_DISCHARGING (C : ChargerConsts) : Nat :=
  C.ALARM_TERMINATE_DISCHARGE ||| C.ALARM_OVER_TEMP

/-- `ALARM_CHARGED`. -/
def ALARM_CHARGED (C : ChargerConsts) : Nat :=
  C.ALARM_OVER_CHARGED ||| C.ALARM_TERMINATE_CHARGE

/-- `CHIPSET_STATE_ON` of `chipset.h`. -/
def CHIPSET_STATE_ON : Int := 0x08

/-- `CHIPSET_STATE_ANY_OFF` of `chipset.h`: hard off or soft off. -/
def CHIPSET_STATE_ANY_OFF : Int := ((0x01 ||| 0x02 : Nat) : Int)

/-- Modelled from the spec: `timer.h` is not among the sources; the clock
counts microseconds, so `MINUTE` is 60000000. -/
def MINUTE : Nat := 60 * SECOND

/-- The value of an `int` with the given 32-bit pattern. -/
def to_int32 (v : Nat) : Int :=
  if v % 4294967296 < 2147483648 then (v % 4294967296 : Nat) else (v % 4294967296 : Nat) - 4294967296

/-- A call of a function of another module: the outside world supplies the
`int` it returns, as a 32-bit pattern. -/
def call (env : Env) (f : Callee) (arg : Int) : M Nat :=
  fun s =>
    let v := env s.trace (.call f arg) % 4294967296
    some (v, { s with trace := s.trace ++ [.call f arg v] })

/-- A call `f(&x)`: the value returned, and the 32-bit pattern of the `int`
stored in `x`. -/
def call_out (env : Env) (f fval : Callee) : M (Nat × Nat) := do
  let rv ← call env f 0
  let x ← call env fval 0
  return (rv, x)

/-- The function `battery_start_charging_range`, with `bat_temp_ranges` of
`board/daisy/board.c`: 5 to 45 degrees C. -/
def battery_start_charging_range (C : ChargerConsts) (deci_k : Int) : Bool :=
  let temp_c := to_int8 (C.DECI_KELVIN_TO_CELSIUS deci_k)
  decide (temp_c ≥ 5 ∧ temp_c < 45)

/-- The function `battery_charging_range`: 5 to 60 degrees C. -/
def battery_charging_range (C : ChargerConsts) (deci_k : Int) : Bool :=
  let temp_c := to_int8 (C.DECI_KELVIN_TO_CELSIUS deci_k)
  decide (temp_c ≥ 5 ∧ temp_c < 60)

/-- The function `battery_discharging_range`: 0 to 100 degrees C. -/
def battery_discharging_range (C : ChargerConsts) (deci_k : Int) : Bool :=
  let temp_c := to_int8 (C.DECI_KELVIN_TO_CELSIUS deci_k)
  decide (temp_c ≥ 0 ∧ temp_c < 100)

/-- The function `system_off`. -/
def system_off (C : ChargerConsts) (env : Env) : M Int := do
  let chipset_on ← call env .chipset_in_state CHIPSET_STATE_ON
  (if chipset_on ≠ 0 then do
      let _ ← call env .chipset_force_shutdown 0
      pure ()
    else pure ())
  return C.ST_IDLE0

/-- The function `notify_battery_low`; the difference of the two times is
taken in 64 bits. -/
def notify_battery_low (C : ChargerConsts) (env : Env) : M Int := do
  let chipset_on ← call env .chipset_in_state CHIPSET_STATE_ON
  (if chipset_on ≠ 0 then do
      let now ← get_time env
      (if (now + 2 ^ 64 - (← getSt).last_notify_time % 2 ^ 64) % 2 ^ 64 > MINUTE then
          modifySt fun s => { s with last_notify_time := now }
        else pure ())
    else pure ())
  return C.ST_DISCHARGING

/-- The function `config_low_current_charging`. -/
def config_low_current_charging (K : Consts) (env : Env) (charge : Int) : M Nat :=
  if charge < 40 then
    call env .pmu_low_current_charging 1
  else if charge > 60 then
    call env .pmu_low_current_charging 0
  else
    return K.EC_SUCCESS

/-- The cases `ST_IDLE0`, `ST_BAD_COND` and `ST_IDLE` of `calc_next_state`. -/
def calc_next_state_idle (K : Consts) (C : ChargerConsts) (env : Env) : M Int := do
  let ac ← call env .extpower_is_present 0
  if ac = 0 then do
    let chipset_on ← call env .chipset_in_state CHIPSET_STATE_ON
    if chipset_on ≠ 0 then return C.ST_DISCHARGING else return C.ST_IDLE
  else do
    let ca ← call env .pmu_is_charger_alarm 0
    if ca ≠ 0 then return C.ST_BAD_COND
    else do
      let (rt, batt_temp) ← call_out env .battery_temperature .battery_temperature_value
      if rt ≠ 0 then do
        let rc ← config_low_current_charging K env 0
        if rc ≠ 0 then return C.ST_BAD_COND else return C.ST_PRE_CHARGING
      else if battery_start_charging_range C (to_int32 batt_temp) = false then
        return C.ST_BAD_COND
      else do
        let (rs, alarm) ← call_out env .battery_status .battery_status_value
        if rs ≠ 0 ∨ alarm &&& C.ALARM_OVER_TEMP ≠ 0 then return C.ST_BAD_COND
        else if alarm &&& ALARM_CHARGED C ≠ 0 then return C.ST_IDLE
        else do
          let (rc, charge) ← call_out env .battery_state_of_charge
            .battery_state_of_charge_value
          if rc = 0 then do
            let _ ← config_low_current_charging K env (to_int32 charge)
            if to_int32 charge < 100 then return C.ST_CHARGING else return C.ST_IDLE
          else return C.ST_IDLE

/-- The case `ST_PRE_CHARGING` of `calc_next_state`. -/
def calc_next_state_pre_charging (K : Consts) (C : ChargerConsts) (env : Env) : M Int := do
  let ac ← call env .extpower_is_present 0
  if ac = 0 then return C.ST_IDLE0
  else do
    let (rt, batt_temp) ← call_out env .battery_temperature .battery_temperature_value
    if rt = K.EC_SUCCESS then
      if battery_start_charging_range C (to_int32 batt_temp) = false then return C.ST_IDLE0
      else do
        let (rc, charge) ← call_out env .battery_state_of_charge
          .battery_state_of_charge_value
        if rc = 0 then do
          let _ ← config_low_current_charging K env (to_int32 charge)
          if to_int32 charge ≥ 100 then return C.ST_IDLE0 else return C.ST_CHARGING
        else return C.ST_CHARGING
    else return C.ST_PRE_CHARGING

/-- The case `ST_CHARGING` of `calc_next_state`; `CONFIG_EXTPOWER_USB` is not
defined. -/
def calc_next_state_charging (C : ChargerConsts) (env : Env) : M Int := do
  let ac ← call env .extpower_is_present 0
  if ac = 0 then return C.ST_IDLE0
  else do
    let (rt, batt_temp) ← call_out env .battery_temperature .battery_temperature_value
    if rt ≠ 0 then return C.ST_IDLE0
    else if battery_charging_range C (to_int32 batt_temp) = false then
      return C.ST_CHARGING_ERROR
    else do
      let (rs, alarm) ← call_out env .battery_status .battery_status_value
      if rs ≠ 0 then return C.ST_IDLE0
      else if alarm &&& C.ALARM_OVER_TEMP ≠ 0 then return C.ST_CHARGING_ERROR
      else if alarm &&& ALARM_CHARGED C ≠ 0 then return C.ST_IDLE
      else do
        let ca ← call env .pmu_is_charger_alarm 0
        if ca ≠ 0 then return C.ST_IDLE0 else return C.ST_CHARGING

/-- The case `ST_CHARGING_ERROR` of `calc_next_state`. -/
def calc_next_state_charging_error (C : ChargerConsts) (env : Env) : M Int := do
  let ac ← call env .extpower_is_present 0
  if ac ≠ 0 then do
    let (rs, alarm) ← call_out env .battery_status .battery_status_value
    if rs ≠ 0 then return C.ST_CHARGING_ERROR
    else if alarm &&& C.ALARM_OVER_TEMP ≠ 0 then return C.ST_CHARGING_ERROR
    else do
      let (rt, batt_temp) ← call_out env .battery_temperature .battery_temperature_value
      if rt ≠ 0 then return C.ST_CHARGING_ERROR
      else if battery_charging_range C (to_int32 batt_temp) = false then
        return C.ST_CHARGING_ERROR
      else return C.ST_CHARGING
  else return C.ST_IDLE0

/-- The end of the case `ST_DISCHARGING` of `calc_next_state`: the check of the
remaining charge. -/
def calc_next_state_discharging_charge (C : ChargerConsts) (env : Env) : M Int := do
  let (rc, capacity) ← call_out env .battery_state_of_charge .battery_state_of_charge_value
  if rc = 0 then do
    let avg ← rsoc_moving_average (to_int32 capacity)
    if avg < 3 then system_off C env
    else do
      (if to_int32 capacity < 10 then do
          let _ ← notify_battery_low C env
          pure ()
        else pure ())
      return C.ST_DISCHARGING
  else return C.ST_DISCHARGING

/-- The case `ST_DISCHARGING` of `calc_next_state`. -/
def calc_next_state_discharging (C : ChargerConsts) (env : Env) : M Int := do
  let ac ← call env .extpower_is_present 0
  if ac ≠ 0 then return C.ST_IDLE0
  else do
    let off ← call env .chipset_in_state CHIPSET_STATE_ANY_OFF
    if off ≠ 0 then return C.ST_IDLE0
    else do
      let (rt, batt_temp) ← call_out env .battery_temperature .battery_temperature_value
      if rt = 0 ∧ battery_discharging_range C (to_int32 batt_temp) = false then
        system_off C env
      else do
        let (rs, alarm) ← call_out env .battery_status .battery_status_value
        if rs = 0 ∧ alarm &&& ALARM_DISCHARGING C ≠ 0 then system_off C env
        else calc_next_state_discharging_charge C env

/-- The function `calc_next_state`: the `switch` on the current state; a value
that is none of the labels falls through to `return ST_IDLE0`. -/
def calc_next_state (K : Consts) (C : ChargerConsts) (env : Env) (state : Int) : M Int :=
  if state = C.ST_IDLE0 ∨ state = C.ST_BAD_COND ∨ state = C.ST_IDLE then
    calc_next_state_idle K C env
  else if state = C.ST_PRE_CHARGING then
    calc_next_state_pre_charging K C env
  else if state = C.ST_CHARGING then
    calc_next_state_charging C env
  else if state = C.ST_CHARGING_ERROR then
    calc_next_state_charging_error C env
  else if state = C.ST_DISCHARGING then
    calc_next_state_discharging C env
  else
    return C.ST_IDLE0

/-- The states of `enum charging_state` in the order of `pmu_tpschrome.h`, the
alarm bits of the Smart Battery specification, and the conversion from 0.1 K
to degrees C. -/
def exampleChargerConsts : ChargerConsts :=
  { ST_IDLE0 := 0
    ST_IDLE := 1
    ST_BAD_COND := 2
    ST_PRE_CHARGING := 3
    ST_CHARGING := 4
    ST_CHARGING_ERROR := 5
    ST_DISCHARGING := 6
    ALARM_OVER_TEMP := 0x1000
    ALARM_TERMINATE_DISCHARGE := 0x0800
    ALARM_OVER_CHARGED := 0x8000
    ALARM_TERMINATE_CHARGE := 0x4000
    DECI_KELVIN_TO_CELSIUS := fun t => (t - 2731) / 10 }

/-- An outside world without external power: `extpower_is_present()` returns
0, every other call returns 1, and the clock moves by 1 µs between two looks at
it. -/
def onBattery : Env := fun _ i =>
  match i with
  | .call .extpower_is_present _ => 0
  | _ => 1

/-- The outside world in which the bus stays busy: SR2 always reads with BUSY
(bit 1) set, every other register and pin reads 0, and the clock advances only
while the driver sleeps. -/
def stuckBusy : Env := fun _ i =>
  match i with
  | .reg (.SR2 _) => 2
  | _ => 0

/-- If the interaction is a read of the register `r`, the value it shows is
one the outside world gave for `r`. -/
def Event.readGiven (env : Env) (r : Reg) (e : Event) : Prop :=
  ∀ v, e = Event.reg_read r v → ∃ h, v = env h (.reg r) % r.modulus

/-- The statements of `i2c_master_transmit` that precede its call of
`master_start`: ACK off, the transmit DMA channel prepared and started, and
DMAEN set in CR2. -/
def i2c_master_transmit_setup (K : Consts) (env : Env) (port : Nat)
    (data : Option (List Nat)) (size : Int) : M Unit := do
  disable_ack env port
  emit (.dma_prepare_tx port size data)
  emit (.dma_enable_tc_interrupt (DMAC_HOST_TX K))
  emit (.dma_get_channel (DMAC_HOST_TX K))
  emit (.dma_go (DMAC_HOST_TX K))
  let v ← reg_read env (.CR2 port)
  reg_write (.CR2 port) (v ||| CR2_DMAEN)

/-- The first statement of `master_start`, the START request
`STM32_I2C_CR1(port) = (STM32_I2C_CR1(port) & ~(1 << 9)) | (1 << 8)`; the wait
for the start condition follows it. -/
def master_start_request (env : Env) (port : Nat) : M Unit := do
  let v ← reg_read env (.CR1 port)
  reg_write (.CR1 port) (andNot v (1 <<< 9) ||| (1 <<< 8))

/-- A write of a data register. -/
def Event.isDataWrite : Event → Bool
  | .reg_write (.DR _) _ => true
  | _ => false

/-- The outside world of a slave that does not acknowledge its address: SR1
shows the start condition sent (SB, bit 0) until the driver writes the data
register and reads 0 from then on, so ADDR (bit 1) never shows.  Every other
register and pin reads 0, and one microsecond passes between two looks at the
clock. -/
def nackBus : Env := fun h i =>
  match i with
  | .reg (.SR1 _) => if h.any Event.isDataWrite then 0 else 1
  | .tick => 1
  | _ => 0

/-! ## Concrete inputs -/

/-- A concrete choice of the header constants, used to run the model on
examples: the version base 0x80 of the worked example in the spec, the
protocol-2 sizes, and small distinct error codes. -/
def exampleConsts : Consts :=
  { EC_CMD_VERSION0 := 0x80
    EC_PROTO2_MAX_PARAM_SIZE := 0xfc
    EC_PROTO2_MAX_REQUEST_SIZE := 0x100
    EC_RES_SUCCESS := 0
    EC_RES_INVALID_CHECKSUM := 7
    EC_SUCCESS := 0
    EC_ERROR_TIMEOUT := 4
    EC_ERROR_INVAL := 5
    EC_ERROR_BUSY := 6
    TASK_EVENT_WAKE := 1 <<< 29
    DMA_TRANSFER_TIMEOUT_US := 100000
    GPIO_ODR_HIGH := 1
    CPU_CLOCK := 16000000
    I2C_PORT_HOST := 0
    I2C_PORT_SLAVE := 1
    I2C_XFER_SINGLE := 3 }

/-- The state in which `i2c_xfer(I2C1, 0x90, out = {7}, 1, in, 2)`, called in
the initial state on `nackBus`, enters its write phase: the port is claimed and
the I2C interrupts are disabled. -/
def nackClaimed : St :=
  { claimed := fun p => if p = I2C1 then true else false
    trace := [.i2c_claim I2C1 exampleConsts.EC_SUCCESS, .reg_read (.CR2 I2C1) 0,
      .reg_write (.CR2 I2C1) 0] }

/-- The state of that transfer when `master_start` has requested START and
begins to wait for the start condition. -/
def nackStartRequested : St :=
  { nackClaimed with
    trace := nackClaimed.trace ++ [.reg_read (.CR1 I2C1) 0, .reg_write (.CR1 I2C1) 0,
      .dma_prepare_tx I2C1 1 (some [7]), .dma_enable_tc_interrupt (DMAC_HOST_TX exampleConsts),
      .dma_get_channel (DMAC_HOST_TX exampleConsts), .dma_go (DMAC_HOST_TX exampleConsts),
      .reg_read (.CR2 I2C1) 0, .reg_write (.CR2 I2C1) 0x800,
      .reg_read (.CR1 I2C1) 0, .reg_write (.CR1 I2C1) 0x100] }

/-- The state of that transfer when the wait for the start condition has
returned: one microsecond has passed and the one read of SR1 showed SB. -/
def nackStartSent : St :=
  { nackStartRequested with
    now := 1
    trace := nackStartRequested.trace ++ [.get_time 1, .reg_read (.SR1 I2C1) 1] }

/-- The packet of the worked example in the spec, `[0x80, 0x02, 0x01, 0x05,
checksum]`, at the start of an otherwise empty 8-byte buffer. -/
def exampleRequest : St :=
  { host_buffer := [0x80, 0x02, 0x01, 0x05, 0x88, 0, 0, 0] }

/-- The same packet with a corrupted checksum byte. -/
def exampleBadRequest : St :=
  { host_buffer := [0x80, 0x02, 0x01, 0x05, 0x89, 0, 0, 0] }

/-! # Theorems -/

/-! ## Running programs: rewriting rules -/

@[simp] theorem run_pure {α : Type} (a : α) (s : St) : (pure a : M α).run s = some (a, s) := rfl

@[simp] theorem run_bind {α β : Type} (m : M α) (k : α → M β) (s : St) :
    (m >>= k).run s = (m.run s).bind (fun p => (k p.1).run p.2) := rfl

@[simp] theorem run_ite {α : Type} (c : Prop) [Decidable c] (a b : M α) (s : St) :
    (if c then a else b).run s = if c then a.run s else b.run s := by
  split <;> rfl

@[simp] theorem run_getSt (s : St) : getSt.run s = some (s, s) := rfl

@[simp] theorem run_modifySt (f : St → St) (s : St) :
    (modifySt f).run s = some ((), f s) := rfl

@[simp] theorem run_emit (e : Event) (s : St) :
    (emit e).run s = some ((), { s with trace := s.trace ++ [e] }) := rfl

@[simp] theorem run_set_args (f : host_cmd_handler_args → host_cmd_handler_args) (s : St) :
    (set_args f).run s = some ((), { s with host_cmd_args := f s.host_cmd_args }) := rfl

@[simp] theorem run_load_host (s : St) (i : Nat) :
    (load (.host i)).run s = (s.host_buffer[i]?).map (fun b => (b, s)) := rfl

@[simp] theorem run_load_other (s : St) (m : List Nat) (i : Nat) :
    (load (.other m i)).run s = (m[i]?).map (fun b => (b, s)) := rfl

@[simp] theorem run_store_host (s : St) (i v : Nat) :
    (store_host i v).run s = if i < s.host_buffer.length then
      some ((), { s with host_buffer := s.host_buffer.set i (v % 256) }) else none := rfl

theorem checksum_loop_run (n : Nat) : ∀ (i c : Nat) (s : St), i + n ≤ s.host_buffer.length →
    (checksum_loop n i c).run s = some ((i + n, c + ((s.host_buffer.drop i).take n).sum), s) := by
  induction n with
  | zero => intro i c s _; simp [checksum_loop]
  | succ n ih =>
    intro i c s h
    have hi : i < s.host_buffer.length := by omega
    have hs : ((s.host_buffer.drop i).take (n + 1)).sum
        = s.host_buffer[i] + ((s.host_buffer.drop (i + 1)).take n).sum := by
      conv_lhs => rw [List.drop_eq_getElem_cons hi]
      rw [List.take_succ_cons, List.sum_cons]
    have e1 : i + 1 + n = i + (n + 1) := by omega
    simp only [checksum_loop, run_bind, run_load_host, List.getElem?_eq_getElem hi,
      Option.map_some', Option.some_bind]
    rw [ih (i + 1) _ s (by omega), hs, e1, Nat.add_assoc]

theorem decode_versioned_run (K : Consts) (s : St) (b0 b1 n c : Nat)
    (h0 : s.host_buffer[0]? = some b0) (h1 : s.host_buffer[1]? = some b1)
    (h2 : s.host_buffer[2]? = some n) (hc : s.host_buffer[n + 3]? = some c)
    (hv : K.EC_CMD_VERSION0 ≤ b0) :
    (i2c_process_command_decode K).run s = some ((),
      { s with
        host_cmd_args := versioned_args K b0 b1 n
          (decide ((s.host_buffer.take (n + 3)).sum % 256 = c))
        i2c_old_response := 0 }) := by
  have hlen : n + 3 < s.host_buffer.length := by
    rcases Nat.lt_or_ge (n + 3) s.host_buffer.length with h | h
    · exact h
    · rw [List.getElem?_eq_none h] at hc; cases hc
  have hle : 0 + (n + 3) ≤ s.host_buffer.length := by omega
  unfold i2c_process_command_decode
  simp only [run_bind, run_load_host, h0, h1, h2, hc, Option.map_some', Option.some_bind, hv,
    ge_iff_le, if_true, run_set_args, run_ite, run_pure, run_modifySt, checksum_loop_run,
    Nat.zero_add, List.drop_zero, hlen.le, versioned_args]
  by_cases hcs : (s.host_buffer.take (n + 3)).sum % 256 = c
  · simp [hcs]
  · simp [hcs]

theorem i2c_process_command_run (K : Consts) (hcr : HostCommand) (s s1 : St)
    (h : (i2c_process_command_decode K).run s = some ((), s1)) :
    (i2c_process_command K hcr).run s =
      hcr.run { s1 with trace := s1.trace ++ [.host_command_received s1.host_cmd_args] } := by
  unfold i2c_process_command
  simp only [run_bind, h, Option.some_bind, run_getSt, run_emit]

theorem decode_legacy_run (K : Consts) (s : St) (b0 : Nat)
    (h0 : s.host_buffer[0]? = some b0) (hlt : b0 < K.EC_CMD_VERSION0) :
    (i2c_process_command_decode K).run s = some ((),
      { s with
        host_cmd_args :=
          { send_response := .i2c_send_response
            command := b0
            version := 0
            params := .host 1
            params_size := K.EC_PROTO2_MAX_PARAM_SIZE
            response := .host 2
            response_max := K.EC_PROTO2_MAX_PARAM_SIZE
            response_size := 0
            result := K.EC_RES_SUCCESS }
        i2c_old_response := 1 }) := by
  unfold i2c_process_command_decode
  simp only [run_bind, run_load_host, h0, Option.map_some', Option.some_bind, ge_iff_le,
    Nat.not_le.mpr hlt, if_false, run_set_args, run_ite, run_pure, run_modifySt]

/-- C1: for a versioned packet lying inside the host buffer, the result handed
to `host_command_received` is `EC_RES_INVALID_CHECKSUM` exactly when byte
`n + 3` differs from the sum of bytes `0 .. n + 2` modulo 256, and
`EC_RES_SUCCESS` exactly when it equals that sum. -/
theorem i2c_process_command_checksum_verdict (K : Consts) (s : St) (b0 n c : Nat)
    (h0 : s.host_buffer[0]? = some b0) (h2 : s.host_buffer[2]? = some n)
    (hc : s.host_buffer[n + 3]? = some c) (hv : K.EC_CMD_VERSION0 ≤ b0)
    (hne : K.EC_RES_INVALID_CHECKSUM ≠ K.EC_RES_SUCCESS) :
    ∃ s1 : St,
      (∀ hcr : HostCommand, (i2c_process_command K hcr).run s = hcr.run s1) ∧
      s1.trace = s.trace ++ [.host_command_received s1.host_cmd_args] ∧
      (s1.host_cmd_args.result = K.EC_RES_INVALID_CHECKSUM ↔
        c ≠ (s.host_buffer.take (n + 3)).sum % 256) ∧
      (s1.host_cmd_args.result = K.EC_RES_SUCCESS ↔
        c = (s.host_buffer.take (n + 3)).sum % 256) := by
  have hlen : 1 < s.host_buffer.length := by
    rcases Nat.lt_or_ge (n + 3) s.host_buffer.length with h | h
    · omega
    · rw [List.getElem?_eq_none h] at hc; cases hc
  have h1 : s.host_buffer[1]? = some s.host_buffer[1] := List.getElem?_eq_getElem hlen
  have hd := decode_versioned_run K s b0 _ n c h0 h1 h2 hc hv
  refine ⟨_, fun hcr => i2c_process_command_run K hcr s _ hd, rfl, ?_, ?_⟩
  · by_cases hcs : (s.host_buffer.take (n + 3)).sum % 256 = c
    · simp [versioned_args, hcs, hne.symm]
    · simp [versioned_args, hcs, Ne.symm hcs]
  · by_cases hcs : (s.host_buffer.take (n + 3)).sum % 256 = c
    · simp [versioned_args, hcs]
    · simp [versioned_args, hcs, Ne.symm hcs, hne]

theorem i2c_process_command_checksum_verdict_witness :
    ∃ s1 : St,
      (∀ hcr : HostCommand,
        (i2c_process_command exampleConsts hcr).run exampleBadRequest = hcr.run s1) ∧
      s1.trace = exampleBadRequest.trace ++ [.host_command_received s1.host_cmd_args] ∧
      (s1.host_cmd_args.result = exampleConsts.EC_RES_INVALID_CHECKSUM ↔
        0x89 ≠ (exampleBadRequest.host_buffer.take (1 + 3)).sum % 256) ∧
      (s1.host_cmd_args.result = exampleConsts.EC_RES_SUCCESS ↔
        0x89 = (exampleBadRequest.host_buffer.take (1 + 3)).sum % 256) :=
  i2c_process_command_checksum_verdict exampleConsts exampleBadRequest 0x80 1 0x89
    rfl rfl rfl (by decide) (by decide)

/-- C2: decoding undoes the versioned request framing.  When the host buffer
starts with `[EC_CMD_VERSION0 + v, c, n, p_0 .. p_{n-1}, checksum]` and the
checksum is the sum of the preceding bytes modulo 256, the collaborator is
called once with command `c`, version `v`, `n` parameter bytes at buffer
offset 3 (which are exactly `p`), result `EC_RES_SUCCESS`, response size 0,
and the new-style response format selected. -/
theorem i2c_process_command_decodes_versioned (K : Consts) (s : St) (v c ck : Nat)
    (p rest : List Nat)
    (hbuf : s.host_buffer = (K.EC_CMD_VERSION0 + v) :: c :: p.length :: (p ++ ck :: rest))
    (hck : ck = (K.EC_CMD_VERSION0 + v + c + p.length + p.sum) % 256) :
    ∃ s1 : St,
      (∀ hcr : HostCommand, (i2c_process_command K hcr).run s = hcr.run s1) ∧
      s1.trace = s.trace ++ [.host_command_received s1.host_cmd_args] ∧
      s1.host_cmd_args =
        { send_response := .i2c_send_response
          command := c
          version := v
          params := .host 3
          params_size := p.length
          response := .host 2
          response_max := K.EC_PROTO2_MAX_PARAM_SIZE
          response_size := 0
          result := K.EC_RES_SUCCESS } ∧
      (s1.host_cmd_args.params.mem s1).take s1.host_cmd_args.params_size = p ∧
      s1.i2c_old_response = 0 ∧
      s1.host_buffer = s.host_buffer := by
  have h0 : s.host_buffer[0]? = some (K.EC_CMD_VERSION0 + v) := by rw [hbuf]; rfl
  have h1 : s.host_buffer[1]? = some c := by rw [hbuf]; rfl
  have h2 : s.host_buffer[2]? = some p.length := by rw [hbuf]; simp
  have hc : s.host_buffer[p.length + 3]? = some ck := by
    rw [hbuf]
    simp only [List.getElem?_cons_succ]
    rw [List.getElem?_append_right (Nat.le_refl _)]
    simp
  have hsum : (s.host_buffer.take (p.length + 3)).sum
      = K.EC_CMD_VERSION0 + v + c + p.length + p.sum := by
    rw [hbuf]
    simp [List.take_succ_cons, List.take_append_eq_append_take]
    omega
  have hd := decode_versioned_run K s _ c p.length ck h0 h1 h2 hc (Nat.le_add_right _ _)
  refine ⟨_, fun hcr => i2c_process_command_run K hcr s _ hd, rfl, ?_, ?_, rfl, rfl⟩
  · simp [versioned_args, hsum, hck]
  · simp [versioned_args, Ptr.mem, hbuf]

theorem i2c_process_command_decodes_versioned_witness :
    ∃ s1 : St,
      (∀ hcr : HostCommand,
        (i2c_process_command exampleConsts hcr).run exampleRequest = hcr.run s1) ∧
      s1.trace = exampleRequest.trace ++ [.host_command_received s1.host_cmd_args] ∧
      s1.host_cmd_args =
        { send_response := .i2c_send_response
          command := 2
          version := 0
          params := .host 3
          params_size := [0x05].length
          response := .host 2
          response_max := exampleConsts.EC_PROTO2_MAX_PARAM_SIZE
          response_size := 0
          result := exampleConsts.EC_RES_SUCCESS } ∧
      (s1.host_cmd_args.params.mem s1).take s1.host_cmd_args.params_size = [0x05] ∧
      s1.i2c_old_response = 0 ∧
      s1.host_buffer = exampleRequest.host_buffer :=
  i2c_process_command_decodes_versioned exampleConsts exampleRequest 0 2 0x88 [0x05] [0, 0, 0]
    rfl (by decide)

/-- C6: a packet whose byte 0 is below `EC_CMD_VERSION0` is dispatched as a
legacy command: command = byte 0, version 0, `EC_PROTO2_MAX_PARAM_SIZE`
parameter bytes at buffer offset 1, result `EC_RES_SUCCESS` whatever the other
bytes are, and the old-style response format selected. -/
theorem i2c_process_command_legacy (K : Consts) (s : St) (b0 : Nat)
    (h0 : s.host_buffer[0]? = some b0) (hlt : b0 < K.EC_CMD_VERSION0) :
    ∃ s1 : St,
      (∀ hcr : HostCommand, (i2c_process_command K hcr).run s = hcr.run s1) ∧
      s1.trace = s.trace ++ [.host_command_received s1.host_cmd_args] ∧
      s1.host_cmd_args =
        { send_response := .i2c_send_response
          command := b0
          version := 0
          params := .host 1
          params_size := K.EC_PROTO2_MAX_PARAM_SIZE
          response := .host 2
          response_max := K.EC_PROTO2_MAX_PARAM_SIZE
          response_size := 0
          result := K.EC_RES_SUCCESS } ∧
      s1.i2c_old_response = 1 ∧
      s1.host_buffer = s.host_buffer := by
  have hd := decode_legacy_run K s b0 h0 hlt
  exact ⟨_, fun hcr => i2c_process_command_run K hcr s _ hd, rfl, rfl, rfl, rfl⟩

theorem i2c_process_command_legacy_witness :
    ∃ s1 : St,
      (∀ hcr : HostCommand,
        (i2c_process_command exampleConsts hcr).run { host_buffer := [0x11, 0xff, 0xff] }
          = hcr.run s1) ∧
      s1.trace = [.host_command_received s1.host_cmd_args] ∧
      s1.host_cmd_args =
        { send_response := .i2c_send_response
          command := 0x11
          version := 0
          params := .host 1
          params_size := exampleConsts.EC_PROTO2_MAX_PARAM_SIZE
          response := .host 2
          response_max := exampleConsts.EC_PROTO2_MAX_PARAM_SIZE
          response_size := 0
          result := exampleConsts.EC_RES_SUCCESS } ∧
      s1.i2c_old_response = 1 ∧
      s1.host_buffer = [0x11, 0xff, 0xff] :=
  i2c_process_command_legacy exampleConsts { host_buffer := [0x11, 0xff, 0xff] } 0x11
    rfl (by decide)

theorem and_0xff (x : Nat) : x &&& 0xff = x % 256 :=
  Nat.and_pow_two_sub_one_eq_mod x 8

theorem getElem?_at_length (pre : List Nat) (x : Nat) (rest : List Nat) :
    (pre ++ x :: rest)[pre.length]? = some x := by
  rw [List.getElem?_append_right (Nat.le_refl _)]; simp

theorem set_at_length (pre : List Nat) (x v : Nat) (rest : List Nat) :
    (pre ++ x :: rest).set pre.length v = pre ++ v :: rest := by
  rw [List.set_append_right _ _ (Nat.le_refl _)]; simp

theorem map_mod_256_of_bytes (d : List Nat) (hd : ∀ b ∈ d, b < 256) :
    d.map (· % 256) = d := by
  induction d with
  | nil => rfl
  | cons y d ih =>
    simp only [List.map_cons]
    rw [Nat.mod_eq_of_lt (hd y (List.mem_cons_self _ _)),
      ih (fun b hb => hd b (List.mem_cons_of_mem _ hb))]

/-- The copy loop when the payload already sits where it is staged. -/
theorem send_loop_in_place (d : List Nat) : ∀ (pre post : List Nat) (sum : Nat) (s : St),
    s.host_buffer = pre ++ d ++ post →
    (i2c_send_response_loop d.length (.host pre.length) pre.length sum).run s
      = some ((pre.length + d.length, sum + d.sum), s) := by
  induction d with
  | nil => intro pre post sum s _; simp [i2c_send_response_loop]
  | cons y d ih =>
    intro pre post sum s hb
    have hb1 : s.host_buffer = (pre ++ [y]) ++ d ++ post := by simp [hb]
    have hy : s.host_buffer[pre.length]? = some y := by
      rw [hb, List.append_assoc]; exact getElem?_at_length pre y (d ++ post)
    have := ih (pre ++ [y]) post (sum + y) s hb1
    simp only [List.length_append, List.length_singleton] at this
    simp only [i2c_send_response_loop, List.length_cons, run_bind, ne_eq, not_true_eq_false,
      if_false, run_ite, run_pure, Option.some_bind, run_load_host, hy, Option.map_some',
      Ptr.next, this, List.sum_cons]
    congr 3 <;> omega

/-- The copy loop when the payload is in another object. -/
theorem send_loop_other (d : List Nat) :
    ∀ (mpre mpost pre old post : List Nat) (sum : Nat) (s : St),
    old.length = d.length → s.host_buffer = pre ++ old ++ post →
    (i2c_send_response_loop d.length (.other (mpre ++ d ++ mpost) mpre.length)
        pre.length sum).run s
      = some ((pre.length + d.length, sum + d.sum),
          { s with host_buffer := pre ++ d.map (· % 256) ++ post }) := by
  induction d with
  | nil =>
    intro mpre mpost pre old post sum s hl hb
    have : old = [] := List.length_eq_zero.mp hl
    subst this
    have hb2 : pre ++ post = s.host_buffer := by simp [hb]
    simp [i2c_send_response_loop, hb2]
  | cons y d ih =>
    intro mpre mpost pre old post sum s hl hb
    cases old with
    | nil => simp at hl
    | cons x old =>
      have hl1 : old.length = d.length := by simpa using hl
      have hy : (mpre ++ (y :: d) ++ mpost)[mpre.length]? = some y := by
        rw [List.append_assoc]; exact getElem?_at_length mpre y (d ++ mpost)
      have hm : mpre ++ (y :: d) ++ mpost = (mpre ++ [y]) ++ d ++ mpost := by simp
      have hlen : pre.length < s.host_buffer.length := by
        rw [hb]; simp
      have hset : s.host_buffer.set pre.length (y % 256)
          = (pre ++ [y % 256]) ++ old ++ post := by
        rw [hb, List.append_assoc, List.cons_append, set_at_length]; simp
      have := ih (mpre ++ [y]) mpost (pre ++ [y % 256]) old post (sum + y)
        { s with host_buffer := s.host_buffer.set pre.length (y % 256) } hl1 hset
      simp only [List.length_append, List.length_singleton] at this
      simp only [i2c_send_response_loop, List.length_cons, run_bind, ne_eq, not_false_eq_true,
        if_true, run_ite, run_pure, Option.some_bind, run_load_other, hy, Option.map_some',
        run_store_host, hlen, Ptr.next, List.sum_cons, reduceCtorEq]
      rw [hm, this]
      simp only [List.map_cons, List.append_assoc, List.singleton_append, List.cons_append,
        List.nil_append]
      congr 3 <;> omega

/-- The copy loop when the payload sits one byte after the place where it is
staged (an overlapping forward copy). -/
theorem send_loop_shift (d : List Nat) : ∀ (pre post : List Nat) (x sum : Nat) (s : St),
    s.host_buffer = pre ++ x :: (d ++ post) →
    (i2c_send_response_loop d.length (.host (pre.length + 1)) pre.length sum).run s
      = some ((pre.length + d.length, sum + d.sum),
          { s with host_buffer := pre ++ d.map (· % 256) ++ d.getLastD x :: post }) := by
  induction d with
  | nil =>
    intro pre post x sum s hb
    have hb2 : pre ++ x :: post = s.host_buffer := by simp [hb]
    simp [i2c_send_response_loop, hb2]
  | cons y d ih =>
    intro pre post x sum s hb
    have hy : s.host_buffer[pre.length + 1]? = some y := by
      rw [hb]
      have := getElem?_at_length (pre ++ [x]) y (d ++ post)
      simpa using this
    have hlen : pre.length < s.host_buffer.length := by
      rw [hb]; simp
    have hset : s.host_buffer.set pre.length (y % 256)
        = (pre ++ [y % 256]) ++ y :: (d ++ post) := by
      rw [hb, set_at_length]; simp
    have hy2 : (s.host_buffer.set pre.length (y % 256))[pre.length + 1]? = some y := by
      rw [hset]
      have := getElem?_at_length (pre ++ [y % 256]) y (d ++ post)
      simpa using this
    have := ih (pre ++ [y % 256]) post y (sum + y)
      { s with host_buffer := s.host_buffer.set pre.length (y % 256) } hset
    simp only [List.length_append, List.length_singleton] at this
    have hne : ¬ (pre.length + 1 = pre.length) := by omega
    simp only [i2c_send_response_loop, List.length_cons, run_bind, ne_eq, Ptr.host.injEq, hne,
      not_false_eq_true, if_true, run_ite, run_pure, Option.some_bind, run_load_host, hy,
      Option.map_some', run_store_host, hlen, Ptr.next, List.sum_cons, hy2, this]
    simp only [List.map_cons, List.append_assoc, List.singleton_append, List.cons_append,
      List.nil_append, List.getLastD_cons]
    congr 3 <;> omega

theorem split_buffer2 (l : List Nat) (n : Nat) (h : n + 2 ≤ l.length) :
    ∃ x0 x1, l = x0 :: x1 :: ((l.drop 2).take n ++ l.drop (n + 2)) := by
  match l, h with
  | x0 :: x1 :: l2, _ =>
    refine ⟨x0, x1, ?_⟩
    have : List.drop (n + 2) (x0 :: x1 :: l2) = l2.drop n := by simp
    rw [this]
    simp [List.take_append_drop]

theorem split_buffer3 (l : List Nat) (n : Nat) (h : n + 3 ≤ l.length) :
    ∃ x0 x1 x2, l = x0 :: x1 :: ((l.drop 2).take n ++ x2 :: l.drop (n + 3)) := by
  obtain ⟨x0, x1, h2⟩ := split_buffer2 l n (by omega)
  have hlt : n + 2 < l.length := by omega
  refine ⟨x0, x1, l[n + 2], ?_⟩
  have : l.drop (n + 2) = l[n + 2] :: l.drop (n + 3) := List.drop_eq_getElem_cons hlt
  rw [← this]; exact h2

theorem stage_versioned_run (args : host_cmd_handler_args) (s : St) (d : List Nat)
    (hsize : args.response_size = d.length) (hnew : s.i2c_old_response = 0)
    (hfit : d.length + 3 ≤ s.host_buffer.length)
    (hdata : (args.response = .host 2 ∧ (s.host_buffer.drop 2).take d.length = d) ∨
      (∃ mpre mpost, args.response = .other (mpre ++ d ++ mpost) mpre.length)) :
    (i2c_send_response_stage args).run s = some (d.length + 3,
      { s with host_buffer :=
          (args.result % 256) :: (d.length % 256) :: ((if args.response = .host 2 then d
            else d.map (· % 256)) ++ [(args.result + d.length + d.sum) % 256])
          ++ s.host_buffer.drop (d.length + 3) }) := by
  obtain ⟨tr, nw, cl, sr, buf, ha, old, rxp, rs, ix, lnt⟩ := s
  simp only at hnew hfit hdata ⊢
  subst hnew
  obtain ⟨x0, x1, x2, hb⟩ := split_buffer3 buf d.length hfit
  generalize hrest : buf.drop (d.length + 3) = rest at hb
  generalize hold : (buf.drop 2).take d.length = old at hb hdata
  have holdlen : old.length = d.length := by
    rw [← hold, List.length_take, List.length_drop]; omega
  subst hb
  unfold i2c_send_response_stage
  simp only [run_bind, run_store_host, List.length_cons, Nat.zero_lt_succ, if_true,
    Option.some_bind, run_getSt, run_ite, run_pure, List.set_cons_succ, List.set_cons_zero, hsize,
    Nat.lt_add_left_iff_pos, Nat.mod_mod]
  have e : d.length + 1 + 1 = 2 + d.length := by omega
  rcases hdata with ⟨hp, hd⟩ | ⟨mpre, mpost, hp⟩
  · subst hd
    have hloop := send_loop_in_place old [args.result % 256, old.length % 256]
      (x2 :: rest) (args.result + old.length)
      { trace := tr, now := nw, claimed := cl, i2c_sr1 := sr,
        host_buffer := (args.result % 256) :: (old.length % 256) :: (old ++ x2 :: rest),
        host_cmd_args := ha, i2c_old_response := 0, rx_pending := rxp,
        rsoc := rs, index := ix, last_notify_time := lnt }
      (by simp)
    simp only [List.length_cons, List.length_nil, Nat.zero_add, Nat.reduceAdd] at hloop
    have hset := set_at_length ((args.result % 256) :: (old.length % 256) :: old) x2
      ((args.result + old.length + old.sum) % 256) rest
    simp only [List.length_cons, List.cons_append, e] at hset
    rw [hp, hloop]
    simp only [Option.some_bind, List.length_cons, List.length_append, run_bind, run_store_host,
      run_pure, and_0xff, Nat.mod_mod, if_true]
    rw [if_pos (by omega), hset]
    simp only [Option.some_bind, List.cons_append, List.append_assoc, List.singleton_append,
      List.nil_append]
    congr 2
    omega
  · have hloop := send_loop_other d mpre mpost [args.result % 256, d.length % 256] old
      (x2 :: rest) (args.result + d.length)
      { trace := tr, now := nw, claimed := cl, i2c_sr1 := sr,
        host_buffer := (args.result % 256) :: (d.length % 256) :: (old ++ x2 :: rest),
        host_cmd_args := ha, i2c_old_response := 0, rx_pending := rxp,
        rsoc := rs, index := ix, last_notify_time := lnt }
      holdlen (by simp)
    simp only [List.length_cons, List.length_nil, Nat.zero_add, Nat.reduceAdd] at hloop
    have hset := set_at_length ((args.result % 256) :: (d.length % 256) :: d.map (· % 256)) x2
      ((args.result + d.length + d.sum) % 256) rest
    simp only [List.length_cons, List.cons_append, List.length_map, e] at hset
    rw [hp, hloop]
    simp only [Option.some_bind, List.length_cons, List.length_append, run_bind, run_store_host,
      run_pure, and_0xff, Nat.mod_mod, if_true, List.cons_append, List.nil_append,
      List.length_map, reduceCtorEq, if_false]
    rw [if_pos (by omega), hset]
    simp only [Option.some_bind, List.cons_append, List.append_assoc, List.singleton_append,
      List.nil_append]
    congr 2
    omega

theorem split_buffer1 (l : List Nat) (n : Nat) (h : n + 2 ≤ l.length) :
    ∃ x0 x2, l = x0 :: ((l.drop 1).take n ++ x2 :: l.drop (n + 2)) := by
  match l, h with
  | x0 :: l1, h =>
    have hlt : n < l1.length := by simp at h; omega
    refine ⟨x0, l1[n], ?_⟩
    have h1 : List.drop (n + 2) (x0 :: l1) = l1.drop (n + 1) := by simp
    have h2 : l1.drop n = l1[n] :: l1.drop (n + 1) := List.drop_eq_getElem_cons hlt
    rw [h1, ← h2]
    simp [List.take_append_drop]

theorem stage_legacy_run (args : host_cmd_handler_args) (s : St) (d : List Nat)
    (hsize : args.response_size = d.length) (hold : s.i2c_old_response ≠ 0)
    (hfit : d.length + 2 ≤ s.host_buffer.length)
    (hdata : (args.response = .host 2 ∧ (s.host_buffer.drop 2).take d.length = d) ∨
      (∃ mpre mpost, args.response = .other (mpre ++ d ++ mpost) mpre.length)) :
    (i2c_send_response_stage args).run s = some (d.length + 2,
      { s with host_buffer :=
          (args.result % 256) :: (d.map (· % 256) ++ [d.sum % 256])
          ++ s.host_buffer.drop (d.length + 2) }) := by
  obtain ⟨tr, nw, cl, sr, buf, ha, old, rxp, rs, ix, lnt⟩ := s
  simp only at hold hfit hdata ⊢
  have e : d.length + 1 = 1 + d.length := by omega
  unfold i2c_send_response_stage
  rcases hdata with ⟨hp, hd⟩ | ⟨mpre, mpost, hp⟩
  · obtain ⟨x0, x1, hb⟩ := split_buffer2 buf d.length hfit
    generalize hrest : buf.drop (d.length + 2) = rest at hb
    rw [hd] at hb
    subst hb
    have hloop := send_loop_shift d [args.result % 256] rest x1 0
      { trace := tr, now := nw, claimed := cl, i2c_sr1 := sr,
        host_buffer := (args.result % 256) :: x1 :: (d ++ rest),
        host_cmd_args := ha, i2c_old_response := old, rx_pending := rxp,
        rsoc := rs, index := ix, last_notify_time := lnt }
      (by simp)
    simp only [List.length_cons, List.length_nil, Nat.zero_add, Nat.reduceAdd] at hloop
    have hset := set_at_length ((args.result % 256) :: d.map (· % 256)) (d.getLastD x1)
      (d.sum % 256) rest
    simp only [List.length_cons, List.cons_append, List.length_map, e] at hset
    simp only [run_bind, run_store_host, List.length_cons, Nat.zero_lt_succ, if_true,
      Option.some_bind, run_getSt, run_ite, run_pure, List.set_cons_zero, hsize, hold, if_false, hp,
      hloop, and_0xff, Nat.mod_mod, List.length_append, List.length_map, List.singleton_append,
      List.cons_append, List.nil_append]
    rw [if_pos (by omega), hset]
    simp only [Option.some_bind, List.cons_append, List.append_assoc, List.singleton_append,
      List.nil_append, Nat.zero_add]
    congr 2
    omega
  · obtain ⟨x0, x2, hb⟩ := split_buffer1 buf d.length hfit
    generalize hrest : buf.drop (d.length + 2) = rest at hb
    generalize hold1 : (buf.drop 1).take d.length = old1 at hb
    have holdlen : old1.length = d.length := by
      rw [← hold1, List.length_take, List.length_drop]; omega
    subst hb
    have hloop := send_loop_other d mpre mpost [args.result % 256] old1 (x2 :: rest) 0
      { trace := tr, now := nw, claimed := cl, i2c_sr1 := sr,
        host_buffer := (args.result % 256) :: (old1 ++ x2 :: rest),
        host_cmd_args := ha, i2c_old_response := old, rx_pending := rxp,
        rsoc := rs, index := ix, last_notify_time := lnt }
      holdlen (by simp)
    simp only [List.length_cons, List.length_nil, Nat.zero_add, Nat.reduceAdd] at hloop
    have hset := set_at_length ((args.result % 256) :: d.map (· % 256)) x2
      (d.sum % 256) rest
    simp only [List.length_cons, List.cons_append, List.length_map, e] at hset
    simp only [run_bind, run_store_host, List.length_cons, Nat.zero_lt_succ, if_true,
      Option.some_bind, run_getSt, run_ite, run_pure, List.set_cons_zero, hsize, hold, if_false, hp,
      hloop, and_0xff, Nat.mod_mod, List.length_append, List.length_map, List.singleton_append,
      List.cons_append, List.nil_append]
    rw [if_pos (by omega), hset]
    simp only [Option.some_bind, List.cons_append, List.append_assoc, List.singleton_append,
      List.nil_append, Nat.zero_add]
    congr 2
    omega

theorem spec_decode_encode (r : Nat) (d : List Nat) :
    spec_decode_response (spec_encode_response r d) = some (r, d) := by
  have h1 : (d ++ [(r + d.length + d.sum) % 256])[d.length]?
      = some ((r + d.length + d.sum) % 256) := by
    exact getElem?_at_length d ((r + d.length + d.sum) % 256) []
  simp [spec_decode_response, spec_encode_response, h1]

theorem i2c_send_response_run (K : Consts) (env : Env) (args : host_cmd_handler_args)
    (s s1 : St) (len : Nat) (h : (i2c_send_response_stage args).run s = some (len, s1)) :
    (i2c_send_response K env args).run s =
      ((i2c_write_raw_slave K env I2C2 (.host 0) len).run s1).map (fun p => ((), p.2)) := by
  unfold i2c_send_response
  simp only [run_bind, h, Option.some_bind, run_pure]
  cases (i2c_write_raw_slave K env I2C2 (.host 0) len).run s1 <;> rfl

/-- C3: for a versioned request, a result code `r < 256` and a payload `d` of
fewer than 256 bytes (found where `i2c_process_command` put the response
pointer, or in another object), `i2c_send_response` stages exactly the
`n + 3` bytes `[r, n, d_0 .. d_{n-1}, (r + n + Σd) mod 256]` at the start of
`host_buffer` and calls the slave transmit routine on that buffer with length
`n + 3`; reading the staged bytes back recovers `(r, d)`, and the last byte is
the sum of the preceding ones modulo 256. -/
theorem i2c_send_response_versioned (K : Consts) (env : Env) (args : host_cmd_handler_args)
    (s : St) (r : Nat) (d : List Nat)
    (hr : r < 256) (hn : d.length < 256) (hd : ∀ b ∈ d, b < 256)
    (hres : args.result = r) (hsize : args.response_size = d.length)
    (hnew : s.i2c_old_response = 0) (hfit : d.length + 3 ≤ s.host_buffer.length)
    (hdata : (args.response = .host 2 ∧ (s.host_buffer.drop 2).take d.length = d) ∨
      (∃ mpre mpost, args.response = .other (mpre ++ d ++ mpost) mpre.length)) :
    (i2c_send_response_stage args).run s = some (d.length + 3,
      { s with host_buffer :=
          spec_encode_response r d ++ s.host_buffer.drop (d.length + 3) }) ∧
    (i2c_send_response K env args).run s =
      ((i2c_write_raw_slave K env I2C2 (.host 0) (d.length + 3)).run
        { s with host_buffer :=
            spec_encode_response r d ++ s.host_buffer.drop (d.length + 3) }).map
        (fun p => ((), p.2)) ∧
    spec_encode_response r d = r :: d.length :: (d ++ [(r + d.length + d.sum) % 256]) ∧
    (spec_encode_response r d).length = d.length + 3 ∧
    spec_decode_response (spec_encode_response r d) = some (r, d) ∧
    (spec_encode_response r d).getLast? =
      some ((spec_encode_response r d).dropLast.sum % 256) := by
  have hst := stage_versioned_run args s d hsize hnew hfit hdata
  have hbytes : (if args.response = .host 2 then d else d.map (· % 256)) = d := by
    split
    · rfl
    · exact map_mod_256_of_bytes d hd
  rw [hbytes, hres, Nat.mod_eq_of_lt hr, Nat.mod_eq_of_lt hn] at hst
  have henc : spec_encode_response r d = r :: d.length :: (d ++ [(r + d.length + d.sum) % 256]) :=
    rfl
  refine ⟨?_, ?_, henc, ?_, spec_decode_encode r d, ?_⟩
  · rw [henc]; exact hst
  · rw [henc]; exact i2c_send_response_run K env args s _ _ hst
  · simp [henc]
  · have h1 : r :: d.length :: (d ++ [(r + d.length + d.sum) % 256])
        = (r :: d.length :: d) ++ [(r + d.length + d.sum) % 256] := by simp
    rw [henc, h1, List.getLast?_concat, List.dropLast_concat]
    simp [Nat.add_assoc]

theorem i2c_send_response_versioned_witness :
    (i2c_send_response_stage { response := .host 2, response_size := 0, result := 0 }).run
        exampleRequest = some (0 + 3,
      { exampleRequest with host_buffer := [0x00, 0x00, 0x00] ++ [5, 0x88, 0, 0, 0] }) ∧
    spec_encode_response 0 [] = [0x00, 0x00, 0x00] :=
  have h := i2c_send_response_versioned exampleConsts allOnes
    { response := .host 2, response_size := 0, result := 0 } exampleRequest 0 []
    (by decide) (by decide) (by simp) rfl rfl rfl (by decide) (Or.inl ⟨rfl, rfl⟩)
  ⟨h.1, h.2.2.1⟩

/-- C4 as stated fails: for the legacy response with result 3 and payload
`[1, 5]` the driver stages and transmits the four bytes `[3, 1, 5, 6]`, the
last one being the payload sum, not the three bytes `[3, 1, 5]`. -/
theorem i2c_send_response_legacy_counterexample :
    ((i2c_send_response_stage exampleLegacyArgs).run exampleLegacyState).map
        (fun p => (p.1, p.2.host_buffer.take p.1)) = some (4, [3, 1, 5, 6]) ∧
    ((i2c_send_response_stage exampleLegacyArgs).run exampleLegacyState).map
        (fun p => (p.1, p.2.host_buffer.take p.1)) ≠ some (2 + 1, [3, 1, 5]) := by
  constructor
  · rfl
  · decide

/-- C4, amended: for a legacy request, a result code `r < 256` and a payload
`d` of bytes, `i2c_send_response` stages exactly the `n + 2` bytes
`[r, d_0 .. d_{n-1}, (Σd) mod 256]` and calls the slave transmit routine with
length `n + 2`: there is no length byte, and the trailing byte is the sum of
the payload bytes alone. -/
theorem i2c_send_response_legacy (K : Consts) (env : Env) (args : host_cmd_handler_args)
    (s : St) (r : Nat) (d : List Nat)
    (hr : r < 256) (hd : ∀ b ∈ d, b < 256)
    (hres : args.result = r) (hsize : args.response_size = d.length)
    (hold : s.i2c_old_response ≠ 0) (hfit : d.length + 2 ≤ s.host_buffer.length)
    (hdata : (args.response = .host 2 ∧ (s.host_buffer.drop 2).take d.length = d) ∨
      (∃ mpre mpost, args.response = .other (mpre ++ d ++ mpost) mpre.length)) :
    (i2c_send_response_stage args).run s = some (d.length + 2,
      { s with host_buffer := legacy_response r d ++ s.host_buffer.drop (d.length + 2) }) ∧
    (i2c_send_response K env args).run s =
      ((i2c_write_raw_slave K env I2C2 (.host 0) (d.length + 2)).run
        { s with host_buffer := legacy_response r d ++ s.host_buffer.drop (d.length + 2) }).map
        (fun p => ((), p.2)) ∧
    legacy_response r d = r :: (d ++ [d.sum % 256]) ∧
    (legacy_response r d).length = d.length + 2 := by
  have hst := stage_legacy_run args s d hsize hold hfit hdata
  rw [map_mod_256_of_bytes d hd, hres, Nat.mod_eq_of_lt hr] at hst
  refine ⟨hst, i2c_send_response_run K env args s _ _ hst, rfl, ?_⟩
  simp [legacy_response]

theorem i2c_send_response_legacy_witness :
    (i2c_send_response_stage exampleLegacyArgs).run exampleLegacyState = some (2 + 2,
      { exampleLegacyState with host_buffer := [3, 1, 5, 6] ++ [0x89, 0, 0, 0] }) :=
  (i2c_send_response_legacy exampleConsts allOnes exampleLegacyArgs exampleLegacyState 3 [1, 5]
    (by decide) (by decide) rfl rfl (by decide) (by decide) (Or.inl ⟨rfl, rfl⟩)).1

/-- C5: a checksum mismatch never suppresses dispatch.  For a versioned packet
inside the host buffer whose checksum byte is wrong, the collaborator is called
exactly once, as it is for the same packet with the right checksum byte, and
with the same arguments except that the result handed over is
`EC_RES_INVALID_CHECKSUM` instead of `EC_RES_SUCCESS`; a response sent with
these arguments carries `EC_RES_INVALID_CHECKSUM` as its result byte. -/
theorem i2c_process_command_bad_checksum_still_dispatches (K : Consts) (s : St)
    (b0 n c : Nat)
    (h0 : s.host_buffer[0]? = some b0) (h2 : s.host_buffer[2]? = some n)
    (hc : s.host_buffer[n + 3]? = some c) (hv : K.EC_CMD_VERSION0 ≤ b0)
    (hbad : c ≠ (s.host_buffer.take (n + 3)).sum % 256) :
    ∃ s1 sgood : St,
      (∀ hcr : HostCommand, (i2c_process_command K hcr).run s = hcr.run s1) ∧
      s1.trace = s.trace ++ [.host_command_received s1.host_cmd_args] ∧
      (∀ hcr : HostCommand,
        (i2c_process_command K hcr).run
          { s with host_buffer :=
              s.host_buffer.set (n + 3) ((s.host_buffer.take (n + 3)).sum % 256) }
          = hcr.run sgood) ∧
      sgood.trace = s.trace ++ [.host_command_received sgood.host_cmd_args] ∧
      sgood.host_cmd_args.result = K.EC_RES_SUCCESS ∧
      s1.host_cmd_args = { sgood.host_cmd_args with result := K.EC_RES_INVALID_CHECKSUM } ∧
      s1.host_cmd_args.command = s.host_buffer.getD 1 0 ∧
      s1.host_cmd_args.version = b0 - K.EC_CMD_VERSION0 ∧
      s1.host_cmd_args.params_size = n ∧
      s1.host_cmd_args.params = .host 3 ∧
      ∃ s2 : St, (i2c_send_response_stage s1.host_cmd_args).run s1 = some (3, s2) ∧
        s2.host_buffer[0]? = some (K.EC_RES_INVALID_CHECKSUM % 256) := by
  have hlen : n + 3 < s.host_buffer.length := by
    rcases Nat.lt_or_ge (n + 3) s.host_buffer.length with h | h
    · exact h
    · rw [List.getElem?_eq_none h] at hc; cases hc
  have h1 : s.host_buffer[1]? = some s.host_buffer[1] := List.getElem?_eq_getElem (by omega)
  have hg1 : s.host_buffer.getD 1 0 = s.host_buffer[1] := by
    rw [List.getD_eq_getElem?_getD, h1]; rfl
  have hd := decode_versioned_run K s b0 _ n c h0 h1 h2 hc hv
  -- the same packet with the right checksum byte
  have hgood := decode_versioned_run K
    { s with host_buffer := s.host_buffer.set (n + 3) ((s.host_buffer.take (n + 3)).sum % 256) }
    b0 s.host_buffer[1] n ((s.host_buffer.take (n + 3)).sum % 256)
    (by simp only; rw [List.getElem?_set_ne (by omega)]; exact h0)
    (by simp only; rw [List.getElem?_set_ne (by omega)]; exact h1)
    (by simp only; rw [List.getElem?_set_ne (by omega)]; exact h2)
    (by simp only; rw [List.getElem?_set_self hlen])
    hv
  have htake : (s.host_buffer.set (n + 3) ((s.host_buffer.take (n + 3)).sum % 256)).take (n + 3)
      = s.host_buffer.take (n + 3) := by
    apply List.ext_getElem?
    intro i
    rw [List.getElem?_take, List.getElem?_take]
    split
    · rw [List.getElem?_set_ne (by omega)]
    · rfl
  simp only [htake, decide_True] at hgood
  have hdec : decide ((s.host_buffer.take (n + 3)).sum % 256 = c) = false := by
    simp [Ne.symm hbad]
  rw [hdec] at hd
  have hstage := stage_versioned_run
    (versioned_args K b0 s.host_buffer[1] n false)
    { s with
      host_cmd_args := versioned_args K b0 s.host_buffer[1] n false
      i2c_old_response := 0
      trace := s.trace ++ [.host_command_received (versioned_args K b0 s.host_buffer[1] n false)] }
    [] rfl rfl (by simp only [List.length_nil]; omega) (Or.inl ⟨rfl, rfl⟩)
  refine ⟨_, _, fun hcr => i2c_process_command_run K hcr s _ hd, rfl,
    fun hcr => i2c_process_command_run K hcr _ _ hgood, rfl, rfl, rfl, hg1.symm, rfl, rfl, rfl,
    _, hstage, ?_⟩
  simp [versioned_args]

theorem i2c_process_command_bad_checksum_still_dispatches_witness :
    ∃ s1 sgood : St,
      (∀ hcr : HostCommand,
        (i2c_process_command exampleConsts hcr).run exampleBadRequest = hcr.run s1) ∧
      s1.trace = exampleBadRequest.trace ++ [.host_command_received s1.host_cmd_args] ∧
      (∀ hcr : HostCommand,
        (i2c_process_command exampleConsts hcr).run
          { exampleBadRequest with host_buffer :=
              (exampleBadRequest.host_buffer.set (1 + 3)
                ((exampleBadRequest.host_buffer.take (1 + 3)).sum % 256)) }
          = hcr.run sgood) ∧
      sgood.trace = exampleBadRequest.trace ++ [.host_command_received sgood.host_cmd_args] ∧
      sgood.host_cmd_args.result = exampleConsts.EC_RES_SUCCESS ∧
      s1.host_cmd_args =
        { sgood.host_cmd_args with result := exampleConsts.EC_RES_INVALID_CHECKSUM } ∧
      s1.host_cmd_args.command = exampleBadRequest.host_buffer.getD 1 0 ∧
      s1.host_cmd_args.version = 0x80 - exampleConsts.EC_CMD_VERSION0 ∧
      s1.host_cmd_args.params_size = 1 ∧
      s1.host_cmd_args.params = .host 3 ∧
      ∃ s2 : St, (i2c_send_response_stage s1.host_cmd_args).run s1 = some (3, s2) ∧
        s2.host_buffer[0]? = some (exampleConsts.EC_RES_INVALID_CHECKSUM % 256) :=
  i2c_process_command_bad_checksum_still_dispatches exampleConsts exampleBadRequest 0x80 1 0x89
    rfl rfl rfl (by decide) (by decide)

/-! ## Quiet runs -/

theorem Quiet.refl (s : St) : Quiet s s :=
  ⟨Nat.le_refl _, rfl, rfl, rfl, rfl, rfl, rfl, [], by simp, by simp⟩

theorem Quiet.trans {a b c : St} (h1 : Quiet a b) (h2 : Quiet b c) : Quiet a c := by
  obtain ⟨n1, c1, r1, b1, g1, o1, x1, t1, e1, f1⟩ := h1
  obtain ⟨n2, c2, r2, b2, g2, o2, x2, t2, e2, f2⟩ := h2
  refine ⟨Nat.le_trans n1 n2, c2.trans c1, r2.trans r1, b2.trans b1, g2.trans g1, o2.trans o1,
    x2.trans x1, t1 ++ t2, by rw [e2, e1, List.append_assoc], ?_⟩
  intro p hp
  rcases List.mem_append.mp hp with h | h
  · exact f1 p h
  · exact f2 p h

theorem quiet_step (s : St) (e : Event) (t : Nat) (he : ∀ p, e ≠ .i2c_release p)
    (ht : s.now ≤ t) : Quiet s { s with now := t, trace := s.trace ++ [e] } :=
  ⟨ht, rfl, rfl, rfl, rfl, rfl, rfl, [e], rfl, fun p hp => he p (List.mem_singleton.mp hp).symm⟩

theorem TotQ.pure {α : Type} {a : α} {s : St} {P : α → St → Prop} (h : P a s) :
    TotQ (pure a) s P :=
  ⟨a, s, rfl, Quiet.refl s, h⟩

theorem TotQ.bind {α β : Type} {m : M α} {k : α → M β} {s : St} {P : α → St → Prop}
    {Q : β → St → Prop} (hm : TotQ m s P)
    (hk : ∀ a s1, Quiet s s1 → P a s1 → TotQ (k a) s1 Q) : TotQ (m >>= k) s Q := by
  obtain ⟨a, s1, e1, q1, p1⟩ := hm
  obtain ⟨b, s2, e2, q2, p2⟩ := hk a s1 q1 p1
  refine ⟨b, s2, ?_, q1.trans q2, p2⟩
  rw [run_bind, e1]
  exact e2

theorem TotQ.mono {α : Type} {m : M α} {s : St} {P P' : α → St → Prop} (hm : TotQ m s P)
    (h : ∀ a s', Quiet s s' → P a s' → P' a s') : TotQ m s P' := by
  obtain ⟨a, s1, e1, q1, p1⟩ := hm
  exact ⟨a, s1, e1, q1, h a s1 q1 p1⟩

theorem TotQ.ite {α : Type} {c : Prop} [Decidable c] {a b : M α} {s : St}
    {P : α → St → Prop} (ha : c → TotQ a s P) (hb : ¬ c → TotQ b s P) :
    TotQ (if c then a else b) s P := by
  split
  · exact ha ‹_›
  · exact hb ‹_›

theorem emit_totq (e : Event) (he : ∀ p, e ≠ .i2c_release p) (s : St) :
    TotQ (emit e) s (fun _ _ => True) :=
  ⟨(), _, rfl, quiet_step s e s.now he (Nat.le_refl _), trivial⟩

theorem reg_read_totq (env : Env) (r : Reg) (s : St) :
    TotQ (reg_read env r) s (fun _ _ => True) :=
  ⟨_, _, rfl, quiet_step s _ s.now (fun _ h => by cases h) (Nat.le_refl _), trivial⟩

theorem reg_write_totq (r : Reg) (v : Nat) (s : St) :
    TotQ (reg_write r v) s (fun _ _ => True) :=
  emit_totq _ (fun _ h => by cases h) s

theorem get_time_totq (env : Env) (s : St) :
    TotQ (get_time env) s (fun t s' => s'.now = t ∧ s.now + env s.trace .tick = t) :=
  ⟨_, _, rfl, quiet_step s _ _ (fun _ h => by cases h) (Nat.le_add_right _ _), rfl, rfl⟩

theorem usleep_totq (env : Env) (us : Nat) (s : St) :
    TotQ (usleep env us) s (fun _ s' => s.now + us ≤ s'.now) :=
  ⟨_, _, rfl, quiet_step s _ _ (fun _ h => by cases h)
    (by rw [Nat.add_assoc]; exact Nat.le_add_right _ _), Nat.le_add_right _ _⟩

theorem task_wait_event_totq (env : Env) (t : Nat) (s : St) :
    TotQ (task_wait_event env t) s (fun _ _ => True) :=
  ⟨_, _, rfl, quiet_step s _ s.now (fun _ h => by cases h) (Nat.le_refl _), trivial⟩

theorem uninit_u8_totq (env : Env) (s : St) :
    TotQ (uninit_u8 env) s (fun _ _ => True) :=
  ⟨_, _, rfl, quiet_step s _ s.now (fun _ h => by cases h) (Nat.le_refl _), trivial⟩

theorem ASSERT_totq (c : Prop) [Decidable c] (h : c) (s : St) :
    TotQ (ASSERT c) s (fun _ _ => True) :=
  ⟨(), s, by simp [ASSERT, M.run, h], Quiet.refl s, trivial⟩

theorem i2c_claim_held_totq (K : Consts) (port : Nat) (s : St) (h : s.claimed port = true) :
    TotQ (i2c_claim K port) s (fun rv _ => rv = K.EC_ERROR_BUSY) :=
  ⟨_, _, by simp [i2c_claim, M.run, h]; rfl,
    quiet_step s _ s.now (fun _ h => by cases h) (Nat.le_refl _), rfl⟩

theorem dma_rx_collect_totq (env : Env) (size : Nat) (buf : List Nat) (s : St)
    (h : size ≤ buf.length) : TotQ (dma_rx_collect env size buf) s (fun _ _ => True) := by
  refine ⟨(List.range size).map (fun i => env s.trace (.dma_byte i) % 256) ++ buf.drop size,
    { s with trace := s.trace ++
        [.dma_rx_data ((List.range size).map fun i => env s.trace (.dma_byte i) % 256)] },
    ?_, quiet_step s _ s.now (fun _ h => by cases h) (Nat.le_refl _), trivial⟩
  simp [dma_rx_collect, M.run, Nat.not_lt.mpr h]

/-! ## The master path: every function returns, quietly -/

theorem disable_i2c_interrupt_totq (env : Env) (port : Nat) (s : St) :
    TotQ (disable_i2c_interrupt env port) s (fun _ _ => True) :=
  TotQ.bind (reg_read_totq env _ s) (fun _ s1 _ _ => reg_write_totq _ _ s1)

theorem enable_i2c_interrupt_totq (env : Env) (port : Nat) (s : St) :
    TotQ (enable_i2c_interrupt env port) s (fun _ _ => True) :=
  TotQ.bind (reg_read_totq env _ s) (fun _ s1 _ _ => reg_write_totq _ _ s1)

theorem enable_ack_totq (env : Env) (port : Nat) (s : St) :
    TotQ (enable_ack env port) s (fun _ _ => True) :=
  TotQ.bind (reg_read_totq env _ s) (fun _ s1 _ _ => reg_write_totq _ _ s1)

theorem disable_ack_totq (env : Env) (port : Nat) (s : St) :
    TotQ (disable_ack env port) s (fun _ _ => True) :=
  TotQ.bind (reg_read_totq env _ s) (fun _ s1 _ _ => reg_write_totq _ _ s1)

theorem master_stop_totq (env : Env) (port : Nat) (s : St) :
    TotQ (master_stop env port) s (fun _ _ => True) :=
  TotQ.bind (reg_read_totq env _ s) (fun _ s1 _ _ => reg_write_totq _ _ s1)

theorem read_clear_status_totq (env : Env) (port : Nat) (s : St) :
    TotQ (read_clear_status env port) s (fun _ _ => True) :=
  TotQ.bind (reg_read_totq env _ s) (fun _ s1 _ _ =>
    TotQ.bind (reg_read_totq env _ s1) (fun _ _ _ _ => TotQ.pure trivial))

theorem isWaitOutcome_success (K : Consts) : IsWaitOutcome K K.EC_SUCCESS := Or.inl rfl

theorem isWaitOutcome_timeout (K : Consts) (w : Nat) :
    IsWaitOutcome K (K.EC_ERROR_TIMEOUT ||| (w <<< 8)) := Or.inr ⟨w, rfl⟩

theorem isWaitOutcome_plain_timeout (K : Consts) : IsWaitOutcome K K.EC_ERROR_TIMEOUT :=
  Or.inr ⟨0, by simp⟩

theorem wait_status_loop_totq (K : Consts) (env : Env) (htick : Ticking env)
    (port mask wait t1 : Nat) : ∀ (fuel r : Nat) (s : St),
    0 < fuel → t1 + I2C_TX_TIMEOUT_MASTER + 1 ≤ s.now + fuel →
    TotQ (wait_status_loop K env port mask wait t1 fuel r) s
      (fun rv _ => IsWaitOutcome K rv) := by
  intro fuel
  induction fuel with
  | zero => intro r s h; exact absurd h (Nat.lt_irrefl 0)
  | succ fuel ih =>
    intro r s _ hfuel
    unfold wait_status_loop
    refine TotQ.ite (fun _ => ?_) (fun _ => TotQ.pure (isWaitOutcome_success K))
    refine TotQ.bind (get_time_totq env s) (fun t2 s1 _ ht => ?_)
    have htk := htick s.trace
    refine TotQ.ite (fun _ => TotQ.pure (isWaitOutcome_timeout K wait)) (fun hnt => ?_)
    refine TotQ.bind (P := fun _ _ => True) ?_ (fun _ s2 q2 _ => ?_)
    · exact TotQ.ite (fun _ => (usleep_totq env 100 s1).mono (fun _ _ _ _ => trivial))
        (fun _ => TotQ.pure trivial)
    refine TotQ.bind (reg_read_totq env _ s2) (fun r2 s3 q3 _ => ?_)
    have h3 : s1.now ≤ s3.now := Nat.le_trans q2.1 q3.1
    have hle : t2 - t1 ≤ I2C_TX_TIMEOUT_MASTER := Nat.not_lt.mp hnt
    apply ih
    · omega
    · omega

theorem wait_status_totq (K : Consts) (env : Env) (htick : Ticking env) (fuel : Nat)
    (hfuel : I2C_TX_TIMEOUT_MASTER + 1 ≤ fuel) (port mask wait : Nat) (s : St) :
    TotQ (wait_status K env fuel port mask wait) s (fun rv _ => IsWaitOutcome K rv) := by
  unfold wait_status
  refine TotQ.bind (get_time_totq env s) (fun t1 s1 _ ht => ?_)
  refine TotQ.bind (reg_read_totq env _ s1) (fun r s2 q2 _ => ?_)
  have h2 : s1.now ≤ s2.now := q2.1
  apply wait_status_loop_totq K env htick
  · omega
  · omega

theorem master_start_totq (K : Consts) (env : Env) (htick : Ticking env) (fuel : Nat)
    (hfuel : I2C_TX_TIMEOUT_MASTER + 1 ≤ fuel) (port addr : Nat) (s : St) :
    TotQ (master_start K env fuel port addr) s (fun rv _ => IsWaitOutcome K rv) := by
  unfold master_start
  refine TotQ.bind (reg_read_totq env _ s) (fun _ s1 _ _ => ?_)
  refine TotQ.bind (reg_write_totq _ _ s1) (fun _ s2 _ _ => ?_)
  refine TotQ.bind (wait_status_totq K env htick fuel hfuel _ _ _ s2) (fun rv s3 _ hrv => ?_)
  refine TotQ.ite (fun _ => TotQ.pure hrv) (fun _ => ?_)
  refine TotQ.bind (reg_write_totq _ _ s3) (fun _ s4 _ _ => ?_)
  refine TotQ.bind (wait_status_totq K env htick fuel hfuel _ _ _ s4) (fun rv2 s5 _ hrv2 => ?_)
  refine TotQ.ite (fun _ => TotQ.pure hrv2) (fun _ => ?_)
  exact TotQ.bind (read_clear_status_totq env port s5)
    (fun _ _ _ _ => TotQ.pure (isWaitOutcome_success K))

theorem timeout_master_eq : I2C_TX_TIMEOUT_MASTER = 10000 := by decide

theorem timeout_stop_sent_eq : TIMEOUT_STOP_SENT_US = 2000 := by decide

theorem timestamp_expired_totq (env : Env) (d : Nat) (s : St) :
    TotQ (timestamp_expired env d) s
      (fun b s' => s.now + env s.trace .tick = s'.now ∧ (b = true ↔ d ≤ s'.now)) := by
  unfold timestamp_expired
  refine TotQ.bind (get_time_totq env s) (fun t s1 _ ht => ?_)
  refine TotQ.pure ⟨?_, ?_⟩
  · rw [ht.1]; exact ht.2
  · rw [ht.1]; exact decide_eq_true_iff

theorem wait_until_stop_sent_loop_totq (K : Consts) (env : Env) (htick : Ticking env)
    (port deadline slow_cutoff : Nat) : ∀ (fuel is_slow : Nat) (s : St),
    0 < fuel → deadline + 1 ≤ s.now + fuel →
    TotQ (wait_until_stop_sent_loop K env port deadline slow_cutoff fuel is_slow) s
      (fun rv _ => IsWaitOutcome K rv) := by
  intro fuel
  induction fuel with
  | zero => intro r s h; exact absurd h (Nat.lt_irrefl 0)
  | succ fuel ih =>
    intro is_slow s _ hfuel
    unfold wait_until_stop_sent_loop
    refine TotQ.bind (reg_read_totq env _ s) (fun cr1 s1 q1 _ => ?_)
    refine TotQ.ite (fun _ => ?_) (fun _ => TotQ.pure (isWaitOutcome_success K))
    refine TotQ.bind (timestamp_expired_totq env deadline s1) (fun b s2 q2 hb => ?_)
    have htk := htick s1.trace
    have h1 : s.now ≤ s1.now := q1.1
    refine TotQ.ite (fun _ => TotQ.bind (reg_read_totq env _ s2)
      (fun _ _ _ _ => TotQ.pure (isWaitOutcome_plain_timeout K))) (fun hnb => ?_)
    have hlt : s2.now < deadline := by
      rcases Nat.lt_or_ge s2.now deadline with h | h
      · exact h
      · exact absurd (hb.2.mpr h) hnb
    refine TotQ.ite (fun _ => ?_) (fun _ => ?_)
    · refine TotQ.bind (usleep_totq env _ s2) (fun _ s3 q3 _ => ?_)
      have h3 : s2.now ≤ s3.now := q3.1
      apply ih <;> omega
    · refine TotQ.bind (timestamp_expired_totq env slow_cutoff s2) (fun b2 s3 q3 _ => ?_)
      have h3 : s2.now ≤ s3.now := q3.1
      refine TotQ.ite (fun _ => ?_) (fun _ => ?_)
      · apply ih <;> omega
      · apply ih <;> omega

theorem wait_until_stop_sent_totq (K : Consts) (env : Env) (htick : Ticking env) (fuel : Nat)
    (hfuel : I2C_TX_TIMEOUT_MASTER + 1 ≤ fuel) (port : Nat) (s : St) :
    TotQ (wait_until_stop_sent K env fuel port) s (fun rv _ => IsWaitOutcome K rv) := by
  unfold wait_until_stop_sent
  refine TotQ.bind (get_time_totq env s) (fun t s1 _ ht => ?_)
  refine TotQ.bind (uninit_u8_totq env s1) (fun is_slow s2 q2 _ => ?_)
  have h2 : s1.now ≤ s2.now := q2.1
  have e1 := timeout_master_eq
  have e2 := timeout_stop_sent_eq
  apply wait_until_stop_sent_loop_totq K env htick <;> omega

theorem i2c_init_port_held_totq (K : Consts) (env : Env) (hK : K.ErrorCodesOk) (port : Nat)
    (hport : port = I2C1 ∨ port = I2C2) (s : St) (hheld : s.claimed port = true) :
    TotQ (i2c_init_port K env port) s (fun _ _ => True) := by
  unfold i2c_init_port
  refine TotQ.bind (ASSERT_totq _ hport s) (fun _ s1 q1 _ => ?_)
  refine TotQ.bind (ASSERT_totq _ (by rcases hport with h | h <;> simp [h, I2C1, I2C2]) s1)
    (fun _ s2 q2 _ => ?_)
  refine TotQ.bind (reg_read_totq env _ s2) (fun en s3 q3 _ => ?_)
  have hheld3 : s3.claimed port = true := by
    rw [q3.2.1, q2.2.1, q1.2.1]; exact hheld
  refine TotQ.bind (P := fun _ _ => True) ?_ (fun _ s4 _ _ => ?_)
  · refine TotQ.ite (fun _ => ?_) (fun _ => TotQ.pure trivial)
    refine TotQ.bind (i2c_claim_held_totq K port s3 hheld3) (fun c s5 _ hc => ?_)
    have hne : ¬ c = K.EC_SUCCESS := by
      rw [hc, hK.1]; exact Nat.pos_iff_ne_zero.mp hK.2.2.2.2.2.1
    refine TotQ.bind (P := fun _ _ => True) ?_ (fun _ s6 _ _ => ?_)
    · exact TotQ.ite (fun h => absurd h hne) (fun _ => TotQ.pure trivial)
    · exact TotQ.bind (reg_read_totq env _ s6) (fun _ s7 _ _ => reg_write_totq _ _ s7)
  · refine TotQ.bind (reg_write_totq _ _ s4) (fun _ s5 _ _ => ?_)
    refine TotQ.bind (reg_write_totq _ _ s5) (fun _ s6 _ _ => ?_)
    refine TotQ.bind (reg_write_totq _ _ s6) (fun _ s7 _ _ => ?_)
    refine TotQ.bind (P := fun _ _ => True) ?_ (fun _ s8 _ _ => ?_)
    · exact TotQ.ite (fun _ => reg_write_totq _ _ s7) (fun _ => TotQ.pure trivial)
    · refine TotQ.bind (reg_write_totq _ _ s8) (fun _ s9 _ _ => ?_)
      refine TotQ.bind (reg_write_totq _ _ s9) (fun _ s10 _ _ => ?_)
      refine TotQ.bind (reg_write_totq _ _ s10) (fun _ s11 _ _ => ?_)
      exact emit_totq _ (fun _ h => by cases h) s11

theorem handle_i2c_error_loop_totq (K : Consts) (env : Env) (hK : K.ErrorCodesOk)
    (htick : Ticking env) (port t1 : Nat) (hport : port = I2C1 ∨ port = I2C2) :
    ∀ (fuel r : Nat) (s : St), s.claimed port = true →
    0 < fuel → t1 + I2C_TX_TIMEOUT_MASTER + 1 ≤ s.now + fuel →
    TotQ (handle_i2c_error_loop K env port t1 fuel r) s (fun _ _ => True) := by
  intro fuel
  induction fuel with
  | zero => intro r s _ h; exact absurd h (Nat.lt_irrefl 0)
  | succ fuel ih =>
    intro r s hheld _ hfuel
    unfold handle_i2c_error_loop
    refine TotQ.ite (fun _ => ?_) (fun _ => TotQ.pure trivial)
    refine TotQ.bind (get_time_totq env s) (fun t2 s1 q1 ht => ?_)
    have htk := htick s.trace
    have hheld1 : s1.claimed port = true := by rw [q1.2.1]; exact hheld
    refine TotQ.ite (fun _ => i2c_init_port_held_totq K env hK port hport s1 hheld1)
      (fun hnt => ?_)
    refine TotQ.bind (master_stop_totq env port s1) (fun _ s2 q2 _ => ?_)
    refine TotQ.bind (usleep_totq env 1000 s2) (fun _ s3 q3 _ => ?_)
    refine TotQ.bind (reg_read_totq env _ s3) (fun r2 s4 q4 _ => ?_)
    have h4 : s1.now ≤ s4.now := Nat.le_trans q2.1 (Nat.le_trans q3.1 q4.1)
    have hle : t2 - t1 ≤ I2C_TX_TIMEOUT_MASTER := Nat.not_lt.mp hnt
    have hheld4 : s4.claimed port = true := by
      rw [q4.2.1, q3.2.1, q2.2.1]; exact hheld1
    apply ih _ _ hheld4 <;> omega

theorem handle_i2c_error_totq (K : Consts) (env : Env) (hK : K.ErrorCodesOk)
    (htick : Ticking env) (fuel : Nat) (hfuel : I2C_TX_TIMEOUT_MASTER + 1 ≤ fuel)
    (port rv : Nat) (hport : port = I2C1 ∨ port = I2C2) (s : St)
    (hheld : s.claimed port = true) :
    TotQ (handle_i2c_error K env fuel port rv) s (fun _ _ => True) := by
  unfold handle_i2c_error
  refine TotQ.ite (fun _ => TotQ.pure trivial) (fun _ => ?_)
  refine TotQ.bind (reg_write_totq _ _ s) (fun _ s1 q1 _ => ?_)
  refine TotQ.bind (reg_read_totq env _ s1) (fun _ s2 q2 _ => ?_)
  refine TotQ.bind (reg_read_totq env _ s2) (fun r s3 q3 _ => ?_)
  refine TotQ.bind (get_time_totq env s3) (fun t1 s4 q4 ht => ?_)
  refine TotQ.bind (P := fun _ _ => True) ?_ (fun sp s5 q5 _ => ?_)
  · refine TotQ.ite (fun _ => ?_) (fun _ => TotQ.pure trivial)
    exact TotQ.bind (reg_read_totq env _ s4) (fun _ _ _ _ => TotQ.pure trivial)
  have hheld5 : s5.claimed port = true := by
    rw [q5.2.1, q4.2.1, q3.2.1, q2.2.1, q1.2.1]; exact hheld
  have hnow5 : s4.now ≤ s5.now := q5.1
  refine TotQ.bind (P := fun _ _ => True) ?_ (fun _ s6 _ _ => reg_write_totq _ _ s6)
  refine TotQ.ite (fun _ => i2c_init_port_held_totq K env hK port hport s5 hheld5) (fun _ => ?_)
  refine TotQ.bind (P := fun _ _ => True) ?_ (fun _ s6 q6 _ => ?_)
  · exact TotQ.ite (fun _ => master_stop_totq env port s5) (fun _ => TotQ.pure trivial)
  have hheld6 : s6.claimed port = true := by rw [q6.2.1]; exact hheld5
  have hnow6 : s5.now ≤ s6.now := q6.1
  apply handle_i2c_error_loop_totq K env hK htick port t1 hport _ _ _ hheld6 <;> omega

theorem i2c_master_transmit_totq (K : Consts) (env : Env) (htick : Ticking env) (fuel : Nat)
    (hfuel : I2C_TX_TIMEOUT_MASTER + 1 ≤ fuel) (port addr : Nat) (data : Option (List Nat))
    (size : Int) (stop : Nat) (s : St) :
    TotQ (i2c_master_transmit K env fuel port addr data size stop) s
      (fun rv _ => IsWaitOutcome K rv) := by
  unfold i2c_master_transmit
  refine TotQ.bind (disable_ack_totq env port s) (fun _ s1 _ _ => ?_)
  refine TotQ.bind (emit_totq _ (fun _ h => by cases h) s1) (fun _ s2 _ _ => ?_)
  refine TotQ.bind (emit_totq _ (fun _ h => by cases h) s2) (fun _ s3 _ _ => ?_)
  refine TotQ.bind (emit_totq _ (fun _ h => by cases h) s3) (fun _ s4 _ _ => ?_)
  refine TotQ.bind (emit_totq _ (fun _ h => by cases h) s4) (fun _ s5 _ _ => ?_)
  refine TotQ.bind (reg_read_totq env _ s5) (fun _ s6 _ _ => ?_)
  refine TotQ.bind (reg_write_totq _ _ s6) (fun _ s7 _ _ => ?_)
  refine TotQ.bind (master_start_totq K env htick fuel hfuel port addr s7)
    (fun rv_start s8 _ hrs => ?_)
  refine TotQ.bind (P := fun _ _ => True) ?_ (fun rv s9 _ _ => ?_)
  · exact TotQ.ite (fun _ => task_wait_event_totq env _ s8) (fun _ => TotQ.pure trivial)
  refine TotQ.bind (emit_totq _ (fun _ h => by cases h) s9) (fun _ s10 _ _ => ?_)
  refine TotQ.bind (emit_totq _ (fun _ h => by cases h) s10) (fun _ s11 _ _ => ?_)
  refine TotQ.bind (reg_read_totq env _ s11) (fun _ s12 _ _ => ?_)
  refine TotQ.bind (reg_write_totq _ _ s12) (fun _ s13 _ _ => ?_)
  refine TotQ.ite (fun _ => TotQ.pure hrs) (fun _ => ?_)
  refine TotQ.ite (fun _ => TotQ.pure (isWaitOutcome_plain_timeout K)) (fun _ => ?_)
  refine TotQ.bind (wait_status_totq K env htick fuel hfuel _ _ _ s13) (fun rv2 s14 _ h2 => ?_)
  refine TotQ.ite (fun _ => TotQ.pure h2) (fun _ => ?_)
  refine TotQ.ite (fun _ => ?_) (fun _ => TotQ.pure (isWaitOutcome_success K))
  exact TotQ.bind (master_stop_totq env port s14)
    (fun _ s15 _ _ => wait_status_totq K env htick fuel hfuel _ _ _ s15)

theorem i2c_master_receive_totq (K : Consts) (env : Env) (htick : Ticking env) (fuel : Nat)
    (hfuel : I2C_TX_TIMEOUT_MASTER + 1 ≤ fuel) (port addr : Nat) (data : Option (List Nat))
    (size : Int) (hroom : ∀ buf, data = some buf → size ≤ (buf.length : Int)) (s : St) :
    TotQ (i2c_master_receive K env fuel port addr data size) s
      (fun r _ => IsWaitOutcome K r.1 ∨ r.1 = K.EC_ERROR_INVAL) := by
  unfold i2c_master_receive
  cases data with
  | none => exact TotQ.pure (Or.inr rfl)
  | some buf =>
    have hsz := hroom buf rfl
    simp only
    refine TotQ.ite (fun _ => TotQ.pure (Or.inr rfl)) (fun _ => ?_)
    refine TotQ.ite (fun _ => ?_) (fun _ => ?_)
    · refine TotQ.bind (enable_ack_totq env port s) (fun _ s1 _ _ => ?_)
      refine TotQ.bind (emit_totq _ (fun _ h => by cases h) s1) (fun _ s2 _ _ => ?_)
      refine TotQ.bind (emit_totq _ (fun _ h => by cases h) s2) (fun _ s3 _ _ => ?_)
      refine TotQ.bind (reg_read_totq env _ s3) (fun _ s4 _ _ => ?_)
      refine TotQ.bind (reg_write_totq _ _ s4) (fun _ s5 _ _ => ?_)
      refine TotQ.bind (reg_read_totq env _ s5) (fun _ s6 _ _ => ?_)
      refine TotQ.bind (reg_write_totq _ _ s6) (fun _ s7 _ _ => ?_)
      refine TotQ.bind (master_start_totq K env htick fuel hfuel port _ s7)
        (fun rv_start s8 _ hrs => ?_)
      refine TotQ.bind (P := fun _ _ => True) ?_ (fun rv s9 _ _ => ?_)
      · exact TotQ.ite (fun _ => task_wait_event_totq env _ s8) (fun _ => TotQ.pure trivial)
      refine TotQ.bind (emit_totq _ (fun _ h => by cases h) s9) (fun _ s10 _ _ => ?_)
      refine TotQ.bind (dma_rx_collect_totq env _ buf s10 (by omega)) (fun buf2 s11 _ _ => ?_)
      refine TotQ.bind (emit_totq _ (fun _ h => by cases h) s11) (fun _ s12 _ _ => ?_)
      refine TotQ.bind (reg_read_totq env _ s12) (fun _ s13 _ _ => ?_)
      refine TotQ.bind (reg_write_totq _ _ s13) (fun _ s14 _ _ => ?_)
      refine TotQ.bind (disable_ack_totq env port s14) (fun _ s15 _ _ => ?_)
      refine TotQ.ite (fun _ => TotQ.pure (Or.inl hrs)) (fun _ => ?_)
      refine TotQ.ite (fun _ => TotQ.pure (Or.inl (isWaitOutcome_plain_timeout K))) (fun _ => ?_)
      refine TotQ.bind (master_stop_totq env port s15) (fun _ s16 _ _ => ?_)
      exact TotQ.bind (wait_until_stop_sent_totq K env htick fuel hfuel port s16)
        (fun r _ _ hr => TotQ.pure (Or.inl hr))
    · refine TotQ.bind (disable_ack_totq env port s) (fun _ s1 _ _ => ?_)
      refine TotQ.bind (master_start_totq K env htick fuel hfuel port _ s1)
        (fun rv s2 _ hrs => ?_)
      refine TotQ.ite (fun _ => TotQ.pure (Or.inl hrs)) (fun _ => ?_)
      refine TotQ.bind (master_stop_totq env port s2) (fun _ s3 _ _ => ?_)
      refine TotQ.bind (wait_status_totq K env htick fuel hfuel _ _ _ s3) (fun rv2 s4 _ h2 => ?_)
      refine TotQ.ite (fun _ => TotQ.pure (Or.inl h2)) (fun _ => ?_)
      refine TotQ.bind (reg_read_totq env _ s4) (fun b s5 _ _ => ?_)
      refine TotQ.ite (fun h0 => ?_) (fun _ => ?_)
      · exfalso; omega
      · exact TotQ.bind (wait_until_stop_sent_totq K env htick fuel hfuel port s5)
          (fun r _ _ hr => TotQ.pure (Or.inl hr))

theorem i2c_xfer_phases_totq (K : Consts) (env : Env) (htick : Ticking env) (fuel : Nat)
    (hfuel : I2C_TX_TIMEOUT_MASTER + 1 ≤ fuel) (port addr : Nat) (out : Option (List Nat))
    (out_bytes : Int) (inb : Option (List Nat)) (in_bytes : Int)
    (hroom : ∀ buf, inb = some buf → in_bytes ≤ (buf.length : Int)) (s : St) :
    TotQ (i2c_xfer_phases K env fuel port addr out out_bytes inb in_bytes) s
      (fun r _ => (IsWaitOutcome K r.1 ∨ r.1 = K.EC_ERROR_INVAL) ∧
        (in_bytes = 0 → IsWaitOutcome K r.1 ∧ r.2 = inb)) := by
  unfold i2c_xfer_phases
  refine TotQ.bind (i2c_master_transmit_totq K env htick fuel hfuel port addr out out_bytes _ s)
    (fun rv s1 _ hrv => ?_)
  refine TotQ.ite (fun hc => ?_) (fun _ => TotQ.pure ⟨Or.inl hrv, fun _ => ⟨hrv, rfl⟩⟩)
  exact (i2c_master_receive_totq K env htick fuel hfuel port addr inb in_bytes hroom s1).mono
    (fun r _ _ hr => ⟨hr, fun h0 => absurd h0 hc.2⟩)

/-! ## Running the primitive operations -/

@[simp] theorem run_reg_read (env : Env) (r : Reg) (s : St) :
    (reg_read env r).run s = some (env s.trace (.reg r) % r.modulus,
      { s with trace := s.trace ++ [.reg_read r (env s.trace (.reg r) % r.modulus)] }) := rfl

@[simp] theorem run_reg_write (r : Reg) (v : Nat) (s : St) :
    (reg_write r v).run s
      = some ((), { s with trace := s.trace ++ [.reg_write r (v % r.modulus)] }) := rfl

@[simp] theorem run_ASSERT (c : Prop) [Decidable c] (s : St) :
    (ASSERT c).run s = if c then some ((), s) else none := rfl

@[simp] theorem run_i2c_release (port : Nat) (s : St) :
    (i2c_release port).run s = some ((),
      { s with claimed := fun p => if p = port then false else s.claimed p,
               trace := s.trace ++ [.i2c_release port] }) := rfl

theorem run_i2c_claim_held (K : Consts) (port : Nat) (s : St) (h : s.claimed port = true) :
    (i2c_claim K port).run s = some (K.EC_ERROR_BUSY,
      { s with trace := s.trace ++ [.i2c_claim port K.EC_ERROR_BUSY] }) := by
  simp [i2c_claim, M.run, h]

theorem run_i2c_claim_free (K : Consts) (port : Nat) (s : St) (h : s.claimed port = false) :
    (i2c_claim K port).run s = some (K.EC_SUCCESS,
      { s with claimed := fun p => if p = port then true else s.claimed p,
               trace := s.trace ++ [.i2c_claim port K.EC_SUCCESS] }) := by
  simp [i2c_claim, M.run, h]

/-- C8: when the claim on the port is already held, `i2c_xfer` returns
`EC_ERROR_BUSY` and the only interaction with the outside world is the failed
`i2c_claim` call itself: no register is read or written, no DMA helper is
called, `i2c_release` is not called, and the claim tokens are unchanged. -/
theorem i2c_xfer_busy (K : Consts) (env : Env) (fuel port addr : Nat)
    (out : Option (List Nat)) (out_bytes : Int) (inb : Option (List Nat)) (in_bytes : Int)
    (flags : Nat) (s : St) (hbusy : K.EC_ERROR_BUSY ≠ 0)
    (hout : out.isSome ∨ out_bytes = 0) (hin : inb.isSome ∨ in_bytes = 0)
    (hheld : s.claimed port = true) :
    (i2c_xfer K env fuel port addr out out_bytes inb in_bytes flags).run s
      = some ((K.EC_ERROR_BUSY, inb),
          { s with trace := s.trace ++ [.i2c_claim port K.EC_ERROR_BUSY] }) := by
  unfold i2c_xfer
  simp only [run_bind, run_ASSERT, if_pos hout, if_pos hin, Option.some_bind,
    run_i2c_claim_held K port _ hheld, run_ite, ne_eq, hbusy, not_false_eq_true, if_true,
    run_pure]

theorem testBit_of_lt_256 (t i : Nat) (ht : t < 256) (hi : 8 ≤ i) : t.testBit i = false := by
  apply Nat.testBit_lt_two_pow
  calc t < 2 ^ 8 := ht
    _ ≤ 2 ^ i := Nat.pow_le_pow_right (by decide) hi

/-- The low byte of a tagged time-out is the time-out code. -/
theorem tagged_timeout_low_byte (t w : Nat) (ht : t < 256) :
    (t ||| (w <<< 8)) &&& 0xff = t := by
  apply Nat.eq_of_testBit_eq
  intro i
  have h255 : (0xff : Nat) = 2 ^ 8 - 1 := by decide
  rw [Nat.testBit_and, Nat.testBit_or, Nat.testBit_shiftLeft, h255, Nat.testBit_two_pow_sub_one]
  by_cases hi : i < 8
  · have : ¬ (i ≥ 8) := by omega
    simp [hi, this]
  · simp [hi, testBit_of_lt_256 t i ht (by omega)]

theorem and_0xff_of_lt (t : Nat) (ht : t < 256) : t &&& 0xff = t := by
  rw [and_0xff]; exact Nat.mod_eq_of_lt ht

theorem isWaitOutcome_ne_inval (K : Consts) (hK : K.ErrorCodesOk) (rv : Nat)
    (h : IsWaitOutcome K rv) : rv ≠ K.EC_ERROR_INVAL := by
  obtain ⟨h0, hT0, hT, hI0, hI, _, _, hTI, _, _⟩ := hK
  rcases h with h | ⟨w, h⟩
  · rw [h, h0]; omega
  · intro he
    have h1 := tagged_timeout_low_byte K.EC_ERROR_TIMEOUT w hT
    rw [← h, he, and_0xff_of_lt _ hI] at h1
    exact hTI h1.symm

/-- The run of `i2c_xfer` on a free port, phase by phase. -/
theorem i2c_xfer_free_run (K : Consts) (env : Env) (hK : K.ErrorCodesOk) (htick : Ticking env)
    (fuel : Nat) (hfuel : I2C_TX_TIMEOUT_MASTER + 1 ≤ fuel) (port addr : Nat)
    (hport : port = I2C1 ∨ port = I2C2) (out : Option (List Nat)) (out_bytes : Int)
    (inb : Option (List Nat)) (in_bytes : Int) (flags : Nat) (s : St)
    (hout : out.isSome ∨ out_bytes = 0) (hin : inb.isSome ∨ in_bytes = 0)
    (hroom : ∀ buf, inb = some buf → in_bytes ≤ (buf.length : Int))
    (hfree : s.claimed port = false) :
    ∃ (s0 s1 s2 : St) (rv : Nat) (inb2 : Option (List Nat)) (v0 v1 : Nat),
      v0 = env (s.trace ++ [.i2c_claim port K.EC_SUCCESS]) (.reg (.CR2 port)) % 65536 ∧
      s0 = { s with
        claimed := (fun p => if p = port then true else s.claimed p)
        trace := (s.trace ++ [.i2c_claim port K.EC_SUCCESS, .reg_read (.CR2 port) v0,
          .reg_write (.CR2 port) (andNot v0 (3 <<< 8) % 65536)]) } ∧
      (i2c_xfer_phases K env fuel port addr out out_bytes inb in_bytes).run s0
        = some ((rv, inb2), s1) ∧
      Quiet s0 s1 ∧
      (IsWaitOutcome K rv ∨ rv = K.EC_ERROR_INVAL) ∧
      (in_bytes = 0 → IsWaitOutcome K rv ∧ inb2 = inb) ∧
      (handle_i2c_error K env fuel port rv).run s1 = some ((), s2) ∧
      Quiet s1 s2 ∧
      (i2c_xfer K env fuel port addr out out_bytes inb in_bytes flags).run s
        = some ((rv, inb2),
            { s2 with
              claimed := (fun p => if p = port then false else s2.claimed p)
              trace := (s2.trace ++ [.reg_read (.CR2 port) v1,
                .reg_write (.CR2 port) ((v1 ||| (3 <<< 8)) % 65536), .i2c_release port]) }) := by
  have e_claim := run_i2c_claim_free K port s hfree
  generalize hsc : ({ s with
      claimed := (fun p => if p = port then true else s.claimed p)
      trace := (s.trace ++ [.i2c_claim port K.EC_SUCCESS]) } : St) = sc at e_claim
  generalize hv0 : env sc.trace (.reg (.CR2 port)) % 65536 = v0
  have e_dis : (disable_i2c_interrupt env port).run sc = some ((),
      { sc with trace := (sc.trace ++ [.reg_read (.CR2 port) v0,
          .reg_write (.CR2 port) (andNot v0 (3 <<< 8) % 65536)]) }) := by
    simp [disable_i2c_interrupt, Reg.modulus, hv0]
  generalize hs0 : ({ sc with trace := (sc.trace ++ [.reg_read (.CR2 port) v0,
      .reg_write (.CR2 port) (andNot v0 (3 <<< 8) % 65536)]) } : St) = s0 at e_dis
  have hheld0 : s0.claimed port = true := by rw [← hs0, ← hsc]; simp
  obtain ⟨⟨rv, inb2⟩, s1, e1, q1, p1, p2⟩ :=
    i2c_xfer_phases_totq K env htick fuel hfuel port addr out out_bytes inb in_bytes hroom s0
  have hheld1 : s1.claimed port = true := by rw [q1.2.1]; exact hheld0
  obtain ⟨_, s2, e2, q2, _⟩ :=
    handle_i2c_error_totq K env hK htick fuel hfuel port rv hport s1 hheld1
  generalize hv1 : env s2.trace (.reg (.CR2 port)) % 65536 = v1
  have e_en : (enable_i2c_interrupt env port).run s2 = some ((),
      { s2 with trace := (s2.trace ++ [.reg_read (.CR2 port) v1,
          .reg_write (.CR2 port) ((v1 ||| (3 <<< 8)) % 65536)]) }) := by
    simp [enable_i2c_interrupt, Reg.modulus, hv1]
  refine ⟨s0, s1, s2, rv, inb2, v0, v1, ?_, ?_, e1, q1, p1, p2, e2, q2, ?_⟩
  · rw [← hv0, ← hsc]
  · rw [← hs0, ← hsc]; simp
  · have hne : ¬ (K.EC_SUCCESS ≠ 0) := by rw [hK.1]; simp
    unfold i2c_xfer
    simp only [run_bind, run_ASSERT, if_pos hout, if_pos hin, Option.some_bind, e_claim, run_ite,
      hne, if_false, e_dis, e1, e2, e_en, run_i2c_release, run_pure]
    simp

theorem i2c_xfer_phases_no_read (K : Consts) (env : Env) (fuel port addr : Nat)
    (out : Option (List Nat)) (out_bytes : Int) (inb : Option (List Nat)) (s : St) :
    (i2c_xfer_phases K env fuel port addr out out_bytes inb 0).run s
      = ((i2c_master_transmit K env fuel port addr out out_bytes 1).run s).map
          (fun p => ((p.1, inb), p.2)) := by
  unfold i2c_xfer_phases
  simp only [run_bind, ne_eq, not_true_eq_false, if_false, and_false, run_ite, run_pure]
  cases (i2c_master_transmit K env fuel port addr out out_bytes 1).run s <;> rfl

theorem ticking_deadBus : Ticking deadBus := fun _ => (by decide : 1 ≤ 20000)

theorem quiet_trace {s s' : St} (h : Quiet s s') :
    ∃ tl, s'.trace = s.trace ++ tl ∧ ∀ p, Event.i2c_release p ∉ tl := h.2.2.2.2.2.2.2

/-- C7 as stated fails: on a free port of a bus where nothing answers,
`i2c_xfer` with `out_bytes = 0` and `in_bytes = 0` returns a value other than
`EC_ERROR_INVAL`, and by then it has written the port's CR2 register. -/
theorem i2c_xfer_zero_length_counterexample :
    ∃ (rv : Nat) (s' : St),
      (i2c_xfer exampleConsts deadBus 10001 I2C1 0x90 none 0 none 0 0).run {}
        = some ((rv, none), s') ∧
      rv ≠ exampleConsts.EC_ERROR_INVAL ∧
      Event.reg_write (.CR2 I2C1) 0 ∈ s'.trace := by
  obtain ⟨s0, s1, s2, rv, inb2, v0, v1, hv0, hs0, _, q1, _, p2, _, q2, e⟩ :=
    i2c_xfer_free_run exampleConsts deadBus (by decide) ticking_deadBus 10001 (by decide)
      I2C1 0x90 (Or.inl rfl) none 0 none 0 0 {} (Or.inr rfl) (Or.inr rfl)
      (fun _ h => by cases h) rfl
  obtain ⟨hrv, hinb⟩ := p2 rfl
  subst hinb
  have hv : v0 = 0 := hv0
  subst hv
  obtain ⟨t1, ht1, _⟩ := quiet_trace q1
  obtain ⟨t2, ht2, _⟩ := quiet_trace q2
  refine ⟨rv, _, e, isWaitOutcome_ne_inval _ (by decide) rv hrv, ?_⟩
  show Event.reg_write (.CR2 I2C1) 0 ∈ s2.trace ++ _
  rw [ht2, ht1, hs0]
  simp [andNot]

/-! ## Bus recovery -/

theorem Tot_bind {α β : Type} {m : M α} {k : α → M β} {s : St} {P : α → St → Prop}
    {Q : β → St → Prop} (hm : Tot m s P) (hk : ∀ a s1, P a s1 → Tot (k a) s1 Q) :
    Tot (m >>= k) s Q := by
  obtain ⟨a, s1, e1, p1⟩ := hm
  obtain ⟨b, s2, e2, p2⟩ := hk a s1 p1
  exact ⟨b, s2, by rw [run_bind, e1]; exact e2, p2⟩

theorem Tot_pure {α : Type} {a : α} {s : St} {Q : α → St → Prop} (h : Q a s) :
    Tot (pure a) s Q := ⟨a, s, rfl, h⟩

theorem bitbang_low_high_trace (env : Env) (sig : Gpio) (s : St) :
    Tot (bitbang_low_high env sig) s (fun _ s' => s'.trace = s.trace ++
      [.gpio_set_level sig 0, .udelay 5, .gpio_set_level sig 1, .udelay 5]) := by
  refine ⟨(), _, rfl, ?_⟩
  simp [I2C_BITBANG_DELAY_US]

theorem both_lines_high_trace (env : Env) (henv : ∀ h sig, env h (.gpio sig) ≠ 0)
    (scl sda : Gpio) (s : St) :
    Tot (both_lines_high env scl sda) s (fun b s' => b = true ∧ ∃ v1 v2, v1 ≠ 0 ∧ v2 ≠ 0 ∧
      s'.trace = s.trace ++ [.gpio_get_level scl v1, .gpio_get_level sda v2]) := by
  unfold both_lines_high
  refine Tot_bind (P := fun c s1 => c ≠ 0 ∧ s1.trace = s.trace ++ [.gpio_get_level scl c])
    ⟨_, _, rfl, henv _ _, rfl⟩ (fun c s1 hc => ?_)
  rw [if_pos hc.1]
  refine Tot_bind (P := fun d s2 => d ≠ 0 ∧ s2.trace = s1.trace ++ [.gpio_get_level sda d])
    ⟨_, _, rfl, henv _ _, rfl⟩ (fun d s2 hd => ?_)
  refine Tot_pure ⟨by simp [hd.1], c, d, hc.1, hd.1, ?_⟩
  rw [hd.2, hc.2]; simp

theorem clock_pulses_trace (env : Env) (scl : Gpio) : ∀ (n : Nat) (s : St),
    Tot (clock_pulses env scl n) s (fun _ s' => s'.trace = s.trace ++ clock_pulse_train scl n) := by
  intro n
  induction n with
  | zero => intro s; exact Tot_pure (by simp [clock_pulse_train])
  | succ n ih =>
    intro s
    unfold clock_pulses
    refine Tot_bind (bitbang_low_high_trace env scl s) (fun _ s1 h1 => ?_)
    obtain ⟨a, s2, e2, h2⟩ := ih s1
    refine ⟨a, s2, e2, ?_⟩
    show s2.trace = _
    rw [h2, h1]; simp [clock_pulse_train, clock_pulse]

/-- C10: when every read of a pin level returns high, `unwedge_i2c_bus(port)`
returns after exactly this sequence of interactions on the pins of that port:
SCL then SDA configured as open-drain outputs driven high; a read of SCL and of
SDA; one pseudo-stop (SDA := 0, SDA := 1); nine clock pulses (each SCL := 0,
SCL := 1); a read of SCL and of SDA; one final pseudo-stop; then SCL := 1 and
SDA := 1 -- with a 5 µs delay after each write of a pulse or pseudo-stop, and
nothing else. -/
theorem unwedge_i2c_bus_all_high (K : Consts) (env : Env) (port : Nat) (s : St)
    (hport : port = I2C1 ∨ port = I2C2) (henv : ∀ h sig, env h (.gpio sig) ≠ 0) :
    ∃ (s' : St) (v1 v2 v3 v4 : Nat),
      (unwedge_i2c_bus K env port).run s = some ((), s') ∧
      v1 ≠ 0 ∧ v2 ≠ 0 ∧ v3 ≠ 0 ∧ v4 ≠ 0 ∧
      s'.trace = s.trace ++
        [.gpio_set_flags (scl_of port) K.GPIO_ODR_HIGH,
         .gpio_set_flags (sda_of port) K.GPIO_ODR_HIGH,
         .gpio_get_level (scl_of port) v1, .gpio_get_level (sda_of port) v2] ++
        pseudo_stop (sda_of port) ++
        clock_pulse_train (scl_of port) 9 ++
        [.gpio_get_level (scl_of port) v3, .gpio_get_level (sda_of port) v4] ++
        pseudo_stop (sda_of port) ++
        [.gpio_set_level (scl_of port) 1, .gpio_set_level (sda_of port) 1] := by
  have key : Tot (unwedge_i2c_bus K env port) s (fun _ s' => ∃ v1 v2 v3 v4 : Nat,
      v1 ≠ 0 ∧ v2 ≠ 0 ∧ v3 ≠ 0 ∧ v4 ≠ 0 ∧
      s'.trace = s.trace ++
        [.gpio_set_flags (scl_of port) K.GPIO_ODR_HIGH,
         .gpio_set_flags (sda_of port) K.GPIO_ODR_HIGH,
         .gpio_get_level (scl_of port) v1, .gpio_get_level (sda_of port) v2] ++
        pseudo_stop (sda_of port) ++
        clock_pulse_train (scl_of port) 9 ++
        [.gpio_get_level (scl_of port) v3, .gpio_get_level (sda_of port) v4] ++
        pseudo_stop (sda_of port) ++
        [.gpio_set_level (scl_of port) 1, .gpio_set_level (sda_of port) 1]) := by
    unfold unwedge_i2c_bus
    refine Tot_bind (P := fun _ s1 => s1 = s) ⟨(), s, by simp [hport], rfl⟩ (fun _ s1 h1 => ?_)
    subst h1
    refine Tot_bind (P := fun _ s2 => s2.trace = s1.trace ++
      [.gpio_set_flags (scl_of port) K.GPIO_ODR_HIGH]) ⟨(), _, rfl, rfl⟩ (fun _ s2 h2 => ?_)
    refine Tot_bind (P := fun _ s3 => s3.trace = s2.trace ++
      [.gpio_set_flags (sda_of port) K.GPIO_ODR_HIGH]) ⟨(), _, rfl, rfl⟩ (fun _ s3 h3 => ?_)
    refine Tot_bind (both_lines_high_trace env henv _ _ s3) (fun b s4 h4 => ?_)
    obtain ⟨hb, v1, v2, hv1, hv2, h4⟩ := h4
    subst hb
    refine Tot_bind (P := fun _ s5 => s5.trace = s4.trace ++ pseudo_stop (sda_of port))
      (bitbang_low_high_trace env _ s4) (fun _ s5 h5 => ?_)
    refine Tot_bind (clock_pulses_trace env _ 9 s5) (fun _ s6 h6 => ?_)
    refine Tot_bind (both_lines_high_trace env henv _ _ s6) (fun b s7 h7 => ?_)
    obtain ⟨hb, v3, v4, hv3, hv4, h7⟩ := h7
    subst hb
    refine Tot_bind (P := fun _ s8 => s8.trace = s7.trace ++ pseudo_stop (sda_of port))
      (bitbang_low_high_trace env _ s7) (fun _ s8 h8 => ?_)
    refine Tot_bind (P := fun _ s9 => s9.trace = s8.trace ++
      [.gpio_set_level (scl_of port) 1]) ⟨(), _, rfl, rfl⟩ (fun _ s9 h9 => ?_)
    refine ⟨(), _, rfl, v1, v2, v3, v4, hv1, hv2, hv3, hv4, ?_⟩
    show s9.trace ++ [.gpio_set_level (sda_of port) 1] = _
    rw [h9, h8, h7, h6, h5, h4, h3, h2]
    simp only [List.append_assoc, List.cons_append, List.nil_append]
    rfl
  obtain ⟨_, s', e, v1, v2, v3, v4, h⟩ := key
  exact ⟨s', v1, v2, v3, v4, e, h⟩



theorem unwedge_i2c_bus_all_high_witness :
    ∃ (s' : St) (v1 v2 v3 v4 : Nat),
      (unwedge_i2c_bus exampleConsts allOnes I2C1).run {} = some ((), s') ∧
      v1 ≠ 0 ∧ v2 ≠ 0 ∧ v3 ≠ 0 ∧ v4 ≠ 0 ∧
      s'.trace = ([] : List Event) ++
        [.gpio_set_flags (scl_of I2C1) exampleConsts.GPIO_ODR_HIGH,
         .gpio_set_flags (sda_of I2C1) exampleConsts.GPIO_ODR_HIGH,
         .gpio_get_level (scl_of I2C1) v1, .gpio_get_level (sda_of I2C1) v2] ++
        pseudo_stop (sda_of I2C1) ++
        clock_pulse_train (scl_of I2C1) 9 ++
        [.gpio_get_level (scl_of I2C1) v3, .gpio_get_level (sda_of I2C1) v4] ++
        pseudo_stop (sda_of I2C1) ++
        [.gpio_set_level (scl_of I2C1) 1, .gpio_set_level (sda_of I2C1) 1] :=
  unwedge_i2c_bus_all_high exampleConsts allOnes I2C1 {} (Or.inl rfl)
    (fun _ _ => Nat.one_ne_zero)

/-- C7, amended: `i2c_xfer` with `out_bytes = 0` and `in_bytes = 0` on a free
port (I2C1 or I2C2) is not rejected.  It takes the claim, masks the port's
interrupts by a write to CR2, runs the write phase
`i2c_master_transmit(port, addr, out, 0, 1)` (zero bytes, STOP requested) and
no read phase, and returns the outcome of that write phase, which is
`EC_SUCCESS` or a time-out code and never `EC_ERROR_INVAL`; the register
accesses made on the way stay in the log. -/
theorem i2c_xfer_zero_length (K : Consts) (env : Env) (hK : K.ErrorCodesOk)
    (htick : Ticking env) (fuel : Nat) (hfuel : I2C_TX_TIMEOUT_MASTER + 1 ≤ fuel)
    (port addr : Nat) (hport : port = I2C1 ∨ port = I2C2) (out inb : Option (List Nat))
    (flags : Nat) (s : St) (hfree : s.claimed port = false) :
    ∃ (s0 s1 s3 : St) (rv v0 : Nat) (tl : List Event),
      s0 = { s with
        claimed := (fun p => if p = port then true else s.claimed p)
        trace := (s.trace ++ [.i2c_claim port K.EC_SUCCESS, .reg_read (.CR2 port) v0,
          .reg_write (.CR2 port) (andNot v0 (3 <<< 8) % 65536)]) } ∧
      (i2c_master_transmit K env fuel port addr out 0 1).run s0 = some (rv, s1) ∧
      (i2c_xfer K env fuel port addr out 0 inb 0 flags).run s = some ((rv, inb), s3) ∧
      IsWaitOutcome K rv ∧ rv ≠ K.EC_ERROR_INVAL ∧
      s3.trace = s0.trace ++ tl := by
  obtain ⟨s0, s1, s2, rv, inb2, v0, v1, _, hs0, e1, q1, _, p2, _, q2, e⟩ :=
    i2c_xfer_free_run K env hK htick fuel hfuel port addr hport out 0 inb 0 flags s
      (Or.inr rfl) (Or.inr rfl) (fun _ _ => Int.ofNat_nonneg _) hfree
  obtain ⟨hrv, hinb⟩ := p2 rfl
  subst hinb
  obtain ⟨t1, ht1, _⟩ := quiet_trace q1
  obtain ⟨t2, ht2, _⟩ := quiet_trace q2
  have et : (i2c_master_transmit K env fuel port addr out 0 1).run s0 = some (rv, s1) := by
    rw [i2c_xfer_phases_no_read] at e1
    cases h : (i2c_master_transmit K env fuel port addr out 0 1).run s0 with
    | none => rw [h] at e1; cases e1
    | some p =>
      rw [h] at e1
      simp only [Option.map_some', Option.some.injEq, Prod.mk.injEq] at e1
      obtain ⟨⟨h1, _⟩, h2⟩ := e1
      rw [← h1, ← h2]
  refine ⟨s0, s1, _, rv, v0, t1 ++ t2 ++ [.reg_read (.CR2 port) v1,
    .reg_write (.CR2 port) ((v1 ||| (3 <<< 8)) % 65536), .i2c_release port],
    hs0, et, e, hrv, isWaitOutcome_ne_inval K hK rv hrv, ?_⟩
  show s2.trace ++ _ = _
  rw [ht2, ht1]
  simp only [List.append_assoc]

theorem i2c_xfer_zero_length_witness :
    ∃ (s0 s1 s3 : St) (rv v0 : Nat) (tl : List Event),
      s0 = { ({} : St) with
        claimed := (fun p => if p = I2C1 then true else ({} : St).claimed p)
        trace := (({} : St).trace ++ [.i2c_claim I2C1 exampleConsts.EC_SUCCESS,
          .reg_read (.CR2 I2C1) v0,
          .reg_write (.CR2 I2C1) (andNot v0 (3 <<< 8) % 65536)]) } ∧
      (i2c_master_transmit exampleConsts deadBus 10001 I2C1 0x90 none 0 1).run s0
        = some (rv, s1) ∧
      (i2c_xfer exampleConsts deadBus 10001 I2C1 0x90 none 0 none 0 0).run {}
        = some ((rv, none), s3) ∧
      IsWaitOutcome exampleConsts rv ∧ rv ≠ exampleConsts.EC_ERROR_INVAL ∧
      s3.trace = s0.trace ++ tl :=
  i2c_xfer_zero_length exampleConsts deadBus (by decide) ticking_deadBus 10001 (by decide)
    I2C1 0x90 (Or.inl rfl) none none 0 {} rfl

theorem count_release_of_not_mem (port : Nat) (tl : List Event)
    (h : ∀ p, Event.i2c_release p ∉ tl) : tl.count (.i2c_release port) = 0 :=
  List.count_eq_zero.mpr (h port)

/-- C9: on a free port (I2C1 or I2C2), with the clock moving and room in the
read buffer, `i2c_xfer` returns, and it does so in this order whatever the
outcome `rv` of the write and read phases (success, a time-out of any stage,
invalid argument): the claim is taken and the interrupts masked; the phases
run and end with `rv`; `handle_i2c_error(port, rv)` runs once on that state;
CR2 is read and written back with the event/error interrupt bits set;
`i2c_release(port)` is called; `rv` is returned.  The log of the whole call
holds exactly one more `i2c_release(port)` than before, and at return the claim
on the port is not held. -/
theorem i2c_xfer_recovers_and_releases (K : Consts) (env : Env) (hK : K.ErrorCodesOk)
    (htick : Ticking env) (fuel : Nat) (hfuel : I2C_TX_TIMEOUT_MASTER + 1 ≤ fuel)
    (port addr : Nat) (hport : port = I2C1 ∨ port = I2C2) (out : Option (List Nat))
    (out_bytes : Int) (inb : Option (List Nat)) (in_bytes : Int) (flags : Nat) (s : St)
    (hout : out.isSome ∨ out_bytes = 0) (hin : inb.isSome ∨ in_bytes = 0)
    (hroom : ∀ buf, inb = some buf → in_bytes ≤ (buf.length : Int))
    (hfree : s.claimed port = false) :
    ∃ (s0 s1 s2 s3 : St) (rv : Nat) (inb2 : Option (List Nat)) (v0 v1 : Nat),
      s0 = { s with
        claimed := (fun p => if p = port then true else s.claimed p)
        trace := (s.trace ++ [.i2c_claim port K.EC_SUCCESS, .reg_read (.CR2 port) v0,
          .reg_write (.CR2 port) (andNot v0 (3 <<< 8) % 65536)]) } ∧
      (i2c_xfer_phases K env fuel port addr out out_bytes inb in_bytes).run s0
        = some ((rv, inb2), s1) ∧
      (IsWaitOutcome K rv ∨ rv = K.EC_ERROR_INVAL) ∧
      (handle_i2c_error K env fuel port rv).run s1 = some ((), s2) ∧
      s3 = { s2 with
        claimed := (fun p => if p = port then false else s2.claimed p)
        trace := (s2.trace ++ [.reg_read (.CR2 port) v1,
          .reg_write (.CR2 port) ((v1 ||| (3 <<< 8)) % 65536), .i2c_release port]) } ∧
      (i2c_xfer K env fuel port addr out out_bytes inb in_bytes flags).run s
        = some ((rv, inb2), s3) ∧
      s3.claimed port = false ∧
      (∀ p, p ≠ port → s3.claimed p = s.claimed p) ∧
      s3.trace.count (.i2c_release port) = s.trace.count (.i2c_release port) + 1 := by
  obtain ⟨s0, s1, s2, rv, inb2, v0, v1, _, hs0, e1, q1, p1, _, e2, q2, e⟩ :=
    i2c_xfer_free_run K env hK htick fuel hfuel port addr hport out out_bytes inb in_bytes flags s
      hout hin hroom hfree
  obtain ⟨t1, ht1, hn1⟩ := quiet_trace q1
  obtain ⟨t2, ht2, hn2⟩ := quiet_trace q2
  refine ⟨s0, s1, s2, _, rv, inb2, v0, v1, hs0, e1, p1, e2, rfl, e, ?_, ?_, ?_⟩
  · simp
  · intro p hp
    show (if p = port then false else s2.claimed p) = s.claimed p
    rw [if_neg hp, q2.2.1, q1.2.1, hs0]
    simp [hp]
  · show (s2.trace ++ _).count (.i2c_release port) = _
    rw [ht2, ht1, hs0]
    simp only [List.count_append, count_release_of_not_mem port t1 hn1,
      count_release_of_not_mem port t2 hn2]
    simp [List.count_cons]

theorem i2c_xfer_recovers_and_releases_witness :
    ∃ (s0 s1 s2 s3 : St) (rv : Nat) (inb2 : Option (List Nat)) (v0 v1 : Nat),
      s0 = { ({} : St) with
        claimed := (fun p => if p = I2C1 then true else ({} : St).claimed p)
        trace := (({} : St).trace ++ [.i2c_claim I2C1 exampleConsts.EC_SUCCESS,
          .reg_read (.CR2 I2C1) v0,
          .reg_write (.CR2 I2C1) (andNot v0 (3 <<< 8) % 65536)]) } ∧
      (i2c_xfer_phases exampleConsts deadBus 10001 I2C1 0x90 (some [7]) 1 (some [0, 0]) 2).run s0
        = some ((rv, inb2), s1) ∧
      (IsWaitOutcome exampleConsts rv ∨ rv = exampleConsts.EC_ERROR_INVAL) ∧
      (handle_i2c_error exampleConsts deadBus 10001 I2C1 rv).run s1 = some ((), s2) ∧
      s3 = { s2 with
        claimed := (fun p => if p = I2C1 then false else s2.claimed p)
        trace := (s2.trace ++ [.reg_read (.CR2 I2C1) v1,
          .reg_write (.CR2 I2C1) ((v1 ||| (3 <<< 8)) % 65536), .i2c_release I2C1]) } ∧
      (i2c_xfer exampleConsts deadBus 10001 I2C1 0x90 (some [7]) 1 (some [0, 0]) 2 0).run {}
        = some ((rv, inb2), s3) ∧
      s3.claimed I2C1 = false ∧
      (∀ p, p ≠ I2C1 → s3.claimed p = ({} : St).claimed p) ∧
      s3.trace.count (.i2c_release I2C1) = ({} : St).trace.count (.i2c_release I2C1) + 1 :=
  i2c_xfer_recovers_and_releases exampleConsts deadBus (by decide) ticking_deadBus 10001
    (by decide) I2C1 0x90 (Or.inl rfl) (some [7]) 1 (some [0, 0]) 2 0 {} (Or.inl rfl)
    (Or.inl rfl) (fun buf h => by cases h; decide) rfl

theorem i2c_xfer_busy_witness :
    (i2c_xfer exampleConsts deadBus 10001 I2C1 0x90 (some [7]) 1 (some [0, 0]) 2 0).run
        { claimed := fun _ => true }
      = some ((exampleConsts.EC_ERROR_BUSY, some [0, 0]),
          { ({ claimed := fun _ => true } : St) with
            trace := (({ claimed := fun _ => true } : St).trace ++
              [.i2c_claim I2C1 exampleConsts.EC_ERROR_BUSY]) }) :=
  i2c_xfer_busy exampleConsts deadBus 10001 I2C1 0x90 (some [7]) 1 (some [0, 0]) 2 0
    { claimed := fun _ => true } (by decide) (Or.inl rfl) (Or.inl rfl) rfl

/-! ## Programs and the log they append -/

theorem TotL_pure {α : Type} {a : α} {s : St} {P : α → St → List Event → Prop}
    (h : P a s []) : TotL (pure a) s P :=
  ⟨a, s, [], rfl, by simp, h⟩

theorem TotL_bind {α β : Type} {m : M α} {k : α → M β} {s : St}
    {P : α → St → List Event → Prop} {Q : β → St → List Event → Prop} (hm : TotL m s P)
    (hk : ∀ a s1 t1, s1.trace = s.trace ++ t1 → P a s1 t1 →
      TotL (k a) s1 (fun b s2 t2 => Q b s2 (t1 ++ t2))) : TotL (m >>= k) s Q := by
  obtain ⟨a, s1, t1, e1, h1, p1⟩ := hm
  obtain ⟨b, s2, t2, e2, h2, p2⟩ := hk a s1 t1 h1 p1
  exact ⟨b, s2, t1 ++ t2, by rw [run_bind, e1]; exact e2, by rw [h2, h1, List.append_assoc], p2⟩

theorem TotL_mono {α : Type} {m : M α} {s : St} {P P' : α → St → List Event → Prop}
    (hm : TotL m s P) (h : ∀ a s' tl, s'.trace = s.trace ++ tl → P a s' tl → P' a s' tl) :
    TotL m s P' := by
  obtain ⟨a, s1, t1, e1, h1, p1⟩ := hm
  exact ⟨a, s1, t1, e1, h1, h a s1 t1 h1 p1⟩

theorem TotL_ite {α : Type} {c : Prop} [Decidable c] {a b : M α} {s : St}
    {P : α → St → List Event → Prop} (ha : c → TotL a s P) (hb : ¬ c → TotL b s P) :
    TotL (if c then a else b) s P := by
  split
  · exact ha ‹_›
  · exact hb ‹_›

theorem TotL_bind_class {α β : Type} {C : Event → Prop} {m : M α} {k : α → M β} {s : St}
    {P : α → St → Prop} {Q : β → St → Prop}
    (hm : TotL m s (fun a s1 t => (∀ e ∈ t, C e) ∧ P a s1))
    (hk : ∀ a s1, P a s1 → TotL (k a) s1 (fun b s2 t => (∀ e ∈ t, C e) ∧ Q b s2)) :
    TotL (m >>= k) s (fun b s2 t => (∀ e ∈ t, C e) ∧ Q b s2) := by
  refine TotL_bind hm (fun a s1 t1 _ h1 => ?_)
  refine TotL_mono (hk a s1 h1.2) (fun b s2 t2 _ h2 => ⟨fun e he => ?_, h2.2⟩)
  rcases List.mem_append.mp he with h | h
  · exact h1.1 e h
  · exact h2.1 e h

theorem TotL_pure_class {α : Type} {C : Event → Prop} {a : α} {s : St} {Q : α → St → Prop}
    (h : Q a s) : TotL (pure a) s (fun b s2 t => (∀ e ∈ t, C e) ∧ Q b s2) :=
  TotL_pure ⟨(fun _ h => by cases h), h⟩

theorem emit_totl (e : Event) (s : St) :
    TotL (emit e) s (fun _ s' tl => tl = [e] ∧ s' = { s with trace := s.trace ++ [e] }) :=
  ⟨(), _, [e], rfl, rfl, rfl, rfl⟩

theorem gpio_get_level_totl (env : Env) (sig : Gpio) (s : St) :
    TotL (gpio_get_level env sig) s
      (fun v _ tl => v = env s.trace (.gpio sig) ∧ tl = [.gpio_get_level sig v]) :=
  ⟨_, _, _, rfl, rfl, rfl, rfl⟩

theorem bitbang_low_high_totl (env : Env) (sig : Gpio) (s : St) :
    TotL (bitbang_low_high env sig) s (fun _ _ tl =>
      tl = [.gpio_set_level sig 0, .udelay 5, .gpio_set_level sig 1, .udelay 5]) := by
  refine ⟨(), _, _, rfl, ?_, rfl⟩
  simp [I2C_BITBANG_DELAY_US]

/-! ## Bus recovery leaves the lines released -/

theorem everyLowReleased_nil : EveryLowReleased [] := by
  intro sig pre post h
  cases pre <;> cases h

theorem everyLowReleased_cons_low (sig : Gpio) (l : List Event)
    (hmem : Event.gpio_set_level sig 1 ∈ l) (hl : EveryLowReleased l) :
    EveryLowReleased (.gpio_set_level sig 0 :: l) := by
  intro g pre post h
  cases pre with
  | nil =>
    simp only [List.nil_append, List.cons.injEq, Event.gpio_set_level.injEq, and_true] at h
    obtain ⟨hg, hp⟩ := h
    subst hg; subst hp
    exact hmem
  | cons x pre =>
    simp only [List.cons_append, List.cons.injEq] at h
    exact hl g pre post h.2

theorem everyLowReleased_cons_other (e : Event) (l : List Event)
    (he : ∀ sig, e ≠ .gpio_set_level sig 0) (hl : EveryLowReleased l) :
    EveryLowReleased (e :: l) := by
  intro g pre post h
  cases pre with
  | nil =>
    simp only [List.nil_append, List.cons.injEq] at h
    exact absurd h.1 (he g)
  | cons x pre =>
    simp only [List.cons_append, List.cons.injEq] at h
    exact hl g pre post h.2

theorem everyLowReleased_append (a b : List Event) (ha : EveryLowReleased a)
    (hb : EveryLowReleased b) : EveryLowReleased (a ++ b) := by
  intro g pre post h
  rcases List.append_eq_append_iff.mp h with ⟨a', h1, h2⟩ | ⟨c', h1, h2⟩
  · exact hb g a' post h2
  · cases c' with
    | nil =>
      simp only [List.nil_append] at h2
      exact hb g [] post h2.symm
    | cons x c' =>
      simp only [List.cons_append, List.cons.injEq] at h2
      obtain ⟨hx, hp⟩ := h2
      subst hx
      have := ha g pre c' h1
      rw [hp]
      exact List.mem_append_left _ this

theorem everyLowReleased_pulse (sig : Gpio) :
    EveryLowReleased [.gpio_set_level sig 0, .udelay 5, .gpio_set_level sig 1, .udelay 5] := by
  apply everyLowReleased_cons_low
  · simp
  · apply everyLowReleased_cons_other _ _ (fun _ h => by cases h)
    apply everyLowReleased_cons_other _ _ (fun _ h => by cases h)
    apply everyLowReleased_cons_other _ _ (fun _ h => by cases h)
    exact everyLowReleased_nil

theorem recoveryLog_nil : RecoveryLog [] :=
  ⟨everyLowReleased_nil, fun _ h => by cases h⟩

theorem recoveryLog_append (a b : List Event) (ha : RecoveryLog a) (hb : RecoveryLog b) :
    RecoveryLog (a ++ b) :=
  ⟨everyLowReleased_append a b ha.1 hb.1, fun e he =>
    (List.mem_append.mp he).elim (ha.2 e) (hb.2 e)⟩

theorem recoveryLog_single (e : Event) (he : ∀ sig, e ≠ .gpio_set_level sig 0)
    (hr : e.isRecovery = true) : RecoveryLog [e] :=
  ⟨everyLowReleased_cons_other e [] he everyLowReleased_nil, fun x hx => by
    rw [List.mem_singleton.mp hx]; exact hr⟩

theorem recoveryLog_pulse (sig : Gpio) :
    RecoveryLog [.gpio_set_level sig 0, .udelay 5, .gpio_set_level sig 1, .udelay 5] :=
  ⟨everyLowReleased_pulse sig, fun e he => by
    simp only [List.mem_cons, List.mem_singleton, List.not_mem_nil, or_false] at he
    rcases he with h | h | h | h <;> rw [h] <;> rfl⟩

theorem both_lines_high_totl (env : Env) (scl sda : Gpio) (s : St) :
    TotL (both_lines_high env scl sda) s (fun _ _ tl => RecoveryLog tl) := by
  unfold both_lines_high
  refine TotL_bind (gpio_get_level_totl env scl s) (fun c s1 t1 _ h1 => ?_)
  have e1 : RecoveryLog t1 := by
    rw [h1.2]
    exact recoveryLog_single _ (fun _ h => by cases h) rfl
  refine TotL_ite (fun _ => ?_) (fun _ => TotL_pure (by simpa using e1))
  refine TotL_bind (gpio_get_level_totl env sda s1) (fun d s2 t2 _ h2 => ?_)
  refine TotL_pure ?_
  rw [List.append_nil, h2.2]
  exact recoveryLog_append _ _ e1
    (recoveryLog_single _ (fun _ h => by cases h) rfl)

theorem clock_pulses_totl (env : Env) (scl : Gpio) : ∀ (n : Nat) (s : St),
    TotL (clock_pulses env scl n) s (fun _ _ tl => RecoveryLog tl) := by
  intro n
  induction n with
  | zero => intro s; exact TotL_pure recoveryLog_nil
  | succ n ih =>
    intro s
    unfold clock_pulses
    refine TotL_bind (bitbang_low_high_totl env scl s) (fun _ s1 t1 _ h1 => ?_)
    refine TotL_mono (ih s1) (fun _ _ t2 _ h2 => ?_)
    rw [h1]
    exact recoveryLog_append _ _ (recoveryLog_pulse scl) h2

theorem unwedge_i2c_bus_totl (K : Consts) (env : Env) (port : Nat) (s : St)
    (hport : port = I2C1 ∨ port = I2C2) :
    TotL (unwedge_i2c_bus K env port) s (fun _ _ tl => RecoveryLog tl ∧
      ∃ pre, tl = pre ++ [.gpio_set_level (scl_of port) 1, .gpio_set_level (sda_of port) 1]) := by
  have hflags : ∀ g v, RecoveryLog [Event.gpio_set_flags g v] := fun g v =>
    recoveryLog_single _ (fun _ h => by cases h) rfl
  have hhigh : ∀ g, RecoveryLog [Event.gpio_set_level g 1] := fun g =>
    recoveryLog_single _ (fun _ h => by cases h) rfl
  unfold unwedge_i2c_bus
  refine TotL_bind (P := fun _ _ t => t = []) ⟨(), s, [], by simp [hport], by simp, rfl⟩
    (fun _ s1 t1 _ h1 => ?_)
  subst h1
  refine TotL_bind (emit_totl (.gpio_set_flags (scl_of port) K.GPIO_ODR_HIGH) s1)
    (fun _ s2 t2 _ h2 => ?_)
  refine TotL_bind (emit_totl (.gpio_set_flags (sda_of port) K.GPIO_ODR_HIGH) s2)
    (fun _ s3 t3 _ h3 => ?_)
  refine TotL_bind (both_lines_high_totl env (scl_of port) (sda_of port) s3)
    (fun high s4 t4 _ h4 => ?_)
  refine TotL_bind (P := fun _ _ t => RecoveryLog t) ?_ (fun _ s5 t5 _ h5 => ?_)
  · refine TotL_ite (fun _ => TotL_mono (bitbang_low_high_totl env (sda_of port) s4)
      (fun _ _ _ _ h => h ▸ recoveryLog_pulse _)) (fun _ => ?_)
    refine TotL_bind (bitbang_low_high_totl env (scl_of port) s4) (fun _ s5 t5 _ h5 => ?_)
    refine TotL_bind (both_lines_high_totl env (scl_of port) (sda_of port) s5)
      (fun high2 s6 t6 _ h6 => ?_)
    have h56 : RecoveryLog (t5 ++ t6) :=
      recoveryLog_append _ _ (h5 ▸ recoveryLog_pulse _) h6
    refine TotL_ite (fun _ => TotL_mono (bitbang_low_high_totl env (sda_of port) s6)
      (fun _ _ t _ h => ?_)) (fun _ => TotL_pure ?_)
    · rw [← List.append_assoc]
      exact recoveryLog_append _ _ h56 (h ▸ recoveryLog_pulse _)
    · rw [List.append_nil]; exact h56
  refine TotL_bind (clock_pulses_totl env (scl_of port) 9 s5) (fun _ s6 t6 _ h6 => ?_)
  refine TotL_bind (both_lines_high_totl env (scl_of port) (sda_of port) s6)
    (fun high3 s7 t7 _ h7 => ?_)
  refine TotL_bind (P := fun _ _ t => RecoveryLog t) ?_ (fun _ s8 t8 _ h8 => ?_)
  · exact TotL_ite (fun _ => TotL_mono (bitbang_low_high_totl env (sda_of port) s7)
      (fun _ _ _ _ h => h ▸ recoveryLog_pulse _)) (fun _ => TotL_pure recoveryLog_nil)
  refine TotL_bind (emit_totl (.gpio_set_level (scl_of port) 1) s8) (fun _ s9 t9 _ h9 => ?_)
  refine TotL_mono (emit_totl (.gpio_set_level (sda_of port) 1) s9) (fun _ _ t10 _ h10 => ?_)
  rw [h2.1, h3.1, h9.1, h10.1]
  refine ⟨?_, [.gpio_set_flags (scl_of port) K.GPIO_ODR_HIGH,
    .gpio_set_flags (sda_of port) K.GPIO_ODR_HIGH] ++ t4 ++ t5 ++ t6 ++ t7 ++ t8, ?_⟩
  · refine recoveryLog_append _ _ recoveryLog_nil ?_
    refine recoveryLog_append _ _ (hflags _ _) ?_
    refine recoveryLog_append _ _ (hflags _ _) ?_
    refine recoveryLog_append _ _ h4 ?_
    refine recoveryLog_append _ _ h5 ?_
    refine recoveryLog_append _ _ h6 ?_
    refine recoveryLog_append _ _ h7 ?_
    refine recoveryLog_append _ _ h8 ?_
    exact recoveryLog_append _ _ (hhigh _) (hhigh _)
  · simp only [List.append_assoc, List.cons_append, List.nil_append]

theorem last_level_written_append_last (sig : Gpio) (v : Nat) (pre : List Event) :
    last_level_written sig (pre ++ [.gpio_set_level sig v]) = some v := by
  induction pre with
  | nil => simp [last_level_written]
  | cons x pre ih => simp [last_level_written, ih]

theorem last_level_written_append_before_last (sig other : Gpio) (hne : other ≠ sig)
    (v w : Nat) (pre : List Event) :
    last_level_written sig (pre ++ [.gpio_set_level sig v, .gpio_set_level other w])
      = some v := by
  induction pre with
  | nil => simp [last_level_written, hne]
  | cons x pre ih => simp [last_level_written, ih]

theorem scl_of_ne_sda_of (port : Nat) : sda_of port ≠ scl_of port := by
  unfold sda_of scl_of
  split <;> simp

/-- C11: whatever levels the pin reads return, `unwedge_i2c_bus(port)` (port
I2C1 or I2C2) returns, and in the interactions of the call the last level
written to SCL is 1, the last level written to SDA is 1, and every write of 0
to a pin is followed by a later write of 1 to the same pin. -/
theorem unwedge_i2c_bus_releases_lines (K : Consts) (env : Env) (port : Nat) (s : St)
    (hport : port = I2C1 ∨ port = I2C2) :
    ∃ (s' : St) (tl : List Event),
      (unwedge_i2c_bus K env port).run s = some ((), s') ∧
      s'.trace = s.trace ++ tl ∧
      last_level_written (scl_of port) tl = some 1 ∧
      last_level_written (sda_of port) tl = some 1 ∧
      ∀ sig pre post, tl = pre ++ .gpio_set_level sig 0 :: post →
        .gpio_set_level sig 1 ∈ post := by
  obtain ⟨_, s', tl, e, ht, hrel, pre, hpre⟩ := unwedge_i2c_bus_totl K env port s hport
  refine ⟨s', tl, e, ht, ?_, ?_, hrel.1⟩
  · rw [hpre]
    exact last_level_written_append_before_last _ _ (scl_of_ne_sda_of port) 1 1 pre
  · rw [hpre]
    have := last_level_written_append_last (sda_of port) 1
      (pre ++ [.gpio_set_level (scl_of port) 1])
    simpa [List.append_assoc] using this

theorem unwedge_i2c_bus_releases_lines_witness :
    ∃ (s' : St) (tl : List Event),
      (unwedge_i2c_bus exampleConsts deadBus I2C2).run {} = some ((), s') ∧
      s'.trace = ({} : St).trace ++ tl ∧
      last_level_written (scl_of I2C2) tl = some 1 ∧
      last_level_written (sda_of I2C2) tl = some 1 ∧
      ∀ sig pre post, tl = pre ++ .gpio_set_level sig 0 :: post →
        .gpio_set_level sig 1 ∈ post :=
  unwedge_i2c_bus_releases_lines exampleConsts deadBus I2C2 {} (Or.inr rfl)

/-! ## The log of `i2c_init_port` -/

theorem ASSERT_totl (c : Prop) [Decidable c] (h : c) (s : St) :
    TotL (ASSERT c) s (fun _ s' tl => tl = [] ∧ s' = s) :=
  ⟨(), s, [], by simp [h], by simp, rfl, rfl⟩

theorem reg_read_totl (env : Env) (r : Reg) (s : St) :
    TotL (reg_read env r) s (fun v s' tl => v = env s.trace (.reg r) % r.modulus ∧
      tl = [.reg_read r v] ∧ s' = { s with trace := s.trace ++ [.reg_read r v] }) :=
  ⟨_, _, _, rfl, rfl, rfl, rfl, rfl⟩

theorem reg_write_totl (r : Reg) (v : Nat) (s : St) :
    TotL (reg_write r v) s (fun _ s' tl => tl = [.reg_write r (v % r.modulus)] ∧
      s' = { s with trace := s.trace ++ [.reg_write r (v % r.modulus)] }) :=
  ⟨_, _, _, rfl, rfl, rfl, rfl⟩

theorem i2c_claim_totl (K : Consts) (port : Nat) (s : St) :
    TotL (i2c_claim K port) s (fun c s' tl => tl = [.i2c_claim port c] ∧ s'.now = s.now) := by
  cases h : s.claimed port
  · exact ⟨_, _, _, run_i2c_claim_free K port s h, rfl, rfl, rfl⟩
  · exact ⟨_, _, _, run_i2c_claim_held K port s h, rfl, rfl, rfl⟩

theorem i2c_release_totl (port : Nat) (s : St) :
    TotL (i2c_release port) s (fun _ s' tl => tl = [.i2c_release port] ∧ s'.now = s.now) :=
  ⟨_, _, _, rfl, rfl, rfl, rfl⟩

theorem or_mod_and_bit (x i : Nat) (hi : i < 32) :
    (x ||| 1 <<< i) % 4294967296 &&& 1 <<< i ≠ 0 := by
  intro h
  have e : ((x ||| 1 <<< i) % 2 ^ 32).testBit i = true := by
    rw [Nat.testBit_mod_two_pow]
    simp [Nat.testBit_or, Nat.testBit_shiftLeft, hi]
  have : ((x ||| 1 <<< i) % 4294967296 &&& 1 <<< i).testBit i = true := by
    rw [Nat.testBit_and]
    simp only [Nat.reducePow] at e
    simp [e, Nat.testBit_shiftLeft]
  rw [h] at this
  simp at this

/-- The log of `i2c_init_port`: the read of the clock-enable register; when
the port's bit is clear, the recovery block ending in the write that sets it;
then the reset and configuration writes. -/
theorem i2c_init_port_log (K : Consts) (env : Env) (port : Nat) (s : St)
    (hport : port = I2C1 ∨ port = I2C2) :
    TotL (i2c_init_port K env port) s (fun _ _ tl => ∃ mid,
      tl = .reg_read .RCC_APB1ENR (env s.trace (.reg .RCC_APB1ENR) % 4294967296) ::
        (mid ++ init_port_tail K port) ∧
      (∀ e ∈ mid, e.isRecovery = true) ∧
      (env s.trace (.reg .RCC_APB1ENR) % 4294967296 &&& (1 <<< i2c_clock_bit port) ≠ 0 →
        mid = []) ∧
      (env s.trace (.reg .RCC_APB1ENR) % 4294967296 &&& (1 <<< i2c_clock_bit port) = 0 →
        ∃ pre en2, mid = pre ++ [.reg_read .RCC_APB1ENR en2,
          .reg_write .RCC_APB1ENR ((en2 ||| (1 <<< i2c_clock_bit port)) % 4294967296)])) := by
  unfold i2c_init_port
  refine TotL_bind (ASSERT_totl _ hport s) (fun _ s1 t1 _ h1 => ?_)
  obtain ⟨h1, hs1⟩ := h1
  subst hs1
  refine TotL_bind (ASSERT_totl _ (by rcases hport with h | h <;> simp [h, I2C1, I2C2]) s1)
    (fun _ s2 t2 _ h2 => ?_)
  obtain ⟨h2, hs2⟩ := h2
  subst hs2
  refine TotL_bind (reg_read_totl env .RCC_APB1ENR s2) (fun en s3 t3 _ h3 => ?_)
  obtain ⟨hen, h3, hs3⟩ := h3
  have hen2 : en = env s2.trace (.reg .RCC_APB1ENR) % 4294967296 := hen
  refine TotL_bind (P := fun _ _ t => (∀ e ∈ t, e.isRecovery = true) ∧
      (en &&& (1 <<< i2c_clock_bit port) ≠ 0 → t = []) ∧
      (en &&& (1 <<< i2c_clock_bit port) = 0 → ∃ pre en2, t = pre ++
        [.reg_read .RCC_APB1ENR en2,
         .reg_write .RCC_APB1ENR ((en2 ||| (1 <<< i2c_clock_bit port)) % 4294967296)]))
    ?_ (fun _ s4 t4 _ h4 => ?_)
  · refine TotL_ite (fun hz => ?_) (fun hnz => TotL_pure ⟨(fun _ h => by cases h), fun _ => rfl,
      fun h => absurd h hnz⟩)
    refine TotL_bind (i2c_claim_totl K port s3) (fun c s5 t5 _ h5 => ?_)
    refine TotL_bind (P := fun _ _ t => ∀ e ∈ t, e.isRecovery = true) ?_
      (fun _ s6 t6 _ h6 => ?_)
    · refine TotL_ite (fun _ => ?_) (fun _ => TotL_pure (fun _ h => by cases h))
      refine TotL_bind (unwedge_i2c_bus_totl K env port s5 hport) (fun _ s7 t7 _ h7 => ?_)
      refine TotL_mono (i2c_release_totl port s7) (fun _ _ t8 _ h8 e he => ?_)
      rcases List.mem_append.mp he with h | h
      · exact h7.1.2 e h
      · rw [h8.1] at h; rw [List.mem_singleton.mp h]; rfl
    refine TotL_bind (reg_read_totl env .RCC_APB1ENR s6) (fun en2 s7 t7 _ h7 => ?_)
    refine TotL_mono (reg_write_totl .RCC_APB1ENR (en2 ||| (1 <<< i2c_clock_bit port)) s7)
      (fun _ _ t8 _ h8 => ?_)
    rw [h5.1, h7.2.1, h8.1]
    refine ⟨?_, fun h => absurd hz h, fun _ => ⟨.i2c_claim port c :: t6, en2, ?_⟩⟩
    · intro e he
      simp only [List.mem_append, List.mem_cons, List.mem_singleton, List.not_mem_nil,
        or_false] at he
      rcases he with h | h | h | h
      · rw [h]; rfl
      · exact h6 e h
      · rw [h]; rfl
      · rw [h]; rfl
    · simp [Reg.modulus]
  refine TotL_bind (reg_write_totl _ _ s4) (fun _ s5 t5 _ h5 => ?_)
  refine TotL_bind (reg_write_totl _ _ s5) (fun _ s6 t6 _ h6 => ?_)
  refine TotL_bind (reg_write_totl _ _ s6) (fun _ s7 t7 _ h7 => ?_)
  refine TotL_bind (P := fun _ _ t => t = if port = I2C2 then
      [Event.reg_write (.OAR1 port) I2C_ADDRESS] else []) ?_ (fun _ s8 t8 _ h8 => ?_)
  · refine TotL_ite (fun hp => TotL_mono (reg_write_totl _ _ s7) (fun _ _ t _ h => ?_))
      (fun hp => TotL_pure (by rw [if_neg hp]))
    rw [if_pos hp, h.1]
    simp [Reg.modulus, I2C_ADDRESS]
  refine TotL_bind (reg_write_totl _ _ s8) (fun _ s9 t9 _ h9 => ?_)
  refine TotL_bind (reg_write_totl _ _ s9) (fun _ s10 t10 _ h10 => ?_)
  refine TotL_bind (reg_write_totl _ _ s10) (fun _ s11 t11 _ h11 => ?_)
  refine TotL_mono (emit_totl _ s11) (fun _ _ t12 _ h12 => ?_)
  refine ⟨t4, ?_, h4.1, ?_, ?_⟩
  · rw [h1, h2, h3, hen2, h5.1, h6.1, h7.1, h8, h9.1, h10.1, h11.1, h12.1]
    simp [init_port_tail, Reg.modulus]
  · rw [← hen2]; exact h4.2.1
  · rw [← hen2]; exact h4.2.2

theorem last_value_append_of_some (r : Reg) (a b : List Event) (v : Nat)
    (h : last_value r b = some v) : last_value r (a ++ b) = some v := by
  induction a with
  | nil => simpa using h
  | cons x a ih => simp [last_value, ih]

theorem last_value_append_of_none (r : Reg) (a b : List Event)
    (h : last_value r b = none) : last_value r (a ++ b) = last_value r a := by
  induction a with
  | nil => simpa [last_value] using h
  | cons x a ih => simp [last_value, ih]

theorem last_value_init_port_tail (K : Consts) (port : Nat) :
    last_value .RCC_APB1ENR (init_port_tail K port) = none := by
  unfold init_port_tail
  split <;> simp [last_value]

theorem init_port_tail_no_pins (K : Consts) (port : Nat) :
    ∀ e ∈ init_port_tail K port, e.isGpio = false := by
  have h : (init_port_tail K port).all (fun e => !e.isGpio) = true := by
    unfold init_port_tail
    split <;> rfl
  intro e he
  have := List.all_eq_true.mp h e he
  simpa using this

/-- With the port's clock-enable bit set at entry, `i2c_init_port` returns
without an access to a pin, and the register is left as it was read. -/
theorem i2c_init_port_clock_on (K : Consts) (env : Env) (port : Nat) (s : St)
    (hport : port = I2C1 ∨ port = I2C2)
    (hon : env s.trace (.reg .RCC_APB1ENR) % 4294967296 &&& (1 <<< i2c_clock_bit port) ≠ 0) :
    ∃ (s' : St) (tl : List Event),
      (i2c_init_port K env port).run s = some ((), s') ∧ s'.trace = s.trace ++ tl ∧
      (∀ e ∈ tl, e.isGpio = false) ∧
      last_value .RCC_APB1ENR s'.trace
        = some (env s.trace (.reg .RCC_APB1ENR) % 4294967296) := by
  obtain ⟨_, s', tl, e, ht, mid, htl, _, hmid, _⟩ := i2c_init_port_log K env port s hport
  have hm := hmid hon
  subst hm
  refine ⟨s', tl, e, ht, ?_, ?_⟩
  · intro x hx
    rw [htl] at hx
    rcases List.mem_cons.mp hx with h | h
    · rw [h]; rfl
    · exact init_port_tail_no_pins K port x (by simpa using h)
  · rw [ht, htl]
    have h1 : s.trace ++ Event.reg_read .RCC_APB1ENR
          (env s.trace (.reg .RCC_APB1ENR) % 4294967296) :: ([] ++ init_port_tail K port)
        = (s.trace ++ [Event.reg_read .RCC_APB1ENR
          (env s.trace (.reg .RCC_APB1ENR) % 4294967296)]) ++ init_port_tail K port := by
      simp
    rw [h1, last_value_append_of_none _ _ _ (last_value_init_port_tail K port)]
    exact last_value_append_of_some _ _ _ _ (by simp [last_value])

/-- C12: `i2c_init_port(port)` (port I2C1 or I2C2; the clock-enable bits are 21
and 22 of `RCC_APB1ENR`) returns.  When the port's bit reads as set on entry,
the call makes no access to a pin, so the bit-bang recovery has not run.  At
return the value the log shows for `RCC_APB1ENR` has the port's bit set.  So,
the register keeping its value, a second call on the same port returns without
an access to a pin. -/
theorem i2c_init_port_unwedges_only_with_clock_off (K : Consts) (env : Env) (port : Nat)
    (s : St) (hport : port = I2C1 ∨ port = I2C2) :
    i2c_clock_bit I2C1 = 21 ∧ i2c_clock_bit I2C2 = 22 ∧
    ∃ (s' : St) (tl : List Event),
      (i2c_init_port K env port).run s = some ((), s') ∧ s'.trace = s.trace ++ tl ∧
      (env s.trace (.reg .RCC_APB1ENR) % 4294967296 &&& (1 <<< i2c_clock_bit port) ≠ 0 →
        ∀ e ∈ tl, e.isGpio = false) ∧
      (∃ v, last_value .RCC_APB1ENR s'.trace = some v ∧
        v &&& (1 <<< i2c_clock_bit port) ≠ 0) ∧
      (RegHolds env .RCC_APB1ENR →
        ∃ (s'' : St) (tl' : List Event),
          (i2c_init_port K env port).run s' = some ((), s'') ∧ s''.trace = s'.trace ++ tl' ∧
          ∀ e ∈ tl', e.isGpio = false) := by
  refine ⟨rfl, rfl, ?_⟩
  have hbit : i2c_clock_bit port < 32 := by unfold i2c_clock_bit; split <;> decide
  have key : ∃ (s' : St) (tl : List Event),
      (i2c_init_port K env port).run s = some ((), s') ∧ s'.trace = s.trace ++ tl ∧
      (env s.trace (.reg .RCC_APB1ENR) % 4294967296 &&& (1 <<< i2c_clock_bit port) ≠ 0 →
        ∀ e ∈ tl, e.isGpio = false) ∧
      (∃ v, last_value .RCC_APB1ENR s'.trace = some v ∧
        v &&& (1 <<< i2c_clock_bit port) ≠ 0 ∧ v < 4294967296) := by
    by_cases hon :
        env s.trace (.reg .RCC_APB1ENR) % 4294967296 &&& (1 <<< i2c_clock_bit port) ≠ 0
    · obtain ⟨s', tl, e, ht, hno, hlast⟩ := i2c_init_port_clock_on K env port s hport hon
      exact ⟨s', tl, e, ht, fun _ => hno, _, hlast, hon, Nat.mod_lt _ (by decide)⟩
    · obtain ⟨_, s', tl, e, ht, mid, htl, _, _, hmid⟩ := i2c_init_port_log K env port s hport
      obtain ⟨pre, en2, hpre⟩ := hmid (Classical.not_not.mp hon)
      refine ⟨s', tl, e, ht, fun h => absurd h hon, _, ?_, or_mod_and_bit en2 _ hbit,
        Nat.mod_lt _ (by decide)⟩
      rw [ht, htl, hpre]
      have h1 : s.trace ++ Event.reg_read .RCC_APB1ENR
            (env s.trace (.reg .RCC_APB1ENR) % 4294967296) ::
            (pre ++ [Event.reg_read .RCC_APB1ENR en2, Event.reg_write .RCC_APB1ENR
              ((en2 ||| 1 <<< i2c_clock_bit port) % 4294967296)] ++ init_port_tail K port)
          = (s.trace ++ Event.reg_read .RCC_APB1ENR
            (env s.trace (.reg .RCC_APB1ENR) % 4294967296) :: pre ++
            [Event.reg_read .RCC_APB1ENR en2, Event.reg_write .RCC_APB1ENR
              ((en2 ||| 1 <<< i2c_clock_bit port) % 4294967296)]) ++ init_port_tail K port := by
        simp
      rw [h1, last_value_append_of_none _ _ _ (last_value_init_port_tail K port)]
      exact last_value_append_of_some _ _ _ _ (by simp [last_value])
  obtain ⟨s', tl, e, ht, hno, v, hv, hvbit, hvlt⟩ := key
  refine ⟨s', tl, e, ht, hno, ⟨v, hv, hvbit⟩, fun hholds => ?_⟩
  have hread : env s'.trace (.reg .RCC_APB1ENR) % 4294967296 = v := by
    have := hholds s'.trace v hv
    rw [show Reg.modulus .RCC_APB1ENR = 4294967296 from rfl, Nat.mod_eq_of_lt hvlt] at this
    exact this
  obtain ⟨s'', tl', e', ht', hno', _⟩ :=
    i2c_init_port_clock_on K env port s' hport (by rw [hread]; exact hvbit)
  exact ⟨s'', tl', e', ht', hno'⟩

theorem regHolds_memoryBus (r : Reg) : RegHolds memoryBus r := by
  intro h v hv
  show (last_value r h).getD 0 % r.modulus = v % r.modulus
  rw [hv]
  rfl

theorem i2c_init_port_unwedges_only_with_clock_off_witness :
    ∃ (s' s'' : St) (tl tl' : List Event),
      (i2c_init_port exampleConsts memoryBus I2C1).run {} = some ((), s') ∧
      s'.trace = ({} : St).trace ++ tl ∧
      (∃ v, last_value .RCC_APB1ENR s'.trace = some v ∧ v &&& (1 <<< 21) ≠ 0) ∧
      (i2c_init_port exampleConsts memoryBus I2C1).run s' = some ((), s'') ∧
      s''.trace = s'.trace ++ tl' ∧ ∀ e ∈ tl', e.isGpio = false := by
  obtain ⟨_, _, s', tl, e, ht, _, hv, h2⟩ :=
    i2c_init_port_unwedges_only_with_clock_off exampleConsts memoryBus I2C1 {} (Or.inl rfl)
  obtain ⟨s'', tl', e', ht', hno⟩ := h2 (regHolds_memoryBus _)
  exact ⟨s', s'', tl, tl', e, ht, hv, e', ht', hno⟩

/-! ## Error recovery -/

@[simp] theorem run_get_time (env : Env) (s : St) :
    (get_time env).run s = some (s.now + env s.trace .tick,
      { s with now := s.now + env s.trace .tick,
               trace := s.trace ++ [.get_time (s.now + env s.trace .tick)] }) := rfl

theorem isStopRequest_of_isRecovery (port : Nat) (e : Event) (h : e.isRecovery = true) :
    e.isStopRequest port = false := by
  cases e with
  | reg_write r v => cases r <;> first | rfl | simp [Event.isRecovery] at h
  | _ => rfl

theorem ne_post_init_of_isRecovery (port : Nat) (e : Event) (h : e.isRecovery = true) :
    e ≠ .board_i2c_post_init port := by
  intro he
  rw [he] at h
  cases h

theorem stop_requests_append (port : Nat) (a b : List Event) :
    stop_requests port (a ++ b) = stop_requests port a + stop_requests port b := by
  simp [stop_requests, List.countP_append]

theorem reinit_count_append (port : Nat) (a b : List Event) :
    reinit_count port (a ++ b) = reinit_count port a + reinit_count port b := by
  simp [reinit_count, List.count_append]

theorem stop_requests_init_port_tail (K : Consts) (port : Nat) :
    stop_requests port (init_port_tail K port) = 0 := by
  unfold init_port_tail stop_requests
  split <;> simp [Event.isStopRequest, List.countP_cons] <;> decide

theorem reinit_count_init_port_tail (K : Consts) (port : Nat) :
    reinit_count port (init_port_tail K port) = 1 := by
  unfold init_port_tail reinit_count
  split <;> simp [List.count_cons]

/-- A run of `i2c_init_port(port)` shows in the log as one reinitialisation and
no STOP request. -/
theorem i2c_init_port_counts (K : Consts) (env : Env) (port : Nat) (s : St)
    (hport : port = I2C1 ∨ port = I2C2) :
    TotL (i2c_init_port K env port) s (fun _ _ tl =>
      reinit_count port tl = 1 ∧ stop_requests port tl = 0 ∧
      last_value (.CR1 port) tl = some ((1 <<< 10) ||| (1 <<< 0))) := by
  refine TotL_mono (i2c_init_port_log K env port s hport) (fun _ _ tl _ h => ?_)
  obtain ⟨mid, htl, hmid, _, _⟩ := h
  have h1 : tl = ([Event.reg_read .RCC_APB1ENR
      (env s.trace (.reg .RCC_APB1ENR) % 4294967296)] ++ mid) ++ init_port_tail K port := by
    rw [htl]; simp
  have hm1 : reinit_count port mid = 0 :=
    List.count_eq_zero.mpr (fun hmem => ne_post_init_of_isRecovery port _ (hmid _ hmem) rfl)
  have hm2 : stop_requests port mid = 0 :=
    List.countP_eq_zero.mpr (fun e he => by
      rw [isStopRequest_of_isRecovery port e (hmid e he)]; simp)
  refine ⟨?_, ?_, ?_⟩
  · rw [h1, reinit_count_append, reinit_count_append, reinit_count_init_port_tail, hm1]
    simp [reinit_count]
  · rw [h1, stop_requests_append, stop_requests_append, stop_requests_init_port_tail, hm2]
    simp [stop_requests, Event.isStopRequest]
  · rw [h1]
    apply last_value_append_of_some
    unfold init_port_tail
    split <;> simp [last_value]

theorem ne_busy_of_low_byte_timeout (K : Consts) (hK : K.ErrorCodesOk) (rv : Nat)
    (hrv : rv &&& 0xff = K.EC_ERROR_TIMEOUT) : rv ≠ K.EC_ERROR_BUSY := by
  obtain ⟨_, _, _, _, _, _, hB, _, hTB, _⟩ := hK
  intro h
  rw [h, and_0xff_of_lt _ hB] at hrv
  exact hTB hrv.symm

/-- C13: given an outcome whose low byte is `EC_ERROR_TIMEOUT`, and CR1 read
with the START bit (bit 8) still set when the handler inspects it,
`handle_i2c_error` returns after: clearing and reading the status registers,
reading the clock and CR1, one run of `i2c_init_port(port)`, and the write of
the default `(1 << 10) | (1 << 0)` to CR1.  The log of the call shows one
reinitialisation and no STOP request, and CR1 is left at the default. -/
theorem handle_i2c_error_start_timeout (K : Consts) (env : Env) (hK : K.ErrorCodesOk)
    (fuel port rv : Nat) (hport : port = I2C1 ∨ port = I2C2) (s : St)
    (hrv : rv &&& 0xff = K.EC_ERROR_TIMEOUT)
    (hstart : ∀ v1 r t, env (s.trace ++ [.reg_write (.SR1 port) 0, .reg_read (.SR1 port) v1,
        .reg_read (.SR2 port) r, .get_time t]) (.reg (.CR1 port)) % 65536 &&& (1 <<< 8) ≠ 0) :
    ∃ (s4 s5 s' : St) (tl : List Event) (v1 r t cr1 : Nat),
      s4 = { s with
        now := t
        trace := (s.trace ++ [.reg_write (.SR1 port) 0, .reg_read (.SR1 port) v1,
          .reg_read (.SR2 port) r, .get_time t, .reg_read (.CR1 port) cr1]) } ∧
      cr1 &&& (1 <<< 8) ≠ 0 ∧
      (i2c_init_port K env port).run s4 = some ((), s5) ∧
      s' = { s5 with
        trace := (s5.trace ++ [.reg_write (.CR1 port) ((1 <<< 10) ||| (1 <<< 0))]) } ∧
      (handle_i2c_error K env fuel port rv).run s = some ((), s') ∧
      s'.trace = s.trace ++ tl ∧
      reinit_count port tl = 1 ∧ stop_requests port tl = 0 ∧
      last_value (.CR1 port) tl = some ((1 <<< 10) ||| (1 <<< 0)) := by
  have hnb := ne_busy_of_low_byte_timeout K hK rv hrv
  generalize hv1 : env (s.trace ++ [.reg_write (.SR1 port) 0]) (.reg (.SR1 port)) % 65536 = v1
  generalize hr : env (s.trace ++ [.reg_write (.SR1 port) 0, .reg_read (.SR1 port) v1])
    (.reg (.SR2 port)) % 65536 = r
  generalize ht : s.now + env (s.trace ++ [.reg_write (.SR1 port) 0, .reg_read (.SR1 port) v1,
    .reg_read (.SR2 port) r]) .tick = t
  generalize hcr1 : env (s.trace ++ [.reg_write (.SR1 port) 0, .reg_read (.SR1 port) v1,
    .reg_read (.SR2 port) r, .get_time t]) (.reg (.CR1 port)) % 65536 = cr1
  have hbit : cr1 &&& (1 <<< 8) ≠ 0 := by rw [← hcr1]; exact hstart v1 r t
  generalize hs4 : ({ s with
      now := t
      trace := (s.trace ++ [.reg_write (.SR1 port) 0, .reg_read (.SR1 port) v1,
        .reg_read (.SR2 port) r, .get_time t, .reg_read (.CR1 port) cr1]) } : St) = s4
  obtain ⟨_, s5, il, e5, ht5, hc1, hc2, hc3⟩ := i2c_init_port_counts K env port s4 hport
  refine ⟨s4, s5, _, [.reg_write (.SR1 port) 0, .reg_read (.SR1 port) v1,
      .reg_read (.SR2 port) r, .get_time t, .reg_read (.CR1 port) cr1] ++ il ++
      [.reg_write (.CR1 port) ((1 <<< 10) ||| (1 <<< 0))], v1, r, t, cr1,
    hs4.symm, hbit, e5, rfl, ?_, ?_, ?_, ?_, ?_⟩
  · unfold handle_i2c_error
    simp only [run_ite, if_neg hnb, run_bind, run_reg_write, run_reg_read, run_get_time,
      Option.some_bind, hrv, if_true, run_pure, Reg.modulus, List.append_assoc,
      List.cons_append, List.nil_append, Nat.zero_mod, Nat.reducePow, hv1, hr, ht, hcr1]
    have hd : decide (cr1 &&& 1 <<< 8 ≠ 0) = true := decide_eq_true hbit
    rw [if_pos hd, hs4, e5]
    rfl
  · show s5.trace ++ _ = _
    rw [ht5, ← hs4]
    simp only [List.append_assoc]
  · rw [reinit_count_append, reinit_count_append, hc1]
    simp [reinit_count]
  · rw [stop_requests_append, stop_requests_append, hc2]
    simp [stop_requests, Event.isStopRequest]
    decide
  · exact last_value_append_of_some _ _ _ _ (by simp [last_value])

theorem handle_i2c_error_start_timeout_witness :
    ∃ (s4 s5 s' : St) (tl : List Event) (v1 r t cr1 : Nat),
      s4 = { ({} : St) with
        now := t
        trace := (({} : St).trace ++ [.reg_write (.SR1 I2C1) 0, .reg_read (.SR1 I2C1) v1,
          .reg_read (.SR2 I2C1) r, .get_time t, .reg_read (.CR1 I2C1) cr1]) } ∧
      cr1 &&& (1 <<< 8) ≠ 0 ∧
      (i2c_init_port exampleConsts startStuck I2C1).run s4 = some ((), s5) ∧
      s' = { s5 with
        trace := (s5.trace ++ [.reg_write (.CR1 I2C1) ((1 <<< 10) ||| (1 <<< 0))]) } ∧
      (handle_i2c_error exampleConsts startStuck 0 I2C1
        (exampleConsts.EC_ERROR_TIMEOUT ||| (WAIT_MASTER_START <<< 8))).run {} = some ((), s') ∧
      s'.trace = ({} : St).trace ++ tl ∧
      reinit_count I2C1 tl = 1 ∧ stop_requests I2C1 tl = 0 ∧
      last_value (.CR1 I2C1) tl = some ((1 <<< 10) ||| (1 <<< 0)) :=
  handle_i2c_error_start_timeout exampleConsts startStuck (by decide) 0 I2C1
    (exampleConsts.EC_ERROR_TIMEOUT ||| (WAIT_MASTER_START <<< 8)) (Or.inl rfl) {}
    (by decide) (fun _ _ _ => (by decide : (256 % 65536 &&& (1 <<< 8)) ≠ 0))

theorem or_mod_and_bit16 (x i : Nat) (hi : i < 16) :
    (x ||| 1 <<< i) % 65536 &&& 1 <<< i ≠ 0 := by
  intro h
  have e : ((x ||| 1 <<< i) % 2 ^ 16).testBit i = true := by
    rw [Nat.testBit_mod_two_pow]
    simp [Nat.testBit_or, Nat.testBit_shiftLeft, hi]
  have : ((x ||| 1 <<< i) % 65536 &&& 1 <<< i).testBit i = true := by
    rw [Nat.testBit_and]
    simp only [Nat.reducePow] at e
    simp [e, Nat.testBit_shiftLeft]
  rw [h] at this
  simp at this

theorem get_time_totl (env : Env) (s : St) :
    TotL (get_time env) s (fun t s' tl => tl = [.get_time t] ∧ s'.now = t ∧ s.now ≤ t ∧
      t = s.now + env s.trace .tick) :=
  ⟨_, _, _, rfl, rfl, rfl, rfl, Nat.le_add_right _ _, rfl⟩

theorem usleep_totl (env : Env) (us : Nat) (s : St) :
    TotL (usleep env us) s (fun _ s' tl => tl = [.usleep us] ∧ s.now + us ≤ s'.now) :=
  ⟨_, _, _, rfl, rfl, rfl, Nat.le_add_right _ _⟩

theorem master_stop_totl (env : Env) (port : Nat) (s : St) :
    TotL (master_stop env port) s (fun _ s' tl => s'.now = s.now ∧
      ∃ v, tl = [.reg_read (.CR1 port) v, .reg_write (.CR1 port) ((v ||| (1 <<< 9)) % 65536)]) := by
  unfold master_stop
  refine TotL_bind (reg_read_totl env _ s) (fun v s1 t1 _ h1 => ?_)
  refine TotL_mono (reg_write_totl _ _ s1) (fun _ s2 t2 _ h2 => ?_)
  obtain ⟨_, ht1, hs1⟩ := h1
  obtain ⟨ht2, hs2⟩ := h2
  refine ⟨by rw [hs2, hs1], v, ?_⟩
  rw [ht1, ht2]
  rfl

theorem stop_requests_master_stop (port v : Nat) :
    stop_requests port
      [.reg_read (.CR1 port) v, .reg_write (.CR1 port) ((v ||| (1 <<< 9)) % 65536)] = 1 := by
  have h : (v ||| 512) % 65536 &&& 512 ≠ 0 := or_mod_and_bit16 v 9 (by decide)
  simp [stop_requests, Event.isStopRequest, List.countP_cons, h]

theorem isRetry_of_isRecovery (port : Nat) (e : Event) (h : e.isRecovery = true) :
    e.isRetry port = false := by
  cases e with
  | reg_read r v => cases r <;> first | rfl | simp [Event.isRecovery] at h
  | usleep us => simp [Event.isRecovery] at h
  | _ => rfl

theorem init_port_tail_no_retry (K : Consts) (port : Nat) :
    ∀ e ∈ init_port_tail K port, e.isRetry port = false := by
  have h : (init_port_tail K port).all (fun e => !e.isRetry port) = true := by
    unfold init_port_tail
    split <;> rfl
  intro e he
  have := List.all_eq_true.mp h e he
  simpa using this

/-- A run of `i2c_init_port(port)` shows in the log as one reinitialisation,
with no STOP request, no sleep and no read of SR2. -/
theorem i2c_init_port_summary (K : Consts) (env : Env) (port : Nat) (s : St)
    (hport : port = I2C1 ∨ port = I2C2) :
    TotL (i2c_init_port K env port) s (fun _ _ tl =>
      reinit_count port tl = 1 ∧ stop_requests port tl = 0 ∧
      ∀ e ∈ tl, e.isRetry port = false) := by
  obtain ⟨_, s', tl, e, ht, mid, htl, hmid, _, _⟩ := i2c_init_port_log K env port s hport
  obtain ⟨_, s2, tl2, e2, ht2, hc1, hc2, _⟩ := i2c_init_port_counts K env port s hport
  have hs : s2 = s' := by
    rw [e] at e2
    simp only [Option.some.injEq, Prod.mk.injEq, true_and] at e2
    exact e2.symm
  subst hs
  have htl2 : tl2 = tl := by
    rw [ht] at ht2
    exact (List.append_cancel_left ht2).symm
  subst htl2
  refine ⟨(), s2, tl2, e, ht, hc1, hc2, ?_⟩
  intro x hx
  rw [htl] at hx
  rcases List.mem_cons.mp hx with h | h
  · rw [h]; rfl
  · rcases List.mem_append.mp h with h | h
    · exact isRetry_of_isRecovery port x (hmid x h)
    · exact init_port_tail_no_retry K port x h

theorem afterIdleRead_nil (port : Nat) (good : Event → Prop) : AfterIdleRead port good [] := by
  intro pre r post h
  cases pre <;> cases h

theorem afterIdleRead_cons (port : Nat) (good : Event → Prop) (x : Event) (l : List Event)
    (hl : AfterIdleRead port good l)
    (hx : ∀ r, x = .reg_read (.SR2 port) r → r &&& 2 = 0 → ∀ e ∈ l, good e) :
    AfterIdleRead port good (x :: l) := by
  intro pre r post h hr
  cases pre with
  | nil =>
    simp only [List.nil_append, List.cons.injEq] at h
    rw [← h.2]
    exact hx r h.1 hr
  | cons y pre =>
    simp only [List.cons_append, List.cons.injEq] at h
    exact hl pre r post h.2 hr

theorem afterIdleRead_of_no_retry (port : Nat) (good : Event → Prop) (l : List Event)
    (h : ∀ e ∈ l, e.isRetry port = false) : AfterIdleRead port good l := by
  intro pre r post hl _
  have hmem : Event.reg_read (.SR2 port) r ∈ l := by rw [hl]; simp
  have := h _ hmem
  simp [Event.isRetry] at this

theorem afterIdleRead_append_single (port : Nat) (good : Event → Prop) (l : List Event)
    (fin : Event) (hl : AfterIdleRead port (fun _ => False) l)
    (hfin : ∀ r, fin ≠ .reg_read (.SR2 port) r) (hgood : good fin) :
    AfterIdleRead port good (l ++ [fin]) := by
  intro pre r post h hr
  rcases List.append_eq_append_iff.mp h with ⟨a', _, h2⟩ | ⟨c', h1, h2⟩
  · cases a' with
    | nil =>
      simp only [List.nil_append, List.cons.injEq] at h2
      exact absurd h2.1 (hfin r)
    | cons y a' =>
      simp only [List.cons_append, List.cons.injEq] at h2
      cases a' <;> simp at h2
  · cases c' with
    | nil =>
      simp only [List.nil_append, List.cons.injEq] at h2
      exact absurd h2.1.symm (hfin r)
    | cons y c' =>
      simp only [List.cons_append, List.cons.injEq] at h2
      obtain ⟨hy, hp⟩ := h2
      subst hy
      have hc : c' = [] := by
        cases c' with
        | nil => rfl
        | cons z c' => exact (hl pre r (z :: c') h1 hr z (List.mem_cons_self _ _)).elim
      subst hc
      intro e he
      rw [hp] at he
      simp only [List.nil_append, List.mem_singleton] at he
      rw [he]
      exact hgood

/-- The forced-STOP loop of `handle_i2c_error`, entered at least `1000 * j`
microseconds after `t1`: it returns within `12 - j` loop tests and requests at
most `11 - j` STOPs. -/
theorem handle_i2c_error_loop_log (K : Consts) (env : Env) (port t1 : Nat)
    (hport : port = I2C1 ∨ port = I2C2) :
    ∀ (fuel j r : Nat) (s : St), j ≤ 11 → t1 + 1000 * j ≤ s.now → 12 ≤ fuel + j →
    TotL (handle_i2c_error_loop K env port t1 fuel r) s (fun _ _ tl =>
      stop_requests port tl + j ≤ 11 ∧
      (r &&& 2 = 0 → tl = []) ∧
      ((∀ r', Event.reg_read (.SR2 port) r' ∈ tl → r' &&& 2 ≠ 0) → r &&& 2 ≠ 0 →
        reinit_count port tl = 1 ∧
        ∃ t2, Event.get_time t2 ∈ tl ∧ t1 + I2C_TX_TIMEOUT_MASTER < t2) ∧
      AfterIdleRead port (fun _ => False) tl ∧
      ((∃ r', Event.reg_read (.SR2 port) r' ∈ tl ∧ r' &&& 2 = 0) →
        reinit_count port tl = 0)) := by
  intro fuel
  induction fuel with
  | zero => intro j r s hj _ hf; omega
  | succ fuel ih =>
    intro j r s hj hnow hf
    unfold handle_i2c_error_loop
    refine TotL_ite (fun hbusy => ?_) (fun hidle => TotL_pure ?_)
    · refine TotL_bind (get_time_totl env s) (fun t2 s1 tt1 _ h1 => ?_)
      obtain ⟨htt1, hs1now, hle, _⟩ := h1
      have e10 := timeout_master_eq
      refine TotL_ite (fun hto => ?_) (fun hnto => ?_)
      · refine TotL_mono (i2c_init_port_summary K env port s1 hport) (fun _ _ il _ hil => ?_)
        obtain ⟨hc1, hc2, hnr⟩ := hil
        have hnr2 : ∀ e ∈ tt1 ++ il, e.isRetry port = false := by
          intro e he
          rcases List.mem_append.mp he with h | h
          · rw [htt1] at h; rw [List.mem_singleton.mp h]; rfl
          · exact hnr e h
        have hnone : ∀ r', Event.reg_read (.SR2 port) r' ∉ tt1 ++ il := by
          intro r' hmem
          have := hnr2 _ hmem
          simp [Event.isRetry] at this
        have a1 : stop_requests port tt1 = 0 := by rw [htt1]; rfl
        have b1 : reinit_count port tt1 = 0 := by rw [htt1]; rfl
        refine ⟨?_, fun h => absurd h hbusy, fun _ _ => ⟨?_, t2, ?_, by omega⟩, ?_, ?_⟩
        · rw [stop_requests_append, hc2, a1]; omega
        · rw [reinit_count_append, hc1, b1]
        · rw [htt1]; simp
        · exact afterIdleRead_of_no_retry _ _ _ hnr2
        · rintro ⟨r', hmem, _⟩
          exact absurd hmem (hnone r')
      · refine TotL_bind (master_stop_totl env port s1) (fun _ s2 tt2 _ h2 => ?_)
        obtain ⟨h2now, v, htt2⟩ := h2
        refine TotL_bind (usleep_totl env 1000 s2) (fun _ s3 tt3 _ h3 => ?_)
        obtain ⟨htt3, h3now⟩ := h3
        refine TotL_bind (reg_read_totl env (.SR2 port) s3) (fun r2 s4 tt4 _ h4 => ?_)
        obtain ⟨_, htt4, hs4⟩ := h4
        have h4now : s4.now = s3.now := by rw [hs4]
        refine TotL_mono (ih (j + 1) r2 s4 (by omega) (by omega) (by omega))
          (fun _ _ rest _ hrest => ?_)
        obtain ⟨hr1, hr2, hr3, hr4, hr5⟩ := hrest
        have htl : tt1 ++ (tt2 ++ (tt3 ++ (tt4 ++ rest)))
            = [Event.get_time t2, .reg_read (.CR1 port) v,
                .reg_write (.CR1 port) ((v ||| (1 <<< 9)) % 65536), .usleep 1000,
                .reg_read (.SR2 port) r2] ++ rest := by
          rw [htt1, htt2, htt3, htt4]; rfl
        rw [htl]
        have a1 : stop_requests port [Event.get_time t2, .reg_read (.CR1 port) v,
            .reg_write (.CR1 port) ((v ||| (1 <<< 9)) % 65536), .usleep 1000,
            .reg_read (.SR2 port) r2] = 1 := by
          have h := stop_requests_master_stop port v
          simp only [stop_requests, List.countP_cons, Event.isStopRequest] at h ⊢
          simpa using h
        have b1 : reinit_count port [Event.get_time t2, .reg_read (.CR1 port) v,
            .reg_write (.CR1 port) ((v ||| (1 <<< 9)) % 65536), .usleep 1000,
            .reg_read (.SR2 port) r2] = 0 := by
          simp [reinit_count]
        have hmem2 : ∀ r', Event.reg_read (.SR2 port) r' ∈ [Event.get_time t2,
            .reg_read (.CR1 port) v, .reg_write (.CR1 port) ((v ||| (1 <<< 9)) % 65536),
            .usleep 1000, .reg_read (.SR2 port) r2] → r' = r2 := by
          intro r' h
          simpa using h
        refine ⟨?_, fun h => absurd h hbusy, fun hall _ => ?_, ?_, ?_⟩
        · rw [stop_requests_append, a1]; omega
        · have hb2 : r2 &&& 2 ≠ 0 := hall r2 (by simp)
          obtain ⟨hc, t3, ht3, hlt⟩ :=
            hr3 (fun r' h => hall r' (List.mem_append_right _ h)) hb2
          exact ⟨by rw [reinit_count_append, b1, hc], t3, List.mem_append_right _ ht3, hlt⟩
        · show AfterIdleRead port (fun _ => False)
            (Event.get_time t2 :: .reg_read (.CR1 port) v ::
              .reg_write (.CR1 port) ((v ||| (1 <<< 9)) % 65536) :: .usleep 1000 ::
              .reg_read (.SR2 port) r2 :: rest)
          refine afterIdleRead_cons _ _ _ _ ?_ (fun _ h => by cases h)
          refine afterIdleRead_cons _ _ _ _ ?_ (fun _ h => by cases h)
          refine afterIdleRead_cons _ _ _ _ ?_ (fun _ h => by cases h)
          refine afterIdleRead_cons _ _ _ _ ?_ (fun _ h => by cases h)
          refine afterIdleRead_cons _ _ _ _ hr4 (fun r' h hidle => ?_)
          have hr : r2 = r' := by cases h; rfl
          rw [hr2 (by rw [hr]; exact hidle)]
          intro e he
          cases he
        · rintro ⟨r', hmem, hidle⟩
          rcases List.mem_append.mp hmem with h | h
          · have hr := hmem2 r' h
            rw [hr] at hidle
            rw [hr2 hidle, List.append_nil, b1]
          · rw [reinit_count_append, b1, hr5 ⟨r', h, hidle⟩]
    · have hidle2 : r &&& 2 = 0 := Classical.not_not.mp hidle
      refine ⟨by simp [stop_requests]; omega, fun _ => rfl, fun _ h => absurd hidle2 h,
        afterIdleRead_nil _ _, ?_⟩
      rintro ⟨r', hmem, _⟩
      cases hmem

theorem low_byte_of_folded_timeout (K : Consts) (hK : K.ErrorCodesOk) (rv : Nat)
    (h : (if rv &&& 0xff = K.EC_ERROR_TIMEOUT then K.EC_ERROR_TIMEOUT else rv)
      = K.EC_ERROR_TIMEOUT) : rv &&& 0xff = K.EC_ERROR_TIMEOUT := by
  by_cases hc : rv &&& 0xff = K.EC_ERROR_TIMEOUT
  · exact hc
  · rw [if_neg hc] at h
    rw [h]
    exact and_0xff_of_lt _ hK.2.2.1

/-- The log of `handle_i2c_error` when the START-reinitialisation branch is
not taken. -/
theorem handle_i2c_error_log (K : Consts) (env : Env) (hK : K.ErrorCodesOk) (fuel : Nat)
    (hfuel : 12 ≤ fuel) (port rv : Nat) (hport : port = I2C1 ∨ port = I2C2) (s : St)
    (hnb : rv ≠ K.EC_ERROR_BUSY)
    (hnostart : rv &&& 0xff = K.EC_ERROR_TIMEOUT → ∀ v1 r t,
      env (s.trace ++ [.reg_write (.SR1 port) 0, .reg_read (.SR1 port) v1,
        .reg_read (.SR2 port) r, .get_time t]) (.reg (.CR1 port)) % 65536 &&& (1 <<< 8) = 0) :
    TotL (handle_i2c_error K env fuel port rv) s (fun _ _ tl =>
      ∃ (v1 r0 tm : Nat) (c mid : List Event),
        tl = [.reg_write (.SR1 port) 0, .reg_read (.SR1 port) v1, .reg_read (.SR2 port) r0,
          .get_time tm] ++ c ++ mid ++ [.reg_write (.CR1 port) ((1 <<< 10) ||| (1 <<< 0))] ∧
        (c = [] ∨ ∃ cr1, c = [.reg_read (.CR1 port) cr1]) ∧
        stop_requests port mid ≤ 11 ∧
        ((∀ r', Event.reg_read (.SR2 port) r' ∈ mid → r' &&& 2 ≠ 0) → r0 &&& 2 ≠ 0 →
          reinit_count port mid = 1 ∧
          ∃ t2, Event.get_time t2 ∈ mid ∧ tm + I2C_TX_TIMEOUT_MASTER < t2) ∧
        (r0 &&& 2 = 0 → reinit_count port mid = 0 ∧ ∀ e ∈ mid, e.isRetry port = false) ∧
        AfterIdleRead port (fun _ => False) mid ∧
        ((∃ r', Event.reg_read (.SR2 port) r' ∈ mid ∧ r' &&& 2 = 0) →
          reinit_count port mid = 0)) := by
  unfold handle_i2c_error
  rw [if_neg hnb]
  refine TotL_bind (reg_write_totl _ _ s) (fun _ s1 t1 hs1 h1 => ?_)
  refine TotL_bind (reg_read_totl env _ s1) (fun v1 s2 t2 hs2 h2 => ?_)
  refine TotL_bind (reg_read_totl env _ s2) (fun r0 s3 t3 hs3 h3 => ?_)
  refine TotL_bind (get_time_totl env s3) (fun tm s4 t4 hs4 h4 => ?_)
  have ht1 : t1 = [.reg_write (.SR1 port) 0] := by rw [h1.1]; simp [Reg.modulus]
  have htr4 : s4.trace = s.trace ++ [.reg_write (.SR1 port) 0, .reg_read (.SR1 port) v1,
      .reg_read (.SR2 port) r0, .get_time tm] := by
    rw [hs4, hs3, hs2, hs1, ht1, h2.2.1, h3.2.1, h4.1]; simp
  refine TotL_bind (P := fun sp s5 t => sp = false ∧ s5.now = s4.now ∧
      (t = [] ∨ ∃ cr1, t = [Event.reg_read (.CR1 port) cr1])) ?_ (fun sp s5 t5 _ h5 => ?_)
  · refine TotL_ite (fun hT => ?_) (fun _ => TotL_pure ⟨rfl, rfl, Or.inl rfl⟩)
    refine TotL_bind (reg_read_totl env _ s4) (fun cr1 s5 t5 _ h5 => ?_)
    refine TotL_pure ⟨?_, by rw [h5.2.2], Or.inr ⟨cr1, by simp [h5.2.1]⟩⟩
    have hz := hnostart (low_byte_of_folded_timeout K hK rv hT) v1 r0 tm
    rw [← htr4] at hz
    have hcr : cr1 &&& 256 = 0 := by rw [h5.1]; exact hz
    simp [hcr]
  obtain ⟨hsp, h5now, h5t⟩ := h5
  subst hsp
  refine TotL_bind (P := fun _ _ mid => stop_requests port mid ≤ 11 ∧
      ((∀ r', Event.reg_read (.SR2 port) r' ∈ mid → r' &&& 2 ≠ 0) → r0 &&& 2 ≠ 0 →
        reinit_count port mid = 1 ∧
        ∃ t2, Event.get_time t2 ∈ mid ∧ tm + I2C_TX_TIMEOUT_MASTER < t2) ∧
      (r0 &&& 2 = 0 → reinit_count port mid = 0 ∧ ∀ e ∈ mid, e.isRetry port = false) ∧
      AfterIdleRead port (fun _ => False) mid ∧
      ((∃ r', Event.reg_read (.SR2 port) r' ∈ mid ∧ r' &&& 2 = 0) →
        reinit_count port mid = 0)) ?_ (fun _ s6 t6 _ h6 => ?_)
  · rw [if_neg (by simp)]
    refine TotL_bind (P := fun _ s' t => s'.now = s5.now ∧ (t = [] ∨ (r0 &&& 2 = 0 ∧
        ∃ v, t = [Event.reg_read (.CR1 port) v,
          .reg_write (.CR1 port) ((v ||| (1 <<< 9)) % 65536)]))) ?_ (fun _ s6 tb _ hb => ?_)
    · refine TotL_ite (fun h => TotL_mono (master_stop_totl env port s5)
        (fun _ _ _ _ hm => ⟨hm.1, Or.inr ⟨h.2, hm.2⟩⟩)) (fun _ => TotL_pure ⟨rfl, Or.inl rfl⟩)
    obtain ⟨hbnow, hb⟩ := hb
    refine TotL_mono (handle_i2c_error_loop_log K env port tm hport fuel 0 r0 s6 (by omega)
      (by rw [hbnow, h5now, h4.2.1]; omega) (by omega)) (fun _ _ lp _ hlp => ?_)
    obtain ⟨hl1, hl2, hl3, hl4, hl5⟩ := hlp
    rcases hb with hb | ⟨hidle, v, hb⟩
    · subst hb
      rw [List.nil_append]
      refine ⟨by omega, hl3, fun hidle => ?_, hl4, hl5⟩
      rw [hl2 hidle]
      exact ⟨rfl, fun _ h => by cases h⟩
    · have hlp : lp = [] := hl2 hidle
      subst hlp
      rw [List.append_nil, hb]
      have hno : ∀ e ∈ [Event.reg_read (.CR1 port) v,
          .reg_write (.CR1 port) ((v ||| (1 <<< 9)) % 65536)], e.isRetry port = false := by
        intro e he
        simp only [List.mem_cons, List.mem_singleton, List.not_mem_nil, or_false] at he
        rcases he with h | h <;> rw [h] <;> rfl
      have hrc : reinit_count port [Event.reg_read (.CR1 port) v,
          .reg_write (.CR1 port) ((v ||| (1 <<< 9)) % 65536)] = 0 := by
        simp [reinit_count]
      refine ⟨by rw [stop_requests_master_stop]; omega, fun _ h => absurd hidle h,
        fun _ => ⟨hrc, hno⟩, afterIdleRead_of_no_retry _ _ _ hno, fun _ => hrc⟩
  refine TotL_mono (reg_write_totl _ _ s6) (fun _ _ t7 _ h7 => ?_)
  refine ⟨v1, r0, tm, t5, t6, ?_, h5t, h6⟩
  rw [ht1, h2.2.1, h3.2.1, h4.1, h7.1]
  simp [Reg.modulus]

theorem sr2Given_of_no_retry (env : Env) (port : Nat) (e : Event)
    (h : e.isRetry port = false) : e.readGiven env (.SR2 port) := by
  intro r hr
  rw [hr] at h
  simp [Event.isRetry] at h

theorem reg_read_readGiven (env : Env) (r0 r : Reg) (s : St) :
    TotL (reg_read env r) s (fun _ s' t => (∀ e ∈ t, e.readGiven env r0) ∧
      s'.now = s.now) := by
  refine TotL_mono (reg_read_totl env r s) (fun v s' t _ h => ⟨fun e he r' hr' => ?_, ?_⟩)
  · rw [h.2.1] at he
    rw [List.mem_singleton.mp he] at hr'
    cases hr'
    exact ⟨s.trace, h.1⟩
  · rw [h.2.2]

theorem master_stop_sr2Given (env : Env) (port : Nat) (s : St) :
    TotL (master_stop env port) s (fun _ s' t => (∀ e ∈ t, e.readGiven env (.SR2 port)) ∧
      s'.now = s.now) := by
  refine TotL_mono (master_stop_totl env port s) (fun _ s' t _ h => ⟨fun e he => ?_, h.1⟩)
  obtain ⟨v, hv⟩ := h.2
  rw [hv] at he
  apply sr2Given_of_no_retry
  simp only [List.mem_cons, List.mem_singleton, List.not_mem_nil, or_false] at he
  rcases he with h | h <;> rw [h] <;> rfl

/-- Every read of SR2 that the forced-STOP loop of `handle_i2c_error` logs
shows a value the outside world gave for SR2. -/
theorem handle_i2c_error_loop_sr2Given (K : Consts) (env : Env) (port t1 : Nat)
    (hport : port = I2C1 ∨ port = I2C2) :
    ∀ (fuel j r : Nat) (s : St), j ≤ 11 → t1 + 1000 * j ≤ s.now → 12 ≤ fuel + j →
    TotL (handle_i2c_error_loop K env port t1 fuel r) s (fun _ _ tl =>
      (∀ e ∈ tl, e.readGiven env (.SR2 port)) ∧ True) := by
  intro fuel
  induction fuel with
  | zero => intro j r s hj _ hf; omega
  | succ fuel ih =>
    intro j r s hj hnow hf
    unfold handle_i2c_error_loop
    refine TotL_ite (fun _ => ?_) (fun _ => TotL_pure_class trivial)
    refine TotL_bind_class (P := fun t2 s1 => s1.now = t2 ∧ s.now ≤ t2)
      (TotL_mono (get_time_totl env s) (fun t s' tl _ h => ⟨fun e he => ?_, h.2.1, h.2.2.1⟩))
      (fun t2 s1 h1 => ?_)
    · rw [h.1] at he
      rw [List.mem_singleton.mp he]
      exact sr2Given_of_no_retry _ _ _ rfl
    have e10 := timeout_master_eq
    refine TotL_ite (fun _ => ?_) (fun hnto => ?_)
    · exact TotL_mono (i2c_init_port_summary K env port s1 hport) (fun _ _ il _ hil =>
        ⟨fun e he => sr2Given_of_no_retry _ _ _ (hil.2.2 e he), trivial⟩)
    · refine TotL_bind_class (master_stop_sr2Given env port s1) (fun _ s2 h2 => ?_)
      refine TotL_bind_class (P := fun _ s3 => s2.now + 1000 ≤ s3.now)
        (TotL_mono (usleep_totl env 1000 s2) (fun _ s' tl _ h => ⟨fun e he => ?_, h.2⟩))
        (fun _ s3 h3 => ?_)
      · rw [h.1] at he
        rw [List.mem_singleton.mp he]
        intro r' hr'
        cases hr'
      refine TotL_bind_class (reg_read_readGiven env (.SR2 port) (.SR2 port) s3) (fun r2 s4 h4 => ?_)
      exact ih (j + 1) r2 s4 (by omega) (by omega) (by omega)

/-- Every read of SR2 that `handle_i2c_error` logs shows a value the outside
world gave for SR2. -/
theorem handle_i2c_error_sr2Given (K : Consts) (env : Env) (fuel : Nat) (hfuel : 12 ≤ fuel)
    (port rv : Nat) (hport : port = I2C1 ∨ port = I2C2) (s : St) (hnb : rv ≠ K.EC_ERROR_BUSY) :
    TotL (handle_i2c_error K env fuel port rv) s (fun _ _ tl =>
      (∀ e ∈ tl, e.readGiven env (.SR2 port)) ∧ True) := by
  have hw : ∀ (r : Reg) (v : Nat) (s : St), TotL (reg_write r v) s (fun _ s' t =>
      (∀ e ∈ t, e.readGiven env (.SR2 port)) ∧ s'.now = s.now) := by
    intro r v s
    refine TotL_mono (reg_write_totl r v s) (fun _ s' t _ h => ⟨fun e he => ?_, ?_⟩)
    · rw [h.1] at he
      rw [List.mem_singleton.mp he]
      exact sr2Given_of_no_retry _ _ _ rfl
    · rw [h.2]
  unfold handle_i2c_error
  rw [if_neg hnb]
  refine TotL_bind_class (hw _ _ s) (fun _ s1 _ => ?_)
  refine TotL_bind_class (reg_read_readGiven env (.SR2 port) _ s1) (fun _ s2 _ => ?_)
  refine TotL_bind_class (reg_read_readGiven env (.SR2 port) _ s2) (fun r0 s3 _ => ?_)
  refine TotL_bind_class (P := fun tm s4 => s4.now = tm)
    (TotL_mono (get_time_totl env s3) (fun t s' tl _ h => ⟨fun e he => ?_, h.2.1⟩))
    (fun tm s4 h4 => ?_)
  · rw [h.1] at he
    rw [List.mem_singleton.mp he]
    exact sr2Given_of_no_retry _ _ _ rfl
  refine TotL_bind_class (P := fun _ s5 => s5.now = s4.now) ?_ (fun sp s5 h5 => ?_)
  · refine TotL_ite (fun _ => ?_) (fun _ => TotL_pure_class rfl)
    exact TotL_bind_class (reg_read_readGiven env (.SR2 port) _ s4) (fun _ _ h => TotL_pure_class h)
  refine TotL_bind_class (P := fun _ _ => True) ?_ (fun _ s6 _ => ?_)
  · refine TotL_ite (fun _ => TotL_mono (i2c_init_port_summary K env port s5 hport)
      (fun _ _ il _ hil => ⟨fun e he => sr2Given_of_no_retry _ _ _ (hil.2.2 e he), trivial⟩))
      (fun _ => ?_)
    refine TotL_bind_class (P := fun _ s' => s'.now = s5.now) ?_ (fun _ s6 hb => ?_)
    · exact TotL_ite (fun _ => master_stop_sr2Given env port s5) (fun _ => TotL_pure_class rfl)
    exact handle_i2c_error_loop_sr2Given K env port tm hport fuel 0 r0 s6 (by omega)
      (by rw [hb, h5, h4]; omega) (by omega)
  exact TotL_mono (hw _ _ s6) (fun _ _ _ _ h => ⟨h.1, trivial⟩)

/-- C14: the forced-STOP retry of `handle_i2c_error` is bounded.  For every
outcome other than `EC_ERROR_BUSY` for which the START-reinitialisation branch
is not taken, and a loop budget of 12 tests, the handler returns (every
`usleep(1000)` of the model advances the clock by at least 1000 µs) and its log
shows at most 11 STOP requests.  If every read of SR2 shows BUSY (bit 1) set,
the log shows exactly one reinitialisation, and two readings of the clock more
than `I2C_TX_TIMEOUT_MASTER` = 10 ms apart.  If a read of SR2 shows BUSY clear,
no turn of the loop follows it (no sleep, no further read of SR2) and the log
shows no reinitialisation. -/
theorem handle_i2c_error_forced_stop_bounded (K : Consts) (env : Env) (hK : K.ErrorCodesOk)
    (fuel : Nat) (hfuel : 12 ≤ fuel) (port rv : Nat) (hport : port = I2C1 ∨ port = I2C2)
    (s : St) (hnb : rv ≠ K.EC_ERROR_BUSY)
    (hnostart : rv &&& 0xff = K.EC_ERROR_TIMEOUT → ∀ v1 r t,
      env (s.trace ++ [.reg_write (.SR1 port) 0, .reg_read (.SR1 port) v1,
        .reg_read (.SR2 port) r, .get_time t]) (.reg (.CR1 port)) % 65536 &&& (1 <<< 8) = 0) :
    I2C_TX_TIMEOUT_MASTER = 10 * 1000 ∧
    ∃ (s' : St) (tl : List Event),
      (handle_i2c_error K env fuel port rv).run s = some ((), s') ∧
      s'.trace = s.trace ++ tl ∧
      stop_requests port tl ≤ 11 ∧
      ((∀ r, Event.reg_read (.SR2 port) r ∈ tl → r &&& 2 ≠ 0) →
        reinit_count port tl = 1 ∧
        ∃ t1 t2, Event.get_time t1 ∈ tl ∧ Event.get_time t2 ∈ tl ∧
          t1 + I2C_TX_TIMEOUT_MASTER < t2) ∧
      (∀ pre r post, tl = pre ++ Event.reg_read (.SR2 port) r :: post → r &&& 2 = 0 →
        reinit_count port tl = 0 ∧ ∀ e ∈ post, e.isRetry port = false) := by
  refine ⟨rfl, ?_⟩
  obtain ⟨_, s', tl, e, ht, v1, r0, tm, c, mid, htl, hc, hm1, hm2, hm3, hm4, hm5⟩ :=
    handle_i2c_error_log K env hK fuel hfuel port rv hport s hnb hnostart
  have hcs : stop_requests port c = 0 := by
    rcases hc with h | ⟨cr1, h⟩ <;> rw [h] <;> rfl
  have hcr : reinit_count port c = 0 := by
    rcases hc with h | ⟨cr1, h⟩ <;> rw [h] <;> simp [reinit_count]
  have hcn : ∀ e ∈ c, e.isRetry port = false := by
    intro e he
    rcases hc with h | ⟨cr1, h⟩ <;> rw [h] at he
    · cases he
    · rw [List.mem_singleton.mp he]; rfl
  have hstops : stop_requests port tl = stop_requests port mid := by
    rw [htl, stop_requests_append, stop_requests_append, stop_requests_append, hcs]
    have h1 : stop_requests port [Event.reg_write (.SR1 port) 0, .reg_read (.SR1 port) v1,
        .reg_read (.SR2 port) r0, .get_time tm] = 0 := rfl
    have h2 : stop_requests port [Event.reg_write (.CR1 port) ((1 <<< 10) ||| (1 <<< 0))]
        = 0 := by
      simp [stop_requests, Event.isStopRequest]
      decide
    rw [h1, h2]
    omega
  have hreinit : reinit_count port tl = reinit_count port mid := by
    rw [htl, reinit_count_append, reinit_count_append, reinit_count_append, hcr]
    simp [reinit_count]
  have hmem : ∀ r, Event.reg_read (.SR2 port) r ∈ tl →
      r = r0 ∨ Event.reg_read (.SR2 port) r ∈ mid := by
    intro r h
    rw [htl] at h
    rcases List.mem_append.mp h with h | h
    · rcases List.mem_append.mp h with h | h
      · rcases List.mem_append.mp h with h | h
        · simp only [List.mem_cons, List.mem_singleton, List.not_mem_nil, or_false] at h
          rcases h with h | h | h | h
          · cases h
          · cases h
          · left; cases h; rfl
          · cases h
        · rcases hc with hc | ⟨cr1, hc⟩ <;> rw [hc] at h
          · cases h
          · rw [List.mem_singleton] at h; cases h
      · exact Or.inr h
    · rw [List.mem_singleton] at h; cases h
  refine ⟨s', tl, e, ht, by rw [hstops]; exact hm1, fun hall => ?_, fun pre r post hd hidle => ?_⟩
  · have hb0 : r0 &&& 2 ≠ 0 := hall r0 (by rw [htl]; simp)
    obtain ⟨h1, t2, ht2, hlt⟩ := hm2 (fun r' h => hall r' (by rw [htl]; simp [h])) hb0
    exact ⟨by rw [hreinit, h1], tm, t2, by rw [htl]; simp, by rw [htl]; simp [ht2], hlt⟩
  · have hin : Event.reg_read (.SR2 port) r ∈ tl := by rw [hd]; simp
    refine ⟨?_, ?_⟩
    · rw [hreinit]
      rcases hmem r hin with h | h
      · exact (hm3 (by rw [← h]; exact hidle)).1
      · exact hm5 ⟨r, h, hidle⟩
    · have hfin : AfterIdleRead port (fun e => e.isRetry port = false)
          (mid ++ [Event.reg_write (.CR1 port) ((1 <<< 10) ||| (1 <<< 0))]) :=
        afterIdleRead_append_single _ _ _ _ hm4 (fun _ h => by cases h) rfl
      have hcfin : AfterIdleRead port (fun e => e.isRetry port = false)
          (c ++ (mid ++ [Event.reg_write (.CR1 port) ((1 <<< 10) ||| (1 <<< 0))])) := by
        rcases hc with h | ⟨cr1, h⟩ <;> rw [h]
        · exact hfin
        · exact afterIdleRead_cons _ _ _ _ hfin (fun _ h => by cases h)
      have hall : AfterIdleRead port (fun e => e.isRetry port = false) tl := by
        have e1 : tl = Event.reg_write (.SR1 port) 0 :: .reg_read (.SR1 port) v1 ::
            .reg_read (.SR2 port) r0 :: .get_time tm ::
            (c ++ (mid ++ [Event.reg_write (.CR1 port) ((1 <<< 10) ||| (1 <<< 0))])) := by
          rw [htl]; simp
        rw [e1]
        refine afterIdleRead_cons _ _ _ _ ?_ (fun _ h => by cases h)
        refine afterIdleRead_cons _ _ _ _ ?_ (fun _ h => by cases h)
        refine afterIdleRead_cons _ _ _ _ ?_ (fun r' h hidle' => ?_)
        · exact afterIdleRead_cons _ _ _ _ hcfin (fun _ h => by cases h)
        · have hr : r0 = r' := by cases h; rfl
          have hm := (hm3 (by rw [hr]; exact hidle')).2
          intro x hx
          simp only [List.mem_cons, List.mem_append, List.mem_singleton, List.not_mem_nil,
            or_false] at hx
          rcases hx with h | h | h | h
          · rw [h]; rfl
          · exact hcn x h
          · exact hm x h
          · rw [h]; rfl
      exact hall pre r post hd hidle

theorem handle_i2c_error_forced_stop_bounded_witness :
    ∃ (s' : St) (tl : List Event),
      (handle_i2c_error exampleConsts stuckBusy 12 I2C1
        (exampleConsts.EC_ERROR_TIMEOUT ||| (WAIT_XMIT_BTF <<< 8))).run {} = some ((), s') ∧
      s'.trace = ({} : St).trace ++ tl ∧
      (∀ r, Event.reg_read (.SR2 I2C1) r ∈ tl → r &&& 2 ≠ 0) ∧
      stop_requests I2C1 tl ≤ 11 ∧
      reinit_count I2C1 tl = 1 ∧
      ∃ t1 t2, Event.get_time t1 ∈ tl ∧ Event.get_time t2 ∈ tl ∧
        t1 + I2C_TX_TIMEOUT_MASTER < t2 := by
  obtain ⟨_, s', tl, e, ht, hstops, hbusy, _⟩ :=
    handle_i2c_error_forced_stop_bounded exampleConsts stuckBusy (by decide) 12
      (Nat.le_refl 12) I2C1 (exampleConsts.EC_ERROR_TIMEOUT ||| (WAIT_XMIT_BTF <<< 8))
      (Or.inl rfl) {} (by decide) (fun _ _ _ _ => (by decide : (0 % 65536 &&& (1 <<< 8)) = 0))
  obtain ⟨_, s2, tl2, e2, ht2, hgiven, _⟩ :=
    handle_i2c_error_sr2Given exampleConsts stuckBusy 12 (Nat.le_refl 12) I2C1
      (exampleConsts.EC_ERROR_TIMEOUT ||| (WAIT_XMIT_BTF <<< 8)) (Or.inl rfl) {} (by decide)
  have hs : s2 = s' := by
    rw [e] at e2
    cases e2
    rfl
  subst hs
  have htl : tl2 = tl := List.append_cancel_left (ht2.symm.trans ht)
  subst htl
  have hall : ∀ r, Event.reg_read (.SR2 I2C1) r ∈ tl2 → r &&& 2 ≠ 0 := by
    intro r hr
    obtain ⟨h, hv⟩ := hgiven _ hr r rfl
    rw [hv]
    show (2 % 65536 &&& 2) ≠ 0
    decide
  exact ⟨s2, tl2, e, ht, hall, hstops, (hbusy hall).1, (hbusy hall).2⟩

/-! ## The bounded waits and the log they leave -/

theorem status_reached_iff (mask r : Nat) :
    ¬ (if mask ≠ 0 then r &&& mask ≠ mask else r ≠ 0) ↔ status_reached mask r := by
  unfold status_reached
  split <;> simp

theorem last_value_append_getD (r : Reg) (a b : List Event) (va : Nat)
    (ha : last_value r a = some va) :
    last_value r (a ++ b) = some ((last_value r b).getD va) := by
  cases hb : last_value r b with
  | none => rw [last_value_append_of_none r a b hb, ha]; rfl
  | some vb => rw [last_value_append_of_some r a b vb hb]; rfl

theorem last_value_append_getD_none (r : Reg) (a b : List Event) (d : Nat)
    (ha : last_value r a = none) :
    (last_value r (a ++ b)).getD d = (last_value r b).getD d := by
  cases hb : last_value r b with
  | none => rw [last_value_append_of_none r a b hb, ha]
  | some vb => rw [last_value_append_of_some r a b vb hb]

theorem wait_status_loop_log (K : Consts) (env : Env) (htick : Ticking env)
    (port mask wait t1 : Nat) : ∀ (fuel r : Nat) (s : St),
    0 < fuel → t1 + I2C_TX_TIMEOUT_MASTER + 1 ≤ s.now + fuel →
    (∃ h, r = env h (.reg (.SR1 port)) % 65536) →
    TotL (wait_status_loop K env port mask wait t1 fuel r) s (fun rv _ tl =>
      (∀ e ∈ tl, e.isPolling = true) ∧
      ∃ v, (∃ h, v = env h (.reg (.SR1 port)) % 65536) ∧
        (last_value (.SR1 port) tl).getD r = v ∧
        ((rv = K.EC_SUCCESS ∧ status_reached mask v ∧
            (tl = [] ∨ ∃ pre, tl = pre ++ [.reg_read (.SR1 port) v])) ∨
         (rv = K.EC_ERROR_TIMEOUT ||| (wait <<< 8) ∧ ¬ status_reached mask v))) := by
  intro fuel
  induction fuel with
  | zero => intro r s h; exact absurd h (Nat.lt_irrefl 0)
  | succ fuel ih =>
    intro r s _ hfuel hr
    unfold wait_status_loop
    refine TotL_ite (fun hcont => ?_) (fun hdone => TotL_pure ?_)
    · have hnot : ¬ status_reached mask r := fun h => (status_reached_iff mask r).mpr h hcont
      refine TotL_bind (get_time_totl env s) (fun t2 s1 tt1 _ h1 => ?_)
      obtain ⟨htt1, hs1now, _, ht2⟩ := h1
      have htk := htick s.trace
      refine TotL_ite (fun hto => TotL_pure ?_) (fun hnto => ?_)
      · rw [List.append_nil, htt1]
        refine ⟨fun e he => by rw [List.mem_singleton.mp he]; rfl, r, hr, rfl, Or.inr ⟨rfl, hnot⟩⟩
      · refine TotL_bind (P := fun _ s' t => s1.now ≤ s'.now ∧
            (∀ e ∈ t, e.isPolling = true) ∧ last_value (.SR1 port) t = none) ?_
          (fun _ s2 tt2 _ h2 => ?_)
        · refine TotL_ite (fun _ => TotL_mono (usleep_totl env 100 s1) (fun _ _ _ _ h => ?_))
            (fun _ => TotL_pure ⟨Nat.le_refl _, (fun _ h => by cases h), rfl⟩)
          refine ⟨by have := h.2; omega, fun e he => ?_, by rw [h.1]; rfl⟩
          rw [h.1] at he; rw [List.mem_singleton.mp he]; rfl
        refine TotL_bind (reg_read_totl env (.SR1 port) s2) (fun r2 s3 tt3 _ h3 => ?_)
        obtain ⟨hr2, htt3, hs3⟩ := h3
        have h3now : s3.now = s2.now := by rw [hs3]
        have hle : t2 - t1 ≤ I2C_TX_TIMEOUT_MASTER := Nat.not_lt.mp hnto
        refine TotL_mono (ih r2 s3 (by omega) (by omega) ⟨s2.trace, hr2⟩)
          (fun rv _ rest _ hrest => ?_)
        obtain ⟨hpoll, v, hv, hlast, hcase⟩ := hrest
        refine ⟨?_, v, hv, ?_, ?_⟩
        · intro e he
          rcases List.mem_append.mp he with h | h
          · rw [htt1] at h; rw [List.mem_singleton.mp h]; rfl
          · rcases List.mem_append.mp h with h | h
            · exact h2.2.1 e h
            · rcases List.mem_append.mp h with h | h
              · rw [htt3] at h; rw [List.mem_singleton.mp h]; rfl
              · exact hpoll e h
        · have e1 : last_value (.SR1 port) tt1 = none := by rw [htt1]; rfl
          have e3 : last_value (.SR1 port) tt3 = some r2 := by
            rw [htt3]; simp [last_value]
          rw [last_value_append_getD_none _ _ _ _ e1, last_value_append_getD_none _ _ _ _ h2.2.2,
            last_value_append_getD _ _ _ _ e3]
          exact hlast
        · rcases hcase with ⟨h1, h2', h3⟩ | h
          · refine Or.inl ⟨h1, h2', Or.inr ?_⟩
            rcases h3 with h3 | ⟨pre, h3⟩
            · subst h3
              have : v = r2 := by simpa [last_value] using hlast.symm
              refine ⟨tt1 ++ tt2, ?_⟩
              rw [htt3, this]; simp
            · refine ⟨tt1 ++ (tt2 ++ (tt3 ++ pre)), ?_⟩
              rw [h3]; simp
          · exact Or.inr h
    · have hreached : status_reached mask r :=
        (status_reached_iff mask r).mp hdone
      exact ⟨(fun _ h => by cases h), r, hr, rfl, Or.inl ⟨rfl, hreached, Or.inl rfl⟩⟩

theorem wait_status_log (K : Consts) (env : Env) (htick : Ticking env) (fuel : Nat)
    (hfuel : I2C_TX_TIMEOUT_MASTER + 1 ≤ fuel) (port mask wait : Nat) (s : St) :
    TotL (wait_status K env fuel port mask wait) s (fun rv _ tl =>
      (∀ e ∈ tl, e.isPolling = true) ∧
      ∃ v, (∃ h, v = env h (.reg (.SR1 port)) % 65536) ∧
        last_value (.SR1 port) tl = some v ∧
        ((rv = K.EC_SUCCESS ∧ status_reached mask v ∧
            ∃ pre, tl = pre ++ [.reg_read (.SR1 port) v]) ∨
         (rv = K.EC_ERROR_TIMEOUT ||| (wait <<< 8) ∧ ¬ status_reached mask v))) := by
  unfold wait_status
  refine TotL_bind (get_time_totl env s) (fun t1 s1 tt1 _ h1 => ?_)
  obtain ⟨htt1, hs1now, _, _⟩ := h1
  refine TotL_bind (reg_read_totl env (.SR1 port) s1) (fun r s2 tt2 _ h2 => ?_)
  obtain ⟨hr, htt2, hs2⟩ := h2
  have h2now : s2.now = s1.now := by rw [hs2]
  refine TotL_mono (wait_status_loop_log K env htick port mask wait t1 fuel r s2 (by omega)
    (by omega) ⟨s1.trace, hr⟩) (fun rv _ rest _ hrest => ?_)
  obtain ⟨hpoll, v, hv, hlast, hcase⟩ := hrest
  have e1 : last_value (.SR1 port) tt1 = none := by rw [htt1]; rfl
  have e2 : last_value (.SR1 port) tt2 = some r := by rw [htt2]; simp [last_value]
  refine ⟨?_, v, hv, ?_, ?_⟩
  · intro e he
    rcases List.mem_append.mp he with h | h
    · rw [htt1] at h; rw [List.mem_singleton.mp h]; rfl
    · rcases List.mem_append.mp h with h | h
      · rw [htt2] at h; rw [List.mem_singleton.mp h]; rfl
      · exact hpoll e h
  · have := last_value_append_getD (.SR1 port) tt2 rest r e2
    rw [hlast] at this
    exact last_value_append_of_some _ _ _ _ this
  · rcases hcase with ⟨h1, h2', h3⟩ | h
    · refine Or.inl ⟨h1, h2', ?_⟩
      rcases h3 with h3 | ⟨pre, h3⟩
      · subst h3
        have : v = r := by simpa [last_value] using hlast.symm
        exact ⟨tt1, by rw [htt2, this]; simp⟩
      · exact ⟨tt1 ++ (tt2 ++ pre), by rw [h3]; simp⟩
    · exact Or.inr h

theorem tagged_timeout_shift (t w : Nat) (ht : t < 256) : (t ||| (w <<< 8)) >>> 8 = w := by
  apply Nat.eq_of_testBit_eq
  intro i
  rw [Nat.testBit_shiftRight, Nat.testBit_or, Nat.testBit_shiftLeft,
    testBit_of_lt_256 t (8 + i) ht (by omega)]
  simp

theorem tagged_timeout_ne_zero (t w : Nat) (ht : t < 256) (h0 : 0 < t) :
    t ||| (w <<< 8) ≠ 0 := by
  intro h
  have := tagged_timeout_low_byte t w ht
  rw [h] at this
  simp at this
  omega

/-- C17: with the clock moving and a loop budget above the time-out,
`wait_status(port, mask, wait)` returns, and its value is `EC_SUCCESS` or
`EC_ERROR_TIMEOUT | (wait << 8)`.  When it is `EC_SUCCESS`, the last interaction
is a read of SR1 whose value has every bit of a non-zero `mask` set (is 0 when
`mask` is 0).  For every wait code `w`, the low 8 bits of the tagged time-out
are `EC_ERROR_TIMEOUT` (the test of `handle_i2c_error`), the value shifted
right by 8 is `w`, and the value is not `EC_SUCCESS`; so different codes give
different values. -/
theorem wait_status_tagged_outcome (K : Consts) (env : Env) (hK : K.ErrorCodesOk)
    (htick : Ticking env) (fuel : Nat) (hfuel : I2C_TX_TIMEOUT_MASTER + 1 ≤ fuel)
    (port mask wait : Nat) (s : St) :
    (∃ (rv : Nat) (s' : St) (tl : List Event),
      (wait_status K env fuel port mask wait).run s = some (rv, s') ∧
      s'.trace = s.trace ++ tl ∧
      (rv = K.EC_SUCCESS ∨ rv = K.EC_ERROR_TIMEOUT ||| (wait <<< 8)) ∧
      (rv = K.EC_SUCCESS → ∃ pre v, tl = pre ++ [.reg_read (.SR1 port) v] ∧
        if mask ≠ 0 then v &&& mask = mask else v = 0)) ∧
    (∀ w, (K.EC_ERROR_TIMEOUT ||| (w <<< 8)) &&& 0xff = K.EC_ERROR_TIMEOUT ∧
      (K.EC_ERROR_TIMEOUT ||| (w <<< 8)) >>> 8 = w ∧
      K.EC_ERROR_TIMEOUT ||| (w <<< 8) ≠ K.EC_SUCCESS) ∧
    (∀ w1 w2, K.EC_ERROR_TIMEOUT ||| (w1 <<< 8) = K.EC_ERROR_TIMEOUT ||| (w2 <<< 8) →
      w1 = w2) := by
  obtain ⟨h0, hT0, hT, _⟩ := hK
  have hne : ∀ w, K.EC_ERROR_TIMEOUT ||| (w <<< 8) ≠ K.EC_SUCCESS := fun w => by
    rw [h0]; exact tagged_timeout_ne_zero _ w hT hT0
  refine ⟨?_, fun w => ⟨tagged_timeout_low_byte _ w hT, tagged_timeout_shift _ w hT, hne w⟩,
    fun w1 w2 h => ?_⟩
  · obtain ⟨rv, s', tl, e, ht, _, v, _, _, hcase⟩ :=
      wait_status_log K env htick fuel hfuel port mask wait s
    refine ⟨rv, s', tl, e, ht, ?_, fun hs => ?_⟩
    · rcases hcase with h | h
      · exact Or.inl h.1
      · exact Or.inr h.1
    · rcases hcase with ⟨_, hr, pre, hpre⟩ | ⟨h, _⟩
      · exact ⟨pre, v, hpre, hr⟩
      · exact absurd (h ▸ hs) (hne wait)
  · have h1 := tagged_timeout_shift K.EC_ERROR_TIMEOUT w1 hT
    rw [h, tagged_timeout_shift K.EC_ERROR_TIMEOUT w2 hT] at h1
    exact h1.symm

theorem wait_status_tagged_outcome_witness :
    (∃ (rv : Nat) (s' : St) (tl : List Event),
      (wait_status exampleConsts deadBus 10001 I2C1 SR1_SB WAIT_MASTER_START).run {}
        = some (rv, s') ∧
      s'.trace = ({} : St).trace ++ tl ∧
      (rv = exampleConsts.EC_SUCCESS ∨
        rv = exampleConsts.EC_ERROR_TIMEOUT ||| (WAIT_MASTER_START <<< 8)) ∧
      (rv = exampleConsts.EC_SUCCESS → ∃ pre v, tl = pre ++ [.reg_read (.SR1 I2C1) v] ∧
        if SR1_SB ≠ 0 then v &&& SR1_SB = SR1_SB else v = 0)) ∧
    (∀ w, (exampleConsts.EC_ERROR_TIMEOUT ||| (w <<< 8)) &&& 0xff
        = exampleConsts.EC_ERROR_TIMEOUT ∧
      (exampleConsts.EC_ERROR_TIMEOUT ||| (w <<< 8)) >>> 8 = w ∧
      exampleConsts.EC_ERROR_TIMEOUT ||| (w <<< 8) ≠ exampleConsts.EC_SUCCESS) ∧
    (∀ w1 w2, exampleConsts.EC_ERROR_TIMEOUT ||| (w1 <<< 8)
        = exampleConsts.EC_ERROR_TIMEOUT ||| (w2 <<< 8) → w1 = w2) :=
  wait_status_tagged_outcome exampleConsts deadBus (by decide) ticking_deadBus 10001
    (by decide) I2C1 SR1_SB WAIT_MASTER_START {}

theorem read_clear_status_totl (env : Env) (port : Nat) (s : St) :
    TotL (read_clear_status env port) s (fun _ _ tl => ∀ e ∈ tl, e.isPolling = true) := by
  unfold read_clear_status
  refine TotL_bind (reg_read_totl env (.SR1 port) s) (fun _ s1 t1 _ h1 => ?_)
  refine TotL_bind (reg_read_totl env (.SR2 port) s1) (fun _ s2 t2 _ h2 => ?_)
  refine TotL_pure ?_
  intro e he
  rw [h1.2.1, h2.2.1] at he
  simp only [List.append_nil, List.mem_append, List.mem_singleton] at he
  rcases he with h | h <;> rw [h] <;> rfl

/-- The log of `master_start`: the START request first, then only polling; the
value is `EC_SUCCESS` or the time-out of the stage that was not reached. -/
theorem master_start_log (K : Consts) (env : Env) (hK : K.ErrorCodesOk) (htick : Ticking env)
    (fuel : Nat) (hfuel : I2C_TX_TIMEOUT_MASTER + 1 ≤ fuel) (port addr : Nat) (s : St) :
    TotL (master_start K env fuel port addr) s (fun rv _ tl =>
      (∀ e ∈ tl, e.isPolling = true) ∧
      (∃ d rest, tl = [.reg_read (.CR1 port) d,
        .reg_write (.CR1 port) ((andNot d (1 <<< 9) ||| (1 <<< 8)) % 65536)] ++ rest) ∧
      ((rv = K.EC_SUCCESS ∧ ∃ h, status_reached SR1_ADDR (env h (.reg (.SR1 port)) % 65536)) ∨
       (rv = K.EC_ERROR_TIMEOUT ||| (WAIT_MASTER_START <<< 8) ∧
          ∃ h, ¬ status_reached SR1_SB (env h (.reg (.SR1 port)) % 65536)) ∨
       (rv = K.EC_ERROR_TIMEOUT ||| (WAIT_ADDR_READY <<< 8) ∧
          ∃ h, ¬ status_reached SR1_ADDR (env h (.reg (.SR1 port)) % 65536)))) := by
  have hne : ∀ w, K.EC_ERROR_TIMEOUT ||| (w <<< 8) ≠ 0 := fun w =>
    tagged_timeout_ne_zero _ w hK.2.2.1 hK.2.1
  unfold master_start
  refine TotL_bind (reg_read_totl env (.CR1 port) s) (fun d s1 t1 _ h1 => ?_)
  refine TotL_bind (reg_write_totl _ _ s1) (fun _ s2 t2 _ h2 => ?_)
  have hhead : ∀ rest, t1 ++ (t2 ++ rest) = [Event.reg_read (.CR1 port) d,
      .reg_write (.CR1 port) ((andNot d (1 <<< 9) ||| (1 <<< 8)) % 65536)] ++ rest := by
    intro rest
    rw [h1.2.1, h2.1]
    rfl
  have hp12 : ∀ e ∈ t1 ++ t2, e.isPolling = true := by
    intro e he
    rw [h1.2.1, h2.1] at he
    simp only [List.mem_append, List.mem_singleton] at he
    rcases he with h | h <;> rw [h] <;> rfl
  refine TotL_bind (wait_status_log K env htick fuel hfuel port SR1_SB WAIT_MASTER_START s2)
    (fun rv s3 t3 _ h3 => ?_)
  obtain ⟨hp3, v3, ⟨hh3, hv3⟩, _, hc3⟩ := h3
  refine TotL_ite (fun hrv => TotL_pure ?_) (fun hrv => ?_)
  · refine ⟨?_, ⟨d, t3 ++ [], hhead _⟩, ?_⟩
    · intro e he
      rw [List.append_nil, ← List.append_assoc] at he
      rcases List.mem_append.mp he with h | h
      · exact hp12 e h
      · exact hp3 e h
    · rcases hc3 with ⟨h, _⟩ | ⟨h, hn⟩
      · exact absurd (h.trans hK.1) hrv
      · exact Or.inr (Or.inl ⟨h, hh3, hv3 ▸ hn⟩)
  · refine TotL_bind (reg_write_totl (.DR port) addr s3) (fun _ s4 t4 _ h4 => ?_)
    refine TotL_bind (wait_status_log K env htick fuel hfuel port SR1_ADDR WAIT_ADDR_READY s4)
      (fun rv2 s5 t5 _ h5 => ?_)
    obtain ⟨hp5, v5, ⟨hh5, hv5⟩, _, hc5⟩ := h5
    have hp45 : ∀ e ∈ t1 ++ (t2 ++ (t3 ++ (t4 ++ t5))), e.isPolling = true := by
      intro e he
      rw [← List.append_assoc] at he
      rcases List.mem_append.mp he with h | h
      · exact hp12 e h
      · rcases List.mem_append.mp h with h | h
        · exact hp3 e h
        · rcases List.mem_append.mp h with h | h
          · rw [h4.1] at h; rw [List.mem_singleton.mp h]; rfl
          · exact hp5 e h
    refine TotL_ite (fun hrv2 => TotL_pure ?_) (fun hrv2 => ?_)
    · refine ⟨by simpa using hp45, ⟨d, t3 ++ (t4 ++ (t5 ++ [])), hhead _⟩, ?_⟩
      rcases hc5 with ⟨h, _⟩ | ⟨h, hn⟩
      · exact absurd (h.trans hK.1) hrv2
      · exact Or.inr (Or.inr ⟨h, hh5, hv5 ▸ hn⟩)
    · refine TotL_bind (read_clear_status_totl env port s5) (fun _ s6 t6 _ h6 => ?_)
      refine TotL_pure ⟨?_, ⟨d, t3 ++ (t4 ++ (t5 ++ (t6 ++ []))), hhead _⟩, ?_⟩
      · intro e he
        have he2 : e ∈ (t1 ++ (t2 ++ (t3 ++ (t4 ++ t5)))) ++ t6 := by simpa using he
        rcases List.mem_append.mp he2 with h | h
        · exact hp45 e h
        · exact h6 e h
      · rcases hc5 with ⟨_, hr, _⟩ | ⟨h, _⟩
        · exact Or.inl ⟨rfl, hh5, hv5 ▸ hr⟩
        · exact absurd (Classical.not_not.mp hrv2) (h ▸ hne _)

theorem reg_read_polling (env : Env) (r : Reg) (s : St)
    (hr : ∀ v, (Event.reg_read r v).isPolling = true) :
    TotL (reg_read env r) s (fun v s' t => (∀ e ∈ t, e.isPolling = true) ∧
      (v = env s.trace (.reg r) % r.modulus ∧ s'.now = s.now)) := by
  refine TotL_mono (reg_read_totl env r s) (fun v s' t _ h => ⟨fun e he => ?_, h.1, ?_⟩)
  · rw [h.2.1] at he; rw [List.mem_singleton.mp he]; exact hr v
  · rw [h.2.2]

theorem reg_write_polling (r : Reg) (v : Nat) (s : St)
    (hr : ∀ v, (Event.reg_write r v).isPolling = true) :
    TotL (reg_write r v) s (fun _ s' t => (∀ e ∈ t, e.isPolling = true) ∧ s'.now = s.now) := by
  refine TotL_mono (reg_write_totl r v s) (fun _ s' t _ h => ⟨fun e he => ?_, ?_⟩)
  · rw [h.1] at he; rw [List.mem_singleton.mp he]; exact hr _
  · rw [h.2]

theorem timestamp_expired_polling (env : Env) (d : Nat) (s : St) :
    TotL (timestamp_expired env d) s (fun b s' t => (∀ e ∈ t, e.isPolling = true) ∧
      (s.now + env s.trace .tick = s'.now ∧ (b = true ↔ d ≤ s'.now))) := by
  unfold timestamp_expired
  refine TotL_bind (get_time_totl env s) (fun t s1 tt _ h1 => ?_)
  refine TotL_pure ⟨fun e he => ?_, ?_, ?_⟩
  · rw [List.append_nil, h1.1] at he; rw [List.mem_singleton.mp he]; rfl
  · rw [h1.2.1]; exact h1.2.2.2.symm
  · rw [h1.2.1]; exact decide_eq_true_iff

theorem usleep_polling (env : Env) (us : Nat) (s : St) :
    TotL (usleep env us) s (fun _ s' t => (∀ e ∈ t, e.isPolling = true) ∧
      s.now + us ≤ s'.now) := by
  refine TotL_mono (usleep_totl env us s) (fun _ s' t _ h => ⟨fun e he => ?_, h.2⟩)
  rw [h.1] at he; rw [List.mem_singleton.mp he]; rfl

theorem wait_until_stop_sent_loop_log (K : Consts) (env : Env) (htick : Ticking env)
    (port deadline slow_cutoff : Nat) : ∀ (fuel is_slow : Nat) (s : St),
    0 < fuel → deadline + 1 ≤ s.now + fuel →
    TotL (wait_until_stop_sent_loop K env port deadline slow_cutoff fuel is_slow) s
      (fun rv _ tl => (∀ e ∈ tl, e.isPolling = true) ∧
        (rv = K.EC_SUCCESS ∨ (rv = K.EC_ERROR_TIMEOUT ∧
          ∃ h, env h (.reg (.CR1 port)) % 65536 &&& (1 <<< 9) ≠ 0))) := by
  intro fuel
  induction fuel with
  | zero => intro r s h; exact absurd h (Nat.lt_irrefl 0)
  | succ fuel ih =>
    intro is_slow s _ hfuel
    unfold wait_until_stop_sent_loop
    refine TotL_bind_class (reg_read_polling env (.CR1 port) s (fun _ => rfl))
      (fun cr1 s1 h1 => ?_)
    refine TotL_ite (fun hset => ?_) (fun _ => TotL_pure_class (Or.inl rfl))
    refine TotL_bind_class (timestamp_expired_polling env deadline s1) (fun b s2 hb => ?_)
    have htk := htick s1.trace
    have h1now : s1.now = s.now := h1.2
    refine TotL_ite (fun _ => ?_) (fun hnb => ?_)
    · refine TotL_bind_class (reg_read_polling env (.CR1 port) s2 (fun _ => rfl))
        (fun _ _ _ => TotL_pure_class (Or.inr ⟨rfl, s.trace, ?_⟩))
      have := h1.1
      rw [show Reg.modulus (.CR1 port) = 65536 from rfl] at this
      rw [← this]; exact hset
    have hlt : s2.now < deadline := by
      rcases Nat.lt_or_ge s2.now deadline with h | h
      · exact h
      · exact absurd (hb.2.mpr h) hnb
    refine TotL_ite (fun _ => ?_) (fun _ => ?_)
    · refine TotL_bind_class (usleep_polling env _ s2) (fun _ s3 h3 => ?_)
      apply ih <;> omega
    · refine TotL_bind_class (timestamp_expired_polling env slow_cutoff s2) (fun b2 s3 h3 => ?_)
      have h3now : s2.now ≤ s3.now := by have := h3.1; omega
      refine TotL_ite (fun _ => ?_) (fun _ => ?_)
      · apply ih <;> omega
      · apply ih <;> omega

theorem wait_until_stop_sent_log (K : Consts) (env : Env) (htick : Ticking env) (fuel : Nat)
    (hfuel : I2C_TX_TIMEOUT_MASTER + 1 ≤ fuel) (port : Nat) (s : St) :
    TotL (wait_until_stop_sent K env fuel port) s (fun rv _ tl =>
      (∀ e ∈ tl, e.isPolling = true) ∧
      (rv = K.EC_SUCCESS ∨ (rv = K.EC_ERROR_TIMEOUT ∧
        ∃ h, env h (.reg (.CR1 port)) % 65536 &&& (1 <<< 9) ≠ 0))) := by
  unfold wait_until_stop_sent
  refine TotL_bind_class (P := fun t s1 => s1.now = t)
    (TotL_mono (get_time_totl env s) (fun t s1 tt _ h => ⟨fun e he => ?_, h.2.1⟩))
    (fun t s1 h1 => ?_)
  · rw [h.1] at he; rw [List.mem_singleton.mp he]; rfl
  refine TotL_bind_class (P := fun _ s2 => s2.now = s1.now) ?_ (fun is_slow s2 h2 => ?_)
  · exact ⟨_, _, _, rfl, rfl, fun e he => by rw [List.mem_singleton.mp he]; rfl, rfl⟩
  have e1 := timeout_master_eq
  have e2 := timeout_stop_sent_eq
  apply wait_until_stop_sent_loop_log K env htick <;> omega

/-! ## The read phase: DMA exactly for more than one byte -/

theorem TotL_run {α : Type} {m : M α} {s : St} {P : α → St → List Event → Prop}
    (h : TotL m s P) :
    TotL m s (fun a s' t => m.run s = some (a, s') ∧ P a s' t) := by
  obtain ⟨a, s', t, e, ht, p⟩ := h
  exact ⟨a, s', t, e, ht, e, p⟩

theorem isDmaCall_of_isPolling (e : Event) (h : e.isPolling = true) : e.isDmaCall = false := by
  cases e <;> first | rfl | simp [Event.isPolling] at h

theorem isDataRead_of_isPolling (port : Nat) (e : Event) (h : e.isPolling = true) :
    e.isDataRead port = false := by
  cases e with
  | reg_read r v => cases r <;> first | rfl | simp [Event.isPolling] at h
  | _ => rfl

theorem isStartRx_of_isPolling (e : Event) (h : e.isPolling = true) : e.isStartRx = false := by
  cases e <;> first | rfl | simp [Event.isPolling] at h

theorem disable_ack_log (env : Env) (port : Nat) (s : St) :
    TotL (disable_ack env port) s (fun _ _ tl => ∃ a, tl = [.reg_read (.CR1 port) a,
      .reg_write (.CR1 port) (andNot a (1 <<< 10) % 65536)]) := by
  unfold disable_ack
  refine TotL_bind (reg_read_totl env _ s) (fun a s1 t1 _ h1 => ?_)
  refine TotL_mono (reg_write_totl _ _ s1) (fun _ _ t2 _ h2 => ⟨a, ?_⟩)
  rw [h1.2.1, h2.1]
  rfl

theorem enable_ack_log (env : Env) (port : Nat) (s : St) :
    TotL (enable_ack env port) s (fun _ _ tl => ∃ a, tl = [.reg_read (.CR1 port) a,
      .reg_write (.CR1 port) ((a ||| (1 <<< 10)) % 65536)]) := by
  unfold enable_ack
  refine TotL_bind (reg_read_totl env _ s) (fun a s1 t1 _ h1 => ?_)
  refine TotL_mono (reg_write_totl _ _ s1) (fun _ _ t2 _ h2 => ⟨a, ?_⟩)
  rw [h1.2.1, h2.1]
  rfl

/-- The read phase for one byte, step by step. -/
theorem i2c_master_receive_single_log (K : Consts) (env : Env) (hK : K.ErrorCodesOk)
    (htick : Ticking env) (fuel : Nat) (hfuel : I2C_TX_TIMEOUT_MASTER + 1 ≤ fuel)
    (port addr : Nat) (buf : List Nat) (hlen : 0 < buf.length) (s : St) :
    ∃ (rv : Nat) (out : Option (List Nat)) (s' : St) (tl : List Event),
      (i2c_master_receive K env fuel port addr (some buf) 1).run s = some ((rv, out), s') ∧
      s'.trace = s.trace ++ tl ∧
      (∀ e ∈ tl, e.isDmaCall = false) ∧
      ∃ (s1 s2 : St) (rv1 : Nat) (t_rest : List Event),
        (disable_ack env port).run s = some ((), s1) ∧
        (master_start K env fuel port (addr ||| 1)).run s1 = some (rv1, s2) ∧
        s'.trace = s2.trace ++ t_rest ∧
        (rv1 ≠ 0 → t_rest = [] ∧ rv = rv1 ∧ out = some buf) ∧
        (rv1 = 0 → ∃ (v : Nat) (t_wait t_end : List Event),
          t_rest = [.reg_read (.CR1 port) v,
            .reg_write (.CR1 port) ((v ||| (1 <<< 9)) % 65536)] ++ t_wait ++ t_end ∧
          (∀ e ∈ t_wait, e.isPolling = true) ∧
          ((t_end = [] ∧ rv = K.EC_ERROR_TIMEOUT ||| (WAIT_RX_NE_STOP_SIZE2 <<< 8) ∧
              out = some buf) ∨
           (∃ (x b : Nat) (pre t_stop : List Event),
              t_wait = pre ++ [.reg_read (.SR1 port) x] ∧ x &&& SR1_RxNE = SR1_RxNE ∧
              t_end = .reg_read (.DR port) b :: t_stop ∧
              (∀ e ∈ t_stop, e.isPolling = true) ∧
              out = some (buf.set 0 (b % 256)) ∧
              (rv = K.EC_SUCCESS ∨ rv = K.EC_ERROR_TIMEOUT)))) := by
  have hne : ∀ w, K.EC_ERROR_TIMEOUT ||| (w <<< 8) ≠ 0 := fun w =>
    tagged_timeout_ne_zero _ w hK.2.2.1 hK.2.1
  have key : TotL (i2c_master_receive K env fuel port addr (some buf) 1) s
      (fun r s' tl => (∀ e ∈ tl, e.isDmaCall = false) ∧
      ∃ (s1 s2 : St) (rv1 : Nat) (t_rest : List Event),
        (disable_ack env port).run s = some ((), s1) ∧
        (master_start K env fuel port (addr ||| 1)).run s1 = some (rv1, s2) ∧
        s'.trace = s2.trace ++ t_rest ∧
        (rv1 ≠ 0 → t_rest = [] ∧ r.1 = rv1 ∧ r.2 = some buf) ∧
        (rv1 = 0 → ∃ (v : Nat) (t_wait t_end : List Event),
          t_rest = [.reg_read (.CR1 port) v,
            .reg_write (.CR1 port) ((v ||| (1 <<< 9)) % 65536)] ++ t_wait ++ t_end ∧
          (∀ e ∈ t_wait, e.isPolling = true) ∧
          ((t_end = [] ∧ r.1 = K.EC_ERROR_TIMEOUT ||| (WAIT_RX_NE_STOP_SIZE2 <<< 8) ∧
              r.2 = some buf) ∨
           (∃ (x b : Nat) (pre t_stop : List Event),
              t_wait = pre ++ [.reg_read (.SR1 port) x] ∧ x &&& SR1_RxNE = SR1_RxNE ∧
              t_end = .reg_read (.DR port) b :: t_stop ∧
              (∀ e ∈ t_stop, e.isPolling = true) ∧
              r.2 = some (buf.set 0 (b % 256)) ∧
              (r.1 = K.EC_SUCCESS ∨ r.1 = K.EC_ERROR_TIMEOUT))))) := by
    unfold i2c_master_receive
    simp only
    rw [if_neg (by decide), if_neg (by decide)]
    refine TotL_bind (TotL_run (disable_ack_log env port s)) (fun _ s1 t1 hs1 h1 => ?_)
    obtain ⟨e1, a, ht1⟩ := h1
    have hp1 : ∀ e ∈ t1, e.isPolling = true := by
      intro e he
      rw [ht1] at he
      simp only [List.mem_cons, List.mem_singleton, List.not_mem_nil, or_false] at he
      rcases he with h | h <;> rw [h] <;> rfl
    refine TotL_bind (TotL_run (master_start_log K env hK htick fuel hfuel port (addr ||| 1) s1))
      (fun rv1 s2 t2 hs2 h2 => ?_)
    obtain ⟨e2, hp2, _, _⟩ := h2
    have hp12 : ∀ e ∈ t1 ++ t2, e.isPolling = true := fun e he =>
      (List.mem_append.mp he).elim (hp1 e) (hp2 e)
    refine TotL_ite (fun hrv1 => TotL_pure ?_) (fun hrv1 => ?_)
    · refine ⟨fun e he => isDmaCall_of_isPolling e (hp12 e (by simpa using he)),
        s1, s2, rv1, [], e1, e2, by simp, fun _ => ⟨rfl, rfl, rfl⟩, fun h => absurd h hrv1⟩
    have hrv1z : rv1 = 0 := Classical.not_not.mp hrv1
    refine TotL_bind (master_stop_totl env port s2) (fun _ s3 t3 hs3 h3 => ?_)
    obtain ⟨_, v, ht3⟩ := h3
    have hp3 : ∀ e ∈ t3, e.isPolling = true := by
      intro e he
      rw [ht3] at he
      simp only [List.mem_cons, List.mem_singleton, List.not_mem_nil, or_false] at he
      rcases he with h | h <;> rw [h] <;> rfl
    refine TotL_bind (wait_status_log K env htick fuel hfuel port SR1_RxNE WAIT_RX_NE_STOP_SIZE2
      s3) (fun rv2 s4 t4 hs4 h4 => ?_)
    obtain ⟨hp4, x, _, _, hc4⟩ := h4
    have hp1234 : ∀ e ∈ t1 ++ (t2 ++ (t3 ++ t4)), e.isPolling = true := by
      intro e he
      rw [← List.append_assoc] at he
      rcases List.mem_append.mp he with h | h
      · exact hp12 e h
      · exact (List.mem_append.mp h).elim (hp3 e) (hp4 e)
    refine TotL_ite (fun hrv2 => TotL_pure ?_) (fun hrv2 => ?_)
    · refine ⟨fun e he => isDmaCall_of_isPolling e (hp1234 e (by simpa using he)),
        s1, s2, rv1, t3 ++ t4, e1, e2, by rw [hs4, hs3, List.append_assoc],
        fun h => absurd hrv1z h, fun _ => ⟨v, t4, [], by rw [ht3]; simp, hp4, Or.inl ?_⟩⟩
      rcases hc4 with ⟨h, _⟩ | ⟨h, _⟩
      · exact absurd (h.trans hK.1) hrv2
      · exact ⟨rfl, h, rfl⟩
    have hrv2z : rv2 = 0 := Classical.not_not.mp hrv2
    refine TotL_bind (reg_read_totl env (.DR port) s4) (fun b s5 t5 hs5 h5 => ?_)
    refine TotL_ite (fun h0 => absurd h0 (by omega)) (fun _ => ?_)
    refine TotL_bind (wait_until_stop_sent_log K env htick fuel hfuel port s5)
      (fun r s6 t6 hs6 h6 => ?_)
    refine TotL_pure ⟨fun e he => ?_, s1, s2, rv1, t3 ++ (t4 ++ (t5 ++ t6)), e1, e2,
      by rw [hs6, hs5, hs4, hs3]; simp, fun h => absurd hrv1z h,
      fun _ => ⟨v, t4, t5 ++ t6, by rw [ht3]; simp, hp4, Or.inr ?_⟩⟩
    · have he2 : e ∈ (t1 ++ (t2 ++ (t3 ++ t4))) ++ (t5 ++ t6) := by simpa using he
      rcases List.mem_append.mp he2 with h | h
      · exact isDmaCall_of_isPolling e (hp1234 e h)
      · rcases List.mem_append.mp h with h | h
        · rw [h5.2.1] at h; rw [List.mem_singleton.mp h]; rfl
        · exact isDmaCall_of_isPolling e (h6.1 e h)
    · rcases hc4 with ⟨_, hreach, pre, hpre⟩ | ⟨h, _⟩
      · refine ⟨x, b, pre, t6, hpre, ?_, by rw [h5.2.1]; rfl, h6.1, rfl, ?_⟩
        · have := hreach
          unfold status_reached at this
          rw [if_pos (by decide)] at this
          exact this
        · rcases h6.2 with h | h
          · exact Or.inl h
          · exact Or.inr h.1
      · exact absurd hrv2z (h ▸ hne _)
  obtain ⟨⟨rv, out⟩, s', tl, e, ht, h⟩ := key
  exact ⟨rv, out, s', tl, e, ht, h⟩

theorem TotL_class_mono {α : Type} {C C' : Event → Prop} {m : M α} {s : St}
    {P : α → St → Prop} (h : TotL m s (fun a s' t => (∀ e ∈ t, C e) ∧ P a s'))
    (hC : ∀ e, C e → C' e) : TotL m s (fun a s' t => (∀ e ∈ t, C' e) ∧ P a s') :=
  TotL_mono h (fun _ _ _ _ hp => ⟨fun e he => hC e (hp.1 e he), hp.2⟩)

theorem emit_class {C : Event → Prop} (e : Event) (he : C e) (s : St) :
    TotL (emit e) s (fun _ _ t => (∀ x ∈ t, C x) ∧ True) :=
  TotL_mono (emit_totl e s) (fun _ _ t _ h => ⟨fun x hx => by
    rw [h.1] at hx; rw [List.mem_singleton.mp hx]; exact he, trivial⟩)

theorem reg_read_class {C : Event → Prop} (env : Env) (r : Reg) (hr : ∀ v, C (.reg_read r v))
    (s : St) : TotL (reg_read env r) s (fun _ _ t => (∀ x ∈ t, C x) ∧ True) :=
  TotL_mono (reg_read_totl env r s) (fun v _ t _ h => ⟨fun x hx => by
    rw [h.2.1] at hx; rw [List.mem_singleton.mp hx]; exact hr v, trivial⟩)

theorem reg_write_class {C : Event → Prop} (r : Reg) (v : Nat) (hr : ∀ v, C (.reg_write r v))
    (s : St) : TotL (reg_write r v) s (fun _ _ t => (∀ x ∈ t, C x) ∧ True) :=
  TotL_mono (reg_write_totl r v s) (fun _ _ t _ h => ⟨fun x hx => by
    rw [h.1] at hx; rw [List.mem_singleton.mp hx]; exact hr _, trivial⟩)

theorem task_wait_event_class {C : Event → Prop} (env : Env) (tmo : Nat)
    (hc : ∀ v, C (.task_wait_event tmo v)) (s : St) :
    TotL (task_wait_event env tmo) s (fun v _ t => (∀ x ∈ t, C x) ∧
      v = env s.trace .task_wait_event) :=
  ⟨_, _, _, rfl, rfl, fun x hx => by rw [List.mem_singleton.mp hx]; exact hc _, rfl⟩

theorem dma_rx_collect_class {C : Event → Prop} (env : Env) (size : Nat) (buf : List Nat)
    (hc : ∀ bytes, C (.dma_rx_data bytes)) (hsize : size ≤ buf.length) (s : St) :
    TotL (dma_rx_collect env size buf) s (fun buf2 _ t => (∀ x ∈ t, C x) ∧
      buf2.length = buf.length) := by
  refine ⟨(List.range size).map (fun i => env s.trace (.dma_byte i) % 256) ++ buf.drop size,
    { s with trace := s.trace ++
        [.dma_rx_data ((List.range size).map fun i => env s.trace (.dma_byte i) % 256)] },
    _, ?_, rfl, fun x hx => by rw [List.mem_singleton.mp hx]; exact hc _, ?_⟩
  · simp [dma_rx_collect, M.run, Nat.not_lt.mpr hsize]
  · simp only [List.length_append, List.length_map, List.length_range, List.length_drop]
    omega

theorem master_stop_class {C : Event → Prop} (env : Env) (port : Nat)
    (hC : ∀ e, e.isPolling = true → C e) (s : St) :
    TotL (master_stop env port) s (fun _ _ t => (∀ x ∈ t, C x) ∧ True) := by
  refine TotL_mono (master_stop_totl env port s) (fun _ _ t _ h => ⟨fun x hx => ?_, trivial⟩)
  obtain ⟨_, v, ht⟩ := h
  rw [ht] at hx
  simp only [List.mem_cons, List.mem_singleton, List.not_mem_nil, or_false] at hx
  rcases hx with h | h <;> rw [h] <;> exact hC _ rfl

theorem disable_ack_class {C : Event → Prop} (env : Env) (port : Nat)
    (hC : ∀ e, e.isPolling = true → C e) (s : St) :
    TotL (disable_ack env port) s (fun _ _ t => (∀ x ∈ t, C x) ∧ True) := by
  refine TotL_mono (disable_ack_log env port s) (fun _ _ t _ h => ⟨fun x hx => ?_, trivial⟩)
  obtain ⟨a, ht⟩ := h
  rw [ht] at hx
  simp only [List.mem_cons, List.mem_singleton, List.not_mem_nil, or_false] at hx
  rcases hx with h | h <;> rw [h] <;> exact hC _ rfl

/-- The read phase for more than one byte: what it does before START, and what
it never does. -/
theorem i2c_master_receive_dma_log (K : Consts) (env : Env) (hK : K.ErrorCodesOk)
    (htick : Ticking env) (fuel : Nat) (hfuel : I2C_TX_TIMEOUT_MASTER + 1 ≤ fuel)
    (port addr : Nat) (buf : List Nat) (size : Int) (hsize : 1 < size)
    (hroom : size ≤ (buf.length : Int)) (s : St) :
    ∃ (rv : Nat) (out : Option (List Nat)) (s' : St) (tl : List Event) (a b c d : Nat)
      (rest : List Event),
      (i2c_master_receive K env fuel port addr (some buf) size).run s = some ((rv, out), s') ∧
      s'.trace = s.trace ++ tl ∧
      tl = [.reg_read (.CR1 port) a, .reg_write (.CR1 port) ((a ||| (1 <<< 10)) % 65536),
            .dma_start_rx port size false, .dma_enable_tc_interrupt (DMAC_HOST_RX K),
            .reg_read (.CR2 port) b, .reg_write (.CR2 port) ((b ||| CR2_DMAEN) % 65536),
            .reg_read (.CR2 port) c, .reg_write (.CR2 port) ((c ||| CR2_LAST) % 65536),
            .reg_read (.CR1 port) d,
            .reg_write (.CR1 port) ((andNot d (1 <<< 9) ||| (1 <<< 8)) % 65536)] ++ rest ∧
      (∀ e ∈ rest, e.isStartRx = false) ∧
      (∀ e ∈ tl, e.isDataRead port = false) ∧
      (∃ buf2, out = some buf2 ∧ buf2.length = buf.length) ∧
      ((∀ h, status_reached SR1_SB (env h (.reg (.SR1 port)) % 65536)) →
       (∀ h, status_reached SR1_ADDR (env h (.reg (.SR1 port)) % 65536)) →
       (∀ h, env h .task_wait_event &&& K.TASK_EVENT_WAKE ≠ 0) →
       (∀ h, env h (.reg (.CR1 port)) % 65536 &&& (1 <<< 9) = 0) → rv = K.EC_SUCCESS) := by
  have hC : ∀ e : Event, e.isPolling = true →
      (e.isStartRx = false ∧ e.isDataRead port = false) := fun e h =>
    ⟨isStartRx_of_isPolling e h, isDataRead_of_isPolling port e h⟩
  have key : TotL (i2c_master_receive K env fuel port addr (some buf) size) s
      (fun r _ tl => ∃ (a b c d : Nat) (rest : List Event),
      tl = [.reg_read (.CR1 port) a, .reg_write (.CR1 port) ((a ||| (1 <<< 10)) % 65536),
            .dma_start_rx port size false, .dma_enable_tc_interrupt (DMAC_HOST_RX K),
            .reg_read (.CR2 port) b, .reg_write (.CR2 port) ((b ||| CR2_DMAEN) % 65536),
            .reg_read (.CR2 port) c, .reg_write (.CR2 port) ((c ||| CR2_LAST) % 65536),
            .reg_read (.CR1 port) d,
            .reg_write (.CR1 port) ((andNot d (1 <<< 9) ||| (1 <<< 8)) % 65536)] ++ rest ∧
      (∀ e ∈ rest, e.isStartRx = false ∧ e.isDataRead port = false) ∧
      (∃ buf2, r.2 = some buf2 ∧ buf2.length = buf.length) ∧
      ((∀ h, status_reached SR1_SB (env h (.reg (.SR1 port)) % 65536)) →
       (∀ h, status_reached SR1_ADDR (env h (.reg (.SR1 port)) % 65536)) →
       (∀ h, env h .task_wait_event &&& K.TASK_EVENT_WAKE ≠ 0) →
       (∀ h, env h (.reg (.CR1 port)) % 65536 &&& (1 <<< 9) = 0) →
       r.1 = K.EC_SUCCESS)) := by
    unfold i2c_master_receive
    simp only
    rw [if_neg (by omega), if_pos (by omega)]
    refine TotL_bind (enable_ack_log env port s) (fun _ s1 t1 _ h1 => ?_)
    obtain ⟨a, ht1⟩ := h1
    refine TotL_bind (emit_totl _ s1) (fun _ s2 t2 _ h2 => ?_)
    refine TotL_bind (emit_totl _ s2) (fun _ s3 t3 _ h3 => ?_)
    refine TotL_bind (reg_read_totl env (.CR2 port) s3) (fun b s4 t4 _ h4 => ?_)
    refine TotL_bind (reg_write_totl _ _ s4) (fun _ s5 t5 _ h5 => ?_)
    refine TotL_bind (reg_read_totl env (.CR2 port) s5) (fun c s6 t6 _ h6 => ?_)
    refine TotL_bind (reg_write_totl _ _ s6) (fun _ s7 t7 _ h7 => ?_)
    refine TotL_bind (master_start_log K env hK htick fuel hfuel port (addr ||| 1) s7)
      (fun rv_start s8 t8 _ h8 => ?_)
    obtain ⟨hp8, ⟨d, rest8, ht8⟩, hc8⟩ := h8
    have hp8r : ∀ e ∈ rest8, e.isStartRx = false ∧ e.isDataRead port = false := by
      intro e he
      exact hC e (hp8 e (by rw [ht8]; exact List.mem_append_right _ he))
    have tail : TotL (do
        let rv ← (if rv_start = 0 then task_wait_event env K.DMA_TRANSFER_TIMEOUT_US
          else pure 0 : M Nat)
        emit (.dma_disable (DMAC_HOST_RX K))
        let buf2 ← dma_rx_collect env size.toNat buf
        emit (.dma_disable_tc_interrupt (DMAC_HOST_RX K))
        let v2 ← reg_read env (.CR2 port)
        reg_write (.CR2 port) (andNot v2 CR2_DMAEN)
        disable_ack env port
        if rv_start ≠ 0 then
          return (rv_start, some buf2)
        else if rv &&& K.TASK_EVENT_WAKE = 0 then
          return (K.EC_ERROR_TIMEOUT, some buf2)
        else do
          master_stop env port
          let r ← wait_until_stop_sent K env fuel port
          return (r, some buf2)) s8
        (fun r _ t => (∀ e ∈ t, e.isStartRx = false ∧ e.isDataRead port = false) ∧
          ((∃ buf2, r.2 = some buf2 ∧ buf2.length = buf.length) ∧
           (rv_start = K.EC_SUCCESS →
            (∀ h, env h .task_wait_event &&& K.TASK_EVENT_WAKE ≠ 0) →
            (∀ h, env h (.reg (.CR1 port)) % 65536 &&& (1 <<< 9) = 0) →
            r.1 = K.EC_SUCCESS))) := by
      refine TotL_bind_class (P := fun rv _ => rv_start = 0 →
          (∀ h, env h .task_wait_event &&& K.TASK_EVENT_WAKE ≠ 0) →
          rv &&& K.TASK_EVENT_WAKE ≠ 0) ?_ (fun rv s9 h9 => ?_)
      · refine TotL_ite (fun hz => TotL_mono (task_wait_event_class env _
          (fun _ => ⟨rfl, rfl⟩) s8) (fun _ _ _ _ h => ⟨h.1, fun _ hw => h.2 ▸ hw _⟩))
          (fun hnz => TotL_pure_class (fun h => absurd h hnz))
      refine TotL_bind_class (emit_class _ ⟨rfl, rfl⟩ s9) (fun _ s10 _ => ?_)
      refine TotL_bind_class (dma_rx_collect_class env size.toNat buf (fun _ => ⟨rfl, rfl⟩)
        (by omega) s10) (fun buf2 s11 h11 => ?_)
      refine TotL_bind_class (emit_class _ ⟨rfl, rfl⟩ s11) (fun _ s12 _ => ?_)
      refine TotL_bind_class (reg_read_class env (.CR2 port) (fun _ => ⟨rfl, rfl⟩) s12)
        (fun _ s13 _ => ?_)
      refine TotL_bind_class (reg_write_class (.CR2 port) _ (fun _ => ⟨rfl, rfl⟩) s13)
        (fun _ s14 _ => ?_)
      refine TotL_bind_class (disable_ack_class env port hC s14) (fun _ s15 _ => ?_)
      refine TotL_ite (fun hnz => TotL_pure_class ⟨⟨buf2, rfl, h11⟩,
        fun h => absurd (h.trans hK.1) hnz⟩) (fun hz => ?_)
      have hz0 : rv_start = 0 := Classical.not_not.mp hz
      refine TotL_ite (fun hw => TotL_pure_class ⟨⟨buf2, rfl, h11⟩,
        fun _ hwake _ => absurd hw (h9 hz0 hwake)⟩) (fun _ => ?_)
      refine TotL_bind_class (master_stop_class env port hC s15) (fun _ s16 _ => ?_)
      refine TotL_bind_class (TotL_class_mono
        (wait_until_stop_sent_log K env htick fuel hfuel port s16) hC) (fun r s17 h17 => ?_)
      refine TotL_pure_class ⟨⟨buf2, rfl, h11⟩, fun _ _ hcr => ?_⟩
      rcases h17 with h | ⟨_, hh, hne⟩
      · exact h
      · exact absurd (hcr hh) hne
    refine TotL_mono tail (fun r _ t _ ht => ?_)
    obtain ⟨hcl, hbuf, hsucc⟩ := ht
    refine ⟨a, b, c, d, rest8 ++ t, ?_, ?_, hbuf, fun hsb haddr hwake hcr => ?_⟩
    · rw [ht1, h2.1, h3.1, h4.2.1, h5.1, h6.2.1, h7.1, ht8]
      simp [Reg.modulus]
    · intro e he
      exact (List.mem_append.mp he).elim (hp8r e) (hcl e)
    · refine hsucc ?_ hwake hcr
      rcases hc8 with ⟨h, _⟩ | ⟨_, hh, hn⟩ | ⟨_, hh, hn⟩
      · exact h
      · exact absurd (hsb hh) hn
      · exact absurd (haddr hh) hn
  obtain ⟨⟨rv, out⟩, s', tl, e, ht, a, b, c, d, rest, htl, hrest, hbuf, hsucc⟩ := key
  refine ⟨rv, out, s', tl, a, b, c, d, rest, e, ht, htl, fun x hx => (hrest x hx).1, ?_,
    hbuf, hsucc⟩
  intro x hx
  rw [htl] at hx
  rcases List.mem_append.mp hx with h | h
  · simp only [List.mem_cons, List.mem_singleton, List.not_mem_nil, or_false] at h
    rcases h with h | h | h | h | h | h | h | h | h | h <;> rw [h] <;> rfl
  · exact (hrest x h).2

/-- C15: the read phase uses DMA exactly when more than one byte is asked for.
With `size = 1`, `i2c_master_receive` makes no DMA helper call and no wait for
the transfer-complete event; after `disable_ack` and the address phase
(`master_start`) it either returns that phase's error, or requests STOP at
once, polls SR1 for RxNE, and on RxNE reads the data register once and stores
the byte in `data[0]`.  With `size > 1` (and room for `size` bytes) it enables
ACK, calls `dma_start_rx` for `size` bytes, enables the transfer-complete
interrupt, sets DMAEN and then LAST in CR2, and only then requests START; it
arms no second receive and never reads the data register. -/
theorem i2c_master_receive_dma_iff_many (K : Consts) (env : Env) (hK : K.ErrorCodesOk)
    (htick : Ticking env) (fuel : Nat) (hfuel : I2C_TX_TIMEOUT_MASTER + 1 ≤ fuel)
    (port addr : Nat) (buf : List Nat) (s : St) :
    (0 < buf.length →
      ∃ (rv : Nat) (out : Option (List Nat)) (s' : St) (tl : List Event),
        (i2c_master_receive K env fuel port addr (some buf) 1).run s = some ((rv, out), s') ∧
        s'.trace = s.trace ++ tl ∧
        (∀ e ∈ tl, e.isDmaCall = false) ∧
        ∃ (s1 s2 : St) (rv1 : Nat) (t_rest : List Event),
          (disable_ack env port).run s = some ((), s1) ∧
          (master_start K env fuel port (addr ||| 1)).run s1 = some (rv1, s2) ∧
          s'.trace = s2.trace ++ t_rest ∧
          (rv1 ≠ 0 → t_rest = [] ∧ rv = rv1 ∧ out = some buf) ∧
          (rv1 = 0 → ∃ (v : Nat) (t_wait t_end : List Event),
            t_rest = [.reg_read (.CR1 port) v,
              .reg_write (.CR1 port) ((v ||| (1 <<< 9)) % 65536)] ++ t_wait ++ t_end ∧
            (∀ e ∈ t_wait, e.isPolling = true) ∧
            ((t_end = [] ∧ rv = K.EC_ERROR_TIMEOUT ||| (WAIT_RX_NE_STOP_SIZE2 <<< 8) ∧
                out = some buf) ∨
             (∃ (x b : Nat) (pre t_stop : List Event),
                t_wait = pre ++ [.reg_read (.SR1 port) x] ∧ x &&& SR1_RxNE = SR1_RxNE ∧
                t_end = .reg_read (.DR port) b :: t_stop ∧
                (∀ e ∈ t_stop, e.isPolling = true) ∧
                out = some (buf.set 0 (b % 256)) ∧
                (rv = K.EC_SUCCESS ∨ rv = K.EC_ERROR_TIMEOUT))))) ∧
    (∀ size : Int, 1 < size → size ≤ (buf.length : Int) →
      ∃ (rv : Nat) (out : Option (List Nat)) (s' : St) (tl : List Event) (a b c d : Nat)
        (rest : List Event),
        (i2c_master_receive K env fuel port addr (some buf) size).run s
          = some ((rv, out), s') ∧
        s'.trace = s.trace ++ tl ∧
        tl = [.reg_read (.CR1 port) a, .reg_write (.CR1 port) ((a ||| (1 <<< 10)) % 65536),
              .dma_start_rx port size false, .dma_enable_tc_interrupt (DMAC_HOST_RX K),
              .reg_read (.CR2 port) b, .reg_write (.CR2 port) ((b ||| CR2_DMAEN) % 65536),
              .reg_read (.CR2 port) c, .reg_write (.CR2 port) ((c ||| CR2_LAST) % 65536),
              .reg_read (.CR1 port) d,
              .reg_write (.CR1 port) ((andNot d (1 <<< 9) ||| (1 <<< 8)) % 65536)] ++ rest ∧
        (∀ e ∈ rest, e.isStartRx = false) ∧
        (∀ e ∈ tl, e.isDataRead port = false)) := by
  refine ⟨fun hlen =>
    i2c_master_receive_single_log K env hK htick fuel hfuel port addr buf hlen s,
    fun size hsize hroom => ?_⟩
  obtain ⟨rv, out, s', tl, a, b, c, d, rest, e, ht, htl, h1, h2, _⟩ :=
    i2c_master_receive_dma_log K env hK htick fuel hfuel port addr buf size hsize hroom s
  exact ⟨rv, out, s', tl, a, b, c, d, rest, e, ht, htl, h1, h2⟩

theorem i2c_master_receive_dma_iff_many_witness :
    (0 < [0, 0, 0, 0].length →
      ∃ (rv : Nat) (out : Option (List Nat)) (s' : St) (tl : List Event),
        (i2c_master_receive exampleConsts deadBus 10001 I2C1 0x90 (some [0, 0, 0, 0]) 1).run {} = some ((rv, out), s') ∧
        s'.trace = ({} : St).trace ++ tl ∧
        (∀ e ∈ tl, e.isDmaCall = false) ∧
        ∃ (s1 s2 : St) (rv1 : Nat) (t_rest : List Event),
          (disable_ack deadBus I2C1).run {} = some ((), s1) ∧
          (master_start exampleConsts deadBus 10001 I2C1 (0x90 ||| 1)).run s1 = some (rv1, s2) ∧
          s'.trace = s2.trace ++ t_rest ∧
          (rv1 ≠ 0 → t_rest = [] ∧ rv = rv1 ∧ out = some [0, 0, 0, 0]) ∧
          (rv1 = 0 → ∃ (v : Nat) (t_wait t_end : List Event),
            t_rest = [.reg_read (.CR1 I2C1) v,
              .reg_write (.CR1 I2C1) ((v ||| (1 <<< 9)) % 65536)] ++ t_wait ++ t_end ∧
            (∀ e ∈ t_wait, e.isPolling = true) ∧
            ((t_end = [] ∧ rv = exampleConsts.EC_ERROR_TIMEOUT ||| (WAIT_RX_NE_STOP_SIZE2 <<< 8) ∧
                out = some [0, 0, 0, 0]) ∨
             (∃ (x b : Nat) (pre t_stop : List Event),
                t_wait = pre ++ [.reg_read (.SR1 I2C1) x] ∧ x &&& SR1_RxNE = SR1_RxNE ∧
                t_end = .reg_read (.DR I2C1) b :: t_stop ∧
                (∀ e ∈ t_stop, e.isPolling = true) ∧
                out = some (([0, 0, 0, 0] : List Nat).set 0 (b % 256)) ∧
                (rv = exampleConsts.EC_SUCCESS ∨ rv = exampleConsts.EC_ERROR_TIMEOUT))))) ∧
    (∀ size : Int, 1 < size → size ≤ ([0, 0, 0, 0].length : Int) →
      ∃ (rv : Nat) (out : Option (List Nat)) (s' : St) (tl : List Event) (a b c d : Nat)
        (rest : List Event),
        (i2c_master_receive exampleConsts deadBus 10001 I2C1 0x90 (some [0, 0, 0, 0]) size).run {}
          = some ((rv, out), s') ∧
        s'.trace = ({} : St).trace ++ tl ∧
        tl = [.reg_read (.CR1 I2C1) a, .reg_write (.CR1 I2C1) ((a ||| (1 <<< 10)) % 65536),
              .dma_start_rx I2C1 size false, .dma_enable_tc_interrupt (DMAC_HOST_RX exampleConsts),
              .reg_read (.CR2 I2C1) b, .reg_write (.CR2 I2C1) ((b ||| CR2_DMAEN) % 65536),
              .reg_read (.CR2 I2C1) c, .reg_write (.CR2 I2C1) ((c ||| CR2_LAST) % 65536),
              .reg_read (.CR1 I2C1) d,
              .reg_write (.CR1 I2C1) ((andNot d (1 <<< 9) ||| (1 <<< 8)) % 65536)] ++ rest ∧
        (∀ e ∈ rest, e.isStartRx = false) ∧
        (∀ e ∈ tl, e.isDataRead I2C1 = false)) :=
  i2c_master_receive_dma_iff_many exampleConsts deadBus (by decide) ticking_deadBus 10001
    (by decide) I2C1 0x90 [0, 0, 0, 0] {}

/-! ## The write phase and the transfer as a whole -/

theorem TotL_forget {α : Type} {m : M α} {s : St} {P : α → St → Prop}
    (h : TotL m s (fun a s' _ => P a s')) :
    TotL m s (fun a s' t => (∀ e ∈ t, True) ∧ P a s') :=
  TotL_mono h (fun _ _ _ _ hp => ⟨fun _ _ => trivial, hp⟩)

theorem TotL_any {α : Type} {m : M α} {s : St} {P : α → St → List Event → Prop}
    (h : TotL m s P) : TotL m s (fun _ _ t => (∀ e ∈ t, True) ∧ True) :=
  TotL_mono h (fun _ _ _ _ _ => ⟨fun _ _ => trivial, trivial⟩)

/-- The value of the write phase on a bus where the status flags never change:
the address time-out when SB is always set and ADDR never; success, for a
write without STOP, when SB, ADDR and BTF are always set and the wake-up comes. -/
theorem i2c_master_transmit_outcome (K : Consts) (env : Env) (hK : K.ErrorCodesOk)
    (htick : Ticking env) (fuel : Nat) (hfuel : I2C_TX_TIMEOUT_MASTER + 1 ≤ fuel)
    (port addr : Nat) (data : Option (List Nat)) (size : Int) (stop : Nat) (s : St) :
    TotL (i2c_master_transmit K env fuel port addr data size stop) s (fun rv _ t =>
      (∀ e ∈ t, True) ∧
      (((∀ h, status_reached SR1_SB (env h (.reg (.SR1 port)) % 65536)) →
        (∀ h, ¬ status_reached SR1_ADDR (env h (.reg (.SR1 port)) % 65536)) →
        rv = K.EC_ERROR_TIMEOUT ||| (WAIT_ADDR_READY <<< 8)) ∧
       ((∀ h, status_reached SR1_SB (env h (.reg (.SR1 port)) % 65536)) →
        (∀ h, status_reached SR1_ADDR (env h (.reg (.SR1 port)) % 65536)) →
        (∀ h, env h .task_wait_event &&& K.TASK_EVENT_WAKE ≠ 0) →
        (∀ h, status_reached SR1_BTF (env h (.reg (.SR1 port)) % 65536)) →
        stop = 0 → rv = K.EC_SUCCESS))) := by
  have hne : ∀ w, K.EC_ERROR_TIMEOUT ||| (w <<< 8) ≠ 0 := fun w =>
    tagged_timeout_ne_zero _ w hK.2.2.1 hK.2.1
  unfold i2c_master_transmit
  refine TotL_bind_class (TotL_any (disable_ack_log env port s)) (fun _ s1 _ => ?_)
  refine TotL_bind_class (TotL_any (emit_totl _ s1)) (fun _ s2 _ => ?_)
  refine TotL_bind_class (TotL_any (emit_totl _ s2)) (fun _ s3 _ => ?_)
  refine TotL_bind_class (TotL_any (emit_totl _ s3)) (fun _ s4 _ => ?_)
  refine TotL_bind_class (TotL_any (emit_totl _ s4)) (fun _ s5 _ => ?_)
  refine TotL_bind_class (TotL_any (reg_read_totl env _ s5)) (fun _ s6 _ => ?_)
  refine TotL_bind_class (TotL_any (reg_write_totl _ _ s6)) (fun _ s7 _ => ?_)
  refine TotL_bind_class (C := fun _ => True) (TotL_mono
    (master_start_log K env hK htick fuel hfuel port addr s7)
    (fun _ _ _ _ h => ⟨fun _ _ => trivial, h.2.2⟩)) (fun rv_start s8 hc8 => ?_)
  refine TotL_bind_class (C := fun _ => True) (P := fun rv _ => rv_start = 0 →
      (∀ h, env h .task_wait_event &&& K.TASK_EVENT_WAKE ≠ 0) →
      rv &&& K.TASK_EVENT_WAKE ≠ 0) ?_ (fun rv s9 h9 => ?_)
  · refine TotL_ite (fun hz => TotL_mono (task_wait_event_class env _
      (fun _ => trivial) s8) (fun _ _ _ _ h => ⟨h.1, fun _ hw => h.2 ▸ hw _⟩))
      (fun hnz => TotL_pure_class (fun h => absurd h hnz))
  refine TotL_bind_class (TotL_any (emit_totl _ s9)) (fun _ s10 _ => ?_)
  refine TotL_bind_class (TotL_any (emit_totl _ s10)) (fun _ s11 _ => ?_)
  refine TotL_bind_class (TotL_any (reg_read_totl env _ s11)) (fun _ s12 _ => ?_)
  refine TotL_bind_class (TotL_any (reg_write_totl _ _ s12)) (fun _ s13 _ => ?_)
  refine TotL_ite (fun hnz => TotL_pure_class ⟨fun hsb haddr => ?_, fun hsb haddr _ _ _ => ?_⟩)
    (fun hz => ?_)
  · rcases hc8 with ⟨h, _⟩ | ⟨_, hh, hn⟩ | ⟨h, _⟩
    · exact absurd (h.trans hK.1) hnz
    · exact absurd (hsb hh) hn
    · exact h
  · rcases hc8 with ⟨h, _⟩ | ⟨_, hh, hn⟩ | ⟨_, hh, hn⟩
    · exact h
    · exact absurd (hsb hh) hn
    · exact absurd (haddr hh) hn
  have hz0 : rv_start = 0 := Classical.not_not.mp hz
  have hnaddr : (∀ h, ¬ status_reached SR1_ADDR (env h (.reg (.SR1 port)) % 65536)) → False := by
    intro hall
    rcases hc8 with ⟨_, hh, hr⟩ | ⟨h, _⟩ | ⟨h, _⟩
    · exact hall hh hr
    · exact hne _ (h ▸ hz0)
    · exact hne _ (h ▸ hz0)
  refine TotL_ite (fun hw => TotL_pure_class ⟨fun _ haddr => (hnaddr haddr).elim,
    fun _ _ hwake _ _ => absurd hw (h9 hz0 hwake)⟩) (fun _ => ?_)
  refine TotL_bind_class (C := fun _ => True) (P := fun rv2 _ => rv2 = K.EC_SUCCESS ∨
      ∃ h, ¬ status_reached SR1_BTF (env h (.reg (.SR1 port)) % 65536)) (TotL_mono
    (wait_status_log K env htick fuel hfuel port SR1_BTF WAIT_XMIT_BTF s13)
    (fun _ _ _ _ h => ⟨fun _ _ => trivial, ?_⟩)) (fun rv2 s14 h14 => ?_)
  · obtain ⟨_, v, ⟨hh, hv⟩, _, hc⟩ := h
    rcases hc with ⟨h, _⟩ | ⟨_, hn⟩
    · exact Or.inl h
    · exact Or.inr ⟨hh, hv ▸ hn⟩
  refine TotL_ite (fun hnz2 => TotL_pure_class ⟨fun _ haddr => (hnaddr haddr).elim,
    fun _ _ _ hbtf _ => ?_⟩) (fun _ => ?_)
  · rcases h14 with h | ⟨hh, hn⟩
    · exact h
    · exact absurd (hbtf hh) hn
  refine TotL_ite (fun hstop => ?_) (fun _ => TotL_pure_class
    ⟨fun _ haddr => (hnaddr haddr).elim, fun _ _ _ _ _ => rfl⟩)
  refine TotL_bind_class (TotL_any (master_stop_totl env port s14)) (fun _ s15 _ => ?_)
  refine TotL_mono (wait_status_log K env htick fuel hfuel port 0 WAIT_XMIT_STOP s15)
    (fun _ _ _ _ _ => ⟨fun _ _ => trivial, fun _ haddr => (hnaddr haddr).elim,
      fun _ _ _ _ h0 => absurd h0 hstop⟩)

/-- The run of `i2c_xfer` on a free port, given the run of its two phases. -/
theorem i2c_xfer_free_run_from_phases (K : Consts) (env : Env) (hK : K.ErrorCodesOk)
    (htick : Ticking env) (fuel : Nat) (hfuel : I2C_TX_TIMEOUT_MASTER + 1 ≤ fuel)
    (port addr : Nat) (hport : port = I2C1 ∨ port = I2C2) (out : Option (List Nat))
    (out_bytes : Int) (inb : Option (List Nat)) (in_bytes : Int) (flags : Nat) (s : St)
    (hout : out.isSome ∨ out_bytes = 0) (hin : inb.isSome ∨ in_bytes = 0)
    (hfree : s.claimed port = false) (s0 s1 : St) (rv : Nat) (inb2 : Option (List Nat))
    (hs0 : s0 = { s with
      claimed := (fun p => if p = port then true else s.claimed p)
      trace := (s.trace ++ [.i2c_claim port K.EC_SUCCESS,
        .reg_read (.CR2 port)
          (env (s.trace ++ [.i2c_claim port K.EC_SUCCESS]) (.reg (.CR2 port)) % 65536),
        .reg_write (.CR2 port) (andNot
          (env (s.trace ++ [.i2c_claim port K.EC_SUCCESS]) (.reg (.CR2 port)) % 65536)
          (3 <<< 8) % 65536)]) })
    (e1 : (i2c_xfer_phases K env fuel port addr out out_bytes inb in_bytes).run s0
      = some ((rv, inb2), s1))
    (q1 : Quiet s0 s1) :
    ∃ (s2 : St) (v1 : Nat),
      (handle_i2c_error K env fuel port rv).run s1 = some ((), s2) ∧
      Quiet s1 s2 ∧
      (i2c_xfer K env fuel port addr out out_bytes inb in_bytes flags).run s
        = some ((rv, inb2),
            { s2 with
              claimed := (fun p => if p = port then false else s2.claimed p)
              trace := (s2.trace ++ [.reg_read (.CR2 port) v1,
                .reg_write (.CR2 port) ((v1 ||| (3 <<< 8)) % 65536), .i2c_release port]) }) := by
  have e_claim := run_i2c_claim_free K port s hfree
  have e_dis : (disable_i2c_interrupt env port).run { s with
        claimed := (fun p => if p = port then true else s.claimed p)
        trace := (s.trace ++ [.i2c_claim port K.EC_SUCCESS]) } = some ((), s0) := by
    rw [hs0]
    simp [disable_i2c_interrupt, Reg.modulus]
  have hheld0 : s0.claimed port = true := by rw [hs0]; simp
  have hheld1 : s1.claimed port = true := by rw [q1.2.1]; exact hheld0
  obtain ⟨_, s2, e2, q2, _⟩ :=
    handle_i2c_error_totq K env hK htick fuel hfuel port rv hport s1 hheld1
  generalize hv1 : env s2.trace (.reg (.CR2 port)) % 65536 = v1
  have e_en : (enable_i2c_interrupt env port).run s2 = some ((),
      { s2 with trace := (s2.trace ++ [.reg_read (.CR2 port) v1,
          .reg_write (.CR2 port) ((v1 ||| (3 <<< 8)) % 65536)]) }) := by
    simp [enable_i2c_interrupt, Reg.modulus, hv1]
  refine ⟨s2, v1, e2, q2, ?_⟩
  have hne : ¬ (K.EC_SUCCESS ≠ 0) := by rw [hK.1]; simp
  unfold i2c_xfer
  simp only [run_bind, run_ASSERT, if_pos hout, if_pos hin, Option.some_bind, e_claim, run_ite,
    hne, if_false, e_dis, e1, e2, e_en, run_i2c_release, run_pure]
  simp

/-- Every read of SR1 that the loop of `wait_status` logs shows a value the
outside world gave for SR1. -/
theorem wait_status_loop_readGiven (K : Consts) (env : Env) (htick : Ticking env)
    (port mask wait t1 : Nat) : ∀ (fuel r : Nat) (s : St),
    0 < fuel → t1 + I2C_TX_TIMEOUT_MASTER + 1 ≤ s.now + fuel →
    TotL (wait_status_loop K env port mask wait t1 fuel r) s (fun _ _ tl =>
      (∀ e ∈ tl, e.readGiven env (.SR1 port)) ∧ True) := by
  intro fuel
  induction fuel with
  | zero => intro r s h; exact absurd h (Nat.lt_irrefl 0)
  | succ fuel ih =>
    intro r s _ hfuel
    unfold wait_status_loop
    refine TotL_ite (fun _ => ?_) (fun _ => TotL_pure_class trivial)
    refine TotL_bind_class (P := fun t2 s1 => s1.now = t2 ∧ t2 = s.now + env s.trace .tick)
      (TotL_mono (get_time_totl env s) (fun t s' tl _ h => ⟨fun e he => ?_, h.2.1, h.2.2.2⟩))
      (fun t2 s1 h1 => ?_)
    · rw [h.1] at he
      rw [List.mem_singleton.mp he]
      intro v hv
      cases hv
    have htk := htick s.trace
    refine TotL_ite (fun _ => TotL_pure_class trivial) (fun hnto => ?_)
    refine TotL_bind_class (P := fun _ s' => s1.now ≤ s'.now) ?_ (fun _ s2 h2 => ?_)
    · refine TotL_ite (fun _ => TotL_mono (usleep_totl env 100 s1) (fun _ _ tl _ h =>
        ⟨fun e he => ?_, by have := h.2; omega⟩)) (fun _ => TotL_pure_class (Nat.le_refl _))
      rw [h.1] at he
      rw [List.mem_singleton.mp he]
      intro v hv
      cases hv
    refine TotL_bind_class (reg_read_readGiven env (.SR1 port) (.SR1 port) s2)
      (fun r2 s3 h3 => ?_)
    have hle : t2 - t1 ≤ I2C_TX_TIMEOUT_MASTER := Nat.not_lt.mp hnto
    exact ih r2 s3 (by omega) (by omega)

/-- Every read of SR1 that `wait_status` logs shows a value the outside world
gave for SR1. -/
theorem wait_status_readGiven (K : Consts) (env : Env) (htick : Ticking env) (fuel : Nat)
    (hfuel : I2C_TX_TIMEOUT_MASTER + 1 ≤ fuel) (port mask wait : Nat) (s : St) :
    TotL (wait_status K env fuel port mask wait) s (fun _ _ tl =>
      (∀ e ∈ tl, e.readGiven env (.SR1 port)) ∧ True) := by
  unfold wait_status
  refine TotL_bind_class (P := fun t1 s1 => s1.now = t1)
    (TotL_mono (get_time_totl env s) (fun t s' tl _ h => ⟨fun e he => ?_, h.2.1⟩))
    (fun t1 s1 h1 => ?_)
  · rw [h.1] at he
    rw [List.mem_singleton.mp he]
    intro v hv
    cases hv
  refine TotL_bind_class (reg_read_readGiven env (.SR1 port) (.SR1 port) s1)
    (fun r s2 h2 => ?_)
  exact wait_status_loop_readGiven K env htick port mask wait t1 fuel r s2 (by omega) (by omega)

/-- The write phase when the wait for the start condition succeeds and no read
of SR1 in the wait for ADDR shows ADDR: the address is written to DR, the wait
for ADDR times out, the transmit DMA is shut down, and the tagged time-out of
the address stage is returned as it is. -/
theorem i2c_master_transmit_address_timeout (K : Consts) (env : Env) (hK : K.ErrorCodesOk)
    (htick : Ticking env) (fuel : Nat) (hfuel : I2C_TX_TIMEOUT_MASTER + 1 ≤ fuel)
    (port addr : Nat) (data : Option (List Nat)) (size : Int) (stop : Nat) (s0 sA sB : St)
    (hsA : (i2c_master_transmit_setup K env port data size >>= fun _ =>
      master_start_request env port).run s0 = some ((), sA))
    (hsb : (wait_status K env fuel port SR1_SB WAIT_MASTER_START).run sA
      = some (K.EC_SUCCESS, sB))
    (haddr : ∀ (rv : Nat) (sC : St) (tl : List Event),
      (wait_status K env fuel port SR1_ADDR WAIT_ADDR_READY).run
          { sB with trace := sB.trace ++ [.reg_write (.DR port) (addr % 65536)] }
        = some (rv, sC) →
      sC.trace = sB.trace ++ [.reg_write (.DR port) (addr % 65536)] ++ tl →
      ∀ r, Event.reg_read (.SR1 port) r ∈ tl → r &&& SR1_ADDR ≠ SR1_ADDR) :
    ∃ (sC : St) (v2 : Nat),
      (wait_status K env fuel port SR1_ADDR WAIT_ADDR_READY).run
          { sB with trace := sB.trace ++ [.reg_write (.DR port) (addr % 65536)] }
        = some (K.EC_ERROR_TIMEOUT ||| (WAIT_ADDR_READY <<< 8), sC) ∧
      (i2c_master_transmit K env fuel port addr data size stop).run s0
        = some (K.EC_ERROR_TIMEOUT ||| (WAIT_ADDR_READY <<< 8),
            { sC with trace := sC.trace ++ [.dma_disable (DMAC_HOST_TX K),
              .dma_disable_tc_interrupt (DMAC_HOST_TX K), .reg_read (.CR2 port) v2,
              .reg_write (.CR2 port) (andNot v2 CR2_DMAEN % 65536)] }) := by
  obtain ⟨rv2, sC, tlC, eC, htC, _, v, _, _, hcase⟩ :=
    wait_status_log K env htick fuel hfuel port SR1_ADDR WAIT_ADDR_READY
      { sB with trace := sB.trace ++ [.reg_write (.DR port) (addr % 65536)] }
  have hrv2 : rv2 = K.EC_ERROR_TIMEOUT ||| (WAIT_ADDR_READY <<< 8) := by
    rcases hcase with ⟨_, hr, pre, hpre⟩ | ⟨h1, _⟩
    · have hclear := haddr rv2 sC tlC eC htC v (by rw [hpre]; simp)
      unfold status_reached at hr
      rw [if_pos (by decide)] at hr
      exact absurd hr hclear
    · exact h1
  subst hrv2
  have hnz : K.EC_ERROR_TIMEOUT ||| (WAIT_ADDR_READY <<< 8) ≠ 0 :=
    tagged_timeout_ne_zero _ _ hK.2.2.1 hK.2.1
  rw [hK.1] at hsb
  simp only [i2c_master_transmit_setup, master_start_request, disable_ack, run_bind, run_emit,
    run_reg_read, run_reg_write, Option.some_bind, Option.some.injEq, Prod.mk.injEq,
    true_and, Reg.modulus] at hsA
  subst hsA
  refine ⟨sC, env (sC.trace ++ [.dma_disable (DMAC_HOST_TX K),
    .dma_disable_tc_interrupt (DMAC_HOST_TX K)]) (.reg (.CR2 port)) % 65536, eC, ?_⟩
  unfold i2c_master_transmit master_start
  simp only [disable_ack, run_bind, run_emit, run_reg_read, run_reg_write, Option.some_bind,
    hsb, run_ite, ne_eq, not_true_eq_false, if_false, Reg.modulus, run_pure]
  rw [show addr % 2 ^ 16 = addr % 65536 from rfl, eC]
  simp only [Option.some_bind, hnz, not_false_eq_true, if_true, if_false]
  simp

/-- C16: `i2c_xfer` on a free port (I2C1 or I2C2), with `s0` the state after
the port is claimed and the I2C interrupts are disabled, and `sA` the state in
which `master_start` begins to wait for the start condition.  If that wait
returns `EC_SUCCESS` (the start condition is reported sent: SR1 showed SB), and
after the address is written to DR no read of SR1 in the wait for ADDR shows
ADDR set, then the wait for ADDR times out, the write phase returns
`EC_ERROR_TIMEOUT | (WAIT_ADDR_READY << 8)`, `handle_i2c_error` is run on that
value directly (no read phase in between, whatever `in_bytes` is), `i2c_xfer`
returns exactly that value, still tagged, and at return the claim on the port
is not held.  Nothing is assumed of SR1 after the start wait but the ADDR bit
of the reads of the address wait: SB may clear once DR is written. -/
theorem i2c_xfer_address_timeout (K : Consts) (env : Env) (hK : K.ErrorCodesOk)
    (htick : Ticking env) (fuel : Nat) (hfuel : I2C_TX_TIMEOUT_MASTER + 1 ≤ fuel)
    (port addr : Nat) (hport : port = I2C1 ∨ port = I2C2) (out : Option (List Nat))
    (out_bytes : Int) (inb : Option (List Nat)) (in_bytes : Int) (flags : Nat) (s : St)
    (hout : out.isSome ∨ out_bytes = 0) (hin : inb.isSome ∨ in_bytes = 0)
    (hfree : s.claimed port = false) (s0 sA sB : St)
    (hs0 : (i2c_claim K port >>= fun _ => disable_i2c_interrupt env port).run s
      = some ((), s0))
    (hsA : (i2c_master_transmit_setup K env port out out_bytes >>= fun _ =>
      master_start_request env port).run s0 = some ((), sA))
    (hsb : (wait_status K env fuel port SR1_SB WAIT_MASTER_START).run sA
      = some (K.EC_SUCCESS, sB))
    (haddr : ∀ (rv : Nat) (sC : St) (tl : List Event),
      (wait_status K env fuel port SR1_ADDR WAIT_ADDR_READY).run
          { sB with trace := sB.trace ++ [.reg_write (.DR port) (addr % 65536)] }
        = some (rv, sC) →
      sC.trace = sB.trace ++ [.reg_write (.DR port) (addr % 65536)] ++ tl →
      ∀ r, Event.reg_read (.SR1 port) r ∈ tl → r &&& SR1_ADDR ≠ SR1_ADDR) :
    ∃ (sC s1 s2 s3 : St) (v1 v2 : Nat),
      (wait_status K env fuel port SR1_ADDR WAIT_ADDR_READY).run
          { sB with trace := sB.trace ++ [.reg_write (.DR port) (addr % 65536)] }
        = some (K.EC_ERROR_TIMEOUT ||| (WAIT_ADDR_READY <<< 8), sC) ∧
      s1 = { sC with trace := sC.trace ++ [.dma_disable (DMAC_HOST_TX K),
        .dma_disable_tc_interrupt (DMAC_HOST_TX K), .reg_read (.CR2 port) v2,
        .reg_write (.CR2 port) (andNot v2 CR2_DMAEN % 65536)] } ∧
      (i2c_master_transmit K env fuel port addr out out_bytes
          (if in_bytes ≠ 0 then 0 else 1)).run s0
        = some (K.EC_ERROR_TIMEOUT ||| (WAIT_ADDR_READY <<< 8), s1) ∧
      (handle_i2c_error K env fuel port (K.EC_ERROR_TIMEOUT ||| (WAIT_ADDR_READY <<< 8))).run s1
        = some ((), s2) ∧
      s3 = { s2 with
        claimed := (fun p => if p = port then false else s2.claimed p)
        trace := (s2.trace ++ [.reg_read (.CR2 port) v1,
          .reg_write (.CR2 port) ((v1 ||| (3 <<< 8)) % 65536), .i2c_release port]) } ∧
      (i2c_xfer K env fuel port addr out out_bytes inb in_bytes flags).run s
        = some ((K.EC_ERROR_TIMEOUT ||| (WAIT_ADDR_READY <<< 8), inb), s3) ∧
      s3.claimed port = false := by
  have hs0' : s0 = { s with
      claimed := (fun p => if p = port then true else s.claimed p)
      trace := (s.trace ++ [.i2c_claim port K.EC_SUCCESS,
        .reg_read (.CR2 port)
          (env (s.trace ++ [.i2c_claim port K.EC_SUCCESS]) (.reg (.CR2 port)) % 65536),
        .reg_write (.CR2 port) (andNot
          (env (s.trace ++ [.i2c_claim port K.EC_SUCCESS]) (.reg (.CR2 port)) % 65536)
          (3 <<< 8) % 65536)]) } := by
    rw [run_bind, run_i2c_claim_free K port s hfree] at hs0
    simp only [Option.some_bind, disable_i2c_interrupt, run_bind, run_reg_read, run_reg_write,
      Option.some.injEq, Prod.mk.injEq, true_and, Reg.modulus] at hs0
    rw [← hs0]
    simp
  obtain ⟨sC, v2, eC, et⟩ := i2c_master_transmit_address_timeout K env hK htick fuel hfuel port
    addr out out_bytes (if in_bytes ≠ 0 then 0 else 1) s0 sA sB hsA hsb haddr
  obtain ⟨rvq, s1, et', q1, _⟩ := i2c_master_transmit_totq K env htick fuel hfuel port addr out
    out_bytes (if in_bytes ≠ 0 then 0 else 1) s0
  rw [et] at et'
  simp only [Option.some.injEq, Prod.mk.injEq] at et'
  obtain ⟨hrv, hs1⟩ := et'
  subst hrv
  have hnz : K.EC_ERROR_TIMEOUT ||| (WAIT_ADDR_READY <<< 8) ≠ 0 :=
    tagged_timeout_ne_zero _ _ hK.2.2.1 hK.2.1
  have et1 : (i2c_master_transmit K env fuel port addr out out_bytes
      (if in_bytes ≠ 0 then 0 else 1)).run s0
      = some (K.EC_ERROR_TIMEOUT ||| (WAIT_ADDR_READY <<< 8), s1) := by
    rw [et, hs1]
  have e1 : (i2c_xfer_phases K env fuel port addr out out_bytes inb in_bytes).run s0
      = some ((K.EC_ERROR_TIMEOUT ||| (WAIT_ADDR_READY <<< 8), inb), s1) := by
    unfold i2c_xfer_phases
    simp only [run_bind, et1, Option.some_bind, run_ite, hnz, false_and, if_false, run_pure]
  obtain ⟨s2, v1, e2, _, e⟩ := i2c_xfer_free_run_from_phases K env hK htick fuel hfuel port addr
    hport out out_bytes inb in_bytes flags s hout hin hfree s0 s1 _ inb hs0' e1 q1
  exact ⟨sC, s1, s2, _, v1, v2, eC, hs1.symm, et1, e2, rfl, e, by simp⟩

theorem ticking_nackBus : Ticking nackBus := fun _ => Nat.le_refl 1

theorem wait_status_loop_reached (K : Consts) (env : Env) (port mask wait t1 fuel r : Nat)
    (s : St) (h : status_reached mask r) :
    (wait_status_loop K env port mask wait t1 (fuel + 1) r).run s = some (K.EC_SUCCESS, s) := by
  unfold wait_status_loop
  rw [if_neg ((status_reached_iff mask r).mpr h)]
  rfl

theorem i2c_xfer_address_timeout_witness :
    (i2c_claim exampleConsts I2C1 >>= fun _ => disable_i2c_interrupt nackBus I2C1).run {}
      = some ((), nackClaimed) ∧
    (i2c_master_transmit_setup exampleConsts nackBus I2C1 (some [7]) 1 >>= fun _ =>
      master_start_request nackBus I2C1).run nackClaimed = some ((), nackStartRequested) ∧
    (wait_status exampleConsts nackBus 10001 I2C1 SR1_SB WAIT_MASTER_START).run
      nackStartRequested = some (exampleConsts.EC_SUCCESS, nackStartSent) ∧
    ∃ (sC s1 s2 s3 : St) (v1 v2 : Nat),
      (wait_status exampleConsts nackBus 10001 I2C1 SR1_ADDR WAIT_ADDR_READY).run
          { nackStartSent with
            trace := nackStartSent.trace ++ [.reg_write (.DR I2C1) (0x90 % 65536)] }
        = some (exampleConsts.EC_ERROR_TIMEOUT ||| (WAIT_ADDR_READY <<< 8), sC) ∧
      s1 = { sC with trace := sC.trace ++ [.dma_disable (DMAC_HOST_TX exampleConsts),
        .dma_disable_tc_interrupt (DMAC_HOST_TX exampleConsts), .reg_read (.CR2 I2C1) v2,
        .reg_write (.CR2 I2C1) (andNot v2 CR2_DMAEN % 65536)] } ∧
      (i2c_master_transmit exampleConsts nackBus 10001 I2C1 0x90 (some [7]) 1
          (if (2 : Int) ≠ 0 then 0 else 1)).run nackClaimed
        = some (exampleConsts.EC_ERROR_TIMEOUT ||| (WAIT_ADDR_READY <<< 8), s1) ∧
      (handle_i2c_error exampleConsts nackBus 10001 I2C1
          (exampleConsts.EC_ERROR_TIMEOUT ||| (WAIT_ADDR_READY <<< 8))).run s1
        = some ((), s2) ∧
      s3 = { s2 with
        claimed := (fun p => if p = I2C1 then false else s2.claimed p)
        trace := (s2.trace ++ [.reg_read (.CR2 I2C1) v1,
          .reg_write (.CR2 I2C1) ((v1 ||| (3 <<< 8)) % 65536), .i2c_release I2C1]) } ∧
      (i2c_xfer exampleConsts nackBus 10001 I2C1 0x90 (some [7]) 1 (some [0, 0]) 2 0).run {}
        = some ((exampleConsts.EC_ERROR_TIMEOUT ||| (WAIT_ADDR_READY <<< 8), some [0, 0]),
            s3) ∧
      s3.claimed I2C1 = false := by
  have h0 : (i2c_claim exampleConsts I2C1 >>= fun _ =>
      disable_i2c_interrupt nackBus I2C1).run {} = some ((), nackClaimed) := rfl
  have hA : (i2c_master_transmit_setup exampleConsts nackBus I2C1 (some [7]) 1 >>= fun _ =>
      master_start_request nackBus I2C1).run nackClaimed = some ((), nackStartRequested) := rfl
  have hB : (wait_status exampleConsts nackBus 10001 I2C1 SR1_SB WAIT_MASTER_START).run
      nackStartRequested = some (exampleConsts.EC_SUCCESS, nackStartSent) := by
    unfold wait_status
    rw [run_bind, run_get_time, Option.some_bind, run_bind, run_reg_read, Option.some_bind]
    exact wait_status_loop_reached exampleConsts nackBus I2C1 SR1_SB WAIT_MASTER_START _ 10000 1
      nackStartSent (by decide)
  refine ⟨h0, hA, hB, ?_⟩
  refine i2c_xfer_address_timeout exampleConsts nackBus (by decide) ticking_nackBus 10001
    (by decide) I2C1 0x90 (Or.inl rfl) (some [7]) 1 (some [0, 0]) 2 0 {} (Or.inl rfl)
    (Or.inl rfl) rfl nackClaimed nackStartRequested nackStartSent h0 hA hB ?_
  intro rv sC tl e ht r hr
  obtain ⟨_, sC2, tl2, e2, ht2, hg, _⟩ := wait_status_readGiven exampleConsts nackBus
    ticking_nackBus 10001 (by decide) I2C1 SR1_ADDR WAIT_ADDR_READY
    { nackStartSent with
      trace := nackStartSent.trace ++ [.reg_write (.DR I2C1) (0x90 % 65536)] }
  rw [e] at e2
  simp only [Option.some.injEq, Prod.mk.injEq] at e2
  obtain ⟨_, hs⟩ := e2
  subst hs
  have htl : tl2 = tl := List.append_cancel_left (ht2.symm.trans ht)
  subst htl
  obtain ⟨h, hv⟩ := hg _ hr r rfl
  rw [hv]
  show (if h.any Event.isDataWrite then 0 else 1) % 65536 &&& SR1_ADDR ≠ SR1_ADDR
  split <;> decide

/-! ## The block read `i2c_read_string` -/

@[simp] theorem run_uninit_array (env : Env) (n : Nat) (s : St) :
    (uninit_array env n).run s
      = some ((List.range n).map (fun i => env s.trace (.uninit_byte i) % 256), s) := rfl

theorem run_memcpy (dst src : List Nat) (n : Nat) (s : St) (h1 : n ≤ dst.length)
    (h2 : n ≤ src.length) : (memcpy dst src n).run s = some (src.take n ++ dst.drop n, s) := by
  simp [memcpy, M.run, h1, h2]

theorem copy_block (rest data : List Nat) (L : Nat) (hL : L < rest.length)
    (hd : L + 1 ≤ data.length) :
    ((rest.set L 0).take (L + 1) ++ data.drop (L + 1)).length = data.length ∧
    (∀ i, i < L → ((rest.set L 0).take (L + 1) ++ data.drop (L + 1))[i]? = rest[i]?) ∧
    ((rest.set L 0).take (L + 1) ++ data.drop (L + 1))[L]? = some 0 ∧
    (∀ i, L < i → ((rest.set L 0).take (L + 1) ++ data.drop (L + 1))[i]? = data[i]?) := by
  have hlen : ((rest.set L 0).take (L + 1)).length = L + 1 := by
    simp; omega
  refine ⟨?_, ?_, ?_, ?_⟩
  · simp; omega
  · intro i hi
    rw [List.getElem?_append_left (by rw [hlen]; omega)]
    rw [List.getElem?_take_of_lt (by omega)]
    rw [List.getElem?_set_ne (by omega)]
  · rw [List.getElem?_append_left (by rw [hlen]; omega)]
    rw [List.getElem?_take_of_lt (by omega)]
    rw [List.getElem?_set_eq_of_lt _ hL]
  · intro i hi
    rw [List.getElem?_append_right (by rw [hlen]; omega), hlen, List.getElem?_drop]
    congr 1
    omega

/-- C18: for `1 <= len <= 32`, an output buffer of at least `len` bytes, and a
33-byte block `b` with which the transfer returns `EC_SUCCESS`,
`i2c_read_string` takes the lock, calls `i2c_xfer` to write the one byte
`offset` and read 33 bytes, releases the lock and returns `EC_SUCCESS`.  With
`L = min(b[0], len - 1)` the output then holds `b[i + 1]` at every `i < L`, 0 at
`L`, and what it held before at every index above `L`. -/
theorem i2c_read_string_copies (K : Consts) (env : Env) (fuel port addr : Nat) (offset : Int)
    (data : List Nat) (len : Int) (hlen1 : 1 ≤ len) (hlen2 : len ≤ 32)
    (hroom : len ≤ (data.length : Int)) (s s2 : St) (b : List Nat) (hb : b.length = 33)
    (hx : (i2c_xfer K env fuel port addr (some [(offset % 256).toNat]) 1
        (some ((List.range 33).map (fun i => env s.trace (.uninit_byte i) % 256))) 33
        K.I2C_XFER_SINGLE).run { s with trace := (s.trace ++ [.i2c_lock port 1]) }
      = some ((K.EC_SUCCESS, some b), s2)) :
    ∃ data' : List Nat,
      (i2c_read_string K env fuel port addr offset data len).run s
        = some ((K.EC_SUCCESS, data'),
            { s2 with trace := (s2.trace ++ [.i2c_lock port 0]) }) ∧
      data'.length = data.length ∧
      (∀ i, i < min (b.getD 0 0) (len - 1).toNat → data'[i]? = b[i + 1]?) ∧
      data'[min (b.getD 0 0) (len - 1).toNat]? = some 0 ∧
      (∀ i, min (b.getD 0 0) (len - 1).toNat < i → data'[i]? = data[i]?) := by
  obtain ⟨b0, rest, rfl⟩ : ∃ b0 rest, b = b0 :: rest := by
    cases b with
    | nil => simp at hb
    | cons b0 rest => exact ⟨b0, rest, rfl⟩
  have hrest : rest.length = 32 := by simpa using hb
  rw [show (b0 :: rest).getD 0 0 = b0 from rfl]
  generalize hL : min b0 (len - 1).toNat = L
  have hL31 : L ≤ 31 := by rw [← hL]; omega
  have hLmod : L % 256 = L := Nat.mod_eq_of_lt (by omega)
  have hLd : L + 1 ≤ data.length := by omega
  obtain ⟨h1, h2, h3, h4⟩ := copy_block rest data L (by omega) hLd
  refine ⟨(rest.set L 0).take (L + 1) ++ data.drop (L + 1), ?_, h1, ?_, ?_, h4⟩
  · unfold i2c_read_string
    rw [if_neg (by simp [SMBUS_MAX_BLOCK]; omega)]
    have hx' : (i2c_xfer K env fuel port addr (some [(offset % 256).toNat]) 1
        (some ((List.range (SMBUS_MAX_BLOCK + 1)).map
          (fun i => env s.trace (.uninit_byte i) % 256))) (SMBUS_MAX_BLOCK + 1)
        K.I2C_XFER_SINGLE).run { s with trace := (s.trace ++ [.i2c_lock port 1]) }
      = some ((K.EC_SUCCESS, some (b0 :: rest)), s2) := hx
    have hm : (memcpy data (((b0 :: rest).set (L + 1) 0).drop 1) (L + 1)).run s2
        = some ((rest.set L 0).take (L + 1) ++ data.drop (L + 1), s2) := by
      rw [run_memcpy _ _ _ _ hLd (by simp; omega)]
      simp
    simp only [run_bind, run_uninit_array, Option.some_bind, i2c_lock, run_emit, hx', run_ite,
      if_true, hL, hLmod, List.length_cons, hrest, if_pos (show L + 1 < 32 + 1 by omega), hm,
      run_pure]
  · intro i hi
    rw [h2 i hi]
    simp
  · exact h3

/-- A read of more than one byte on a free port succeeds when SR1 always shows
SB, ADDR and BTF, the wake-up event comes, and CR1 never shows a STOP pending. -/
theorem i2c_xfer_read_succeeds (K : Consts) (env : Env) (hK : K.ErrorCodesOk)
    (htick : Ticking env) (fuel : Nat) (hfuel : I2C_TX_TIMEOUT_MASTER + 1 ≤ fuel)
    (port addr : Nat) (hport : port = I2C1 ∨ port = I2C2) (out : Option (List Nat))
    (out_bytes : Int) (buf : List Nat) (in_bytes : Int) (flags : Nat) (s : St)
    (hout : out.isSome ∨ out_bytes = 0) (hsize : 1 < in_bytes)
    (hroom : in_bytes ≤ (buf.length : Int)) (hfree : s.claimed port = false)
    (hsb : ∀ h, status_reached SR1_SB (env h (.reg (.SR1 port)) % 65536))
    (haddr : ∀ h, status_reached SR1_ADDR (env h (.reg (.SR1 port)) % 65536))
    (hbtf : ∀ h, status_reached SR1_BTF (env h (.reg (.SR1 port)) % 65536))
    (hwake : ∀ h, env h .task_wait_event &&& K.TASK_EVENT_WAKE ≠ 0)
    (hcr1 : ∀ h, env h (.reg (.CR1 port)) % 65536 &&& (1 <<< 9) = 0) :
    ∃ (b : List Nat) (s' : St),
      (i2c_xfer K env fuel port addr out out_bytes (some buf) in_bytes flags).run s
        = some ((K.EC_SUCCESS, some b), s') ∧ b.length = buf.length := by
  generalize hs0 : ({ s with
      claimed := (fun p => if p = port then true else s.claimed p)
      trace := (s.trace ++ [.i2c_claim port K.EC_SUCCESS,
        .reg_read (.CR2 port)
          (env (s.trace ++ [.i2c_claim port K.EC_SUCCESS]) (.reg (.CR2 port)) % 65536),
        .reg_write (.CR2 port) (andNot
          (env (s.trace ++ [.i2c_claim port K.EC_SUCCESS]) (.reg (.CR2 port)) % 65536)
          (3 <<< 8) % 65536)]) } : St) = s0
  obtain ⟨rvq, s1, et, q1, _⟩ := i2c_master_transmit_totq K env htick fuel hfuel port addr out
    out_bytes (if in_bytes ≠ 0 then 0 else 1) s0
  obtain ⟨rv', s1', _, et', _, _, _, hval⟩ := i2c_master_transmit_outcome K env hK htick fuel
    hfuel port addr out out_bytes (if in_bytes ≠ 0 then 0 else 1) s0
  have hrv : rvq = K.EC_SUCCESS := by
    rw [et] at et'
    simp only [Option.some.injEq, Prod.mk.injEq] at et'
    rw [et'.1]
    exact hval hsb haddr hwake hbtf (by rw [if_pos (by omega)])
  subst hrv
  obtain ⟨⟨rvr, outr⟩, s2, er, q2, _⟩ := i2c_master_receive_totq K env htick fuel hfuel port addr
    (some buf) in_bytes (fun b hb => by cases hb; exact hroom) s1
  obtain ⟨rv2, out2, s2', _, _, _, _, _, _, er', _, _, _, _, ⟨buf2, hbuf2, hlen2⟩, hsucc⟩ :=
    i2c_master_receive_dma_log K env hK htick fuel hfuel port addr buf in_bytes hsize hroom s1
  rw [er] at er'
  simp only [Option.some.injEq, Prod.mk.injEq] at er'
  obtain ⟨⟨hr1, hr2⟩, _⟩ := er'
  have hrvr : rvr = K.EC_SUCCESS := by rw [hr1]; exact hsucc hsb haddr hwake hcr1
  have houtr : outr = some buf2 := by rw [hr2]; exact hbuf2
  subst hrvr
  subst houtr
  have hin0 : in_bytes ≠ 0 := by omega
  have e1 : (i2c_xfer_phases K env fuel port addr out out_bytes (some buf) in_bytes).run s0
      = some ((K.EC_SUCCESS, some buf2), s2) := by
    unfold i2c_xfer_phases
    rw [show (if in_bytes ≠ 0 then (0 : Nat) else 1) = 0 from if_pos hin0] at et ⊢
    simp only [run_bind, et, Option.some_bind, run_ite]
    rw [if_pos ⟨hK.1, hin0⟩]
    exact er
  obtain ⟨s3, v1, _, _, e⟩ := i2c_xfer_free_run_from_phases K env hK htick fuel hfuel port addr
    hport out out_bytes (some buf) in_bytes flags s hout (Or.inl rfl) hfree s0 s2 _ _ hs0.symm
    e1 (q1.trans q2)
  exact ⟨buf2, _, e, hlen2⟩

theorem i2c_read_string_copies_witness :
    ∃ (b : List Nat) (s2 : St) (data' : List Nat),
      (i2c_read_string exampleConsts goodBus 10001 I2C1 0x16 0x20 [9, 9, 9, 9, 9, 9, 9, 9] 8).run
          {}
        = some ((exampleConsts.EC_SUCCESS, data'),
            { s2 with trace := (s2.trace ++ [.i2c_lock I2C1 0]) }) ∧
      data'.length = ([9, 9, 9, 9, 9, 9, 9, 9] : List Nat).length ∧
      (∀ i, i < min (b.getD 0 0) ((8 : Int) - 1).toNat → data'[i]? = b[i + 1]?) ∧
      data'[min (b.getD 0 0) ((8 : Int) - 1).toNat]? = some 0 ∧
      (∀ i, min (b.getD 0 0) ((8 : Int) - 1).toNat < i →
        data'[i]? = ([9, 9, 9, 9, 9, 9, 9, 9] : List Nat)[i]?) := by
  obtain ⟨b, s2, hx, hb⟩ := i2c_xfer_read_succeeds exampleConsts goodBus (by decide)
    (fun _ => Nat.le_refl 1) 10001 (by decide) I2C1 0x16 (Or.inl rfl)
    (some [((0x20 : Int) % 256).toNat]) 1
    ((List.range 33).map (fun i => goodBus ({} : St).trace (.uninit_byte i) % 256)) 33
    exampleConsts.I2C_XFER_SINGLE
    { ({} : St) with trace := (({} : St).trace ++ [.i2c_lock I2C1 1]) }
    (Or.inl rfl) (by decide) (by simp) rfl
    (fun _ => (by decide : status_reached SR1_SB (7 % 65536)))
    (fun _ => (by decide : status_reached SR1_ADDR (7 % 65536)))
    (fun _ => (by decide : status_reached SR1_BTF (7 % 65536)))
    (fun _ => (by decide : (1 <<< 29 &&& exampleConsts.TASK_EVENT_WAKE) ≠ 0))
    (fun _ => (by decide : (0 % 65536 &&& (1 <<< 9)) = 0))
  obtain ⟨data', h⟩ := i2c_read_string_copies exampleConsts goodBus 10001 I2C1 0x16 0x20
    [9, 9, 9, 9, 9, 9, 9, 9] 8 (by decide) (by decide) (by decide) {} s2 b
    (by rw [hb]; simp) hx
  exact ⟨b, s2, data', h⟩

/-! ## The slave event handler -/

theorem i2c_event_handler_status_run (env : Env) (port : Nat) (s : St) (sr1 sr2 : Nat)
    (hsr1 : env s.trace (.reg (.SR1 port)) % 65536 = sr1)
    (hsr2 : env (s.trace ++ [.reg_read (.SR1 port) sr1, .reg_write (.SR1 port) 0])
      (.reg (.SR2 port)) % 65536 = sr2) :
    (i2c_event_handler_status env port).run s = some (decide (sr2 &&& (1 <<< 0) ≠ 0),
      { s with
        i2c_sr1 := (fun p => if p = port then sr1 else s.i2c_sr1 p)
        trace := (s.trace ++ [.reg_read (.SR1 port) sr1, .reg_write (.SR1 port) 0,
          .reg_read (.SR2 port) sr2]) }) := by
  unfold i2c_event_handler_status
  simp only [run_bind, run_reg_read, run_reg_write, run_modifySt, Option.some_bind, run_pure,
    Reg.modulus, Nat.reducePow, hsr1, List.append_assoc, List.cons_append, List.nil_append,
    Nat.zero_mod, hsr2]

theorem address_stop_addr_recv (K : Consts) (env : Env) (port : Nat) (sa : St) (d : Nat)
    (haddr : sa.i2c_sr1 port &&& (1 <<< 1) ≠ 0)
    (hd : env sa.trace (.reg (.SR2 port)) % 65536 = d) (hrecv : d &&& (1 <<< 2) = 0) :
    ∃ v x y : Nat, (i2c_event_handler_address_stop K env port).run sa = some ((),
      { sa with
        rx_pending := 1
        trace := (sa.trace ++ [.reg_read (.SR2 port) d,
          .dma_start_rx port K.EC_PROTO2_MAX_REQUEST_SIZE true, .reg_read (.CR2 port) v,
          .reg_write (.CR2 port) ((v ||| (1 <<< 11)) % 65536), .reg_read (.SR1 port) x,
          .reg_read (.SR2 port) y]) }) := by
  apply Exists.intro
  apply Exists.intro
  apply Exists.intro
  unfold i2c_event_handler_address_stop
  simp only [run_bind, run_getSt, Option.some_bind, run_ite, if_pos haddr, run_reg_read,
    Reg.modulus, Nat.reducePow, hd, if_pos hrecv, run_emit, run_reg_write, run_modifySt, run_pure,
    List.append_assoc, List.cons_append, List.nil_append]
  rfl

theorem address_stop_addr_xmit (K : Consts) (env : Env) (port : Nat) (sa : St) (d : Nat)
    (haddr : sa.i2c_sr1 port &&& (1 <<< 1) ≠ 0)
    (hd : env sa.trace (.reg (.SR2 port)) % 65536 = d) (hxmit : d &&& (1 <<< 2) ≠ 0) :
    ∃ x y : Nat, (i2c_event_handler_address_stop K env port).run sa = some ((),
      { sa with
        trace := (sa.trace ++ [.reg_read (.SR2 port) d, .reg_read (.SR1 port) x,
          .reg_read (.SR2 port) y]) }) := by
  apply Exists.intro
  apply Exists.intro
  unfold i2c_event_handler_address_stop
  simp only [run_bind, run_getSt, Option.some_bind, run_ite, if_pos haddr, run_reg_read,
    Reg.modulus, Nat.reducePow, hd, if_neg hxmit, run_emit, run_reg_write, run_modifySt, run_pure,
    List.append_assoc, List.cons_append, List.nil_append]
  rfl

theorem address_stop_stopf_recv (K : Consts) (env : Env) (port : Nat) (sa : St) (d : Nat)
    (hna : sa.i2c_sr1 port &&& (1 <<< 1) = 0) (hstop : sa.i2c_sr1 port &&& (1 <<< 4) ≠ 0)
    (hd : env sa.trace (.reg (.SR2 port)) % 65536 = d) (hrecv : d &&& (1 <<< 2) = 0) :
    ∃ v x c : Nat, (i2c_event_handler_address_stop K env port).run sa = some ((),
      { sa with
        trace := (sa.trace ++ [.reg_read (.SR2 port) d, .dma_disable (DMAC_SLAVE_RX K),
          .dma_clear_isr (DMAC_SLAVE_RX K), .reg_read (.CR2 port) v,
          .reg_write (.CR2 port) (andNot v (1 <<< 11) % 65536), .reg_read (.SR1 port) x,
          .reg_read (.CR1 port) c, .reg_write (.CR1 port) (c % 65536)]) }) := by
  apply Exists.intro
  apply Exists.intro
  apply Exists.intro
  unfold i2c_event_handler_address_stop
  simp only [run_bind, run_getSt, Option.some_bind, run_ite, if_neg (not_not_intro hna),
    if_pos hstop, run_reg_read,
    Reg.modulus, Nat.reducePow, hd, if_pos hrecv, run_emit, run_reg_write, run_modifySt, run_pure,
    List.append_assoc, List.cons_append, List.nil_append]
  rfl

theorem address_stop_stopf_xmit (K : Consts) (env : Env) (port : Nat) (sa : St) (d : Nat)
    (hna : sa.i2c_sr1 port &&& (1 <<< 1) = 0) (hstop : sa.i2c_sr1 port &&& (1 <<< 4) ≠ 0)
    (hd : env sa.trace (.reg (.SR2 port)) % 65536 = d) (hxmit : d &&& (1 <<< 2) ≠ 0) :
    ∃ x c : Nat, (i2c_event_handler_address_stop K env port).run sa = some ((),
      { sa with
        trace := (sa.trace ++ [.reg_read (.SR2 port) d, .reg_read (.SR1 port) x,
          .reg_read (.CR1 port) c, .reg_write (.CR1 port) (c % 65536)]) }) := by
  apply Exists.intro
  apply Exists.intro
  unfold i2c_event_handler_address_stop
  simp only [run_bind, run_getSt, Option.some_bind, run_ite, if_neg (not_not_intro hna),
    if_pos hstop, run_reg_read,
    Reg.modulus, Nat.reducePow, hd, if_neg hxmit, run_emit, run_reg_write, run_modifySt, run_pure,
    List.append_assoc, List.cons_append, List.nil_append]
  rfl

theorem address_stop_neither (K : Consts) (env : Env) (port : Nat) (sa : St)
    (hna : sa.i2c_sr1 port &&& (1 <<< 1) = 0) (hns : sa.i2c_sr1 port &&& (1 <<< 4) = 0) :
    (i2c_event_handler_address_stop K env port).run sa = some ((), sa) := by
  unfold i2c_event_handler_address_stop
  simp only [run_bind, run_getSt, Option.some_bind, run_ite, if_neg (not_not_intro hna),
    if_neg (not_not_intro hns), run_pure]

theorem txe_dispatch_run (K : Consts) (hcr : HostCommand) (s1 : St)
    (htxe : s1.i2c_sr1 I2C2 &&& (1 <<< 7) ≠ 0) (hp : s1.rx_pending ≠ 0) :
    (i2c_event_handler_txe K hcr I2C2).run s1 =
      ((i2c_process_command K hcr).run s1).map
        (fun p => ((), { p.2 with rx_pending := 0 })) := by
  unfold i2c_event_handler_txe
  simp only [run_bind, run_getSt, Option.some_bind, run_ite, if_pos htxe, if_true, if_pos hp,
    run_modifySt]
  cases (i2c_process_command K hcr).run s1 <;> rfl

theorem txe_sentinel_run (K : Consts) (hcr : HostCommand) (s1 : St)
    (htxe : s1.i2c_sr1 I2C2 &&& (1 <<< 7) ≠ 0) (hp : s1.rx_pending = 0) :
    (i2c_event_handler_txe K hcr I2C2).run s1 =
      some ((), { s1 with trace := s1.trace ++ [.reg_write (.DR I2C2) 0xec] }) := by
  unfold i2c_event_handler_txe
  simp only [run_bind, run_getSt, Option.some_bind, run_ite, if_pos htxe, if_true,
    if_neg (not_not_intro hp), run_reg_write, Reg.modulus, Nat.reducePow, Nat.reduceMod]

theorem txe_absent_run (K : Consts) (hcr : HostCommand) (port : Nat) (s1 : St)
    (htxe : s1.i2c_sr1 port &&& (1 <<< 7) = 0) :
    (i2c_event_handler_txe K hcr port).run s1 = some ((), s1) := by
  unfold i2c_event_handler_txe
  simp only [run_bind, run_getSt, Option.some_bind, run_ite, if_neg (not_not_intro htxe),
    run_pure]

theorem i2c_event_handler_slave_run (K : Consts) (env : Env) (hcr : HostCommand) (port : Nat)
    (s : St) (sr1 sr2 : Nat)
    (hsr1 : env s.trace (.reg (.SR1 port)) % 65536 = sr1)
    (hsr2 : env (s.trace ++ [.reg_read (.SR1 port) sr1, .reg_write (.SR1 port) 0])
      (.reg (.SR2 port)) % 65536 = sr2)
    (hslave : sr2 &&& (1 <<< 0) = 0) :
    (i2c_event_handler K env hcr port).run s =
      ((i2c_event_handler_address_stop K env port).run
        { s with
          i2c_sr1 := (fun p => if p = port then sr1 else s.i2c_sr1 p)
          trace := (s.trace ++ [.reg_read (.SR1 port) sr1, .reg_write (.SR1 port) 0,
            .reg_read (.SR2 port) sr2]) }).bind
        (fun p => (i2c_event_handler_txe K hcr port).run p.2) := by
  unfold i2c_event_handler
  simp only [run_bind, i2c_event_handler_status_run env port s sr1 sr2 hsr1 hsr2,
    Option.some_bind, run_ite, hslave, ne_eq, not_true_eq_false, decide_False,
    Bool.false_eq_true, if_false]

theorem address_stop_frame (K : Consts) (env : Env) (port : Nat) (sa : St) :
    ∃ (r : Nat) (tl : List Event),
      (i2c_event_handler_address_stop K env port).run sa = some ((),
        { sa with rx_pending := r, trace := sa.trace ++ tl }) ∧
      (∀ e ∈ tl, e.isDispatchOrData = false) ∧
      (sa.i2c_sr1 port &&& (1 <<< 1) = 0 → r = sa.rx_pending) ∧
      (r = sa.rx_pending ∨ r = 1) := by
  by_cases haddr : sa.i2c_sr1 port &&& (1 <<< 1) = 0
  · by_cases hstop : sa.i2c_sr1 port &&& (1 <<< 4) = 0
    · exact ⟨sa.rx_pending, [], by
        rw [address_stop_neither K env port sa haddr hstop, List.append_nil],
        (fun _ h => by cases h), (fun _ => rfl), Or.inl rfl⟩
    · by_cases hd : env sa.trace (.reg (.SR2 port)) % 65536 &&& (1 <<< 2) = 0
      · obtain ⟨v, x, c, h⟩ := address_stop_stopf_recv K env port sa _ haddr hstop rfl hd
        refine ⟨sa.rx_pending, _, h, ?_, (fun _ => rfl), Or.inl rfl⟩
        intro e he
        simp only [List.mem_cons, List.mem_singleton, List.not_mem_nil, or_false] at he
        rcases he with rfl | rfl | rfl | rfl | rfl | rfl | rfl | rfl <;> rfl
      · obtain ⟨x, c, h⟩ := address_stop_stopf_xmit K env port sa _ haddr hstop rfl hd
        refine ⟨sa.rx_pending, _, h, ?_, (fun _ => rfl), Or.inl rfl⟩
        intro e he
        simp only [List.mem_cons, List.mem_singleton, List.not_mem_nil, or_false] at he
        rcases he with rfl | rfl | rfl | rfl <;> rfl
  · by_cases hd : env sa.trace (.reg (.SR2 port)) % 65536 &&& (1 <<< 2) = 0
    · obtain ⟨v, x, y, h⟩ := address_stop_addr_recv K env port sa _ haddr rfl hd
      refine ⟨1, _, h, ?_, (fun h0 => absurd h0 haddr), Or.inr rfl⟩
      intro e he
      simp only [List.mem_cons, List.mem_singleton, List.not_mem_nil, or_false] at he
      rcases he with rfl | rfl | rfl | rfl | rfl | rfl <;> rfl
    · obtain ⟨x, y, h⟩ := address_stop_addr_xmit K env port sa _ haddr rfl hd
      refine ⟨sa.rx_pending, _, h, ?_, (fun _ => rfl), Or.inl rfl⟩
      intro e he
      simp only [List.mem_cons, List.mem_singleton, List.not_mem_nil, or_false] at he
      rcases he with rfl | rfl | rfl <;> rfl

/-- C19: a transmit-data-empty event on the slave port.  Let the status word
read from SR1 have TxE (bit 7) set and let SR2 show slave mode.  Then the
handler reaches the TxE test in a state that differs from the entry state only
in the saved status, the log (extended by `tl`, which holds no dispatch and no
data-register write) and `rx_pending`, whose value `r` there is the entry value
unless an address match in the same status word has just set it to 1.  If `r`
is nonzero the handler is exactly one call of `i2c_process_command` from that
state followed by `rx_pending = 0`, with no sentinel written; if `r` is zero
the handler only appends the write of `0xec` to the data register: nothing is
dispatched and the host buffer and `rx_pending` are as on entry. -/
theorem i2c_event_handler_txe_dispatch (K : Consts) (env : Env) (hcr : HostCommand)
    (s : St) (sr1 sr2 : Nat)
    (hsr1 : env s.trace (.reg (.SR1 I2C2)) % 65536 = sr1)
    (hsr2 : env (s.trace ++ [.reg_read (.SR1 I2C2) sr1, .reg_write (.SR1 I2C2) 0])
      (.reg (.SR2 I2C2)) % 65536 = sr2)
    (hslave : sr2 &&& (1 <<< 0) = 0) (htxe : sr1 &&& (1 <<< 7) ≠ 0) :
    ∃ (r : Nat) (tl : List Event),
      (∀ e ∈ tl, e.isDispatchOrData = false) ∧
      (sr1 &&& (1 <<< 1) = 0 → r = s.rx_pending) ∧
      (r = s.rx_pending ∨ r = 1) ∧
      (r ≠ 0 →
        (i2c_event_handler K env hcr I2C2).run s =
          ((i2c_process_command K hcr).run
            { s with
              i2c_sr1 := (fun p => if p = I2C2 then sr1 else s.i2c_sr1 p)
              rx_pending := r
              trace := s.trace ++ tl }).map
            (fun p => ((), { p.2 with rx_pending := 0 }))) ∧
      (r = 0 →
        (i2c_event_handler K env hcr I2C2).run s = some ((),
          { s with
            i2c_sr1 := (fun p => if p = I2C2 then sr1 else s.i2c_sr1 p)
            trace := s.trace ++ tl ++ [.reg_write (.DR I2C2) 0xec] })) := by
  obtain ⟨r, tl, hrun, hlog, hkeep, hval⟩ := address_stop_frame K env I2C2
    { s with
      i2c_sr1 := (fun p => if p = I2C2 then sr1 else s.i2c_sr1 p)
      trace := (s.trace ++ [.reg_read (.SR1 I2C2) sr1, .reg_write (.SR1 I2C2) 0,
        .reg_read (.SR2 I2C2) sr2]) }
  refine ⟨r, [.reg_read (.SR1 I2C2) sr1, .reg_write (.SR1 I2C2) 0, .reg_read (.SR2 I2C2) sr2]
    ++ tl, ?_, ?_, hval, ?_, ?_⟩
  · intro e he
    rcases List.mem_append.mp he with h | h
    · simp only [List.mem_cons, List.mem_singleton, List.not_mem_nil, or_false] at h
      rcases h with rfl | rfl | rfl <;> rfl
    · exact hlog e h
  · intro h0
    exact hkeep (by show sr1 &&& (1 <<< 1) = 0; exact h0)
  · intro hr
    rw [i2c_event_handler_slave_run K env hcr I2C2 s sr1 sr2 hsr1 hsr2 hslave, hrun,
      Option.some_bind]
    rw [txe_dispatch_run K hcr _ (by show sr1 &&& (1 <<< 7) ≠ 0; exact htxe) hr]
    simp only [List.append_assoc]
  · intro hr
    have hs0 : s.rx_pending = 0 := by
      rcases hval with h | h
      · rw [← h]; exact hr
      · rw [hr] at h; cases h
    rw [i2c_event_handler_slave_run K env hcr I2C2 s sr1 sr2 hsr1 hsr2 hslave, hrun,
      Option.some_bind]
    rw [txe_sentinel_run K hcr _ (by show sr1 &&& (1 <<< 7) ≠ 0; exact htxe) hr]
    subst hr
    simp only [List.append_assoc]
    congr 2
    cases s
    simp only at hs0
    subst hs0
    rfl

theorem i2c_event_handler_txe_dispatch_witness :
    transmitEmptyBus ({} : St).trace (.reg (.SR1 I2C2)) % 65536 = 0x80 ∧
    transmitEmptyBus (({} : St).trace ++ [.reg_read (.SR1 I2C2) 0x80, .reg_write (.SR1 I2C2) 0])
      (.reg (.SR2 I2C2)) % 65536 = 0 ∧
    0 &&& (1 <<< 0) = 0 ∧ 0x80 &&& (1 <<< 7) ≠ 0 ∧
    ∃ (r : Nat) (tl : List Event),
      (∀ e ∈ tl, e.isDispatchOrData = false) ∧
      (0x80 &&& (1 <<< 1) = 0 → r = ({} : St).rx_pending) ∧
      (r = ({} : St).rx_pending ∨ r = 1) ∧
      (r ≠ 0 →
        (i2c_event_handler exampleConsts transmitEmptyBus (M.pure ()) I2C2).run ({} : St) =
          ((i2c_process_command exampleConsts (M.pure ())).run
            { ({} : St) with
              i2c_sr1 := (fun p => if p = I2C2 then 0x80 else ({} : St).i2c_sr1 p)
              rx_pending := r
              trace := ({} : St).trace ++ tl }).map
            (fun p => ((), { p.2 with rx_pending := 0 }))) ∧
      (r = 0 →
        (i2c_event_handler exampleConsts transmitEmptyBus (M.pure ()) I2C2).run ({} : St) =
          some ((),
          { ({} : St) with
            i2c_sr1 := (fun p => if p = I2C2 then 0x80 else ({} : St).i2c_sr1 p)
            trace := ({} : St).trace ++ tl ++ [.reg_write (.DR I2C2) 0xec] })) :=
  ⟨rfl, rfl, by decide, by decide,
    i2c_event_handler_txe_dispatch exampleConsts transmitEmptyBus (M.pure ()) {} 0x80 0
      rfl rfl (by decide) (by decide)⟩

/-! ## Address match and stop detection in the slave event handler -/

theorem i2c_event_handler_address_match_run (K : Consts) (env : Env) (hcr : HostCommand)
    (port : Nat) (s : St) (sr1 sr2 d : Nat)
    (hsr1 : env s.trace (.reg (.SR1 port)) % 65536 = sr1)
    (hsr2 : env (s.trace ++ [.reg_read (.SR1 port) sr1, .reg_write (.SR1 port) 0])
      (.reg (.SR2 port)) % 65536 = sr2)
    (hslave : sr2 &&& (1 <<< 0) = 0)
    (hd : env (s.trace ++ [.reg_read (.SR1 port) sr1, .reg_write (.SR1 port) 0,
      .reg_read (.SR2 port) sr2]) (.reg (.SR2 port)) % 65536 = d)
    (hrecv : d &&& (1 <<< 2) = 0) (hntxe : sr1 &&& (1 <<< 7) = 0)
    (haddr : sr1 &&& (1 <<< 1) ≠ 0) :
    ∃ v x y : Nat, (i2c_event_handler K env hcr port).run s = some ((),
      { s with
        i2c_sr1 := (fun p => if p = port then sr1 else s.i2c_sr1 p)
        rx_pending := 1
        trace := (s.trace ++ [.reg_read (.SR1 port) sr1, .reg_write (.SR1 port) 0,
          .reg_read (.SR2 port) sr2, .reg_read (.SR2 port) d,
          .dma_start_rx port K.EC_PROTO2_MAX_REQUEST_SIZE true, .reg_read (.CR2 port) v,
          .reg_write (.CR2 port) ((v ||| (1 <<< 11)) % 65536), .reg_read (.SR1 port) x,
          .reg_read (.SR2 port) y]) }) := by
  obtain ⟨v, x, y, h⟩ := address_stop_addr_recv K env port
    { s with
      i2c_sr1 := (fun p => if p = port then sr1 else s.i2c_sr1 p)
      trace := (s.trace ++ [.reg_read (.SR1 port) sr1, .reg_write (.SR1 port) 0,
        .reg_read (.SR2 port) sr2]) } d
    (by show (if port = port then sr1 else s.i2c_sr1 port) &&& (1 <<< 1) ≠ 0
        rw [if_pos rfl]; exact haddr) hd hrecv
  refine ⟨v, x, y, ?_⟩
  rw [i2c_event_handler_slave_run K env hcr port s sr1 sr2 hsr1 hsr2 hslave, h, Option.some_bind]
  rw [txe_absent_run K hcr port _ (by
    show (if port = port then sr1 else s.i2c_sr1 port) &&& (1 <<< 7) = 0
    rw [if_pos rfl]; exact hntxe)]
  simp only [List.append_assoc, List.cons_append, List.nil_append]

theorem i2c_event_handler_stop_detected_run (K : Consts) (env : Env) (hcr : HostCommand)
    (port : Nat) (s : St) (sr1 sr2 d : Nat)
    (hsr1 : env s.trace (.reg (.SR1 port)) % 65536 = sr1)
    (hsr2 : env (s.trace ++ [.reg_read (.SR1 port) sr1, .reg_write (.SR1 port) 0])
      (.reg (.SR2 port)) % 65536 = sr2)
    (hslave : sr2 &&& (1 <<< 0) = 0)
    (hd : env (s.trace ++ [.reg_read (.SR1 port) sr1, .reg_write (.SR1 port) 0,
      .reg_read (.SR2 port) sr2]) (.reg (.SR2 port)) % 65536 = d)
    (hrecv : d &&& (1 <<< 2) = 0) (hntxe : sr1 &&& (1 <<< 7) = 0)
    (hna : sr1 &&& (1 <<< 1) = 0) (hstop : sr1 &&& (1 <<< 4) ≠ 0) :
    ∃ v x c : Nat, (i2c_event_handler K env hcr port).run s = some ((),
      { s with
        i2c_sr1 := (fun p => if p = port then sr1 else s.i2c_sr1 p)
        trace := (s.trace ++ [.reg_read (.SR1 port) sr1, .reg_write (.SR1 port) 0,
          .reg_read (.SR2 port) sr2, .reg_read (.SR2 port) d,
          .dma_disable (DMAC_SLAVE_RX K), .dma_clear_isr (DMAC_SLAVE_RX K),
          .reg_read (.CR2 port) v, .reg_write (.CR2 port) (andNot v (1 <<< 11) % 65536),
          .reg_read (.SR1 port) x, .reg_read (.CR1 port) c,
          .reg_write (.CR1 port) (c % 65536)]) }) := by
  obtain ⟨v, x, c, h⟩ := address_stop_stopf_recv K env port
    { s with
      i2c_sr1 := (fun p => if p = port then sr1 else s.i2c_sr1 p)
      trace := (s.trace ++ [.reg_read (.SR1 port) sr1, .reg_write (.SR1 port) 0,
        .reg_read (.SR2 port) sr2]) } d
    (by show (if port = port then sr1 else s.i2c_sr1 port) &&& (1 <<< 1) = 0
        rw [if_pos rfl]; exact hna)
    (by show (if port = port then sr1 else s.i2c_sr1 port) &&& (1 <<< 4) ≠ 0
        rw [if_pos rfl]; exact hstop) hd hrecv
  refine ⟨v, x, c, ?_⟩
  rw [i2c_event_handler_slave_run K env hcr port s sr1 sr2 hsr1 hsr2 hslave, h, Option.some_bind]
  rw [txe_absent_run K hcr port _ (by
    show (if port = port then sr1 else s.i2c_sr1 port) &&& (1 <<< 7) = 0
    rw [if_pos rfl]; exact hntxe)]
  simp only [List.append_assoc, List.cons_append, List.nil_append]

/-- C20 as stated fails: starting with `rx_pending` clear, handling the single
address-match event in receive direction (SR1 reads ADDR, SR2 reads 0) arms
the DMA receive of `sizeof(host_buffer)` bytes and leaves `rx_pending` equal
to 1, not clear: the command is marked pending before any stop is detected. -/
theorem i2c_event_handler_address_match_counterexample :
    ({} : St).rx_pending = 0 ∧
    (i2c_event_handler exampleConsts addressMatchBus (M.pure ()) I2C2).run {} = some ((),
      { i2c_sr1 := (fun p => if p = I2C2 then 2 else 0)
        rx_pending := 1
        trace := [.reg_read (.SR1 I2C2) 2, .reg_write (.SR1 I2C2) 0, .reg_read (.SR2 I2C2) 0,
          .reg_read (.SR2 I2C2) 0, .dma_start_rx I2C2 0x100 true, .reg_read (.CR2 I2C2) 0,
          .reg_write (.CR2 I2C2) 0x800, .reg_read (.SR1 I2C2) 2, .reg_read (.SR2 I2C2) 0] }) ∧
    ((i2c_event_handler exampleConsts addressMatchBus (M.pure ()) I2C2).run {}).map
      (fun p => p.2.rx_pending) ≠ some 0 := by
  refine ⟨rfl, rfl, ?_⟩
  rw [show (i2c_event_handler exampleConsts addressMatchBus (M.pure ()) I2C2).run {} = some ((),
      { i2c_sr1 := (fun p => if p = I2C2 then 2 else 0)
        rx_pending := 1
        trace := [.reg_read (.SR1 I2C2) 2, .reg_write (.SR1 I2C2) 0, .reg_read (.SR2 I2C2) 0,
          .reg_read (.SR2 I2C2) 0, .dma_start_rx I2C2 0x100 true, .reg_read (.CR2 I2C2) 0,
          .reg_write (.CR2 I2C2) 0x800, .reg_read (.SR1 I2C2) 2, .reg_read (.SR2 I2C2) 0] })
    from rfl]
  decide

/-- C20, amended: in the slave event handler, with SR2 showing slave mode and
receive direction and no TxE in the status word, (1) an address match (SR1
bit 1) arms a DMA receive into the host buffer of `sizeof(host_buffer)` =
`EC_PROTO2_MAX_REQUEST_SIZE` bytes, sets the DMA enable bit of CR2 and sets
`rx_pending` to 1 at once; (2) a stop detection (SR1 bit 4 without bit 1)
disables the DMA channel, clears its transfer-complete flag and the DMA enable
bit of CR2, writes CR1 back, and leaves `rx_pending` as it was. -/
theorem i2c_event_handler_pending_at_address_match (K : Consts) (env : Env)
    (hcr : HostCommand) (port : Nat) (s : St) (sr1 sr2 d : Nat)
    (hsr1 : env s.trace (.reg (.SR1 port)) % 65536 = sr1)
    (hsr2 : env (s.trace ++ [.reg_read (.SR1 port) sr1, .reg_write (.SR1 port) 0])
      (.reg (.SR2 port)) % 65536 = sr2)
    (hslave : sr2 &&& (1 <<< 0) = 0)
    (hd : env (s.trace ++ [.reg_read (.SR1 port) sr1, .reg_write (.SR1 port) 0,
      .reg_read (.SR2 port) sr2]) (.reg (.SR2 port)) % 65536 = d)
    (hrecv : d &&& (1 <<< 2) = 0) (hntxe : sr1 &&& (1 <<< 7) = 0) :
    (sr1 &&& (1 <<< 1) ≠ 0 →
      ∃ v x y : Nat, (i2c_event_handler K env hcr port).run s = some ((),
        { s with
          i2c_sr1 := (fun p => if p = port then sr1 else s.i2c_sr1 p)
          rx_pending := 1
          trace := (s.trace ++ [.reg_read (.SR1 port) sr1, .reg_write (.SR1 port) 0,
            .reg_read (.SR2 port) sr2, .reg_read (.SR2 port) d,
            .dma_start_rx port K.EC_PROTO2_MAX_REQUEST_SIZE true, .reg_read (.CR2 port) v,
            .reg_write (.CR2 port) ((v ||| (1 <<< 11)) % 65536), .reg_read (.SR1 port) x,
            .reg_read (.SR2 port) y]) })) ∧
    (sr1 &&& (1 <<< 1) = 0 → sr1 &&& (1 <<< 4) ≠ 0 →
      ∃ v x c : Nat, (i2c_event_handler K env hcr port).run s = some ((),
        { s with
          i2c_sr1 := (fun p => if p = port then sr1 else s.i2c_sr1 p)
          trace := (s.trace ++ [.reg_read (.SR1 port) sr1, .reg_write (.SR1 port) 0,
            .reg_read (.SR2 port) sr2, .reg_read (.SR2 port) d,
            .dma_disable (DMAC_SLAVE_RX K), .dma_clear_isr (DMAC_SLAVE_RX K),
            .reg_read (.CR2 port) v, .reg_write (.CR2 port) (andNot v (1 <<< 11) % 65536),
            .reg_read (.SR1 port) x, .reg_read (.CR1 port) c,
            .reg_write (.CR1 port) (c % 65536)]) })) :=
  ⟨fun haddr => i2c_event_handler_address_match_run K env hcr port s sr1 sr2 d hsr1 hsr2 hslave
      hd hrecv hntxe haddr,
    fun hna hstop => i2c_event_handler_stop_detected_run K env hcr port s sr1 sr2 d hsr1 hsr2
      hslave hd hrecv hntxe hna hstop⟩

theorem i2c_event_handler_pending_at_address_match_witness :
    addressMatchBus ({} : St).trace (.reg (.SR1 I2C2)) % 65536 = 2 ∧
    addressMatchBus (({} : St).trace ++ [.reg_read (.SR1 I2C2) 2, .reg_write (.SR1 I2C2) 0])
      (.reg (.SR2 I2C2)) % 65536 = 0 ∧
    0 &&& (1 <<< 0) = 0 ∧
    addressMatchBus (({} : St).trace ++ [.reg_read (.SR1 I2C2) 2, .reg_write (.SR1 I2C2) 0,
      .reg_read (.SR2 I2C2) 0]) (.reg (.SR2 I2C2)) % 65536 = 0 ∧
    0 &&& (1 <<< 2) = 0 ∧ 2 &&& (1 <<< 7) = 0 ∧
    (2 &&& (1 <<< 1) ≠ 0 →
      ∃ v x y : Nat,
        (i2c_event_handler exampleConsts addressMatchBus (M.pure ()) I2C2).run ({} : St) =
        some ((),
        { ({} : St) with
          i2c_sr1 := (fun p => if p = I2C2 then 2 else ({} : St).i2c_sr1 p)
          rx_pending := 1
          trace := (({} : St).trace ++ [.reg_read (.SR1 I2C2) 2, .reg_write (.SR1 I2C2) 0,
            .reg_read (.SR2 I2C2) 0, .reg_read (.SR2 I2C2) 0,
            .dma_start_rx I2C2 exampleConsts.EC_PROTO2_MAX_REQUEST_SIZE true,
            .reg_read (.CR2 I2C2) v,
            .reg_write (.CR2 I2C2) ((v ||| (1 <<< 11)) % 65536), .reg_read (.SR1 I2C2) x,
            .reg_read (.SR2 I2C2) y]) })) ∧
    (2 &&& (1 <<< 1) = 0 → 2 &&& (1 <<< 4) ≠ 0 →
      ∃ v x c : Nat,
        (i2c_event_handler exampleConsts addressMatchBus (M.pure ()) I2C2).run ({} : St) =
        some ((),
        { ({} : St) with
          i2c_sr1 := (fun p => if p = I2C2 then 2 else ({} : St).i2c_sr1 p)
          trace := (({} : St).trace ++ [.reg_read (.SR1 I2C2) 2, .reg_write (.SR1 I2C2) 0,
            .reg_read (.SR2 I2C2) 0, .reg_read (.SR2 I2C2) 0,
            .dma_disable (DMAC_SLAVE_RX exampleConsts),
            .dma_clear_isr (DMAC_SLAVE_RX exampleConsts),
            .reg_read (.CR2 I2C2) v, .reg_write (.CR2 I2C2) (andNot v (1 <<< 11) % 65536),
            .reg_read (.SR1 I2C2) x, .reg_read (.CR1 I2C2) c,
            .reg_write (.CR1 I2C2) (c % 65536)]) })) :=
  ⟨rfl, rfl, by decide, rfl, by decide, by decide,
    i2c_event_handler_pending_at_address_match exampleConsts addressMatchBus (M.pure ()) I2C2 {}
      2 0 0 rfl rfl (by decide) rfl (by decide) (by decide)⟩

/-! ## The back-off of `wait_until_stop_sent` -/

/-- C21, at the failing input: `is_slow` is read without having been
initialised.  When the stack slot holds 1 and STOP is still pending at the
first poll, `wait_until_stop_sent` sleeps `STOP_SENT_RETRY_US` = 150 µs right
after that poll, 1 µs after entry and long before the cutoff of
`SLOW_STOP_SENT_US` = 80 µs, and `timestamp_expired(slow_cutoff)` is never asked. -/
theorem wait_until_stop_sent_sleeps_before_cutoff (fuel : Nat) :
    SLOW_STOP_SENT_US = 80 ∧ STOP_SENT_RETRY_US = 150 ∧
    (wait_until_stop_sent exampleConsts staleStackBus (fuel + 2) I2C1).run {} =
      some (exampleConsts.EC_SUCCESS,
        { now := 152
          trace := [.get_time 1, .uninit_read 1, .reg_read (.CR1 I2C1) 0x200, .get_time 2,
            .usleep 150, .reg_read (.CR1 I2C1) 0] }) := by
  refine ⟨rfl, rfl, ?_⟩
  have hu : ∀ s : St, (uninit_u8 staleStackBus).run s = some (1,
      { s with trace := s.trace ++ [.uninit_read 1] }) := fun _ => rfl
  have hs : ∀ (us : Nat) (s : St), (usleep staleStackBus us).run s = some ((),
      { s with now := s.now + us, trace := s.trace ++ [.usleep us] }) := fun _ _ => rfl
  unfold wait_until_stop_sent
  simp only [run_bind, run_get_time, Option.some_bind, hu]
  unfold wait_until_stop_sent_loop
  simp only [run_bind, run_reg_read, Option.some_bind, run_ite, timestamp_expired, run_get_time,
    run_pure, hs]
  unfold wait_until_stop_sent_loop
  simp only [run_bind, run_reg_read, Option.some_bind, run_ite, run_pure]
  rfl

/-! ## The phases of `i2c_xfer` -/

/-- C22: `i2c_xfer` on a free port sequences its phases by short-circuit.  The
write phase `i2c_master_transmit` is run, from the state `s0` reached by the
claim and the masking of the interrupts, with the stop argument 1 exactly when
`in_bytes = 0`, and it returns some `rv1`.  If `rv1` is non-zero or `in_bytes`
is zero, `handle_i2c_error` runs straight from the state the write phase left:
no read phase is executed, and `i2c_xfer` returns `rv1` (which is `EC_SUCCESS`
when it is zero) with the buffer `in` untouched.  If `rv1` is zero and
`in_bytes` is non-zero, the read phase `i2c_master_receive` runs from the state
the write phase left, and `i2c_xfer` returns its result and its buffer. -/
theorem i2c_xfer_short_circuit (K : Consts) (env : Env) (hK : K.ErrorCodesOk)
    (htick : Ticking env) (fuel : Nat) (hfuel : I2C_TX_TIMEOUT_MASTER + 1 ≤ fuel)
    (port addr : Nat) (hport : port = I2C1 ∨ port = I2C2) (out : Option (List Nat))
    (out_bytes : Int) (inb : Option (List Nat)) (in_bytes : Int) (flags : Nat) (s : St)
    (hout : out.isSome ∨ out_bytes = 0) (hin : inb.isSome ∨ in_bytes = 0)
    (hroom : ∀ buf, inb = some buf → in_bytes ≤ (buf.length : Int))
    (hfree : s.claimed port = false) :
    ∃ (s0 s1 : St) (rv1 : Nat),
      s0 = { s with
        claimed := (fun p => if p = port then true else s.claimed p)
        trace := (s.trace ++ [.i2c_claim port K.EC_SUCCESS,
          .reg_read (.CR2 port)
            (env (s.trace ++ [.i2c_claim port K.EC_SUCCESS]) (.reg (.CR2 port)) % 65536),
          .reg_write (.CR2 port) (andNot
            (env (s.trace ++ [.i2c_claim port K.EC_SUCCESS]) (.reg (.CR2 port)) % 65536)
            (3 <<< 8) % 65536)]) } ∧
      (i2c_master_transmit K env fuel port addr out out_bytes
        (if in_bytes = 0 then 1 else 0)).run s0 = some (rv1, s1) ∧
      (rv1 = 0 ↔ rv1 = K.EC_SUCCESS) ∧
      (rv1 ≠ 0 ∨ in_bytes = 0 →
        ∃ (s2 : St) (v1 : Nat),
          (handle_i2c_error K env fuel port rv1).run s1 = some ((), s2) ∧
          (i2c_xfer K env fuel port addr out out_bytes inb in_bytes flags).run s
            = some ((rv1, inb),
                { s2 with
                  claimed := (fun p => if p = port then false else s2.claimed p)
                  trace := (s2.trace ++ [.reg_read (.CR2 port) v1,
                    .reg_write (.CR2 port) ((v1 ||| (3 <<< 8)) % 65536),
                    .i2c_release port]) })) ∧
      (rv1 = 0 ∧ in_bytes ≠ 0 →
        ∃ (rv2 : Nat) (inb2 : Option (List Nat)) (s1r s2 : St) (v1 : Nat),
          (i2c_master_receive K env fuel port addr inb in_bytes).run s1
            = some ((rv2, inb2), s1r) ∧
          (handle_i2c_error K env fuel port rv2).run s1r = some ((), s2) ∧
          (i2c_xfer K env fuel port addr out out_bytes inb in_bytes flags).run s
            = some ((rv2, inb2),
                { s2 with
                  claimed := (fun p => if p = port then false else s2.claimed p)
                  trace := (s2.trace ++ [.reg_read (.CR2 port) v1,
                    .reg_write (.CR2 port) ((v1 ||| (3 <<< 8)) % 65536),
                    .i2c_release port]) })) := by
  generalize hs0 : ({ s with
      claimed := (fun p => if p = port then true else s.claimed p)
      trace := (s.trace ++ [.i2c_claim port K.EC_SUCCESS,
        .reg_read (.CR2 port)
          (env (s.trace ++ [.i2c_claim port K.EC_SUCCESS]) (.reg (.CR2 port)) % 65536),
        .reg_write (.CR2 port) (andNot
          (env (s.trace ++ [.i2c_claim port K.EC_SUCCESS]) (.reg (.CR2 port)) % 65536)
          (3 <<< 8) % 65536)]) } : St) = s0
  have hstop : (if in_bytes ≠ 0 then (0 : Nat) else 1) = (if in_bytes = 0 then 1 else 0) := by
    by_cases h : in_bytes = 0
    · rw [if_neg (not_not_intro h), if_pos h]
    · rw [if_pos h, if_neg h]
  obtain ⟨rv1, s1, et, q1, _⟩ := i2c_master_transmit_totq K env htick fuel hfuel port addr out
    out_bytes (if in_bytes = 0 then 1 else 0) s0
  refine ⟨s0, s1, rv1, rfl, et, ?_, ?_, ?_⟩
  · rw [hK.1]
  · intro hc
    have e1 : (i2c_xfer_phases K env fuel port addr out out_bytes inb in_bytes).run s0
        = some ((rv1, inb), s1) := by
      unfold i2c_xfer_phases
      rw [hstop]
      simp only [run_bind, et, Option.some_bind, run_ite]
      rw [if_neg (fun h => hc.elim (fun h1 => h1 h.1) (fun h2 => h.2 h2))]
      rfl
    obtain ⟨s2, v1, eh, _, e⟩ := i2c_xfer_free_run_from_phases K env hK htick fuel hfuel port
      addr hport out out_bytes inb in_bytes flags s hout hin hfree s0 s1 _ _ hs0.symm e1 q1
    exact ⟨s2, v1, eh, e⟩
  · intro hc
    obtain ⟨⟨rv2, inb2⟩, s1r, er, q2, _⟩ := i2c_master_receive_totq K env htick fuel hfuel port
      addr inb in_bytes hroom s1
    have e1 : (i2c_xfer_phases K env fuel port addr out out_bytes inb in_bytes).run s0
        = some ((rv2, inb2), s1r) := by
      unfold i2c_xfer_phases
      rw [hstop]
      simp only [run_bind, et, Option.some_bind, run_ite]
      rw [if_pos hc]
      exact er
    obtain ⟨s2, v1, eh, _, e⟩ := i2c_xfer_free_run_from_phases K env hK htick fuel hfuel port
      addr hport out out_bytes inb in_bytes flags s hout hin hfree s0 s1r _ _ hs0.symm e1
      (q1.trans q2)
    exact ⟨rv2, inb2, s1r, s2, v1, er, eh, e⟩

theorem i2c_xfer_short_circuit_witness :
    ∃ (s0 s1 : St) (rv1 : Nat),
      s0 = { ({} : St) with
        claimed := (fun p => if p = I2C1 then true else ({} : St).claimed p)
        trace := (({} : St).trace ++ [.i2c_claim I2C1 exampleConsts.EC_SUCCESS,
          .reg_read (.CR2 I2C1)
            (deadBus (({} : St).trace ++ [.i2c_claim I2C1 exampleConsts.EC_SUCCESS])
              (.reg (.CR2 I2C1)) % 65536),
          .reg_write (.CR2 I2C1) (andNot
            (deadBus (({} : St).trace ++ [.i2c_claim I2C1 exampleConsts.EC_SUCCESS])
              (.reg (.CR2 I2C1)) % 65536)
            (3 <<< 8) % 65536)]) } ∧
      (i2c_master_transmit exampleConsts deadBus 10001 I2C1 0x90 (some [7]) 1
        (if (2 : Int) = 0 then 1 else 0)).run s0 = some (rv1, s1) ∧
      (rv1 = 0 ↔ rv1 = exampleConsts.EC_SUCCESS) ∧
      (rv1 ≠ 0 ∨ (2 : Int) = 0 →
        ∃ (s2 : St) (v1 : Nat),
          (handle_i2c_error exampleConsts deadBus 10001 I2C1 rv1).run s1 = some ((), s2) ∧
          (i2c_xfer exampleConsts deadBus 10001 I2C1 0x90 (some [7]) 1 (some [0, 0]) 2 0).run {}
            = some ((rv1, (some [0, 0])),
                { s2 with
                  claimed := (fun p => if p = I2C1 then false else s2.claimed p)
                  trace := (s2.trace ++ [.reg_read (.CR2 I2C1) v1,
                    .reg_write (.CR2 I2C1) ((v1 ||| (3 <<< 8)) % 65536),
                    .i2c_release I2C1]) })) ∧
      (rv1 = 0 ∧ (2 : Int) ≠ 0 →
        ∃ (rv2 : Nat) (inb2 : Option (List Nat)) (s1r s2 : St) (v1 : Nat),
          (i2c_master_receive exampleConsts deadBus 10001 I2C1 0x90 (some [0, 0]) 2).run s1
            = some ((rv2, inb2), s1r) ∧
          (handle_i2c_error exampleConsts deadBus 10001 I2C1 rv2).run s1r = some ((), s2) ∧
          (i2c_xfer exampleConsts deadBus 10001 I2C1 0x90 (some [7]) 1 (some [0, 0]) 2 0).run {}
            = some ((rv2, inb2),
                { s2 with
                  claimed := (fun p => if p = I2C1 then false else s2.claimed p)
                  trace := (s2.trace ++ [.reg_read (.CR2 I2C1) v1,
                    .reg_write (.CR2 I2C1) ((v1 ||| (3 <<< 8)) % 65536),
                    .i2c_release I2C1]) })) :=
  i2c_xfer_short_circuit exampleConsts deadBus (by decide) ticking_deadBus 10001
    (by decide) I2C1 0x90 (Or.inl rfl) (some [7]) 1 (some [0, 0]) 2 0 {} (Or.inl rfl)
    (Or.inl rfl) (fun buf h => by cases h; decide) rfl

/-! ## The control register after error recovery -/

theorem TotL_bind_suffix {α β : Type} {m : M α} {k : α → M β} {s : St}
    {P : α → St → List Event → Prop} {w : List Event} (hm : TotL m s P)
    (hk : ∀ a s1 t1, s1.trace = s.trace ++ t1 → P a s1 t1 →
      TotL (k a) s1 (fun _ _ t2 => ∃ pre, t2 = pre ++ w)) :
    TotL (m >>= k) s (fun _ _ t => ∃ pre, t = pre ++ w) :=
  TotL_bind hm (fun a s1 t1 h1 p1 => TotL_mono (hk a s1 t1 h1 p1)
    (fun _ _ _ _ hp => by
      obtain ⟨pre, hpre⟩ := hp
      exact ⟨t1 ++ pre, by rw [hpre, List.append_assoc]⟩))

/-- For every outcome other than `EC_ERROR_BUSY`, every outside world and a
loop budget of 12 tests, `handle_i2c_error` returns, and the last interaction
it logs is the write of `(1 << 10) | (1 << 0)` to CR1 of the port. -/
theorem handle_i2c_error_ends (K : Consts) (env : Env) (fuel : Nat) (hfuel : 12 ≤ fuel)
    (port rv : Nat) (hport : port = I2C1 ∨ port = I2C2) (s : St) (hnb : rv ≠ K.EC_ERROR_BUSY) :
    TotL (handle_i2c_error K env fuel port rv) s (fun _ _ tl =>
      ∃ pre, tl = pre ++ [.reg_write (.CR1 port) ((1 <<< 10) ||| (1 <<< 0))]) := by
  unfold handle_i2c_error
  rw [if_neg hnb]
  refine TotL_bind_suffix (reg_write_totl _ _ s) (fun _ s1 _ _ _ => ?_)
  refine TotL_bind_suffix (reg_read_totl env _ s1) (fun _ s2 _ _ _ => ?_)
  refine TotL_bind_suffix (reg_read_totl env _ s2) (fun r0 s3 _ _ _ => ?_)
  refine TotL_bind_suffix (get_time_totl env s3) (fun tm s4 _ _ h4 => ?_)
  refine TotL_bind_suffix (P := fun _ s5 _ => s5.now = s4.now) ?_ (fun sp s5 _ _ h5 => ?_)
  · refine TotL_ite (fun _ => ?_) (fun _ => TotL_pure rfl)
    exact TotL_bind (reg_read_totl env _ s4) (fun cr1 s5 _ _ h5 =>
      TotL_pure (by rw [h5.2.2]))
  refine TotL_bind_suffix (P := fun _ _ _ => True) ?_ (fun _ s6 _ _ _ => ?_)
  · refine TotL_ite (fun _ => TotL_mono (i2c_init_port_log K env port s5 hport)
      (fun _ _ _ _ _ => trivial)) (fun _ => ?_)
    refine TotL_bind (P := fun _ s' _ => s'.now = s5.now) ?_ (fun _ s6 _ _ hb => ?_)
    · exact TotL_ite (fun _ => TotL_mono (master_stop_totl env port s5)
        (fun _ _ _ _ hm => hm.1)) (fun _ => TotL_pure rfl)
    exact TotL_mono (handle_i2c_error_loop_log K env port tm hport fuel 0 r0 s6 (by omega)
      (by rw [hb, h5, h4.2.1]; omega) (by omega)) (fun _ _ _ _ _ => trivial)
  exact TotL_mono (reg_write_totl _ _ s6) (fun _ _ t7 _ h7 =>
    ⟨[], by rw [h7.1]; simp [Reg.modulus]⟩)

/-- C23: for every outcome `rv` other than `EC_ERROR_BUSY` (`EC_SUCCESS`
included), every outside world and every state, `handle_i2c_error` returns and
the last thing it does is to write `(1 << 10) | (1 << 0)` to CR1 of the port, so
the log shows CR1 to hold exactly that value: PE and ACK set, START (bit 8) and
STOP (bit 9) clear.  For `rv = EC_ERROR_BUSY` it returns in the state it was
called in: nothing is logged, so no register is read or written. -/
theorem handle_i2c_error_restores_cr1 (K : Consts) (env : Env) (fuel : Nat)
    (hfuel : 12 ≤ fuel) (port : Nat) (hport : port = I2C1 ∨ port = I2C2) (s : St) :
    (∀ rv, rv ≠ K.EC_ERROR_BUSY →
      ∃ (s' : St) (pre : List Event),
        (handle_i2c_error K env fuel port rv).run s = some ((), s') ∧
        s'.trace = s.trace ++ pre ++ [.reg_write (.CR1 port) ((1 <<< 10) ||| (1 <<< 0))] ∧
        last_value (.CR1 port) s'.trace = some ((1 <<< 10) ||| (1 <<< 0))) ∧
    ((1 <<< 10) ||| (1 <<< 0)) &&& (1 <<< 0) ≠ 0 ∧
    ((1 <<< 10) ||| (1 <<< 0)) &&& (1 <<< 10) ≠ 0 ∧
    ((1 <<< 10) ||| (1 <<< 0)) &&& (1 <<< 8) = 0 ∧
    ((1 <<< 10) ||| (1 <<< 0)) &&& (1 <<< 9) = 0 ∧
    (handle_i2c_error K env fuel port K.EC_ERROR_BUSY).run s = some ((), s) := by
  refine ⟨fun rv hnb => ?_, by decide, by decide, by decide, by decide, ?_⟩
  · obtain ⟨_, s', tl, e, ht, pre, hpre⟩ := handle_i2c_error_ends K env fuel hfuel port rv hport
      s hnb
    have htr : s'.trace = s.trace ++ pre ++
        [.reg_write (.CR1 port) ((1 <<< 10) ||| (1 <<< 0))] := by
      rw [ht, hpre, List.append_assoc]
    refine ⟨s', pre, e, htr, ?_⟩
    rw [htr]
    exact last_value_append_of_some _ _ _ _ (by simp [last_value])
  · unfold handle_i2c_error
    rw [if_pos rfl]
    rfl

theorem handle_i2c_error_restores_cr1_witness :
    (∀ rv, rv ≠ exampleConsts.EC_ERROR_BUSY →
      ∃ (s' : St) (pre : List Event),
        (handle_i2c_error exampleConsts startStuck 12 I2C1 rv).run {} = some ((), s') ∧
        s'.trace = ({} : St).trace ++ pre ++
          [.reg_write (.CR1 I2C1) ((1 <<< 10) ||| (1 <<< 0))] ∧
        last_value (.CR1 I2C1) s'.trace = some ((1 <<< 10) ||| (1 <<< 0))) ∧
    ((1 <<< 10) ||| (1 <<< 0)) &&& (1 <<< 0) ≠ 0 ∧
    ((1 <<< 10) ||| (1 <<< 0)) &&& (1 <<< 10) ≠ 0 ∧
    ((1 <<< 10) ||| (1 <<< 0)) &&& (1 <<< 8) = 0 ∧
    ((1 <<< 10) ||| (1 <<< 0)) &&& (1 <<< 9) = 0 ∧
    (handle_i2c_error exampleConsts startStuck 12 I2C1 exampleConsts.EC_ERROR_BUSY).run {}
      = some ((), {}) :=
  handle_i2c_error_restores_cr1 exampleConsts startStuck 12 (by decide) I2C1 (Or.inl rfl) {}

/-! ## The pseudo-stops and clock pulses of bus recovery -/

theorem both_lines_high_log (env : Env) (scl sda : Gpio) (s : St) :
    Tot (both_lines_high env scl sda) s (fun b s' => ∃ c d,
      s'.trace = s.trace ++ line_read scl sda c d ∧ (b = true ↔ (c ≠ 0 ∧ d ≠ 0))) := by
  unfold both_lines_high
  refine Tot_bind (P := fun c s1 => s1.trace = s.trace ++ [.gpio_get_level scl c])
    ⟨_, _, rfl, rfl⟩ (fun c s1 hc => ?_)
  by_cases h : c ≠ 0
  · rw [if_pos h]
    refine Tot_bind (P := fun d s2 => s2.trace = s1.trace ++ [.gpio_get_level sda d])
      ⟨_, _, rfl, rfl⟩ (fun d s2 hd => ?_)
    refine Tot_pure ⟨c, d, ?_, by simp [h]⟩
    rw [hd, hc, line_read, if_pos h]
    simp
  · rw [if_neg h]
    refine Tot_pure ⟨c, 0, ?_, by simp [h]⟩
    rw [hc, line_read, if_neg h]

theorem guarded_stop_eq (scl sda : Gpio) (c d : Nat) (b : Bool)
    (hb : b = true ↔ (c ≠ 0 ∧ d ≠ 0)) :
    guarded_stop scl sda c d = line_read scl sda c d ++ (if b then pseudo_stop sda else []) := by
  unfold guarded_stop
  cases b with
  | true => rw [if_pos (hb.mp rfl), if_pos rfl]
  | false => rw [if_neg (fun h => by simpa using hb.mpr h), if_neg (by simp)]

theorem stop_if_high_run (env : Env) (sda : Gpio) (b : Bool) (s : St) :
    Tot (if b then bitbang_low_high env sda else pure ()) s
      (fun _ s' => s'.trace = s.trace ++ (if b then pseudo_stop sda else [])) := by
  cases b with
  | true =>
    rw [if_pos rfl, if_pos rfl]
    exact bitbang_low_high_trace env sda s
  | false =>
    rw [if_neg (by simp), if_neg (by simp)]
    exact Tot_pure (by simp)

theorem unwedge_i2c_bus_log (K : Consts) (env : Env) (port : Nat) (s : St)
    (hport : port = I2C1 ∨ port = I2C2) :
    Tot (unwedge_i2c_bus K env port) s (fun _ s' => ∃ c1 d1 c2 d2 c3 d3 : Nat,
      s'.trace = s.trace ++ unwedge_log K port c1 d1 c2 d2 c3 d3) := by
  unfold unwedge_i2c_bus
  refine Tot_bind (P := fun _ s1 => s1 = s) ⟨(), s, by simp [hport], rfl⟩ (fun _ s1 h1 => ?_)
  subst h1
  refine Tot_bind (P := fun _ s2 => s2.trace = s1.trace ++
    [.gpio_set_flags (scl_of port) K.GPIO_ODR_HIGH]) ⟨(), _, rfl, rfl⟩ (fun _ s2 h2 => ?_)
  refine Tot_bind (P := fun _ s3 => s3.trace = s2.trace ++
    [.gpio_set_flags (sda_of port) K.GPIO_ODR_HIGH]) ⟨(), _, rfl, rfl⟩ (fun _ s3 h3 => ?_)
  refine Tot_bind (both_lines_high_log env (scl_of port) (sda_of port) s3) (fun b1 s4 h4 => ?_)
  obtain ⟨c1, d1, h4, hb1⟩ := h4
  refine Tot_bind (P := fun _ s5 => ∃ c2 d2, s5.trace = s4.trace ++
      (if b1 then pseudo_stop (sda_of port)
        else clock_pulse (scl_of port) ++ guarded_stop (scl_of port) (sda_of port) c2 d2))
    ?_ (fun _ s5 h5 => ?_)
  · cases b1 with
    | true =>
      rw [if_pos rfl]
      obtain ⟨_, s5, e5, h5⟩ := bitbang_low_high_trace env (sda_of port) s4
      exact ⟨(), s5, e5, 0, 0, h5⟩
    | false =>
      rw [if_neg (by simp)]
      refine Tot_bind (bitbang_low_high_trace env (scl_of port) s4) (fun _ s4b h4b => ?_)
      refine Tot_bind (both_lines_high_log env (scl_of port) (sda_of port) s4b)
        (fun b2 s4c h4c => ?_)
      obtain ⟨c2, d2, h4c, hb2⟩ := h4c
      obtain ⟨_, s5, e5, h5⟩ := stop_if_high_run env (sda_of port) b2 s4c
      refine ⟨(), s5, e5, c2, d2, ?_⟩
      show s5.trace = _
      rw [h5, h4c, h4b, guarded_stop_eq _ _ c2 d2 b2 hb2, if_neg Bool.false_ne_true]
      simp only [List.append_assoc]
      rfl
  obtain ⟨c2, d2, h5⟩ := h5
  refine Tot_bind (clock_pulses_trace env (scl_of port) 9 s5) (fun _ s6 h6 => ?_)
  refine Tot_bind (both_lines_high_log env (scl_of port) (sda_of port) s6) (fun b3 s7 h7 => ?_)
  obtain ⟨c3, d3, h7, hb3⟩ := h7
  refine Tot_bind (stop_if_high_run env (sda_of port) b3 s7) (fun _ s8 h8 => ?_)
  refine Tot_bind (P := fun _ s9 => s9.trace = s8.trace ++
    [.gpio_set_level (scl_of port) 1]) ⟨(), _, rfl, rfl⟩ (fun _ s9 h9 => ?_)
  refine ⟨(), _, rfl, c1, d1, c2, d2, c3, d3, ?_⟩
  show s9.trace ++ [.gpio_set_level (sda_of port) 1] = _
  rw [h9, h8, h7, h6, h5, h4, h3, h2, unwedge_log, guarded_stop_eq _ _ c1 d1 b1 hb1,
    guarded_stop_eq _ _ c3 d3 b3 hb3]
  cases b1 with
  | true =>
    rw [if_pos (hb1.mp rfl)]
    simp only [List.append_assoc, List.cons_append, List.nil_append, if_true]
  | false =>
    have hlow : ¬ (c1 ≠ 0 ∧ d1 ≠ 0) := fun h => by simpa using hb1.mpr h
    rw [if_neg hlow]
    simp only [List.append_assoc, List.cons_append, List.nil_append, Bool.false_eq_true,
      if_false]

theorem lowOnly_of_not_mem (scl sda : Gpio) (l : List Event)
    (h : Event.gpio_set_level sda 0 ∉ l) : LowOnlyAfterHighRead scl sda l := by
  intro pre post hl
  exact absurd (by rw [hl]; simp) h

theorem lowOnly_append (scl sda : Gpio) (a b : List Event)
    (ha : LowOnlyAfterHighRead scl sda a) (hb : LowOnlyAfterHighRead scl sda b) :
    LowOnlyAfterHighRead scl sda (a ++ b) := by
  intro pre post h
  rcases List.append_eq_append_iff.mp h with ⟨a', h1, h2⟩ | ⟨c', h1, h2⟩
  · obtain ⟨pre', c, d, hp, hc, hd⟩ := hb a' post h2
    exact ⟨a ++ pre', c, d, by rw [h1, hp, List.append_assoc], hc, hd⟩
  · cases c' with
    | nil =>
      obtain ⟨pre', c, d, hp, hc, hd⟩ := hb [] post (by simpa using h2.symm)
      cases pre' <;> simp at hp
    | cons x c' =>
      simp only [List.cons_append, List.cons.injEq] at h2
      obtain ⟨hx, _⟩ := h2
      subst hx
      exact ha pre c' h1

theorem lowOnly_guarded_stop (scl sda : Gpio) (c d : Nat) :
    LowOnlyAfterHighRead scl sda (guarded_stop scl sda c d) := by
  unfold guarded_stop line_read
  by_cases hc : c ≠ 0
  · by_cases hd : d ≠ 0
    · rw [if_pos hc, if_pos ⟨hc, hd⟩]
      intro pre post h
      rcases pre with _ | ⟨x0, _ | ⟨x1, _ | ⟨x2, _ | ⟨x3, _ | ⟨x4, _ | ⟨x5, pre⟩⟩⟩⟩⟩⟩ <;>
        simp [pseudo_stop] at h
      exact ⟨[], c, d, by simp [h.1, h.2.1], hc, hd⟩
    · rw [if_pos hc, if_neg (fun h => hd h.2)]
      exact lowOnly_of_not_mem _ _ _ (by simp)
  · rw [if_neg hc, if_neg (fun h => hc h.1)]
    exact lowOnly_of_not_mem _ _ _ (by simp)

theorem low_not_mem_clock_pulse_train (scl sda : Gpio) (h : sda ≠ scl) :
    ∀ n, Event.gpio_set_level sda 0 ∉ clock_pulse_train scl n := by
  intro n
  induction n with
  | zero => simp [clock_pulse_train]
  | succ n ih =>
    simp only [clock_pulse_train, clock_pulse, List.mem_append, not_or]
    exact ⟨by simp [h], ih⟩

theorem lowOnly_unwedge_log (K : Consts) (port c1 d1 c2 d2 c3 d3 : Nat) :
    LowOnlyAfterHighRead (scl_of port) (sda_of port)
      (unwedge_log K port c1 d1 c2 d2 c3 d3) := by
  have hne := scl_of_ne_sda_of port
  unfold unwedge_log
  refine lowOnly_append _ _ _ _ (lowOnly_append _ _ _ _ (lowOnly_append _ _ _ _
    (lowOnly_append _ _ _ _ (lowOnly_append _ _ _ _ (lowOnly_of_not_mem _ _ _ (by simp))
      (lowOnly_guarded_stop _ _ _ _)) ?_)
    (lowOnly_of_not_mem _ _ _ (low_not_mem_clock_pulse_train _ _ hne 9)))
    (lowOnly_guarded_stop _ _ _ _)) (lowOnly_of_not_mem _ _ _ (by simp))
  split
  · exact lowOnly_of_not_mem _ _ _ (by simp)
  · exact lowOnly_append _ _ _ _ (lowOnly_of_not_mem _ _ _ (by simp [clock_pulse, hne]))
      (lowOnly_guarded_stop _ _ _ _)

theorem count_low_guarded_stop (scl sda : Gpio) (c d : Nat) :
    (guarded_stop scl sda c d).count (.gpio_set_level sda 0)
      = if c ≠ 0 ∧ d ≠ 0 then 1 else 0 := by
  unfold guarded_stop line_read
  by_cases hc : c ≠ 0
  · by_cases hd : d ≠ 0
    · rw [if_pos hc, if_pos ⟨hc, hd⟩, if_pos ⟨hc, hd⟩]
      simp [pseudo_stop, List.count_cons]
    · rw [if_pos hc, if_neg (fun h => hd h.2), if_neg (fun h => hd h.2)]
      simp [List.count_cons]
  · rw [if_neg hc, if_neg (fun h => hc h.1), if_neg (fun h => hc h.1)]
    simp [List.count_cons]

theorem count_other_guarded_stop (scl sda : Gpio) (h : sda ≠ scl) (c d : Nat) :
    (guarded_stop scl sda c d).count (.gpio_set_level scl 0) = 0 := by
  rw [List.count_eq_zero]
  unfold guarded_stop line_read pseudo_stop
  split <;> split <;> simp [h.symm]

theorem count_low_clock_pulse_train (scl : Gpio) :
    ∀ n, (clock_pulse_train scl n).count (.gpio_set_level scl 0) = n := by
  intro n
  induction n with
  | zero => simp [clock_pulse_train]
  | succ n ih =>
    rw [clock_pulse_train, List.count_append, ih]
    simp [clock_pulse, List.count_cons]
    omega

theorem count_sda_low_unwedge_log (K : Consts) (port c1 d1 c2 d2 c3 d3 : Nat) :
    (unwedge_log K port c1 d1 c2 d2 c3 d3).count (.gpio_set_level (sda_of port) 0) ≤ 2 := by
  have hne := scl_of_ne_sda_of port
  have htrain : (clock_pulse_train (scl_of port) 9).count (.gpio_set_level (sda_of port) 0) = 0 :=
    List.count_eq_zero.mpr (low_not_mem_clock_pulse_train _ _ hne 9)
  have hpulse : (clock_pulse (scl_of port)).count (.gpio_set_level (sda_of port) 0) = 0 :=
    List.count_eq_zero.mpr (by simp [clock_pulse, hne])
  unfold unwedge_log
  simp only [List.count_append, count_low_guarded_stop, htrain]
  have h0 : ([Event.gpio_set_flags (scl_of port) K.GPIO_ODR_HIGH,
      Event.gpio_set_flags (sda_of port) K.GPIO_ODR_HIGH]).count
        (.gpio_set_level (sda_of port) 0) = 0 := List.count_eq_zero.mpr (by simp)
  have h1 : ([Event.gpio_set_level (scl_of port) 1, Event.gpio_set_level (sda_of port) 1]).count
        (.gpio_set_level (sda_of port) 0) = 0 := List.count_eq_zero.mpr (by simp)
  rw [h0, h1]
  by_cases hh : c1 ≠ 0 ∧ d1 ≠ 0
  · rw [if_pos hh, if_pos hh]
    simp only [List.count_nil]
    split <;> omega
  · rw [if_neg hh, if_neg hh, List.count_append, hpulse, count_low_guarded_stop]
    split <;> split <;> omega

theorem count_scl_low_unwedge_log (K : Consts) (port c1 d1 c2 d2 c3 d3 : Nat) :
    (unwedge_log K port c1 d1 c2 d2 c3 d3).count (.gpio_set_level (scl_of port) 0)
      = if c1 ≠ 0 ∧ d1 ≠ 0 then 9 else 10 := by
  have hne := scl_of_ne_sda_of port
  have hpulse : (clock_pulse (scl_of port)).count (.gpio_set_level (scl_of port) 0) = 1 := by
    simp [clock_pulse, List.count_cons]
  unfold unwedge_log
  simp only [List.count_append, count_other_guarded_stop _ _ hne, count_low_clock_pulse_train]
  have h0 : ([Event.gpio_set_flags (scl_of port) K.GPIO_ODR_HIGH,
      Event.gpio_set_flags (sda_of port) K.GPIO_ODR_HIGH]).count
        (.gpio_set_level (scl_of port) 0) = 0 := List.count_eq_zero.mpr (by simp)
  have h1 : ([Event.gpio_set_level (scl_of port) 1, Event.gpio_set_level (sda_of port) 1]).count
        (.gpio_set_level (scl_of port) 0) = 0 := List.count_eq_zero.mpr (by simp [hne.symm])
  rw [h0, h1]
  by_cases hh : c1 ≠ 0 ∧ d1 ≠ 0
  · rw [if_pos hh, if_pos hh]
    simp only [List.count_nil]
  · rw [if_neg hh, if_neg hh, List.count_append, hpulse, count_other_guarded_stop _ _ hne]

/-- C24: whatever levels the pin reads return, `unwedge_i2c_bus(port)` (port
I2C1 or I2C2) returns with the log `unwedge_log`: the two pin configurations; a
read of the lines and, if both were high, a pseudo-stop; otherwise one clock
pulse, a second read and, if both were high, a pseudo-stop; then nine clock
pulses in every case; a last read and, if both were high, a pseudo-stop; then
SCL := 1 and SDA := 1.  In that log every write of 0 to SDA comes right after a
read of SCL and a read of SDA that both returned non-zero, SDA is written 0 at
most twice, and SCL is written 0 exactly 9 times when the first read showed
both lines high and exactly 10 times otherwise. -/
theorem unwedge_i2c_bus_pulses_and_stops (K : Consts) (env : Env) (port : Nat) (s : St)
    (hport : port = I2C1 ∨ port = I2C2) :
    ∃ (s' : St) (c1 d1 c2 d2 c3 d3 : Nat),
      (unwedge_i2c_bus K env port).run s = some ((), s') ∧
      s'.trace = s.trace ++ unwedge_log K port c1 d1 c2 d2 c3 d3 ∧
      LowOnlyAfterHighRead (scl_of port) (sda_of port)
        (unwedge_log K port c1 d1 c2 d2 c3 d3) ∧
      (unwedge_log K port c1 d1 c2 d2 c3 d3).count (.gpio_set_level (sda_of port) 0) ≤ 2 ∧
      (unwedge_log K port c1 d1 c2 d2 c3 d3).count (.gpio_set_level (scl_of port) 0)
        = (if c1 ≠ 0 ∧ d1 ≠ 0 then 9 else 10) := by
  obtain ⟨_, s', e, c1, d1, c2, d2, c3, d3, h⟩ := unwedge_i2c_bus_log K env port s hport
  exact ⟨s', c1, d1, c2, d2, c3, d3, e, h, lowOnly_unwedge_log K port c1 d1 c2 d2 c3 d3,
    count_sda_low_unwedge_log K port c1 d1 c2 d2 c3 d3,
    count_scl_low_unwedge_log K port c1 d1 c2 d2 c3 d3⟩

theorem unwedge_i2c_bus_pulses_and_stops_witness :
    ∃ (s' : St) (c1 d1 c2 d2 c3 d3 : Nat),
      (unwedge_i2c_bus exampleConsts deadBus I2C1).run {} = some ((), s') ∧
      s'.trace = ({} : St).trace ++ unwedge_log exampleConsts I2C1 c1 d1 c2 d2 c3 d3 ∧
      LowOnlyAfterHighRead (scl_of I2C1) (sda_of I2C1)
        (unwedge_log exampleConsts I2C1 c1 d1 c2 d2 c3 d3) ∧
      (unwedge_log exampleConsts I2C1 c1 d1 c2 d2 c3 d3).count
        (.gpio_set_level (sda_of I2C1) 0) ≤ 2 ∧
      (unwedge_log exampleConsts I2C1 c1 d1 c2 d2 c3 d3).count
        (.gpio_set_level (scl_of I2C1) 0) = (if c1 ≠ 0 ∧ d1 ≠ 0 then 9 else 10) :=
  unwedge_i2c_bus_pulses_and_stops exampleConsts deadBus I2C1 {} (Or.inl rfl)

/-! ## The moving average of the state of charge -/

@[simp] theorem run_rsoc_store (i v : Int) (s : St) :
    (rsoc_store i v).run s = if 0 ≤ i ∧ i.toNat < s.rsoc.length then
      some ((), { s with rsoc := s.rsoc.set i.toNat (v % 256) }) else none := rfl

@[simp] theorem run_rsoc_load (i : Nat) (s : St) :
    (rsoc_load i).run s = (s.rsoc[i]?).map fun b => (b, s) := rfl

theorem rsoc_reset_run (s : St) (x : Int) (hx : x < 0) :
    (rsoc_moving_average x).run s = some (-1, { s with index := -1 }) := by
  unfold rsoc_moving_average
  simp only [run_ite, if_pos hx, run_bind, run_modifySt, Option.some_bind, run_pure]

theorem rsoc_first_run (s : St) (x w0 w1 w2 w3 : Int) (hw : s.rsoc = [w0, w1, w2, w3])
    (hi : s.index < 0) (hx : 0 ≤ x) :
    (rsoc_moving_average x).run s = some (x,
      { s with rsoc := [x % 256, x % 256, x % 256, x % 256], index := 0 }) := by
  unfold rsoc_moving_average
  simp only [run_ite, if_neg (not_lt.mpr hx), run_bind, run_getSt, Option.some_bind, if_pos hi,
    ARRAY_SIZE_rsoc, rsoc_fill, run_rsoc_store, hw, run_modifySt, run_pure]
  simp

theorem rsoc_next_run (s : St) (x w0 w1 w2 w3 : Int) (hw : s.rsoc = [w0, w1, w2, w3])
    (i : Nat) (hi : s.index = i) (hi4 : i < 4) (hx : 0 ≤ x) :
    (rsoc_moving_average x).run s = some
      ((2 + ([w0, w1, w2, w3].set i (x % 256)).sum) % 4294967296 / 4,
      { s with rsoc := [w0, w1, w2, w3].set i (x % 256), index := ((i + 1) % 4 : Nat) }) := by
  unfold rsoc_moving_average
  have hni : ¬ s.index < 0 := by rw [hi]; omega
  simp only [run_ite, if_neg (not_lt.mpr hx), run_bind, run_getSt, Option.some_bind, if_neg hni,
    ARRAY_SIZE_rsoc, run_rsoc_store, hw, hi, run_modifySt, run_pure]
  interval_cases i <;> simp [rsoc_sum, to_int8] <;> omega

theorem rsoc_window_step (s : St) (a b c d x : Int) (hwin : RsocWindow s a b c d)
    (hb : 0 ≤ b ∧ b ≤ 255) (hc : 0 ≤ c ∧ c ≤ 255) (hd : 0 ≤ d ∧ d ≤ 255)
    (hx : 0 ≤ x ∧ x ≤ 255) :
    ∃ s', (rsoc_moving_average x).run s = some ((b + c + d + x + 2) / 4, s') ∧
      RsocWindow s' b c d x ∧ 0 ≤ s'.index ∧ s'.index ≤ 3 := by
  obtain ⟨i, hi4, hi, hrot⟩ := hwin
  have hlen : s.rsoc.length = 4 := by
    have h := congrArg List.length hrot
    simpa using h
  obtain ⟨w0, w1, w2, w3, hw⟩ : ∃ w0 w1 w2 w3, s.rsoc = [w0, w1, w2, w3] := by
    rcases hs : s.rsoc with _ | ⟨w0, _ | ⟨w1, _ | ⟨w2, _ | ⟨w3, _ | ⟨w4, l⟩⟩⟩⟩⟩ <;>
      rw [hs] at hlen <;> simp at hlen
    exact ⟨w0, w1, w2, w3, rfl⟩
  rw [hw] at hrot
  have hxm : x % 256 = x := by omega
  have hrun := rsoc_next_run s x w0 w1 w2 w3 hw i hi hi4 hx.1
  rw [hxm] at hrun
  rcases (by omega : i = 0 ∨ i = 1 ∨ i = 2 ∨ i = 3) with h | h | h | h <;> subst h
  · change [w0, w1, w2, w3] = [a, b, c, d] at hrot
    cases hrot
    refine ⟨{ s with rsoc := [x, b, c, d], index := ((1 : Nat) : Int) }, ?_,
      ⟨1, by decide, rfl, rfl⟩, by show (0 : Int) ≤ ((1 : Nat) : Int); omega,
      by show ((1 : Nat) : Int) ≤ 3; omega⟩
    rw [hrun]
    have hval : (2 + ([x, b, c, d] : List Int).sum) % 4294967296 / 4
        = (b + c + d + x + 2) / 4 := by
      simp only [List.sum_cons, List.sum_nil]
      omega
    show some (_, _) = some (_, _)
    simp only [List.set_cons_zero, List.set_cons_succ]
    rw [hval]
  · change [w1, w2, w3, w0] = [a, b, c, d] at hrot
    cases hrot
    refine ⟨{ s with rsoc := [d, x, b, c], index := ((2 : Nat) : Int) }, ?_,
      ⟨2, by decide, rfl, rfl⟩, by show (0 : Int) ≤ ((2 : Nat) : Int); omega,
      by show ((2 : Nat) : Int) ≤ 3; omega⟩
    rw [hrun]
    have hval : (2 + ([d, x, b, c] : List Int).sum) % 4294967296 / 4
        = (b + c + d + x + 2) / 4 := by
      simp only [List.sum_cons, List.sum_nil]
      omega
    show some (_, _) = some (_, _)
    simp only [List.set_cons_zero, List.set_cons_succ]
    rw [hval]
  · change [w2, w3, w0, w1] = [a, b, c, d] at hrot
    cases hrot
    refine ⟨{ s with rsoc := [c, d, x, b], index := ((3 : Nat) : Int) }, ?_,
      ⟨3, by decide, rfl, rfl⟩, by show (0 : Int) ≤ ((3 : Nat) : Int); omega,
      by show ((3 : Nat) : Int) ≤ 3; omega⟩
    rw [hrun]
    have hval : (2 + ([c, d, x, b] : List Int).sum) % 4294967296 / 4
        = (b + c + d + x + 2) / 4 := by
      simp only [List.sum_cons, List.sum_nil]
      omega
    show some (_, _) = some (_, _)
    simp only [List.set_cons_zero, List.set_cons_succ]
    rw [hval]
  · change [w3, w0, w1, w2] = [a, b, c, d] at hrot
    cases hrot
    refine ⟨{ s with rsoc := [b, c, d, x], index := ((0 : Nat) : Int) }, ?_,
      ⟨0, by decide, rfl, rfl⟩, by show (0 : Int) ≤ ((0 : Nat) : Int); omega,
      by show ((0 : Nat) : Int) ≤ 3; omega⟩
    rw [hrun]
    have hval : (2 + ([b, c, d, x] : List Int).sum) % 4294967296 / 4
        = (b + c + d + x + 2) / 4 := by
      simp only [List.sum_cons, List.sum_nil]
      omega
    show some (_, _) = some (_, _)
    simp only [List.set_cons_zero, List.set_cons_succ]
    rw [hval]

theorem last_four_cons (a : Int) (l : List Int) (h : 4 ≤ l.length) :
    last_four (a :: l) = last_four l := by
  unfold last_four
  rw [List.length_cons, show l.length + 1 - 4 = (l.length - 4) + 1 by omega, List.drop_succ_cons]

theorem rsoc_readings_window : ∀ (xs : List Int) (s : St) (a b c d : Int),
    RsocWindow s a b c d → (0 ≤ a ∧ a ≤ 255) → (0 ≤ b ∧ b ≤ 255) → (0 ≤ c ∧ c ≤ 255) →
    (0 ≤ d ∧ d ≤ 255) → (∀ y ∈ xs, 0 ≤ y ∧ y ≤ 255) →
    ∃ (rs : List Int) (s' : St) (a' b' c' d' : Int),
      (rsoc_readings xs).run s = some (rs, s') ∧
      last_four ([a, b, c, d] ++ xs) = [a', b', c', d'] ∧
      RsocWindow s' a' b' c' d' ∧ (0 ≤ a' ∧ a' ≤ 255) ∧ (0 ≤ b' ∧ b' ≤ 255) ∧
      (0 ≤ c' ∧ c' ≤ 255) ∧ (0 ≤ d' ∧ d' ≤ 255) := by
  intro xs
  induction xs with
  | nil =>
    intro s a b c d hwin ha hb hc hd _
    exact ⟨[], s, a, b, c, d, rfl, rfl, hwin, ha, hb, hc, hd⟩
  | cons y ys ih =>
    intro s a b c d hwin ha hb hc hd hall
    have hy := hall y (List.mem_cons_self _ _)
    obtain ⟨s1, e1, hwin1, _, _⟩ := rsoc_window_step s a b c d y hwin hb hc hd hy
    obtain ⟨rs, s', a', b', c', d', e2, hl, hwin', ha', hb', hc', hd'⟩ :=
      ih s1 b c d y hwin1 hb hc hd hy (fun z hz => hall z (List.mem_cons_of_mem _ hz))
    refine ⟨(b + c + d + y + 2) / 4 :: rs, s', a', b', c', d', ?_, ?_, hwin', ha', hb', hc',
      hd'⟩
    · unfold rsoc_readings
      simp only [run_bind, e1, Option.some_bind, e2, run_pure]
    · rw [← hl]
      show last_four (a :: ([b, c, d, y] ++ ys)) = _
      exact last_four_cons a _ (by simp)

theorem last_four_snoc (l : List Int) (a b c d x : Int) (h : last_four l = [a, b, c, d]) :
    last_four (l ++ [x]) = [b, c, d, x] := by
  unfold last_four at h ⊢
  have hlen : 4 ≤ l.length := by
    have h4 := congrArg List.length h
    simp only [List.length_drop, List.length_cons, List.length_nil] at h4
    omega
  rw [List.length_append, List.length_singleton,
    show l.length + 1 - 4 = (l.length - 4) + 1 by omega, ← List.drop_drop,
    List.drop_append_of_le_length (by omega), h]
  rfl

/-- C25 as stated fails for a first reading that does not fit a byte: after a
reset, the reading 300 returns 300 but fills the four slots with
`(uint8_t)300` = 44, not with 300; the next reading, 50, then returns
`(44 + 44 + 44 + 50 + 2) / 4` = 46, not `(300 + 300 + 300 + 50 + 2) / 4` = 238. -/
theorem rsoc_moving_average_first_fill_counterexample :
    ({} : St).index < 0 ∧
    (rsoc_moving_average 300).run {} = some (300, { rsoc := [44, 44, 44, 44], index := 0 }) ∧
    [(44 : Int), 44, 44, 44] ≠ [300, 300, 300, 300] ∧
    (rsoc_moving_average 50).run { rsoc := [44, 44, 44, 44], index := 0 }
      = some (46, { rsoc := [50, 44, 44, 44], index := 1 }) ∧
    (46 : Int) ≠ (300 + 300 + 300 + 50 + 2) / 4 := by
  refine ⟨by decide, ?_, by decide, ?_, by decide⟩
  · exact rsoc_first_run {} 300 0 0 0 0 rfl (by decide) (by decide)
  · exact rsoc_next_run { rsoc := [44, 44, 44, 44], index := 0 } 50 44 44 44 44 rfl 0 rfl
      (by decide) (by decide)

/-- C25, amended: `rsoc_moving_average` returns the mean of its window, rounded
to the nearest integer.  (1) A negative argument returns -1 and sets `index` to
-1, which resets the window.  (2) After a reset, a non-negative reading `x`
returns `x`, fills the four slots with `(uint8_t)x` = `x % 256` (which is `x`
for `x ≤ 255`) and sets `index` to 0.  (3) After a reset, a first non-negative
reading `x0` and further readings `xs` in 0..100, the call with a reading `x`
in 0..100 returns `(a + b + c + d + 2) / 4`, where `a, b, c, d` are the last
four entries of `x0 % 256, x0 % 256, x0 % 256, x0 % 256, xs, x`; that value `r`
is the integer nearest the mean (`r - 1/2 ≤ (a + b + c + d) / 4 < r + 1/2`), it
lies between the smallest and the largest of the four, and `index` is within
0..3 before and after the call. -/
theorem rsoc_moving_average_window :
    (∀ (s : St) (x : Int), x < 0 →
      (rsoc_moving_average x).run s = some (-1, { s with index := -1 })) ∧
    (∀ (s : St) (x : Int), s.rsoc.length = 4 → s.index < 0 → 0 ≤ x →
      (rsoc_moving_average x).run s = some (x,
        { s with rsoc := List.replicate 4 (x % 256), index := 0 }) ∧
      (x ≤ 255 → x % 256 = x)) ∧
    (∀ (s : St) (x0 : Int) (xs : List Int) (x : Int), s.rsoc.length = 4 → s.index < 0 →
      0 ≤ x0 → (∀ y ∈ xs, 0 ≤ y ∧ y ≤ 100) → (0 ≤ x ∧ x ≤ 100) →
      ∃ (rs : List Int) (s1 s2 : St) (a b c d : Int),
        (rsoc_readings (x0 :: xs)).run s = some (rs, s1) ∧
        last_four ([x0 % 256, x0 % 256, x0 % 256, x0 % 256] ++ xs ++ [x]) = [a, b, c, d] ∧
        (rsoc_moving_average x).run s1 = some ((a + b + c + d + 2) / 4, s2) ∧
        4 * ((a + b + c + d + 2) / 4) - 2 ≤ a + b + c + d ∧
        a + b + c + d ≤ 4 * ((a + b + c + d + 2) / 4) + 1 ∧
        min (min a b) (min c d) ≤ (a + b + c + d + 2) / 4 ∧
        (a + b + c + d + 2) / 4 ≤ max (max a b) (max c d) ∧
        (0 ≤ s1.index ∧ s1.index ≤ 3) ∧ (0 ≤ s2.index ∧ s2.index ≤ 3)) := by
  have hslots : ∀ s : St, s.rsoc.length = 4 → ∃ w0 w1 w2 w3, s.rsoc = [w0, w1, w2, w3] := by
    intro s hlen
    rcases hs : s.rsoc with _ | ⟨w0, _ | ⟨w1, _ | ⟨w2, _ | ⟨w3, _ | ⟨w4, l⟩⟩⟩⟩⟩ <;>
      rw [hs] at hlen <;> simp at hlen
    exact ⟨w0, w1, w2, w3, rfl⟩
  refine ⟨rsoc_reset_run, ?_, ?_⟩
  · intro s x hlen hi hx
    obtain ⟨w0, w1, w2, w3, hw⟩ := hslots s hlen
    exact ⟨rsoc_first_run s x w0 w1 w2 w3 hw hi hx, fun h => by omega⟩
  · intro s x0 xs x hlen hi hx0 hxs hx
    obtain ⟨w0, w1, w2, w3, hw⟩ := hslots s hlen
    have e0 := rsoc_first_run s x0 w0 w1 w2 w3 hw hi hx0
    have b0 : 0 ≤ x0 % 256 ∧ x0 % 256 ≤ 255 := by omega
    generalize x0 % 256 = m at e0 b0 ⊢
    obtain ⟨rs, s1, a', b', c', d', e1, hl, hwin, ha', hb', hc', hd'⟩ :=
      rsoc_readings_window xs { s with rsoc := [m, m, m, m], index := 0 } m m m m
        ⟨0, by decide, rfl, rfl⟩ b0 b0 b0 b0
        (fun y hy => ⟨(hxs y hy).1, by have := (hxs y hy).2; omega⟩)
    have hi1 : 0 ≤ s1.index ∧ s1.index ≤ 3 := by
      obtain ⟨i, hi4, hi, _⟩ := hwin
      rw [hi]
      omega
    obtain ⟨s2, e2, _, hi2⟩ := rsoc_window_step s1 a' b' c' d' x hwin hb' hc' hd'
      ⟨hx.1, by omega⟩
    refine ⟨x0 :: rs, s1, s2, b', c', d', x, ?_, last_four_snoc _ a' b' c' d' x hl, e2,
      by omega, by omega, ?_, ?_, hi1, hi2⟩
    · unfold rsoc_readings
      simp only [run_bind, e0, Option.some_bind, e1, run_pure]
    · simp only [min_le_iff]
      omega
    · simp only [le_max_iff]
      omega

theorem rsoc_moving_average_window_witness :
    ∃ (rs : List Int) (s1 s2 : St) (a b c d : Int),
      (rsoc_readings (300 :: [60, 70])).run {} = some (rs, s1) ∧
      last_four ([44, 44, 44, 44] ++ [60, 70] ++ [81]) = [a, b, c, d] ∧
      (rsoc_moving_average 81).run s1 = some ((a + b + c + d + 2) / 4, s2) ∧
      4 * ((a + b + c + d + 2) / 4) - 2 ≤ a + b + c + d ∧
      a + b + c + d ≤ 4 * ((a + b + c + d + 2) / 4) + 1 ∧
      min (min a b) (min c d) ≤ (a + b + c + d + 2) / 4 ∧
      (a + b + c + d + 2) / 4 ≤ max (max a b) (max c d) ∧
      (0 ≤ s1.index ∧ s1.index ≤ 3) ∧ (0 ≤ s2.index ∧ s2.index ≤ 3) :=
  rsoc_moving_average_window.2.2 {} 300 [60, 70] 81 rfl (by decide) (by decide) (by decide)
    (by decide)

/-! ## The checksum loop and the size of the host buffer -/

theorem checksum_loop_abort (n : Nat) : ∀ (i c : Nat) (s : St), i ≤ s.host_buffer.length →
    s.host_buffer.length < i + n → (checksum_loop n i c).run s = none := by
  induction n with
  | zero => intro i c s hi h; omega
  | succ n ih =>
    intro i c s hle h
    simp only [checksum_loop, run_bind, run_load_host]
    by_cases hi : i < s.host_buffer.length
    · rw [List.getElem?_eq_getElem hi]
      simp only [Option.map_some', Option.some_bind]
      exact ih (i + 1) _ s (by omega) (by omega)
    · have hn : s.host_buffer[i]? = none := List.getElem?_eq_none (Nat.le_of_not_lt hi)
      rw [hn]
      rfl

/-- A versioned packet whose checksum byte would lie at or after the end of the
host buffer makes `i2c_process_command` read outside the buffer: the decoding
aborts, in the summing loop or at the comparison `(uint8_t)csum != buff[i]`. -/
theorem decode_versioned_out_of_bounds (K : Consts) (s : St) (b0 b1 n : Nat)
    (h0 : s.host_buffer[0]? = some b0) (h1 : s.host_buffer[1]? = some b1)
    (h2 : s.host_buffer[2]? = some n) (hv : K.EC_CMD_VERSION0 ≤ b0)
    (hlen : s.host_buffer.length ≤ n + 3) :
    (i2c_process_command_decode K).run s = none := by
  unfold i2c_process_command_decode
  simp only [run_bind, run_load_host, h0, h1, h2, Option.map_some', Option.some_bind,
    run_set_args, ge_iff_le, hv, if_true]
  by_cases he : s.host_buffer.length = n + 3
  · rw [checksum_loop_run (n + 3) 0 0 _ (by simp [he])]
    simp only [Option.some_bind, Nat.zero_add, run_load_host]
    have hn : s.host_buffer[n + 3]? = none := List.getElem?_eq_none (Nat.le_of_eq he)
    rw [hn]
    rfl
  · rw [checksum_loop_abort (n + 3) 0 0 _ (Nat.zero_le _)
      (by show s.host_buffer.length < 0 + (n + 3); omega)]
    rfl

/-- C26, at the failing input: the host buffer holds
`EC_PROTO2_MAX_REQUEST_SIZE` = 256 bytes and starts with a versioned packet
whose length byte is 253.  The summing loop reads the indices 0 .. 255 and
stops with `i = 256`; the comparison `(uint8_t)csum != buff[i]` then reads
index 256, outside the buffer, so the run aborts whatever the collaborator
is. -/
theorem i2c_process_command_reads_past_host_buffer :
    exampleOversizeRequest.host_buffer.length = exampleConsts.EC_PROTO2_MAX_REQUEST_SIZE ∧
    exampleOversizeRequest.host_buffer[2]? = some 253 ∧
    (checksum_loop (253 + 3) 0 0).run exampleOversizeRequest
      = some ((256, 0x80 + 0x02 + 0xfd), exampleOversizeRequest) ∧
    (load (.host 256)).run exampleOversizeRequest = none ∧
    ∀ hcr : HostCommand,
      (i2c_process_command exampleConsts hcr).run exampleOversizeRequest = none := by
  have hbuf : exampleOversizeRequest.host_buffer
      = 0x80 :: 0x02 :: 0xfd :: List.replicate 253 0 := rfl
  have hlen : exampleOversizeRequest.host_buffer.length = 256 := by
    rw [hbuf]
    simp only [List.length_cons, List.length_replicate]
  have h0 : exampleOversizeRequest.host_buffer[0]? = some 0x80 := by
    rw [hbuf]
    simp only [List.getElem?_cons_zero, List.getElem?_cons_succ]
  have h1 : exampleOversizeRequest.host_buffer[1]? = some 0x02 := by
    rw [hbuf]
    simp only [List.getElem?_cons_zero, List.getElem?_cons_succ]
  have h2 : exampleOversizeRequest.host_buffer[2]? = some 253 := by
    rw [hbuf]
    simp only [List.getElem?_cons_zero, List.getElem?_cons_succ]
  have hout : exampleOversizeRequest.host_buffer[256]? = none :=
    List.getElem?_eq_none (Nat.le_of_eq hlen)
  refine ⟨hlen, h2, ?_, ?_, fun hcr => ?_⟩
  · rw [checksum_loop_run (253 + 3) 0 0 _ (by rw [hlen])]
    have hsum : ((exampleOversizeRequest.host_buffer.drop 0).take (253 + 3)).sum
        = 0x80 + 0x02 + 0xfd := by
      rw [List.drop_zero, List.take_of_length_le (by rw [hlen]), hbuf]
      simp only [List.sum_cons, List.sum_replicate, smul_zero]
      rfl
    rw [hsum]
  · rw [run_load_host, hout]
    rfl
  · unfold i2c_process_command
    rw [run_bind, decode_versioned_out_of_bounds exampleConsts exampleOversizeRequest 0x80 0x02
      253 h0 h1 h2 (by decide) (by rw [hlen])]
    rfl

/-! ## In-place staging keeps the payload -/

/-- C27: the response is staged in place without corrupting the payload.  Let
the handler have left the `n` payload bytes `d` at `host_buffer + 2`, where
`i2c_process_command` points `args->response`.  For a versioned response (in a
buffer of at least `n + 3` bytes) the staging returns with `d` still at offsets
`2 .. n + 1` and the byte `(result + n + Σd) mod 256` at offset `n + 2`.  For a
legacy response (in a buffer of at least `n + 2` bytes) it returns with `d` at
offsets `1 .. n` and the byte `(Σd) mod 256` at offset `n + 1`: the overlapping
copy by one position loses nothing, and the trailing byte is computed from the
original payload.  `i2c_send_response` then hands the buffer so staged to the
slave transmit routine. -/
theorem i2c_send_response_keeps_payload (K : Consts) (env : Env)
    (args : host_cmd_handler_args) (s : St) (d : List Nat)
    (hsize : args.response_size = d.length) (hresp : args.response = .host 2)
    (hd : (s.host_buffer.drop 2).take d.length = d) (hbytes : ∀ b ∈ d, b < 256) :
    (s.i2c_old_response = 0 → d.length + 3 ≤ s.host_buffer.length →
      ∃ s' : St, (i2c_send_response_stage args).run s = some (d.length + 3, s') ∧
        (s'.host_buffer.drop 2).take d.length = d ∧
        s'.host_buffer[d.length + 2]? = some ((args.result + d.length + d.sum) % 256) ∧
        (i2c_send_response K env args).run s =
          ((i2c_write_raw_slave K env I2C2 (.host 0) (d.length + 3)).run s').map
            (fun p => ((), p.2))) ∧
    (s.i2c_old_response ≠ 0 → d.length + 2 ≤ s.host_buffer.length →
      ∃ s' : St, (i2c_send_response_stage args).run s = some (d.length + 2, s') ∧
        (s'.host_buffer.drop 1).take d.length = d ∧
        s'.host_buffer[d.length + 1]? = some (d.sum % 256) ∧
        (i2c_send_response K env args).run s =
          ((i2c_write_raw_slave K env I2C2 (.host 0) (d.length + 2)).run s').map
            (fun p => ((), p.2))) := by
  constructor
  · intro hnew hfit
    have hst := stage_versioned_run args s d hsize hnew hfit (Or.inl ⟨hresp, hd⟩)
    rw [if_pos hresp] at hst
    refine ⟨_, hst, ?_, ?_, i2c_send_response_run K env args s _ _ hst⟩
    · show (List.drop 2 (args.result % 256 :: d.length % 256 ::
          (d ++ [(args.result + d.length + d.sum) % 256]) ++ _)).take d.length = d
      simp
    · show (args.result % 256 :: d.length % 256 ::
          (d ++ [(args.result + d.length + d.sum) % 256]) ++ _)[d.length + 2]? = _
      have h := getElem?_at_length (args.result % 256 :: d.length % 256 :: d)
        ((args.result + d.length + d.sum) % 256) (s.host_buffer.drop (d.length + 3))
      simpa using h
  · intro hold hfit
    have hst := stage_legacy_run args s d hsize hold hfit (Or.inl ⟨hresp, hd⟩)
    rw [map_mod_256_of_bytes d hbytes] at hst
    refine ⟨_, hst, ?_, ?_, i2c_send_response_run K env args s _ _ hst⟩
    · show (List.drop 1 (args.result % 256 :: (d ++ [d.sum % 256]) ++ _)).take d.length = d
      simp
    · show (args.result % 256 :: (d ++ [d.sum % 256]) ++ _)[d.length + 1]? = _
      have h := getElem?_at_length (args.result % 256 :: d) (d.sum % 256)
        (s.host_buffer.drop (d.length + 2))
      simpa using h

theorem i2c_send_response_keeps_payload_witness :
    (exampleLegacyState.i2c_old_response = 0 →
      [1, 5].length + 3 ≤ exampleLegacyState.host_buffer.length →
      ∃ s' : St, (i2c_send_response_stage exampleLegacyArgs).run exampleLegacyState
          = some ([1, 5].length + 3, s') ∧
        (s'.host_buffer.drop 2).take [1, 5].length = [1, 5] ∧
        s'.host_buffer[[1, 5].length + 2]?
          = some ((exampleLegacyArgs.result + [1, 5].length + [1, 5].sum) % 256) ∧
        (i2c_send_response exampleConsts allOnes exampleLegacyArgs).run exampleLegacyState =
          ((i2c_write_raw_slave exampleConsts allOnes I2C2 (.host 0) ([1, 5].length + 3)).run
            s').map (fun p => ((), p.2))) ∧
    (exampleLegacyState.i2c_old_response ≠ 0 →
      [1, 5].length + 2 ≤ exampleLegacyState.host_buffer.length →
      ∃ s' : St, (i2c_send_response_stage exampleLegacyArgs).run exampleLegacyState
          = some ([1, 5].length + 2, s') ∧
        (s'.host_buffer.drop 1).take [1, 5].length = [1, 5] ∧
        s'.host_buffer[[1, 5].length + 1]? = some ([1, 5].sum % 256) ∧
        (i2c_send_response exampleConsts allOnes exampleLegacyArgs).run exampleLegacyState =
          ((i2c_write_raw_slave exampleConsts allOnes I2C2 (.host 0) ([1, 5].length + 2)).run
            s').map (fun p => ((), p.2))) :=
  i2c_send_response_keeps_payload exampleConsts allOnes exampleLegacyArgs exampleLegacyState
    [1, 5] rfl rfl rfl (by decide)

/-! ## `i2c_read_string`: bounds and failure -/

/-- The read phase for more than one byte returns a wait outcome, never
`EC_ERROR_INVAL`. -/
theorem i2c_master_receive_block_totq (K : Consts) (env : Env) (htick : Ticking env)
    (fuel : Nat) (hfuel : I2C_TX_TIMEOUT_MASTER + 1 ≤ fuel) (port addr : Nat) (buf : List Nat)
    (size : Int) (hsize : 1 < size) (hroom : size ≤ (buf.length : Int)) (s : St) :
    TotQ (i2c_master_receive K env fuel port addr (some buf) size) s
      (fun r _ => IsWaitOutcome K r.1) := by
  unfold i2c_master_receive
  simp only
  refine TotQ.ite (fun h => absurd h (by omega)) (fun _ => ?_)
  refine TotQ.ite (fun _ => ?_) (fun h => absurd hsize h)
  refine TotQ.bind (enable_ack_totq env port s) (fun _ s1 _ _ => ?_)
  refine TotQ.bind (emit_totq _ (fun _ h => by cases h) s1) (fun _ s2 _ _ => ?_)
  refine TotQ.bind (emit_totq _ (fun _ h => by cases h) s2) (fun _ s3 _ _ => ?_)
  refine TotQ.bind (reg_read_totq env _ s3) (fun _ s4 _ _ => ?_)
  refine TotQ.bind (reg_write_totq _ _ s4) (fun _ s5 _ _ => ?_)
  refine TotQ.bind (reg_read_totq env _ s5) (fun _ s6 _ _ => ?_)
  refine TotQ.bind (reg_write_totq _ _ s6) (fun _ s7 _ _ => ?_)
  refine TotQ.bind (master_start_totq K env htick fuel hfuel port _ s7)
    (fun rv_start s8 _ hrs => ?_)
  refine TotQ.bind (P := fun _ _ => True) ?_ (fun rv s9 _ _ => ?_)
  · exact TotQ.ite (fun _ => task_wait_event_totq env _ s8) (fun _ => TotQ.pure trivial)
  refine TotQ.bind (emit_totq _ (fun _ h => by cases h) s9) (fun _ s10 _ _ => ?_)
  refine TotQ.bind (dma_rx_collect_totq env _ buf s10 (by omega)) (fun buf2 s11 _ _ => ?_)
  refine TotQ.bind (emit_totq _ (fun _ h => by cases h) s11) (fun _ s12 _ _ => ?_)
  refine TotQ.bind (reg_read_totq env _ s12) (fun _ s13 _ _ => ?_)
  refine TotQ.bind (reg_write_totq _ _ s13) (fun _ s14 _ _ => ?_)
  refine TotQ.bind (disable_ack_totq env port s14) (fun _ s15 _ _ => ?_)
  refine TotQ.ite (fun _ => TotQ.pure hrs) (fun _ => ?_)
  refine TotQ.ite (fun _ => TotQ.pure (isWaitOutcome_plain_timeout K)) (fun _ => ?_)
  refine TotQ.bind (master_stop_totq env port s15) (fun _ s16 _ _ => ?_)
  exact TotQ.bind (wait_until_stop_sent_totq K env htick fuel hfuel port s16)
    (fun r _ _ hr => TotQ.pure hr)

/-- A transfer with a read of more than one byte returns, whether the port is
free or held, with a wait outcome or `EC_ERROR_BUSY`, and with a buffer of the
length of the one it was given. -/
theorem i2c_xfer_block_returns (K : Consts) (env : Env) (hK : K.ErrorCodesOk)
    (htick : Ticking env) (fuel : Nat) (hfuel : I2C_TX_TIMEOUT_MASTER + 1 ≤ fuel)
    (port addr : Nat) (hport : port = I2C1 ∨ port = I2C2) (out : Option (List Nat))
    (out_bytes : Int) (buf : List Nat) (in_bytes : Int) (flags : Nat) (s : St)
    (hout : out.isSome ∨ out_bytes = 0) (hsize : 1 < in_bytes)
    (hroom : in_bytes ≤ (buf.length : Int)) :
    ∃ (rv : Nat) (b : List Nat) (s2 : St),
      (i2c_xfer K env fuel port addr out out_bytes (some buf) in_bytes flags).run s
        = some ((rv, some b), s2) ∧ b.length = buf.length ∧
      (IsWaitOutcome K rv ∨ rv = K.EC_ERROR_BUSY) := by
  cases hfree : s.claimed port with
  | true =>
    exact ⟨K.EC_ERROR_BUSY, buf, _, i2c_xfer_busy K env fuel port addr out out_bytes (some buf)
      in_bytes flags s (by have := hK.2.2.2.2.2.1; omega) hout (Or.inl rfl) hfree, rfl,
      Or.inr rfl⟩
  | false =>
    generalize hs0 : ({ s with
        claimed := (fun p => if p = port then true else s.claimed p)
        trace := (s.trace ++ [.i2c_claim port K.EC_SUCCESS,
          .reg_read (.CR2 port)
            (env (s.trace ++ [.i2c_claim port K.EC_SUCCESS]) (.reg (.CR2 port)) % 65536),
          .reg_write (.CR2 port) (andNot
            (env (s.trace ++ [.i2c_claim port K.EC_SUCCESS]) (.reg (.CR2 port)) % 65536)
            (3 <<< 8) % 65536)]) } : St) = s0
    have hin0 : in_bytes ≠ 0 := by omega
    obtain ⟨rv1, s1, et, q1, hrv1⟩ := i2c_master_transmit_totq K env htick fuel hfuel port addr
      out out_bytes (if in_bytes ≠ 0 then 0 else 1) s0
    by_cases h1 : rv1 = 0
    · obtain ⟨⟨rv2, out2⟩, s1r, er, q2, hrv2⟩ := i2c_master_receive_block_totq K env htick fuel
        hfuel port addr buf in_bytes hsize hroom s1
      obtain ⟨rv2', out2', s2', _, _, _, _, _, _, er', _, _, _, _, ⟨buf2, hbuf2, hlen2⟩, _⟩ :=
        i2c_master_receive_dma_log K env hK htick fuel hfuel port addr buf in_bytes hsize hroom
          s1
      rw [er] at er'
      simp only [Option.some.injEq, Prod.mk.injEq] at er'
      obtain ⟨⟨_, hr2⟩, _⟩ := er'
      have hout2 : out2 = some buf2 := by rw [hr2]; exact hbuf2
      subst hout2
      have e1 : (i2c_xfer_phases K env fuel port addr out out_bytes (some buf) in_bytes).run s0
          = some ((rv2, some buf2), s1r) := by
        unfold i2c_xfer_phases
        simp only [run_bind, et, Option.some_bind, run_ite]
        rw [if_pos ⟨h1, hin0⟩]
        exact er
      obtain ⟨s3, v1, _, _, e⟩ := i2c_xfer_free_run_from_phases K env hK htick fuel hfuel port
        addr hport out out_bytes (some buf) in_bytes flags s hout (Or.inl rfl) hfree s0 s1r _ _
        hs0.symm e1 (q1.trans q2)
      exact ⟨rv2, buf2, _, e, hlen2, Or.inl hrv2⟩
    · have e1 : (i2c_xfer_phases K env fuel port addr out out_bytes (some buf) in_bytes).run s0
          = some ((rv1, some buf), s1) := by
        unfold i2c_xfer_phases
        simp only [run_bind, et, Option.some_bind, run_ite]
        rw [if_neg (fun h => h1 h.1)]
        rfl
      obtain ⟨s3, v1, _, _, e⟩ := i2c_xfer_free_run_from_phases K env hK htick fuel hfuel port
        addr hport out out_bytes (some buf) in_bytes flags s hout (Or.inl rfl) hfree s0 s1 _ _
        hs0.symm e1 q1
      exact ⟨rv1, buf, _, e, rfl, Or.inl hrv1⟩

theorem i2c_read_string_invalid_run (K : Consts) (env : Env) (fuel port addr : Nat)
    (offset : Int) (data : List Nat) (len : Int) (h : len ≤ 0 ∨ len > 32) (s : St) :
    (i2c_read_string K env fuel port addr offset data len).run s
      = some ((K.EC_ERROR_INVAL, data), s) := by
  unfold i2c_read_string
  rw [if_pos (by simpa [SMBUS_MAX_BLOCK] using h)]
  rfl

theorem i2c_read_string_failure_run (K : Consts) (env : Env) (fuel port addr : Nat)
    (offset : Int) (data : List Nat) (len : Int) (hlen1 : 1 ≤ len) (hlen2 : len ≤ 32)
    (s s2 : St) (rv : Nat) (inb : Option (List Nat))
    (hx : (i2c_xfer K env fuel port addr (some [(offset % 256).toNat]) 1
        (some ((List.range 33).map (fun i => env s.trace (.uninit_byte i) % 256))) 33
        K.I2C_XFER_SINGLE).run { s with trace := (s.trace ++ [.i2c_lock port 1]) }
      = some ((rv, inb), s2))
    (hrv : rv ≠ K.EC_SUCCESS) :
    (i2c_read_string K env fuel port addr offset data len).run s
      = some ((rv, data), { s2 with trace := (s2.trace ++ [.i2c_lock port 0]) }) := by
  unfold i2c_read_string
  rw [if_neg (by simp [SMBUS_MAX_BLOCK]; omega)]
  have hx' : (i2c_xfer K env fuel port addr (some [(offset % 256).toNat]) 1
      (some ((List.range (SMBUS_MAX_BLOCK + 1)).map
        (fun i => env s.trace (.uninit_byte i) % 256))) (SMBUS_MAX_BLOCK + 1)
      K.I2C_XFER_SINGLE).run { s with trace := (s.trace ++ [.i2c_lock port 1]) }
    = some ((rv, inb), s2) := hx
  simp only [run_bind, run_uninit_array, Option.some_bind, i2c_lock, run_emit, hx', run_ite,
    if_neg hrv, run_pure]

theorem i2c_read_string_success_run (K : Consts) (env : Env) (fuel port addr : Nat)
    (offset : Int) (data : List Nat) (len : Int) (hlen1 : 1 ≤ len) (hlen2 : len ≤ 32)
    (hroom : len ≤ (data.length : Int)) (s s2 : St) (b0 : Nat) (rest : List Nat)
    (hrest : rest.length = 32)
    (hx : (i2c_xfer K env fuel port addr (some [(offset % 256).toNat]) 1
        (some ((List.range 33).map (fun i => env s.trace (.uninit_byte i) % 256))) 33
        K.I2C_XFER_SINGLE).run { s with trace := (s.trace ++ [.i2c_lock port 1]) }
      = some ((K.EC_SUCCESS, some (b0 :: rest)), s2)) :
    (i2c_read_string K env fuel port addr offset data len).run s
      = some ((K.EC_SUCCESS,
          (rest.set (min b0 (len - 1).toNat) 0).take (min b0 (len - 1).toNat + 1)
            ++ data.drop (min b0 (len - 1).toNat + 1)),
          { s2 with trace := (s2.trace ++ [.i2c_lock port 0]) }) := by
  generalize hL : min b0 (len - 1).toNat = L
  have hL31 : L ≤ 31 := by rw [← hL]; omega
  have hLmod : L % 256 = L := Nat.mod_eq_of_lt (by omega)
  have hLd : L + 1 ≤ data.length := by omega
  unfold i2c_read_string
  rw [if_neg (by simp [SMBUS_MAX_BLOCK]; omega)]
  have hx' : (i2c_xfer K env fuel port addr (some [(offset % 256).toNat]) 1
      (some ((List.range (SMBUS_MAX_BLOCK + 1)).map
        (fun i => env s.trace (.uninit_byte i) % 256))) (SMBUS_MAX_BLOCK + 1)
      K.I2C_XFER_SINGLE).run { s with trace := (s.trace ++ [.i2c_lock port 1]) }
    = some ((K.EC_SUCCESS, some (b0 :: rest)), s2) := hx
  have hm : (memcpy data (((b0 :: rest).set (L + 1) 0).drop 1) (L + 1)).run s2
      = some ((rest.set L 0).take (L + 1) ++ data.drop (L + 1), s2) := by
    rw [run_memcpy _ _ _ _ hLd (by simp; omega)]
    simp
  simp only [run_bind, run_uninit_array, Option.some_bind, i2c_lock, run_emit, hx', run_ite,
    if_true, hL, hLmod, List.length_cons, hrest, if_pos (show L + 1 < 32 + 1 by omega), hm,
    run_pure]

/-- C28: `i2c_read_string` stays inside its buffers.  For `1 <= len <= 32`, a
caller's buffer of at least `len` bytes and every value `b0` of the length byte,
`block_length = MIN(b0, len - 1)` satisfies `block_length + 1 <= 32`, the index
of the terminator inside the 33-byte temporary buffer, and
`block_length + 1 <= len`, the number of bytes written.  For every 33-byte block
the `memcpy` of `block_length + 1` bytes from `buffer + 1` is within both
objects (in the model it aborts otherwise) and leaves the caller's buffer at
its length; and the whole call returns: no access of the run is out of
bounds. -/
theorem i2c_read_string_in_bounds (K : Consts) (env : Env) (hK : K.ErrorCodesOk)
    (htick : Ticking env) (fuel : Nat) (hfuel : I2C_TX_TIMEOUT_MASTER + 1 ≤ fuel)
    (port addr : Nat) (hport : port = I2C1 ∨ port = I2C2) (offset : Int) (data : List Nat)
    (len : Int) (hlen1 : 1 ≤ len) (hlen2 : len ≤ 32) (hroom : len ≤ (data.length : Int))
    (s : St) :
    (∀ b0 : Nat, min b0 (len - 1).toNat % 256 = min b0 (len - 1).toNat ∧
      min b0 (len - 1).toNat + 1 ≤ SMBUS_MAX_BLOCK ∧
      ((min b0 (len - 1).toNat + 1 : Nat) : Int) ≤ len) ∧
    (∀ (b0 : Nat) (rest : List Nat) (s' : St), rest.length = 32 →
      ∃ data' : List Nat,
        (memcpy data (((b0 :: rest).set (min b0 (len - 1).toNat + 1) 0).drop 1)
          (min b0 (len - 1).toNat + 1)).run s' = some (data', s') ∧
        data'.length = data.length) ∧
    (∃ (rv : Nat) (data' : List Nat) (s' : St),
      (i2c_read_string K env fuel port addr offset data len).run s = some ((rv, data'), s') ∧
      data'.length = data.length) := by
  have hL : ∀ b0 : Nat, min b0 (len - 1).toNat ≤ 31 := fun b0 => by omega
  refine ⟨fun b0 => ⟨Nat.mod_eq_of_lt (by have := hL b0; omega), by
      have := hL b0
      simp only [SMBUS_MAX_BLOCK]
      omega, by omega⟩, ?_, ?_⟩
  · intro b0 rest s' hrest
    have h31 := hL b0
    have hLd : min b0 (len - 1).toNat + 1 ≤ data.length := by omega
    refine ⟨_, run_memcpy _ _ _ _ hLd (by simp; omega), ?_⟩
    simp
    omega
  · obtain ⟨rv, b, s2, hx, hb, _⟩ := i2c_xfer_block_returns K env hK htick fuel hfuel port addr
      hport (some [(offset % 256).toNat]) 1
      ((List.range 33).map (fun i => env s.trace (.uninit_byte i) % 256)) 33
      K.I2C_XFER_SINGLE { s with trace := (s.trace ++ [.i2c_lock port 1]) } (Or.inl rfl)
      (by decide) (by simp)
    by_cases hrv : rv = K.EC_SUCCESS
    · subst hrv
      obtain ⟨b0, rest, rfl⟩ : ∃ b0 rest, b = b0 :: rest := by
        cases b with
        | nil => simp at hb
        | cons b0 rest => exact ⟨b0, rest, rfl⟩
      have hrest : rest.length = 32 := by simpa using hb
      have h31 := hL b0
      refine ⟨_, _, _, i2c_read_string_success_run K env fuel port addr offset data len hlen1
        hlen2 hroom s s2 b0 rest hrest hx, ?_⟩
      exact (copy_block rest data _ (by omega) (by omega)).1
    · exact ⟨_, _, _, i2c_read_string_failure_run K env fuel port addr offset data len hlen1
        hlen2 s s2 rv _ hx hrv, rfl⟩

theorem i2c_read_string_in_bounds_witness :
    (∀ b0 : Nat, min b0 ((8 : Int) - 1).toNat % 256 = min b0 ((8 : Int) - 1).toNat ∧
      min b0 ((8 : Int) - 1).toNat + 1 ≤ SMBUS_MAX_BLOCK ∧
      ((min b0 ((8 : Int) - 1).toNat + 1 : Nat) : Int) ≤ 8) ∧
    (∀ (b0 : Nat) (rest : List Nat) (s' : St), rest.length = 32 →
      ∃ data' : List Nat,
        (memcpy [9, 9, 9, 9, 9, 9, 9, 9]
          (((b0 :: rest).set (min b0 ((8 : Int) - 1).toNat + 1) 0).drop 1)
          (min b0 ((8 : Int) - 1).toNat + 1)).run s' = some (data', s') ∧
        data'.length = [9, 9, 9, 9, 9, 9, 9, 9].length) ∧
    (∃ (rv : Nat) (data' : List Nat) (s' : St),
      (i2c_read_string exampleConsts deadBus 10001 I2C1 0x16 0x20 [9, 9, 9, 9, 9, 9, 9, 9] 8).run
        {} = some ((rv, data'), s') ∧
      data'.length = [9, 9, 9, 9, 9, 9, 9, 9].length) :=
  i2c_read_string_in_bounds exampleConsts deadBus (by decide) ticking_deadBus 10001 (by decide)
    I2C1 0x16 (Or.inl rfl) 0x20 [9, 9, 9, 9, 9, 9, 9, 9] 8 (by decide) (by decide) (by decide)
    {}

/-- C29: `i2c_read_string` is atomic on failure.  If `len <= 0` or `len > 32`
it returns `EC_ERROR_INVAL` in the state it was called in: no lock is taken and
no transfer started.  Otherwise it logs `i2c_lock(port, 1)`, runs `i2c_xfer`
(which returns), logs `i2c_lock(port, 0)` after it on either path and returns
exactly the value `i2c_xfer` returned, which is never `EC_ERROR_INVAL`; when
that value is not `EC_SUCCESS` the caller's buffer is returned unchanged, and
when it is `EC_SUCCESS` (and the caller's buffer has `len` bytes) the call
returns as well. -/
theorem i2c_read_string_atomic_on_failure (K : Consts) (env : Env) (hK : K.ErrorCodesOk)
    (htick : Ticking env) (fuel : Nat) (hfuel : I2C_TX_TIMEOUT_MASTER + 1 ≤ fuel)
    (port addr : Nat) (hport : port = I2C1 ∨ port = I2C2) (offset : Int) (data : List Nat)
    (len : Int) (s : St) :
    (len ≤ 0 ∨ len > 32 →
      (i2c_read_string K env fuel port addr offset data len).run s
        = some ((K.EC_ERROR_INVAL, data), s)) ∧
    (1 ≤ len → len ≤ 32 →
      ∃ (rv : Nat) (b : List Nat) (s2 : St),
        (i2c_xfer K env fuel port addr (some [(offset % 256).toNat]) 1
          (some ((List.range 33).map (fun i => env s.trace (.uninit_byte i) % 256))) 33
          K.I2C_XFER_SINGLE).run { s with trace := (s.trace ++ [.i2c_lock port 1]) }
          = some ((rv, some b), s2) ∧
        rv ≠ K.EC_ERROR_INVAL ∧
        (rv ≠ K.EC_SUCCESS →
          (i2c_read_string K env fuel port addr offset data len).run s
            = some ((rv, data), { s2 with trace := (s2.trace ++ [.i2c_lock port 0]) })) ∧
        (rv = K.EC_SUCCESS → len ≤ (data.length : Int) →
          ∃ data' : List Nat,
            (i2c_read_string K env fuel port addr offset data len).run s
              = some ((rv, data'), { s2 with trace := (s2.trace ++ [.i2c_lock port 0]) }))) := by
  refine ⟨fun h => i2c_read_string_invalid_run K env fuel port addr offset data len h s,
    fun hlen1 hlen2 => ?_⟩
  obtain ⟨rv, b, s2, hx, hb, hrv⟩ := i2c_xfer_block_returns K env hK htick fuel hfuel port addr
    hport (some [(offset % 256).toNat]) 1
    ((List.range 33).map (fun i => env s.trace (.uninit_byte i) % 256)) 33
    K.I2C_XFER_SINGLE { s with trace := (s.trace ++ [.i2c_lock port 1]) } (Or.inl rfl)
    (by decide) (by simp)
  refine ⟨rv, b, s2, hx, ?_, fun hne => i2c_read_string_failure_run K env fuel port addr offset
    data len hlen1 hlen2 s s2 rv _ hx hne, fun hs hroom => ?_⟩
  · rcases hrv with h | h
    · exact isWaitOutcome_ne_inval K hK rv h
    · rw [h]
      exact fun he => hK.2.2.2.2.2.2.2.2.2 he.symm
  · subst hs
    obtain ⟨b0, rest, rfl⟩ : ∃ b0 rest, b = b0 :: rest := by
      cases b with
      | nil => simp at hb
      | cons b0 rest => exact ⟨b0, rest, rfl⟩
    have hrest : rest.length = 32 := by simpa using hb
    exact ⟨_, i2c_read_string_success_run K env fuel port addr offset data len hlen1 hlen2
      hroom s s2 b0 rest hrest hx⟩

theorem i2c_read_string_atomic_on_failure_witness :
    ((8 : Int) ≤ 0 ∨ (8 : Int) > 32 →
      (i2c_read_string exampleConsts deadBus 10001 I2C1 0x16 0x20 [9, 9, 9, 9, 9, 9, 9, 9] 8).run
        {} = some ((exampleConsts.EC_ERROR_INVAL, [9, 9, 9, 9, 9, 9, 9, 9]), {})) ∧
    (1 ≤ (8 : Int) → (8 : Int) ≤ 32 →
      ∃ (rv : Nat) (b : List Nat) (s2 : St),
        (i2c_xfer exampleConsts deadBus 10001 I2C1 0x16 (some [((0x20 : Int) % 256).toNat]) 1
          (some ((List.range 33).map
            (fun i => deadBus ({} : St).trace (.uninit_byte i) % 256))) 33
          exampleConsts.I2C_XFER_SINGLE).run
            { ({} : St) with trace := (({} : St).trace ++ [.i2c_lock I2C1 1]) }
          = some ((rv, some b), s2) ∧
        rv ≠ exampleConsts.EC_ERROR_INVAL ∧
        (rv ≠ exampleConsts.EC_SUCCESS →
          (i2c_read_string exampleConsts deadBus 10001 I2C1 0x16 0x20 [9, 9, 9, 9, 9, 9, 9, 9]
              8).run {}
            = some ((rv, [9, 9, 9, 9, 9, 9, 9, 9]),
                { s2 with trace := (s2.trace ++ [.i2c_lock I2C1 0]) })) ∧
        (rv = exampleConsts.EC_SUCCESS →
          (8 : Int) ≤ (([9, 9, 9, 9, 9, 9, 9, 9] : List Nat).length : Int) →
          ∃ data' : List Nat,
            (i2c_read_string exampleConsts deadBus 10001 I2C1 0x16 0x20
                [9, 9, 9, 9, 9, 9, 9, 9] 8).run {}
              = some ((rv, data'), { s2 with trace := (s2.trace ++ [.i2c_lock I2C1 0]) }))) :=
  i2c_read_string_atomic_on_failure exampleConsts deadBus (by decide) ticking_deadBus 10001
    (by decide) I2C1 0x16 (Or.inl rfl) 0x20 [9, 9, 9, 9, 9, 9, 9, 9] 8 {}

/-! ## The charging state machine without external power -/

@[simp] theorem run_call (env : Env) (f : Callee) (arg : Int) (s : St) :
    (call env f arg).run s = some (env s.trace (.call f arg) % 4294967296,
      { s with trace := s.trace ++ [.call f arg (env s.trace (.call f arg) % 4294967296)] }) :=
  rfl

theorem Tot_ite {α : Type} {c : Prop} [Decidable c] {a b : M α} {s : St} {Q : α → St → Prop}
    (ha : c → Tot a s Q) (hb : ¬ c → Tot b s Q) : Tot (if c then a else b) s Q := by
  split
  · exact ha ‹_›
  · exact hb ‹_›

theorem call_keeps_window (env : Env) (f : Callee) (arg : Int) (s : St) :
    Tot (call env f arg) s (fun v s' => v = env s.trace (.call f arg) % 4294967296 ∧
      s'.rsoc = s.rsoc ∧ s'.index = s.index) :=
  ⟨_, _, rfl, rfl, rfl, rfl⟩

theorem call_out_keeps_window (env : Env) (f fval : Callee) (s : St) :
    Tot (call_out env f fval) s (fun _ s' => s'.rsoc = s.rsoc ∧ s'.index = s.index) :=
  ⟨_, _, rfl, rfl, rfl⟩

theorem system_off_returns (C : ChargerConsts) (env : Env) (s : St) :
    Tot (system_off C env) s (fun r _ => r = C.ST_IDLE0) := by
  unfold system_off
  refine Tot_bind (call_keeps_window env _ _ s) (fun v s1 _ => ?_)
  refine Tot_bind (P := fun _ _ => True) ?_ (fun _ s2 _ => Tot_pure rfl)
  refine Tot_ite (fun _ => ?_) (fun _ => Tot_pure trivial)
  exact Tot_bind (call_keeps_window env _ _ s1) (fun _ _ _ => Tot_pure trivial)

theorem notify_battery_low_returns (C : ChargerConsts) (env : Env) (s : St) :
    Tot (notify_battery_low C env) s (fun _ _ => True) := by
  unfold notify_battery_low
  refine Tot_bind (call_keeps_window env _ _ s) (fun v s1 _ => ?_)
  refine Tot_bind (P := fun _ _ => True) ?_ (fun _ s2 _ => Tot_pure trivial)
  refine Tot_ite (fun _ => ?_) (fun _ => Tot_pure trivial)
  refine Tot_bind (P := fun _ _ => True) ⟨_, _, run_get_time env s1, trivial⟩ (fun now s2 _ => ?_)
  refine Tot_bind (P := fun _ _ => True) ⟨_, _, rfl, trivial⟩ (fun st s3 _ => ?_)
  exact Tot_ite (fun _ => ⟨_, _, rfl, trivial⟩) (fun _ => Tot_pure trivial)

theorem rsoc_moving_average_returns (x : Int) (s : St) (hlen : s.rsoc.length = 4)
    (hidx : s.index < 4) : Tot (rsoc_moving_average x) s (fun _ _ => True) := by
  obtain ⟨w0, w1, w2, w3, hw⟩ : ∃ w0 w1 w2 w3, s.rsoc = [w0, w1, w2, w3] := by
    rcases hs : s.rsoc with _ | ⟨w0, _ | ⟨w1, _ | ⟨w2, _ | ⟨w3, _ | ⟨w4, l⟩⟩⟩⟩⟩ <;>
      rw [hs] at hlen <;> simp at hlen
    exact ⟨w0, w1, w2, w3, rfl⟩
  by_cases hx : x < 0
  · exact ⟨_, _, rsoc_reset_run s x hx, trivial⟩
  · by_cases hi : s.index < 0
    · exact ⟨_, _, rsoc_first_run s x w0 w1 w2 w3 hw hi (by omega), trivial⟩
    · exact ⟨_, _, rsoc_next_run s x w0 w1 w2 w3 hw s.index.toNat (by omega) (by omega)
        (by omega), trivial⟩

theorem calc_next_state_discharging_charge_returns (C : ChargerConsts) (env : Env) (s : St)
    (hlen : s.rsoc.length = 4) (hidx : s.index < 4) :
    Tot (calc_next_state_discharging_charge C env) s
      (fun r _ => r = C.ST_IDLE0 ∨ r = C.ST_DISCHARGING) := by
  unfold calc_next_state_discharging_charge
  refine Tot_bind (call_out_keeps_window env _ _ s) (fun p s1 h1 => ?_)
  obtain ⟨rc, capacity⟩ := p
  simp only
  refine Tot_ite (fun _ => ?_) (fun _ => Tot_pure (Or.inr rfl))
  refine Tot_bind (rsoc_moving_average_returns _ s1 (by rw [h1.1]; exact hlen)
    (by rw [h1.2]; exact hidx)) (fun avg s2 _ => ?_)
  refine Tot_ite (fun _ => ?_) (fun _ => ?_)
  · obtain ⟨r, s3, e, hr⟩ := system_off_returns C env s2
    exact ⟨r, s3, e, Or.inl hr⟩
  · refine Tot_bind (P := fun _ _ => True) ?_ (fun _ _ _ => Tot_pure (Or.inr rfl))
    refine Tot_ite (fun _ => ?_) (fun _ => Tot_pure trivial)
    exact Tot_bind (notify_battery_low_returns C env s2) (fun _ _ _ => Tot_pure trivial)

theorem calc_next_state_discharging_returns (C : ChargerConsts) (env : Env) (s : St)
    (hlen : s.rsoc.length = 4) (hidx : s.index < 4) :
    Tot (calc_next_state_discharging C env) s
      (fun r _ => r = C.ST_IDLE0 ∨ r = C.ST_DISCHARGING) := by
  have hoff : ∀ s' : St, Tot (system_off C env) s'
      (fun r _ => r = C.ST_IDLE0 ∨ r = C.ST_DISCHARGING) := fun s' => by
    obtain ⟨r, s3, e, hr⟩ := system_off_returns C env s'
    exact ⟨r, s3, e, Or.inl hr⟩
  unfold calc_next_state_discharging
  refine Tot_bind (call_keeps_window env _ _ s) (fun ac s1 h1 => ?_)
  refine Tot_ite (fun _ => Tot_pure (Or.inl rfl)) (fun _ => ?_)
  refine Tot_bind (call_keeps_window env _ _ s1) (fun off s2 h2 => ?_)
  refine Tot_ite (fun _ => Tot_pure (Or.inl rfl)) (fun _ => ?_)
  refine Tot_bind (call_out_keeps_window env _ _ s2) (fun p s3 h3 => ?_)
  obtain ⟨rt, batt_temp⟩ := p
  simp only
  refine Tot_ite (fun _ => hoff s3) (fun _ => ?_)
  refine Tot_bind (call_out_keeps_window env _ _ s3) (fun q s4 h4 => ?_)
  obtain ⟨rs, alarm⟩ := q
  simp only
  refine Tot_ite (fun _ => hoff s4) (fun _ => ?_)
  exact calc_next_state_discharging_charge_returns C env s4
    (by rw [h4.1, h3.1, h2.2.1, h1.2.1]; exact hlen)
    (by rw [h4.2, h3.2, h2.2.2, h1.2.2]; exact hidx)

theorem calc_next_state_on_battery (K : Consts) (C : ChargerConsts) (env : Env)
    (state : Int) (s : St) (hlen : s.rsoc.length = 4) (hidx : s.index < 4)
    (hac : env s.trace (.call .extpower_is_present 0) % 4294967296 = 0) :
    Tot (calc_next_state K C env state) s
      (fun r _ => r = C.ST_IDLE0 ∨ r = C.ST_IDLE ∨ r = C.ST_DISCHARGING) := by
  unfold calc_next_state
  refine Tot_ite (fun _ => ?_) (fun _ => ?_)
  · unfold calc_next_state_idle
    refine Tot_bind (call_keeps_window env _ _ s) (fun ac s1 h1 => ?_)
    rw [if_pos (h1.1.trans hac)]
    refine Tot_bind (call_keeps_window env _ _ s1) (fun v s2 _ => ?_)
    exact Tot_ite (fun _ => Tot_pure (Or.inr (Or.inr rfl))) (fun _ => Tot_pure (Or.inr (Or.inl rfl)))
  refine Tot_ite (fun _ => ?_) (fun _ => ?_)
  · unfold calc_next_state_pre_charging
    refine Tot_bind (call_keeps_window env _ _ s) (fun ac s1 h1 => ?_)
    rw [if_pos (h1.1.trans hac)]
    exact Tot_pure (Or.inl rfl)
  refine Tot_ite (fun _ => ?_) (fun _ => ?_)
  · unfold calc_next_state_charging
    refine Tot_bind (call_keeps_window env _ _ s) (fun ac s1 h1 => ?_)
    rw [if_pos (h1.1.trans hac)]
    exact Tot_pure (Or.inl rfl)
  refine Tot_ite (fun _ => ?_) (fun _ => ?_)
  · unfold calc_next_state_charging_error
    refine Tot_bind (call_keeps_window env _ _ s) (fun ac s1 h1 => ?_)
    rw [if_neg (not_not_intro (h1.1.trans hac))]
    exact Tot_pure (Or.inl rfl)
  refine Tot_ite (fun _ => ?_) (fun _ => Tot_pure (Or.inl rfl))
  obtain ⟨r, s', e, hr⟩ := calc_next_state_discharging_returns C env s hlen hidx
  exact ⟨r, s', e, hr.elim Or.inl (fun h => Or.inr (Or.inr h))⟩

/-- C30: the charger state machine enters no charging state without external
power.  For every current state (any `int`, the seven enumerators included),
every outside world in which the call of `extpower_is_present()` returns 0, and
every well-formed window of the moving average, `calc_next_state` returns, and
the state it returns is `ST_IDLE0`, `ST_IDLE` or `ST_DISCHARGING`; the
enumerators being distinct, it is neither `ST_PRE_CHARGING` nor `ST_CHARGING`
nor `ST_CHARGING_ERROR`. -/
theorem calc_next_state_no_charging_without_power (K : Consts) (C : ChargerConsts)
    (env : Env) (state : Int) (s : St) (hC : C.Distinct) (hlen : s.rsoc.length = 4)
    (hidx : s.index < 4)
    (hac : env s.trace (.call .extpower_is_present 0) % 4294967296 = 0) :
    ∃ (r : Int) (s' : St), (calc_next_state K C env state).run s = some (r, s') ∧
      (r = C.ST_IDLE0 ∨ r = C.ST_IDLE ∨ r = C.ST_DISCHARGING) ∧
      r ≠ C.ST_PRE_CHARGING ∧ r ≠ C.ST_CHARGING ∧ r ≠ C.ST_CHARGING_ERROR := by
  obtain ⟨r, s', e, hr⟩ := calc_next_state_on_battery K C env state s hlen hidx hac
  refine ⟨r, s', e, hr, ?_⟩
  unfold ChargerConsts.Distinct at hC
  simp only [List.nodup_cons, List.mem_cons, List.mem_singleton, List.not_mem_nil, not_or,
    List.nodup_nil, or_false, and_true] at hC
  obtain ⟨⟨_, _, h03, h04, h05, _⟩, ⟨_, _, _, _, _⟩, ⟨h23, h24, h25, _⟩, ⟨_, _, h36⟩,
    ⟨_, h46⟩, h56⟩ := hC
  rcases hr with h | h | h <;> subst h
  · exact ⟨h03, h04, h05⟩
  · exact ⟨h23, h24, h25⟩
  · exact ⟨fun h => h36 h.symm, fun h => h46 h.symm, fun h => h56.1 h.symm⟩

theorem calc_next_state_no_charging_without_power_witness :
    ∃ (r : Int) (s' : St),
      (calc_next_state exampleConsts exampleChargerConsts onBattery
        exampleChargerConsts.ST_CHARGING).run {} = some (r, s') ∧
      (r = exampleChargerConsts.ST_IDLE0 ∨ r = exampleChargerConsts.ST_IDLE ∨
        r = exampleChargerConsts.ST_DISCHARGING) ∧
      r ≠ exampleChargerConsts.ST_PRE_CHARGING ∧ r ≠ exampleChargerConsts.ST_CHARGING ∧
      r ≠ exampleChargerConsts.ST_CHARGING_ERROR :=
  calc_next_state_no_charging_without_power exampleConsts exampleChargerConsts onBattery
    exampleChargerConsts.ST_CHARGING {} (by decide) rfl (by decide) rfl

end ChromeEC
